import Mathlib

/-!
# ReSampler: the conversion pipeline of `ReSampler.cpp`

A shallow embedding of the command-line front end (`parseParameters`, `determineOutputFormat`),
of the sample-rate conversion drivers `Convert` and `ConvertMT` and of their helpers (`gcd`,
`GetSimplifiedFraction`, `getSfBytesPerSample`, `checkWarnOutputSize`), followed by theorems
about them.

Conventions of the embedding.

* C++ `int` values are `Int`; `/` and `%` on them are the truncating `Int.tdiv` and
  `Int.tmod`.  Sizes, counts and buffer indices that are never negative are `Nat`.  The
  `uint64_t` arithmetic of `checkWarnOutputSize` is reduced modulo `2^64`, and the
  `unsigned int` product of `OverSampFreq` modulo `2^32`.
* The filter plan exists twice.  `pipelineFraction`, `BaseFilterSize` and `FilterSize` compute on
  integers without bounds and on exact rationals; they are what the code computes as long as no
  `int` overflows.  `FOriginal32`, `pipelineFraction32`, `BaseFilterSize32` and `FilterSize32`
  reduce every `int` result to 32 bits, convert the `unsigned int` rates to `int`, and take the
  rounding of the `double` product as a parameter.
* Samples and gains (`FloatType`, `double`) are exact rationals `ℚ`: rounding of IEEE
  arithmetic is not modelled.  A division whose divisor can be zero on a real input is the
  checked `fdiv`, whose `none` stands for the non-finite value the C++ code would produce.
  Where an infinity or a NaN decides what the code does (the amount of `-n`, the gain for a
  silent input) the values are of type `Fp`, which has them.
* The headers `ReSampler.h`, `FIRFilter.h` and `ditherer.h` are not part of the source file.
  Their constants (`BUFFERSIZE`, `clippingTrim`, the `FILTERSIZE` constants, the enumerators of
  `DitherProfileID`, the map `subFormats`) are parameters, and the FIR filter and the ditherer
  are records of operations over an arbitrary state type.  The constants of libsndfile have
  their values from `sndfile.h`; its list of major formats is a parameter.
* The input file is the list of blocks that successive `read` calls return between the start
  of the file and the end of file; after `seek(0, SEEK_SET)` the same blocks are returned again.
* The command line is the list of the strings of `argv`; `atoi` and `atof` are parameters.
* The channel tasks that `ConvertMT` hands to its thread pool run to their end one after the
  other, in an order that is a parameter.
-/

namespace ReSampler

/-! ## Ratio reduction -/

/-- The `Fraction` returned by `GetSimplifiedFraction`: numerator `L`, denominator `M`. -/
structure Fraction where
  numerator : Int
  denominator : Int
  deriving DecidableEq

/-- The `while (b != 0)` loop of `gcd`.  Each round leaves a strictly smaller `b`, so
`b.natAbs + 1` rounds of fuel are enough (see `gcdLoop_eq_gcd`). -/
def gcdLoop : Nat → Int → Int → Int
  | 0, a, _ => a
  | fuel + 1, a, b =>
    if b = 0 then a
    else
      let a1 := a.tmod b
      if a1 = 0 then b
      else gcdLoop fuel a1 (b.tmod a1)

/-- The function `gcd(int a, int b)`: both arguments are made non-negative, then the loop runs. -/
def gcd (a b : Int) : Int :=
  let a1 := if a < 0 then -a else a
  let b1 := if b < 0 then -b else b
  gcdLoop (b1.natAbs + 1) a1 b1

/-- The function `GetSimplifiedFraction(InputSampleRate, OutputSampleRate)`. -/
def GetSimplifiedFraction (InputSampleRate OutputSampleRate : Int) : Fraction :=
  { numerator := OutputSampleRate.tdiv (gcd InputSampleRate OutputSampleRate)
    denominator := InputSampleRate.tdiv (gcd InputSampleRate OutputSampleRate) }

/-! ## Configuration and collaborators -/

/-- The low-pass filter modes `normal`, `relaxed`, `steep` and `custom` of `ci.lpfMode`. -/
inductive LPFMode where
  | normal
  | relaxed
  | steep
  | custom
  deriving DecidableEq

/-- The fields of `conversionInfo` that `parseParameters`, `main` and `Convert` use, with the
defaults that `parseParameters` gives them.  Formats are the non-negative `int` values of
libsndfile; `ditherProfileID` is the integer value of the enumeration. -/
structure conversionInfo where
  OutputSampleRate : Int := 44100
  gain : ℚ := 1
  Limit : ℚ := 1
  bNormalize : Bool := false
  bDither : Bool := false
  DitherAmount : ℚ := 1
  bDelayTrim : Bool := true
  bMinPhase : Bool := false
  disableClippingProtection : Bool := false
  InputFilename : String := ""
  OutputFilename : String := ""
  outBitFormat : String := ""
  OutputFormat : Nat := 0
  normalizeAmount : ℚ := 1
  bUseDoublePrecision : Bool := false
  ditherProfileID : Int := 0
  bAutoBlankingEnabled : Bool := false
  bUseSeed : Bool := false
  seed : Int := 0
  bSetFlacCompression : Bool := false
  flacCompressionLevel : Int := 5
  bSetVorbisQuality : Bool := false
  vorbisQuality : ℚ := 3
  lpfMode : LPFMode := LPFMode.normal
  customLpfCutoff : ℚ := 0
  customLpfTransitionWidth : ℚ := 0
  bMultiThreaded : Bool := false
  bRf64 : Bool := false
  bWriteMetaData : Bool := true

/-- Build-time configuration: the constants `BUFFERSIZE` and `clippingTrim` of `ReSampler.h`
and whether `USE_AVX` is defined. -/
structure BuildConfig where
  BUFFERSIZE : Nat
  clippingTrim : ℚ
  USE_AVX : Bool := false

/-- The input file as `Convert` sees it: channel count, sample rate, and the blocks that
successive `read(inbuffer, BufferSize)` calls return before the end of file.  Sample rates are
below `2^31`, so that their conversion to `int` changes nothing. -/
structure FileReader where
  channels : Nat
  samplerate : Int
  blocks : List (List ℚ)

/-- The operations of `FIRFilter<FloatType>` that `Convert` calls.  `get` and `LazyGet`
return the filter state along with the value, so nothing is assumed about their purity. -/
structure FIRFilterOps (Flt : Type) where
  put : Flt → ℚ → Flt
  putZero : Flt → Flt
  get : Flt → ℚ × Flt
  LazyGet : Flt → Int → ℚ × Flt
  reset : Flt → Flt

/-- The operations of `Ditherer<FloatType>` that `Convert` calls. -/
structure DithererOps (Dth : Type) where
  Dither : Dth → ℚ → ℚ × Dth
  adjustGain : Dth → ℚ → Dth
  reset : Dth → Dth

/-- Floating-point division with a divisor that may be zero: `none` stands for the
non-finite result. -/
def fdiv (x y : ℚ) : Option ℚ :=
  if y = 0 then none else some (x / y)

/-! ## Reading the input -/

/-- The `do { count = infile.read(...); ... } while (count > 0);` loop: `body` runs on every
block read, the empty block read at the end of file included. -/
def blockLoop {σ : Type} (body : List ℚ → σ → σ) : List (List ℚ) → σ → σ
  | [], st => body [] st
  | blk :: rest, st =>
    if 0 < blk.length then blockLoop body rest (body blk st) else body blk st

/-- The inner loop of the peak scan over one block. -/
def scanBlock (blk : List ℚ) (Peak : ℚ) : ℚ :=
  blk.foldl (fun p x => max p |x|) Peak

/-- The value of `PeakInputSample` after the peak-scan section of `Convert`. -/
def PeakInputSample (bNormalize peakDetection : Bool) (blocks : List (List ℚ)) : ℚ :=
  if peakDetection then blockLoop scanBlock blocks 0
  else if bNormalize then 1 / 2 else 1

/-! ## Ratio, group delay and gain -/

/-- The test `(num != den) && (num <= 4 || den <= 4)` for "simple ratios". -/
def isSimpleRatio (FOriginal : Fraction) : Bool :=
  decide (FOriginal.numerator ≠ FOriginal.denominator) &&
    (decide (FOriginal.numerator ≤ 4) || decide (FOriginal.denominator ≤ 4))

/-- The variable `overSamplingFactor`. -/
def overSamplingFactor (ci : conversionInfo) (FOriginal : Fraction) : Int :=
  if isSimpleRatio FOriginal && ci.bMinPhase then 8 else 1

/-- The fraction `F` that drives the pipeline: `FOriginal` scaled by `overSamplingFactor`.  The
products are exact; `pipelineFraction32` forms them in 32 bits. -/
def pipelineFraction (ci : conversionInfo) (FOriginal : Fraction) : Fraction :=
  if isSimpleRatio FOriginal && ci.bMinPhase then
    { numerator := FOriginal.numerator * 8, denominator := FOriginal.denominator * 8 }
  else FOriginal

/-- The variable `groupDelay`. -/
def groupDelay (ci : conversionInfo) (FilterSize : Int) (FOriginal : Fraction) : Int :=
  if ci.bMinPhase || !ci.bDelayTrim then 0
  else ((FilterSize - 1).tdiv 2).tdiv FOriginal.denominator

/-- The libsndfile constant `SF_FORMAT_SUBMASK`. -/
def SF_FORMAT_SUBMASK : Nat := 0x0000FFFF

/-- The libsndfile constant `SF_FORMAT_PCM_S8`. -/
def SF_FORMAT_PCM_S8 : Nat := 0x0001

/-- The libsndfile constant `SF_FORMAT_PCM_16`. -/
def SF_FORMAT_PCM_16 : Nat := 0x0002

/-- The libsndfile constant `SF_FORMAT_PCM_24`. -/
def SF_FORMAT_PCM_24 : Nat := 0x0003

/-- The libsndfile constant `SF_FORMAT_PCM_U8`. -/
def SF_FORMAT_PCM_U8 : Nat := 0x0005

/-- The variable `outputSignalBits`: the `switch` on the subformat of `OutputFileFormat`. -/
def outputSignalBits (OutputFileFormat : Nat) : Int :=
  if OutputFileFormat &&& SF_FORMAT_SUBMASK = SF_FORMAT_PCM_24 then 24
  else if OutputFileFormat &&& SF_FORMAT_SUBMASK = SF_FORMAT_PCM_S8 then 8
  else if OutputFileFormat &&& SF_FORMAT_SUBMASK = SF_FORMAT_PCM_U8 then 8
  else 16

/-- The variable `DitherCompensation`; `pow` is the `<math.h>` function. -/
def DitherCompensation (pow : ℚ → ℚ → ℚ) (bits : Int) (DitherAmount : ℚ) : ℚ :=
  (pow 2 ((bits : ℚ) - 1) - pow 2 (DitherAmount - 1)) / pow 2 ((bits : ℚ) - 1)

/-- The value of `Gain` before the clipping detection loop ("Calculate initial gain"). -/
def initialGain (pow : ℚ → ℚ → ℚ) (ci : conversionInfo) (F : Fraction) (Peak : ℚ)
    (bits : Int) : Option ℚ :=
  let base : Option ℚ :=
    if ci.bNormalize then
      (fdiv ci.Limit Peak).map (fun q => ci.gain * ((F.numerator : ℚ) * q))
    else some (ci.gain * ((F.numerator : ℚ) * ci.Limit))
  base.map (fun Gain => if ci.bDither then Gain * DitherCompensation pow bits ci.DitherAmount else Gain)

/-- The gain planner in the words of the specification, for comparison with `initialGain`:
`base = user_gain * (normalize ? limit / measured_peak : limit) * L`, multiplied by
`(2^(b-1) - 2^(d-1)) / 2^(b-1)` when dither is on. -/
def specInitialGain (pow : ℚ → ℚ → ℚ) (user_gain limit measured_peak : ℚ) (normalize dither : Bool)
    (L : Int) (b : Int) (d : ℚ) : Option ℚ :=
  let target : Option ℚ := if normalize then fdiv limit measured_peak else some limit
  let base : Option ℚ := target.map (fun t => user_gain * t * (L : ℚ))
  if dither then
    base.map (fun g => g * ((pow 2 ((b : ℚ) - 1) - pow 2 (d - 1)) / pow 2 ((b : ℚ) - 1)))
  else base

/-! ## One pass over the input -/

/-- The mutable state of one pass of the clipping detection loop. -/
structure PassState (Flt Dth : Type) where
  Filters : Nat → Flt
  Ditherers : Nat → Dth
  di : Nat → Int
  OutBuffer : Nat → ℚ
  OutBufferIndex : Nat
  PeakOutputSample : ℚ
  outStartOffset : Int
  outFile : List ℚ

/-- The conversion path chosen from `F`. -/
inductive Path where
  | copy
  | decimate
  | interpolate
  | interpolateDecimate
  deriving DecidableEq

/-- The `if / else if / else` chain on `F.numerator` and `F.denominator`. -/
def selectPath (F : Fraction) : Path :=
  if F.numerator = 1 ∧ F.denominator = 1 then Path.copy
  else if F.numerator = 1 ∧ F.denominator ≠ 1 then Path.decimate
  else if F.denominator = 1 then Path.interpolate
  else Path.interpolateDecimate

section PassDefs

variable {Flt Dth : Type}

/-- Dither (when enabled) the value `Gain * v`, store it at `OutBufferIndex + Channel`, update the
peak and advance `OutBufferIndex` by `nChannels`. -/
def storeSample (D : DithererOps Dth) (bDither : Bool) (Gain : ℚ) (nChannels Channel : Nat)
    (v : ℚ) (st : PassState Flt Dth) : PassState Flt Dth :=
  let r : ℚ × Dth :=
    if bDither then D.Dither (st.Ditherers Channel) (Gain * v)
    else (Gain * v, st.Ditherers Channel)
  { st with
    Ditherers := Function.update st.Ditherers Channel r.2
    OutBuffer := Function.update st.OutBuffer (st.OutBufferIndex + Channel) r.1
    PeakOutputSample := max st.PeakOutputSample |r.1|
    OutBufferIndex := st.OutBufferIndex + nChannels }

/-- The body of the 1:1 loop; it differs from `storeSample` in taking `std::abs` of the
running peak as well. -/
def copySample (D : DithererOps Dth) (bDither : Bool) (Gain : ℚ) (nChannels Channel : Nat)
    (v : ℚ) (st : PassState Flt Dth) : PassState Flt Dth :=
  let r : ℚ × Dth :=
    if bDither then D.Dither (st.Ditherers Channel) (Gain * v)
    else (Gain * v, st.Ditherers Channel)
  { st with
    Ditherers := Function.update st.Ditherers Channel r.2
    OutBuffer := Function.update st.OutBuffer (st.OutBufferIndex + Channel) r.1
    PeakOutputSample := max |st.PeakOutputSample| |r.1|
    OutBufferIndex := st.OutBufferIndex + nChannels }

/-- The statement `if (++di[Channel] == F.denominator) di[Channel] = 0;`. -/
def advanceDi (M : Int) (Channel : Nat) (st : PassState Flt Dth) : PassState Flt Dth :=
  if st.di Channel + 1 = M then { st with di := Function.update st.di Channel 0 }
  else { st with di := Function.update st.di Channel (st.di Channel + 1) }

/-- Store `Gain * Filters[Channel].get()`. -/
def emitGet (Fo : FIRFilterOps Flt) (D : DithererOps Dth) (bDither : Bool) (Gain : ℚ)
    (nChannels Channel : Nat) (st : PassState Flt Dth) : PassState Flt Dth :=
  let g := Fo.get (st.Filters Channel)
  storeSample D bDither Gain nChannels Channel g.1
    { st with Filters := Function.update st.Filters Channel g.2 }

/-- Store `Gain * Filters[Channel].LazyGet(L)`. -/
def emitLazyGet (Fo : FIRFilterOps Flt) (D : DithererOps Dth) (bDither : Bool) (Gain : ℚ)
    (L : Int) (nChannels Channel : Nat) (st : PassState Flt Dth) : PassState Flt Dth :=
  let g := Fo.LazyGet (st.Filters Channel) L
  storeSample D bDither Gain nChannels Channel g.1
    { st with Filters := Function.update st.Filters Channel g.2 }

/-- The statement `Filters[Channel].put(x)` for `ii = 0` and `Filters[Channel].putZero()` otherwise. -/
def putOrZero (Fo : FIRFilterOps Flt) (Channel : Nat) (x : ℚ) (ii : Nat)
    (st : PassState Flt Dth) : PassState Flt Dth :=
  { st with
    Filters := Function.update st.Filters Channel
      (if ii = 0 then Fo.put (st.Filters Channel) x else Fo.putZero (st.Filters Channel)) }

/-- The body of the "Decimate Only" loop over `s`. -/
def decimateSample (Fo : FIRFilterOps Flt) (D : DithererOps Dth) (bDither : Bool) (Gain : ℚ)
    (M : Int) (nChannels Channel : Nat) (x : ℚ) (st : PassState Flt Dth) : PassState Flt Dth :=
  let st1 := putOrZero Fo Channel x 0 st
  let st2 := if st1.di Channel = 0 then emitGet Fo D bDither Gain nChannels Channel st1 else st1
  advanceDi M Channel st2

/-- The body of the loop over `ii` in the "Interpolate only" path. -/
def interpolateStep (Fo : FIRFilterOps Flt) (D : DithererOps Dth) (USE_AVX bDither : Bool)
    (Gain : ℚ) (L : Int) (nChannels Channel : Nat) (x : ℚ) (st : PassState Flt Dth) (ii : Nat) :
    PassState Flt Dth :=
  let st1 := putOrZero Fo Channel x ii st
  if USE_AVX then emitGet Fo D bDither Gain nChannels Channel st1
  else emitLazyGet Fo D bDither Gain L nChannels Channel st1

/-- The body of the "Interpolate only" loop over `s`. -/
def interpolateSample (Fo : FIRFilterOps Flt) (D : DithererOps Dth) (USE_AVX bDither : Bool)
    (Gain : ℚ) (L : Int) (nChannels Channel : Nat) (x : ℚ) (st : PassState Flt Dth) :
    PassState Flt Dth :=
  (List.range L.toNat).foldl (interpolateStep Fo D USE_AVX bDither Gain L nChannels Channel x) st

/-- The body of the loop over `ii` in the "Interpolate and Decimate" path. -/
def interpolateDecimateStep (Fo : FIRFilterOps Flt) (D : DithererOps Dth) (bDither : Bool)
    (Gain : ℚ) (L M : Int) (nChannels Channel : Nat) (x : ℚ) (st : PassState Flt Dth) (ii : Nat) :
    PassState Flt Dth :=
  let st1 := putOrZero Fo Channel x ii st
  let st2 :=
    if st1.di Channel = 0 then emitLazyGet Fo D bDither Gain L nChannels Channel st1 else st1
  advanceDi M Channel st2

/-- The body of the "Interpolate and Decimate" loop over `s`. -/
def interpolateDecimateSample (Fo : FIRFilterOps Flt) (D : DithererOps Dth) (bDither : Bool)
    (Gain : ℚ) (L M : Int) (nChannels Channel : Nat) (x : ℚ) (st : PassState Flt Dth) :
    PassState Flt Dth :=
  (List.range L.toNat).foldl
    (interpolateDecimateStep Fo D bDither Gain L M nChannels Channel x) st

/-- The number of rounds of `for (s = 0; s < count; s += nChannels)`. -/
def frameCount (count nChannels : Nat) : Nat :=
  (count + nChannels - 1) / nChannels

/-- The loop over `s` for one channel: `OutBufferIndex` restarts at 0, and round `k` handles
`inbuffer[k * nChannels + Channel]`.  An index past the end of the block, which needs a block
that is not a whole number of frames, reads as 0. -/
def channelLoop (perSample : Nat → ℚ → PassState Flt Dth → PassState Flt Dth)
    (nChannels : Nat) (blk : List ℚ) (st : PassState Flt Dth) (Channel : Nat) :
    PassState Flt Dth :=
  (List.range (frameCount blk.length nChannels)).foldl
    (fun acc k => perSample Channel (blk.getD (k * nChannels + Channel) 0) acc)
    { st with OutBufferIndex := 0 }

/-- The loop over `Channel` for one block. -/
def processBlock (perSample : Nat → ℚ → PassState Flt Dth → PassState Flt Dth)
    (nChannels : Nat) (blk : List ℚ) (st : PassState Flt Dth) : PassState Flt Dth :=
  (List.range nChannels).foldl (channelLoop perSample nChannels blk) st

/-- The samples `buf[start], ..., buf[start + count - 1]`. -/
def bufferSlice (buf : Nat → ℚ) (start count : Nat) : List ℚ :=
  (List.range count).map (fun i => buf (start + i))

/-- The call `outFile->write(pOutBuffer, OutBufferIndex)`. -/
def writeAll (st : PassState Flt Dth) : PassState Flt Dth :=
  { st with outFile := st.outFile ++ bufferSlice st.OutBuffer 0 st.OutBufferIndex }

/-- The write of the three resampling paths, which skips `outStartOffset` samples once.
A write with a count that is not positive appends nothing. -/
def writeTrimmed (st : PassState Flt Dth) : PassState Flt Dth :=
  if st.outStartOffset ≤ 0 then writeAll st
  else
    { st with
      outFile := st.outFile ++ bufferSlice st.OutBuffer st.outStartOffset.toNat
        ((st.OutBufferIndex : Int) - st.outStartOffset).toNat
      outStartOffset := 0 }

/-- The per-sample body of the path in use. -/
def pathSample (Fo : FIRFilterOps Flt) (D : DithererOps Dth) (USE_AVX bDither : Bool)
    (Gain : ℚ) (F : Fraction) (nChannels : Nat) :
    Nat → ℚ → PassState Flt Dth → PassState Flt Dth :=
  match selectPath F with
  | Path.copy => fun Channel => copySample D bDither Gain nChannels Channel
  | Path.decimate => fun Channel => decimateSample Fo D bDither Gain F.denominator nChannels Channel
  | Path.interpolate =>
    fun Channel => interpolateSample Fo D USE_AVX bDither Gain F.numerator nChannels Channel
  | Path.interpolateDecimate =>
    fun Channel =>
      interpolateDecimateSample Fo D bDither Gain F.numerator F.denominator nChannels Channel

/-- What one round of the block loop does with the block just read: the channel loops, then
the write (untrimmed on the 1:1 path). -/
def blockStep (Fo : FIRFilterOps Flt) (D : DithererOps Dth) (USE_AVX bDither : Bool)
    (Gain : ℚ) (F : Fraction) (nChannels : Nat) (blk : List ℚ) (st : PassState Flt Dth) :
    PassState Flt Dth :=
  let st1 := processBlock (pathSample Fo D USE_AVX bDither Gain F nChannels) nChannels blk st
  if selectPath F = Path.copy then writeAll st1 else writeTrimmed st1

/-- The variable `OutBufferSize`. -/
def OutBufferSize (nChannels BufferSize : Nat) (F : Fraction) : Int :=
  2 * (nChannels : Int) + ((BufferSize : Int) * F.numerator).tdiv F.denominator

/-- The variable `outStartOffset` at the start of a pass. -/
def outStartOffset (nChannels BufferSize : Nat) (F : Fraction) (groupDelay : Int) : Int :=
  min (groupDelay * (nChannels : Int)) (OutBufferSize nChannels BufferSize F - (nChannels : Int))

/-- The state at the start of a pass: new output file, zeroed output buffer, `di[x] = 0`. -/
def passStart (nChannels BufferSize : Nat) (F : Fraction) (groupDelay : Int)
    (Filters : Nat → Flt) (Ditherers : Nat → Dth) : PassState Flt Dth :=
  { Filters := Filters
    Ditherers := Ditherers
    di := fun _ => 0
    OutBuffer := fun _ => 0
    OutBufferIndex := 0
    PeakOutputSample := 0
    outStartOffset := outStartOffset nChannels BufferSize F groupDelay
    outFile := [] }

/-- One pass of the clipping detection loop, up to the line "Test for clipping". -/
def runPass (Fo : FIRFilterOps Flt) (D : DithererOps Dth) (USE_AVX bDither : Bool)
    (F : Fraction) (nChannels BufferSize : Nat) (groupDelay : Int) (blocks : List (List ℚ))
    (Gain : ℚ) (Filters : Nat → Flt) (Ditherers : Nat → Dth) : PassState Flt Dth :=
  blockLoop (blockStep Fo D USE_AVX bDither Gain F nChannels) blocks
    (passStart nChannels BufferSize F groupDelay Filters Ditherers)

end PassDefs

/-! ## The clipping detection loop -/

/-- The variable `GainAdjustment`.  It is only computed when `PeakOutputSample > Limit`, so
that its divisor is positive whenever `Limit` is not negative. -/
def GainAdjustment (clippingTrim Limit PeakOutputSample : ℚ) : ℚ :=
  clippingTrim * Limit / PeakOutputSample

/-- The value of `Gain` after the block "Test for clipping". -/
def gainAfterPass (clippingTrim Limit PeakOutputSample Gain : ℚ) : ℚ :=
  if PeakOutputSample > Limit then Gain * GainAdjustment clippingTrim Limit PeakOutputSample
  else Gain

/-- What `Convert` leaves behind when it returns `true`: the output file of the last pass,
the peak and the gain of that pass, and the number of passes run. -/
structure ConvertResult where
  outFile : List ℚ
  PeakOutputSample : ℚ
  Gain : ℚ
  passes : Nat
  deriving DecidableEq

section LoopDefs

variable {Flt Dth : Type}

/-- The clipping detection loop `do { ... } while (!disableClippingProtection && bClippingDetected)`.
The statements of "Test for clipping" that prepare the next pass (the new gain, the reset of
the filters, the adjustment and reset of the ditherers) appear where that pass starts; after
the last pass their results are not used.  `fuel` bounds the number of passes; `none` means
the bound was reached. -/
def clippingLoop (Fo : FIRFilterOps Flt) (D : DithererOps Dth) (build : BuildConfig)
    (ci : conversionInfo) (F : Fraction) (nChannels BufferSize : Nat) (groupDelay : Int)
    (blocks : List (List ℚ)) :
    Nat → Nat → ℚ → (Nat → Flt) → (Nat → Dth) → Option ConvertResult
  | 0, _, _, _, _ => none
  | fuel + 1, done, Gain, Filters, Ditherers =>
    let st := runPass Fo D build.USE_AVX ci.bDither F nChannels BufferSize groupDelay blocks
      Gain Filters Ditherers
    let bClippingDetected : Bool := decide (st.PeakOutputSample > ci.Limit)
    if !ci.disableClippingProtection && bClippingDetected then
      let adj := GainAdjustment build.clippingTrim ci.Limit st.PeakOutputSample
      clippingLoop Fo D build ci F nChannels BufferSize groupDelay blocks fuel (done + 1)
        (gainAfterPass build.clippingTrim ci.Limit st.PeakOutputSample Gain)
        (fun c => Fo.reset (st.Filters c))
        (if ci.bDither then fun c => D.reset (D.adjustGain (st.Ditherers c) adj)
         else st.Ditherers)
    else
      some
        { outFile := st.outFile
          PeakOutputSample := st.PeakOutputSample
          Gain := Gain
          passes := done + 1 }

/-- The function `Convert`, from the peak scan to `return true`.  `FilterSize` and
`OutputFileFormat` are the values of the variables of those names, `Filter0` is the filter built
from the taps and `Ditherers0` are the ditherers built for each channel.  The result is `none`
when the initial gain is not finite or when `fuel` passes do not end the loop.  With a gain
that is not finite the code itself goes on and returns; `initialGainFp` and `copyPassFp`
follow it there. -/
def Convert (Fo : FIRFilterOps Flt) (D : DithererOps Dth) (pow : ℚ → ℚ → ℚ)
    (build : BuildConfig) (ci : conversionInfo) (peakDetection : Bool) (infile : FileReader)
    (FilterSize : Int) (OutputFileFormat : Nat) (Filter0 : Flt) (Ditherers0 : Nat → Dth)
    (fuel : Nat) : Option ConvertResult :=
  let nChannels := infile.channels
  let BufferSize := (build.BUFFERSIZE / nChannels) * nChannels
  let Peak := PeakInputSample ci.bNormalize peakDetection infile.blocks
  let FOriginal := GetSimplifiedFraction infile.samplerate ci.OutputSampleRate
  let F := pipelineFraction ci FOriginal
  match initialGain pow ci F Peak (outputSignalBits OutputFileFormat) with
  | none => none
  | some Gain =>
    clippingLoop Fo D build ci F nChannels BufferSize (groupDelay ci FilterSize FOriginal)
      infile.blocks fuel 0 Gain (fun _ => Filter0) Ditherers0

end LoopDefs

/-! ## Auxiliary notions used in the proofs -/

section AuxDefs

variable {Flt Dth : Type}

/-- A property of the pass state that every statement of the channel loops preserves. -/
structure LoopStable (P : PassState Flt Dth → Prop) : Prop where
  filters : ∀ (st : PassState Flt Dth) (f : Nat → Flt), P st → P { st with Filters := f }
  di : ∀ (st : PassState Flt Dth) (d : Nat → Int), P st → P { st with di := d }
  restart : ∀ (st : PassState Flt Dth), P st → P { st with OutBufferIndex := 0 }
  store : ∀ (D : DithererOps Dth) (bDither : Bool) (Gain : ℚ) (nChannels Channel : Nat) (v : ℚ)
    (st : PassState Flt Dth), P st → P (storeSample D bDither Gain nChannels Channel v st)
  copy : ∀ (D : DithererOps Dth) (bDither : Bool) (Gain : ℚ) (nChannels Channel : Nat) (v : ℚ)
    (st : PassState Flt Dth), P st → P (copySample D bDither Gain nChannels Channel v st)

/-- Every slot of the output buffer and every sample written so far is bounded by the peak. -/
def PeakBound (st : PassState Flt Dth) : Prop :=
  (∀ j, |st.OutBuffer j| ≤ st.PeakOutputSample) ∧ ∀ y ∈ st.outFile, |y| ≤ st.PeakOutputSample

/-- A FIR filter with the single tap 1: its state is the sample pushed last. -/
def oneTapFilter : FIRFilterOps ℚ where
  put := fun _ x => x
  putZero := fun _ => 0
  get := fun s => (s, s)
  LazyGet := fun s _ => (s, s)
  reset := fun _ => 0

/-- A ditherer without state that returns its input unchanged. -/
def passThroughDitherer : DithererOps Unit where
  Dither := fun d x => (x, d)
  adjustGain := fun d _ => d
  reset := fun d => d

/-- The decimation counter after `if (++di == M) di = 0;`. -/
def nextPhase (M di : Int) : Int :=
  if di + 1 = M then 0 else di + 1

/-- The decimation counter after `T` rounds. -/
def phaseAfter (M : Int) : Nat → Int → Int
  | 0, di => di
  | T + 1, di => phaseAfter M T (nextPhase M di)

/-- The number of rounds among `T` that find the decimation counter at 0, that is, the number of
samples stored. -/
def emitCount (M : Int) : Nat → Int → Nat
  | 0, _ => 0
  | T + 1, di => (if di = 0 then 1 else 0) + emitCount M T (nextPhase M di)

/-- The number of rounds of the loop over `s` in a whole pass. -/
def totalFrames (nChannels : Nat) (blocks : List (List ℚ)) : Nat :=
  (blocks.map (fun b => frameCount b.length nChannels)).sum

/-- The running peak is at most `B` in absolute value. -/
def PeakWithin (B : ℚ) (st : PassState Flt Dth) : Prop :=
  |st.PeakOutputSample| ≤ B

/-- The pass state with output buffer, peak and output file scaled by `a`, and with the
ditherers `d`. -/
def scaleState (a : ℚ) (d : Nat → Dth) (st : PassState Flt Dth) :
    PassState Flt Dth :=
  { st with
    Ditherers := d
    OutBuffer := fun j => a * st.OutBuffer j
    PeakOutputSample := |a| * st.PeakOutputSample
    outFile := st.outFile.map (fun y => a * y) }

end AuxDefs

/-! ## Filter size, cut-off and output format -/

/-- The constants `FILTERSIZE_MEDIUM`, `FILTERSIZE_HUGE` and `FILTERSIZE_LIMIT` of `ReSampler.h`. -/
structure FilterSizes where
  FILTERSIZE_MEDIUM : Int
  FILTERSIZE_HUGE : Int
  FILTERSIZE_LIMIT : Int

/-- The variable `BaseFilterSize`; `/` on `int` truncates.  The product is exact;
`BaseFilterSize32` forms it in 32 bits. -/
def BaseFilterSize (fs : FilterSizes) (FOriginal : Fraction) : Int :=
  if isSimpleRatio FOriginal then
    (fs.FILTERSIZE_MEDIUM * max FOriginal.denominator FOriginal.numerator).tdiv 2
  else (fs.FILTERSIZE_HUGE * max FOriginal.denominator FOriginal.numerator).tdiv 320

/-- The variable `targetNyquist`. -/
def targetNyquist (ci : conversionInfo) (InputSampleRate : Int) : ℚ :=
  ((min InputSampleRate ci.OutputSampleRate : Int) : ℚ) / 2

/-- The variable `ft` after the `switch (ci.lpfMode)`. -/
def ft (ci : conversionInfo) (InputSampleRate : Int) : ℚ :=
  match ci.lpfMode with
  | LPFMode.relaxed => 21 * targetNyquist ci InputSampleRate / 22
  | LPFMode.steep => 21 * targetNyquist ci InputSampleRate / 22
  | LPFMode.custom => (ci.customLpfCutoff / 100) * targetNyquist ci InputSampleRate
  | LPFMode.normal => 10 * targetNyquist ci InputSampleRate / 11

/-- The variable `steepness` after the `switch (ci.lpfMode)`; `none` when the divisor is zero. -/
def steepness (ci : conversionInfo) : Option ℚ :=
  match ci.lpfMode with
  | LPFMode.relaxed => some 1
  | LPFMode.steep => some 2
  | LPFMode.custom =>
    if ci.customLpfTransitionWidth = 0 then
      fdiv (90909091 / 1000000000) (1 - ci.customLpfCutoff / 100)
    else fdiv (90909091 / 1000000000) (ci.customLpfTransitionWidth / 100)
  | LPFMode.normal => some 1

/-- The conversion `static_cast<int>(x)` of a `double` that lies in the range of `int`: the
fractional part is discarded.  See `castToInt32` for the other values. -/
def truncToInt (x : ℚ) : Int :=
  if 0 ≤ x then ⌊x⌋ else -⌊-x⌋

/-- The variable `FilterSize`: `min(static_cast<int>(...), FILTERSIZE_LIMIT) | 1`; `none` when
`steepness` is not finite.  The products are exact and without bounds; `FilterSize32` is the
value with the `int` product in 32 bits and the rounded `double` product. -/
def FilterSize (fs : FilterSizes) (ci : conversionInfo) (FOriginal : Fraction) : Option Int :=
  (steepness ci).map (fun s =>
    Int.lor
      (min (truncToInt (((overSamplingFactor ci FOriginal * BaseFilterSize fs FOriginal : Int) : ℚ) * s))
        fs.FILTERSIZE_LIMIT)
      1)

/-- The variable `SidelobeAtten`. -/
def SidelobeAtten (FOriginal : Fraction) : Int :=
  if FOriginal.numerator = 1 ∨ FOriginal.denominator = 1 then 195 else 160

/-- The libsndfile constant `SF_FORMAT_TYPEMASK`. -/
def SF_FORMAT_TYPEMASK : Nat := 0x0FFF0000

/-- The libsndfile constant `SF_FORMAT_WAV`. -/
def SF_FORMAT_WAV : Nat := 0x010000

/-- The libsndfile constant `SF_FORMAT_WAVEX`. -/
def SF_FORMAT_WAVEX : Nat := 0x130000

/-- The libsndfile constant `SF_FORMAT_RF64`. -/
def SF_FORMAT_RF64 : Nat := 0x220000

/-- The libsndfile constant `SF_FORMAT_PCM_32`. -/
def SF_FORMAT_PCM_32 : Nat := 0x0004

/-- The libsndfile constant `SF_FORMAT_FLOAT`. -/
def SF_FORMAT_FLOAT : Nat := 0x0006

/-- The libsndfile constant `SF_FORMAT_DOUBLE`. -/
def SF_FORMAT_DOUBLE : Nat := 0x0007

/-- The function `getSfBytesPerSample`. -/
def getSfBytesPerSample (format : Nat) : Int :=
  let subformat := format &&& SF_FORMAT_SUBMASK
  if subformat = SF_FORMAT_PCM_S8 then 1
  else if subformat = SF_FORMAT_PCM_16 then 2
  else if subformat = SF_FORMAT_PCM_24 then 3
  else if subformat = SF_FORMAT_PCM_32 then 4
  else if subformat = SF_FORMAT_PCM_U8 then 1
  else if subformat = SF_FORMAT_FLOAT then 4
  else if subformat = SF_FORMAT_DOUBLE then 8
  else 2

/-- The conversion of an `int` to `uint64_t`. -/
def toUInt64 (x : Int) : Nat :=
  (x % 2 ^ 64).toNat

/-- The variable `outputDataSize` of `checkWarnOutputSize`: the product and the quotient are
formed from left to right in `uint64_t`, so each product is reduced modulo `2^64`.  The
denominator is not zero for positive sample rates. -/
def outputDataSize (inputSamples : Nat) (bytesPerSample numerator denominator : Int) : Nat :=
  ((inputSamples % 2 ^ 64 * toUInt64 bytesPerSample) % 2 ^ 64 * toUInt64 numerator) % 2 ^ 64
    / toUInt64 denominator

/-- The function `checkWarnOutputSize`. -/
def checkWarnOutputSize (inputSamples : Nat) (bytesPerSample numerator denominator : Int) : Bool :=
  decide (2 ^ 32 ≤ outputDataSize inputSamples bytesPerSample numerator denominator)

/-- The statements `OutputFileFormat &= ~SF_FORMAT_TYPEMASK; OutputFileFormat |= SF_FORMAT_RF64;`
on a 32-bit `int`. -/
def switchToRf64 (OutputFileFormat : Nat) : Nat :=
  (OutputFileFormat &&& (0xFFFFFFFF ^^^ SF_FORMAT_TYPEMASK)) ||| SF_FORMAT_RF64

/-- The block "for wav files, determine whether to switch to rf64 mode", applied to the value
of `OutputFileFormat` that reaches it. -/
def rf64Switch (ci : conversionInfo) (InputSampleCount : Nat) (FOriginal : Fraction)
    (OutputFileFormat : Nat) : Nat :=
  if OutputFileFormat &&& SF_FORMAT_TYPEMASK = SF_FORMAT_WAV ∨
      OutputFileFormat &&& SF_FORMAT_TYPEMASK = SF_FORMAT_WAVEX then
    if ci.bRf64 ||
        checkWarnOutputSize InputSampleCount (getSfBytesPerSample OutputFileFormat)
          FOriginal.numerator FOriginal.denominator then
      switchToRf64 OutputFileFormat
    else OutputFileFormat
  else OutputFileFormat

/-- The variable `OutputFileFormat` before the rf64 block: `ci.OutputFormat` when it is not zero,
else the format of the input file; an empty subformat is taken from the input file. -/
def initialOutputFileFormat (ci : conversionInfo) (InputFileFormat : Nat) : Nat :=
  let OutputFileFormat := if ci.OutputFormat ≠ 0 then ci.OutputFormat else InputFileFormat
  if OutputFileFormat &&& SF_FORMAT_SUBMASK = 0 then
    OutputFileFormat ||| (InputFileFormat &&& SF_FORMAT_SUBMASK)
  else OutputFileFormat

/-- The values that `Convert` computes from the configuration and the properties of the input
file before it builds the filter and enters the clipping detection loop. -/
structure ConvertPlan where
  FOriginal : Fraction
  F : Fraction
  BaseFilterSize : Int
  overSamplingFactor : Int
  targetNyquist : ℚ
  ft : ℚ
  steepness : Option ℚ
  FilterSize : Option Int
  SidelobeAtten : Int
  groupDelay : Option Int
  OutputFileFormat : Nat
  deriving DecidableEq

/-- The part of `Convert` from `GetSimplifiedFraction` to the rf64 block.  `InputSampleRate`,
`InputSampleCount` and `InputFileFormat` are the values read from the input file.  The rates
are taken below 2^31, so that their conversion to `int` changes nothing, and the plan is
computed without overflow of `int`. -/
def convertPlan (fs : FilterSizes) (ci : conversionInfo) (InputSampleRate : Int)
    (InputSampleCount InputFileFormat : Nat) : ConvertPlan :=
  let FOriginal := GetSimplifiedFraction InputSampleRate ci.OutputSampleRate
  let FilterSize := FilterSize fs ci FOriginal
  { FOriginal := FOriginal
    F := pipelineFraction ci FOriginal
    BaseFilterSize := BaseFilterSize fs FOriginal
    overSamplingFactor := overSamplingFactor ci FOriginal
    targetNyquist := targetNyquist ci InputSampleRate
    ft := ft ci InputSampleRate
    steepness := steepness ci
    FilterSize := FilterSize
    SidelobeAtten := SidelobeAtten FOriginal
    groupDelay := FilterSize.map (fun N => groupDelay ci N FOriginal)
    OutputFileFormat :=
      rf64Switch ci InputSampleCount FOriginal (initialOutputFileFormat ci InputFileFormat) }

/-- The filter length in the words of the specification: `base` is
`FILTERSIZE_MEDIUM * max(Lo, Mo) / 2` for simple ratios and `FILTERSIZE_HUGE * max(Lo, Mo) / 320`
otherwise (`/` the integer quotient of the code), `oversample` is 8 in the minimum-phase
simple-ratio case and 1 otherwise, and `N` is `min(trunc(oversample * base * steepness),
FILTERSIZE_LIMIT)` rounded up to the next odd integer. -/
def specFilterSize (MEDIUM HUGE LIMIT : Int) (Lo Mo : Int) (min_phase : Bool) (steepness : ℚ) :
    Int :=
  let simple : Prop := Lo ≠ Mo ∧ min Lo Mo ≤ 4
  let base : Int := if simple then (MEDIUM * max Lo Mo).tdiv 2 else (HUGE * max Lo Mo).tdiv 320
  let oversample : Int := if min_phase = true ∧ simple then 8 else 1
  let t : Int := truncToInt (((oversample * base : Int) : ℚ) * steepness)
  let m : Int := min t LIMIT
  if m % 2 = 0 then m + 1 else m

/-! ## Output format from extension and bit format -/

/-- What `sf_command(NULL, SFC_GET_FORMAT_MAJOR, &info, sizeof(info))` stores in `info` for one
major format of libsndfile: the format value and the file extension. -/
structure SF_FORMAT_INFO where
  format : Nat
  extension : String
  deriving DecidableEq

/-- The test `stricmp(a, b) == 0`: the two strings are equal without regard to the case of
letters. -/
def stricmpEq (a b : String) : Bool :=
  decide (a.data.map Char.toLower = b.data.map Char.toLower)

/-- The loop of `determineOutputFormat` over all major formats: `info` is overwritten by each
format queried, and the loop stops at the first one whose extension matches `outFileExt`.  The
result is `info` after the loop together with `bFileExtFound`. -/
def majorFormatLoop : List SF_FORMAT_INFO → String → SF_FORMAT_INFO → SF_FORMAT_INFO × Bool
  | [], _, info => (info, false)
  | m :: rest, outFileExt, _ =>
    if stricmpEq m.extension outFileExt then (m, true) else majorFormatLoop rest outFileExt m

/-- The function `determineOutputFormat`.  `majorFormats` is the list of major formats of
libsndfile in the order of their indices, and `subFormats` is the map of that name in
`ReSampler.h`, from bit-format names to subformat values. -/
def determineOutputFormat (majorFormats : List SF_FORMAT_INFO) (subFormats : List (String × Nat))
    (outFileExt bitFormat : String) : Nat :=
  let r := majorFormatLoop majorFormats outFileExt { format := 0, extension := "" }
  let info := r.1
  let bFileExtFound := r.2
  let format : Nat :=
    if bFileExtFound then
      match subFormats.lookup bitFormat with
      | some sf => info.format ||| sf
      | none => 0
    else 0
  if bitFormat = "8" then
    if outFileExt = "mat" ∨ outFileExt = "rf64" ∨ outFileExt = "voc" ∨ outFileExt = "w64" ∨
        outFileExt = "wav" then
      info.format ||| SF_FORMAT_PCM_U8
    else info.format ||| SF_FORMAT_PCM_S8
  else format

/-! ## The command line -/

/-- The function `findCmdlineOption`: whether `option` is one of the arguments. -/
def findCmdlineOption (argv : List String) (option : String) : Bool :=
  argv.contains option

/-- The argument that follows the first occurrence of `OptionName` (`std::find`, then `++it`),
if there is one. -/
def paramAfter : List String → String → Option String
  | [], _ => none
  | a :: rest, OptionName => if a = OptionName then rest.head? else paramAfter rest OptionName

/-- The overload of `getCmdlineParam` for `std::string`: the parameter is cleared first. -/
def getCmdlineParam_string (argv : List String) (OptionName : String) : String :=
  match paramAfter argv OptionName with
  | some p => p
  | none => ""

/-- The overload of `getCmdlineParam` for `unsigned int`: the parameter is set to 0 first, and
the `int` returned by `atoi` is converted to `unsigned int`. -/
def getCmdlineParam_unsigned (atoi : String → Int) (argv : List String) (OptionName : String) :
    Int :=
  match paramAfter argv OptionName with
  | some p => atoi p % 2 ^ 32
  | none => 0

/-- The overload of `getCmdlineParam` for `int`. -/
def getCmdlineParam_int (atoi : String → Int) (argv : List String) (OptionName : String) : Int :=
  match paramAfter argv OptionName with
  | some p => atoi p
  | none => 0

/-- The overload of `getCmdlineParam` for `double`, for an `atof` whose values are finite; see
`getCmdlineParam_fp` for the others. -/
def getCmdlineParam_double (atof : String → ℚ) (argv : List String) (OptionName : String) : ℚ :=
  match paramAfter argv OptionName with
  | some p => atof p
  | none => 0

/-- The values of the enumeration `DitherProfileID` (header `ditherer.h`) that the program
names; `last` is the enumerator `end`. -/
structure DitherProfileIDs where
  flat : Int
  standard : Int
  flat_f : Int
  last : Int

/-- The conversion of an `unsigned int` to `int`. -/
def toInt32 (x : Int) : Int :=
  (x + 2 ^ 31) % 2 ^ 32 - 2 ^ 31

/-- The function `getDefaultNoiseShape`. -/
def getDefaultNoiseShape (ids : DitherProfileIDs) (sampleRate : Int) : Int :=
  if sampleRate ≤ 44100 then ids.standard
  else if sampleRate ≤ 48000 then ids.standard
  else if sampleRate ≤ 88200 then ids.flat_f
  else if sampleRate ≤ 96000 then ids.flat_f
  else if sampleRate ≤ 176400 then ids.flat_f
  else ids.flat_f

/-- The value of `ci.OutputFilename` when no output filename is given: the input filename with
`(converted)` inserted at the position of its last dot, or appended when it has no dot. -/
def defaultOutputFilename (InputFilename : String) : String :=
  if '.' ∈ InputFilename.data then
    let dot := InputFilename.data.length - 1 - InputFilename.data.reverse.indexOf '.'
    String.mk (InputFilename.data.take dot ++ "(converted)".data ++ InputFilename.data.drop dot)
  else InputFilename ++ "(converted)"

/-- Whether one of the terminating switches `--help`, `-h`, `--version`, `--sndfile-version`,
`--listsubformats`, `--showDitherProfiles` is among the arguments. -/
def terminatingSwitch (argv : List String) : Bool :=
  findCmdlineOption argv "--help" || findCmdlineOption argv "-h" ||
  findCmdlineOption argv "--version" || findCmdlineOption argv "--sndfile-version" ||
  findCmdlineOption argv "--listsubformats" || findCmdlineOption argv "--showDitherProfiles"

/-- The section "initialize defaults" of `parseParameters`. -/
def initializeDefaults (ids : DitherProfileIDs) (ci : conversionInfo) : conversionInfo :=
  { ci with
    InputFilename := ""
    OutputFilename := ""
    outBitFormat := ""
    OutputFormat := 0
    OutputSampleRate := 44100
    normalizeAmount := 1
    DitherAmount := 1
    flacCompressionLevel := 5
    vorbisQuality := 3
    ditherProfileID := ids.standard }

/-- The section "core parameters" of `parseParameters`, with the double precision switch. -/
def parseCore (atoi : String → Int) (argv : List String) (ci : conversionInfo) : conversionInfo :=
  { ci with
    InputFilename := getCmdlineParam_string argv "-i"
    OutputFilename := getCmdlineParam_string argv "-o"
    OutputSampleRate := getCmdlineParam_unsigned atoi argv "-r"
    outBitFormat := getCmdlineParam_string argv "-b"
    bUseDoublePrecision := findCmdlineOption argv "--doubleprecision" }

/-- The sections "gain" and "normalize option and parameter". -/
def parseGain (atof : String → ℚ) (argv : List String) (ci : conversionInfo) : conversionInfo :=
  let gain : ℚ :=
    if findCmdlineOption argv "--gain" then getCmdlineParam_double atof argv "--gain" else 1
  let bNormalize := findCmdlineOption argv "-n"
  if bNormalize then
    let normalizeAmount :=
      if getCmdlineParam_double atof argv "-n" ≤ 0 then 1 else getCmdlineParam_double atof argv "-n"
    { ci with
      gain := gain
      bNormalize := bNormalize
      normalizeAmount := normalizeAmount
      Limit := normalizeAmount }
  else { ci with gain := gain, bNormalize := bNormalize, Limit := 1 }

/-- The sections "dither option and parameter" and "auto-blanking option". -/
def parseDither (atof : String → ℚ) (argv : List String) (ci : conversionInfo) : conversionInfo :=
  let bDither := findCmdlineOption argv "--dither"
  let DitherAmount : ℚ :=
    if bDither then
      if getCmdlineParam_double atof argv "--dither" ≤ 0 then 1
      else getCmdlineParam_double atof argv "--dither"
    else ci.DitherAmount
  { ci with
    bDither := bDither
    DitherAmount := DitherAmount
    bAutoBlankingEnabled := findCmdlineOption argv "--autoblank" }

/-- The sections "ns option to determine Dither Profile" and "--flat-tpdf option". -/
def parseNoiseShape (ids : DitherProfileIDs) (atoi : String → Int) (argv : List String)
    (ci : conversionInfo) : conversionInfo :=
  let fromNs : Int :=
    if findCmdlineOption argv "--ns" then
      let p := getCmdlineParam_int atoi argv "--ns"
      let p := if p < 0 then 0 else p
      if p ≥ ids.last then getDefaultNoiseShape ids (toInt32 ci.OutputSampleRate) else p
    else getDefaultNoiseShape ids (toInt32 ci.OutputSampleRate)
  { ci with
    ditherProfileID := if findCmdlineOption argv "--flat-tpdf" then ids.flat else fromNs }

/-- The sections from "seed option and parameter" to "minimum-phase option". -/
def parseSeed (atoi : String → Int) (argv : List String) (ci : conversionInfo) : conversionInfo :=
  let bUseSeed := findCmdlineOption argv "--seed"
  { ci with
    bUseSeed := bUseSeed
    seed := if bUseSeed then getCmdlineParam_int atoi argv "--seed" else 0
    bDelayTrim := !findCmdlineOption argv "--noDelayTrim"
    bMinPhase := findCmdlineOption argv "--minphase" }

/-- The sections "flacCompression option and parameter" and "vorbisQuality option and
parameter", with their clamps. -/
def parseCompression (atoi : String → Int) (atof : String → ℚ) (argv : List String)
    (ci : conversionInfo) : conversionInfo :=
  let bSetFlacCompression := findCmdlineOption argv "--flacCompression"
  let flacCompressionLevel : Int :=
    if bSetFlacCompression then
      let l := getCmdlineParam_int atoi argv "--flacCompression"
      let l := if l < 0 then 0 else l
      if l > 8 then 8 else l
    else ci.flacCompressionLevel
  let bSetVorbisQuality := findCmdlineOption argv "--vorbisQuality"
  let vorbisQuality : ℚ :=
    if bSetVorbisQuality then
      let q := getCmdlineParam_double atof argv "--vorbisQuality"
      let q := if q < -1 then -1 else q
      if q > 10 then 10 else q
    else ci.vorbisQuality
  { ci with
    bSetFlacCompression := bSetFlacCompression
    flacCompressionLevel := flacCompressionLevel
    bSetVorbisQuality := bSetVorbisQuality
    vorbisQuality := vorbisQuality }

/-- The sections from "noClippingProtection option" to "custom LPF transition width". -/
def parseLpf (atof : String → ℚ) (argv : List String) (ci : conversionInfo) : conversionInfo :=
  let lpfMode := if findCmdlineOption argv "--relaxedLPF" then LPFMode.relaxed else LPFMode.normal
  let lpfMode := if findCmdlineOption argv "--steepLPF" then LPFMode.steep else lpfMode
  let custom := findCmdlineOption argv "--lpf-cutoff"
  { ci with
    disableClippingProtection := findCmdlineOption argv "--noClippingProtection"
    lpfMode := if custom then LPFMode.custom else lpfMode
    customLpfCutoff :=
      if custom then max 1 (min (getCmdlineParam_double atof argv "--lpf-cutoff") (999 / 10))
      else ci.customLpfCutoff
    customLpfTransitionWidth :=
      if findCmdlineOption argv "--lpf-transition" then
        max (1 / 10) (min (getCmdlineParam_double atof argv "--lpf-transition") (999 / 10))
      else 0 }

/-- The sections "multithreaded option", "rf64 option" and "noMetadata option". -/
def parseSwitches (argv : List String) (ci : conversionInfo) : conversionInfo :=
  { ci with
    bMultiThreaded := findCmdlineOption argv "--mt"
    bRf64 := findCmdlineOption argv "--rf64"
    bWriteMetaData := !findCmdlineOption argv "--noMetadata" }

/-- The part of `parseParameters` from "core parameters" to the `--noMetadata` option, in the
order of the source. -/
def parseOptions (ids : DitherProfileIDs) (atoi : String → Int) (atof : String → ℚ)
    (argv : List String) (ci : conversionInfo) : conversionInfo :=
  parseSwitches argv (parseLpf atof argv (parseCompression atoi atof argv (parseSeed atoi argv
    (parseNoiseShape ids atoi argv (parseDither atof argv (parseGain atof argv
      (parseCore atoi argv ci)))))))

/-- What a call of `parseParameters` leaves behind: the value returned, the reference parameter
`bBadParams`, and `ci`. -/
structure ParseResult where
  result : Bool
  bBadParams : Bool
  ci : conversionInfo

/-- The section "test for bad parameters" of `parseParameters`.  `bBadParams` is set to `false`
and then to `true` when both filenames are empty, when the output filename is given and equals
the input filename, or when the output sample rate is 0; an output filename that is not given
is made from the input filename.  The function returns `false` exactly when `bBadParams` is
`true`. -/
def testBadParameters (ci : conversionInfo) : ParseResult :=
  let badNames : Bool :=
    if ci.OutputFilename = "" then decide (ci.InputFilename = "")
    else decide (ci.OutputFilename = ci.InputFilename)
  let OutputFilename : String :=
    if ci.OutputFilename = "" ∧ ci.InputFilename ≠ "" then defaultOutputFilename ci.InputFilename
    else ci.OutputFilename
  let bBadParams : Bool := if ci.OutputSampleRate = 0 then true else badNames
  { result := !bBadParams
    bBadParams := bBadParams
    ci := { ci with OutputFilename := OutputFilename } }

/-- The function `parseParameters`.  `ci` and `bBadParams` are the values of the reference
parameters at the call, `argv` is the whole argument vector (program name included), and `atoi`
and `atof` are the functions of the C library.  A terminating switch makes the function return
`false` right after the defaults are set, with `bBadParams` untouched. -/
def parseParameters (ids : DitherProfileIDs) (atoi : String → Int) (atof : String → ℚ)
    (ci : conversionInfo) (bBadParams : Bool) (argv : List String) : ParseResult :=
  let ci := initializeDefaults ids ci
  if findCmdlineOption argv "--help" || findCmdlineOption argv "-h" then
    { result := false, bBadParams := bBadParams, ci := ci }
  else if findCmdlineOption argv "--version" then
    { result := false, bBadParams := bBadParams, ci := ci }
  else if findCmdlineOption argv "--sndfile-version" then
    { result := false, bBadParams := bBadParams, ci := ci }
  else if findCmdlineOption argv "--listsubformats" then
    { result := false, bBadParams := bBadParams, ci := ci }
  else if findCmdlineOption argv "--showDitherProfiles" then
    { result := false, bBadParams := bBadParams, ci := ci }
  else testBadParameters (parseOptions ids atoi atof argv ci)

/-- How `main` starts: either it leaves through `exit` right after `parseParameters`, with
`EXIT_FAILURE` when `failure` is set and `EXIT_SUCCESS` otherwise, or it goes on with `ci` to
`showBuildVersion`, to the choice of the output format and to `Convert` or `ConvertMT`, which
contain all statements of the program that open a file. -/
inductive MainStart where
  | exit (failure : Bool)
  | proceed (ci : conversionInfo)

/-- The first statements of `main`: `badParams` starts as `false`, and a `false` from
`parseParameters` ends the program. -/
def mainStart (ids : DitherProfileIDs) (atoi : String → Int) (atof : String → ℚ)
    (ci : conversionInfo) (argv : List String) : MainStart :=
  let r := parseParameters ids atoi atof ci false argv
  if !r.result then MainStart.exit r.bBadParams else MainStart.proceed r.ci

/-! ## The polyphase FIR engine of the specification -/

/-- Modelled from the spec: the state of the polyphase FIR engine of section 4.3, a circular
tap-delay of length `N` with its taps, the ring, the head, and the current zero-insertion phase
(the number of `push_zero` calls since the last `push`).  The header `FIRFilter.h` is not part of
the source file. -/
structure FIRState where
  N : Nat
  taps : Nat → ℚ
  ring : Nat → ℚ
  head : Nat
  phase : Nat

/-- Modelled from the spec: `push(x)` writes `x` at the head and advances the head modulo `N`. -/
def FIRState.push (st : FIRState) (x : ℚ) : FIRState :=
  { st with
    ring := Function.update st.ring st.head x
    head := (st.head + 1) % st.N
    phase := 0 }

/-- Modelled from the spec: `push_zero()` is equivalent to `push(0)`; it advances the
zero-insertion phase. -/
def FIRState.push_zero (st : FIRState) : FIRState :=
  { st with
    ring := Function.update st.ring st.head 0
    head := (st.head + 1) % st.N
    phase := st.phase + 1 }

/-- Modelled from the spec: the slot `(head - 1 - i) mod N` of the ring, for `i < N`. -/
def FIRState.slot (st : FIRState) (i : Nat) : Nat :=
  (st.head + st.N - 1 - i) % st.N

/-- Modelled from the spec: `get()` is the full convolution, the sum of
`taps[i] * ring[(head - 1 - i) mod N]` over all `i < N`. -/
def FIRState.get (st : FIRState) : ℚ :=
  ((List.range st.N).map (fun i => st.taps i * st.ring (st.slot i))).sum

/-- Modelled from the spec: `lazy_get(L)` evaluates only the taps of the polyphase subfilter
selected by the current zero-insertion phase, that is, every `L`-th tap starting at the phase. -/
def FIRState.lazy_get (st : FIRState) (L : Nat) : ℚ :=
  (((List.range st.N).filter (fun i => i % L = st.phase % L)).map
    (fun i => st.taps i * st.ring (st.slot i))).sum

/-- Modelled from the spec: `reset()` zeroes the ring and the head. -/
def FIRState.reset (st : FIRState) : FIRState :=
  { st with ring := fun _ => 0, head := 0, phase := 0 }

/-- A filter with the taps `taps` (`N` of them) after `reset()`. -/
def FIRState.fresh (N : Nat) (taps : Nat → ℚ) : FIRState :=
  { N := N, taps := taps, ring := fun _ => 0, head := 0, phase := 0 }

/-- The events `push(x); push_zero() × k`. -/
def FIRState.stuffed (st : FIRState) (x : ℚ) (k : Nat) : FIRState :=
  (FIRState.push_zero)^[k] (st.push x)

/-- The operations that `Convert` calls, provided by the engine of the specification. -/
def specFIRFilter : FIRFilterOps FIRState where
  put := FIRState.push
  putZero := FIRState.push_zero
  get := fun st => (st.get, st)
  LazyGet := fun st L => (st.lazy_get L.toNat, st)
  reset := FIRState.reset

/-- Apart from at most every `L`-th one, counted from delay `p`, the last `N` samples pushed are
zero. -/
def ZeroStuffed (L p : Nat) (st : FIRState) : Prop :=
  (0 < st.N → st.head < st.N) ∧ ∀ d, d < st.N → d % L ≠ p % L → st.ring (st.slot d) = 0

/-! ## The multi-threaded driver `ConvertMT` -/

/-- The structure `Res` that a channel task of `ConvertMT` returns. -/
structure Res where
  outputBufferIndex : Nat
  peak : ℚ

/-- What a channel task of `ConvertMT` works on: the memory it shares with the driver and with
the other tasks (captured by reference), and its local variables. -/
structure TaskState (Flt Dth : Type) where
  mem : PassState Flt Dth
  localDecimationIndex : Int
  localPeak : ℚ
  localOutBufferIndex : Nat

/-- The shared memory together with the vector `r` of task results. -/
structure TaskPool (Flt Dth : Type) where
  mem : PassState Flt Dth
  r : Nat → Res

section MTDefs

variable {Flt Dth : Type}

/-- In a task: dither (when enabled) the value `Gain * v`, store it at
`localOutBufferIndex + Channel`, update `localPeak` and advance `localOutBufferIndex` by
`nChannels`. -/
def storeLocal (D : DithererOps Dth) (bDither : Bool) (Gain : ℚ) (nChannels Channel : Nat)
    (v : ℚ) (ts : TaskState Flt Dth) : TaskState Flt Dth :=
  let r : ℚ × Dth :=
    if bDither then D.Dither (ts.mem.Ditherers Channel) (Gain * v)
    else (Gain * v, ts.mem.Ditherers Channel)
  { ts with
    mem := { ts.mem with
      Ditherers := Function.update ts.mem.Ditherers Channel r.2
      OutBuffer := Function.update ts.mem.OutBuffer (ts.localOutBufferIndex + Channel) r.1 }
    localPeak := max ts.localPeak |r.1|
    localOutBufferIndex := ts.localOutBufferIndex + nChannels }

/-- In a task: store `Gain * Filters[Channel].get()`. -/
def emitGetLocal (Fo : FIRFilterOps Flt) (D : DithererOps Dth) (bDither : Bool) (Gain : ℚ)
    (nChannels Channel : Nat) (ts : TaskState Flt Dth) : TaskState Flt Dth :=
  let g := Fo.get (ts.mem.Filters Channel)
  storeLocal D bDither Gain nChannels Channel g.1
    { ts with mem := { ts.mem with Filters := Function.update ts.mem.Filters Channel g.2 } }

/-- In a task: store `Gain * Filters[Channel].LazyGet(L)`. -/
def emitLazyGetLocal (Fo : FIRFilterOps Flt) (D : DithererOps Dth) (bDither : Bool) (Gain : ℚ)
    (L : Int) (nChannels Channel : Nat) (ts : TaskState Flt Dth) : TaskState Flt Dth :=
  let g := Fo.LazyGet (ts.mem.Filters Channel) L
  storeLocal D bDither Gain nChannels Channel g.1
    { ts with mem := { ts.mem with Filters := Function.update ts.mem.Filters Channel g.2 } }

/-- In a task: `Filters[Channel].put(x)` for `ii = 0` and `Filters[Channel].putZero()`
otherwise. -/
def putOrZeroLocal (Fo : FIRFilterOps Flt) (Channel : Nat) (x : ℚ) (ii : Nat)
    (ts : TaskState Flt Dth) : TaskState Flt Dth :=
  { ts with mem := putOrZero Fo Channel x ii ts.mem }

/-- The statement `if (++localDecimationIndex == F.denominator) localDecimationIndex = 0;`. -/
def advanceLocal (M : Int) (ts : TaskState Flt Dth) : TaskState Flt Dth :=
  if ts.localDecimationIndex + 1 = M then { ts with localDecimationIndex := 0 }
  else { ts with localDecimationIndex := ts.localDecimationIndex + 1 }

/-- The body of the loop over `s` in a task of the "Decimate Only" path. -/
def decimateTaskSample (Fo : FIRFilterOps Flt) (D : DithererOps Dth) (bDither : Bool) (Gain : ℚ)
    (M : Int) (nChannels Channel : Nat) (x : ℚ) (ts : TaskState Flt Dth) : TaskState Flt Dth :=
  let ts1 := putOrZeroLocal Fo Channel x 0 ts
  let ts2 :=
    if ts1.localDecimationIndex = 0 then emitGetLocal Fo D bDither Gain nChannels Channel ts1
    else ts1
  advanceLocal M ts2

/-- The body of the loop over `ii` in a task of the "Interpolate only" path. -/
def interpolateTaskStep (Fo : FIRFilterOps Flt) (D : DithererOps Dth) (USE_AVX bDither : Bool)
    (Gain : ℚ) (L : Int) (nChannels Channel : Nat) (x : ℚ) (ts : TaskState Flt Dth) (ii : Nat) :
    TaskState Flt Dth :=
  let ts1 := putOrZeroLocal Fo Channel x ii ts
  if USE_AVX then emitGetLocal Fo D bDither Gain nChannels Channel ts1
  else emitLazyGetLocal Fo D bDither Gain L nChannels Channel ts1

/-- The body of the loop over `s` in a task of the "Interpolate only" path. -/
def interpolateTaskSample (Fo : FIRFilterOps Flt) (D : DithererOps Dth) (USE_AVX bDither : Bool)
    (Gain : ℚ) (L : Int) (nChannels Channel : Nat) (x : ℚ) (ts : TaskState Flt Dth) :
    TaskState Flt Dth :=
  (List.range L.toNat).foldl (interpolateTaskStep Fo D USE_AVX bDither Gain L nChannels Channel x)
    ts

/-- The body of the loop over `ii` in a task of the "Interpolate and Decimate" path. -/
def interpolateDecimateTaskStep (Fo : FIRFilterOps Flt) (D : DithererOps Dth) (bDither : Bool)
    (Gain : ℚ) (L M : Int) (nChannels Channel : Nat) (x : ℚ) (ts : TaskState Flt Dth) (ii : Nat) :
    TaskState Flt Dth :=
  let ts1 := putOrZeroLocal Fo Channel x ii ts
  let ts2 :=
    if ts1.localDecimationIndex = 0 then
      emitLazyGetLocal Fo D bDither Gain L nChannels Channel ts1
    else ts1
  advanceLocal M ts2

/-- The body of the loop over `s` in a task of the "Interpolate and Decimate" path. -/
def interpolateDecimateTaskSample (Fo : FIRFilterOps Flt) (D : DithererOps Dth) (bDither : Bool)
    (Gain : ℚ) (L M : Int) (nChannels Channel : Nat) (x : ℚ) (ts : TaskState Flt Dth) :
    TaskState Flt Dth :=
  (List.range L.toNat).foldl
    (interpolateDecimateTaskStep Fo D bDither Gain L M nChannels Channel x) ts

/-- The per-sample body of the task of the path in use.  The 1:1 path runs no tasks. -/
def taskSample (Fo : FIRFilterOps Flt) (D : DithererOps Dth) (USE_AVX bDither : Bool)
    (Gain : ℚ) (F : Fraction) (nChannels : Nat) :
    Nat → ℚ → TaskState Flt Dth → TaskState Flt Dth :=
  match selectPath F with
  | Path.copy => fun _ _ ts => ts
  | Path.decimate =>
    fun Channel => decimateTaskSample Fo D bDither Gain F.denominator nChannels Channel
  | Path.interpolate =>
    fun Channel => interpolateTaskSample Fo D USE_AVX bDither Gain F.numerator nChannels Channel
  | Path.interpolateDecimate =>
    fun Channel =>
      interpolateDecimateTaskSample Fo D bDither Gain F.numerator F.denominator nChannels Channel

/-- The loop over `s` of a task, from given local variables. -/
def taskLoop (perSample : Nat → ℚ → TaskState Flt Dth → TaskState Flt Dth)
    (nChannels : Nat) (blk : List ℚ) (Channel : Nat) (ts : TaskState Flt Dth) :
    TaskState Flt Dth :=
  (List.range (frameCount blk.length nChannels)).foldl
    (fun acc k => perSample Channel (blk.getD (k * nChannels + Channel) 0) acc) ts

/-- The task that `ConvertMT` pushes to the thread pool for `Channel`, run to its end on the
memory of `pool`: the local variables are initialised (`localDecimationIndex` from `di[Channel]`
in the two paths that decimate), the loop over `s` runs, `di[Channel]` is stored back in those
two paths, and the result is placed in `r[Channel]`. -/
def channelTask (Fo : FIRFilterOps Flt) (D : DithererOps Dth) (USE_AVX bDither : Bool)
    (Gain : ℚ) (F : Fraction) (nChannels : Nat) (blk : List ℚ) (pool : TaskPool Flt Dth)
    (Channel : Nat) : TaskPool Flt Dth :=
  let usesDi : Bool := decide (selectPath F ≠ Path.interpolate)
  let ts := taskLoop (taskSample Fo D USE_AVX bDither Gain F nChannels) nChannels blk Channel
    { mem := pool.mem
      localDecimationIndex := if usesDi then pool.mem.di Channel else 0
      localPeak := 0
      localOutBufferIndex := 0 }
  { mem :=
      if usesDi then
        { ts.mem with di := Function.update ts.mem.di Channel ts.localDecimationIndex }
      else ts.mem
    r := Function.update pool.r Channel
      { outputBufferIndex := ts.localOutBufferIndex, peak := ts.localPeak } }

/-- The loop "collect results": in the order of the channels, `OutBufferIndex` becomes the
`outputBufferIndex` of the task and `PeakOutputSample` the maximum of itself and the `peak` of
the task. -/
def collectResults (nChannels : Nat) (pool : TaskPool Flt Dth) : PassState Flt Dth :=
  (List.range nChannels).foldl
    (fun acc Channel =>
      { acc with
        OutBufferIndex := (pool.r Channel).outputBufferIndex
        PeakOutputSample := max acc.PeakOutputSample (pool.r Channel).peak })
    pool.mem

/-- What `ConvertMT` does with one block in the three resampling paths, up to the write: the
tasks of the channels run to their end one after the other in the order `order` (the order in
which the thread pool happens to complete them), then the results are collected.  `r` is the
content of the vector of results before the block. -/
def processBlockMT (Fo : FIRFilterOps Flt) (D : DithererOps Dth) (USE_AVX bDither : Bool)
    (Gain : ℚ) (F : Fraction) (nChannels : Nat) (order : List Nat) (r : Nat → Res)
    (blk : List ℚ) (st : PassState Flt Dth) : PassState Flt Dth :=
  collectResults nChannels
    (order.foldl (channelTask Fo D USE_AVX bDither Gain F nChannels blk) { mem := st, r := r })

/-- What one round of the block loop of `ConvertMT` does with the block just read.  The 1:1
path has the loops of `Convert`. -/
def blockStepMT (Fo : FIRFilterOps Flt) (D : DithererOps Dth) (USE_AVX bDither : Bool)
    (Gain : ℚ) (F : Fraction) (nChannels : Nat) (order : List Nat) (r : Nat → Res)
    (blk : List ℚ) (st : PassState Flt Dth) : PassState Flt Dth :=
  if selectPath F = Path.copy then
    writeAll (processBlock (pathSample Fo D USE_AVX bDither Gain F nChannels) nChannels blk st)
  else writeTrimmed (processBlockMT Fo D USE_AVX bDither Gain F nChannels order r blk st)

/-- The memory `o` with the part that belongs to channel `c` taken from `m`: the filter, the
ditherer and the decimation index of `c`, and the slots of the output buffer whose index is
`c` modulo `nChannels`. -/
def graft (nChannels c : Nat) (o m : PassState Flt Dth) : PassState Flt Dth :=
  { o with
    Filters := fun j => if j = c then m.Filters j else o.Filters j
    Ditherers := fun j => if j = c then m.Ditherers j else o.Ditherers j
    di := fun j => if j = c then m.di j else o.di j
    OutBuffer := fun i => if i % nChannels = c then m.OutBuffer i else o.OutBuffer i }

/-- The state of the loops of `Convert` that corresponds to a task state: the local variables
take the place of `di[Channel]` (in the paths that decimate), of `OutBufferIndex` and of the
part of `PeakOutputSample` gained since the peak `P`. -/
def mergeLocal (usesDi : Bool) (c : Nat) (P : ℚ) (ts : TaskState Flt Dth) : PassState Flt Dth :=
  { ts.mem with
    di := if usesDi then Function.update ts.mem.di c ts.localDecimationIndex else ts.mem.di
    OutBufferIndex := ts.localOutBufferIndex
    PeakOutputSample := max P ts.localPeak }

end MTDefs

section MTAux

variable {Flt Dth : Type}

/-- The task state `ts` with its memory grafted into `o`. -/
def graftTask (nChannels c : Nat) (o : PassState Flt Dth) (ts : TaskState Flt Dth) :
    TaskState Flt Dth :=
  { ts with mem := graft nChannels c o ts.mem }

/-- The pool with its memory grafted into `o`. -/
def graftPool (nChannels c : Nat) (o : PassState Flt Dth) (pool : TaskPool Flt Dth) :
    TaskPool Flt Dth :=
  { pool with mem := graft nChannels c o pool.mem }

end MTAux

section AvxDefs

variable {Dth : Type}

/-- The filter of every channel has seen complete rounds `push(x); push_zero() × (L - 1)` only
since its last `reset()`. -/
def RoundsDone (L : Int) (st : PassState FIRState Dth) : Prop :=
  ∀ c, ZeroStuffed L.toNat (L.toNat - 1) (st.Filters c)

end AvxDefs

/-! ## Values that `Convert` derives from the options -/

/-- The constant `SF_FORMAT_VORBIS` of `sndfile.h`. -/
def SF_FORMAT_VORBIS : Nat := 0x0060

/-- The Vorbis quality command of `Convert`: when the output format has the bits of
`SF_FORMAT_VORBIS` and the user has set a quality, the value `cl` that is handed to the output
file with `SFC_SET_COMPRESSION_LEVEL`; `none` when the command is not sent. -/
def vorbisCompressionLevel (ci : conversionInfo) (OutputFileFormat : Nat) : Option ℚ :=
  if OutputFileFormat &&& SF_FORMAT_VORBIS = SF_FORMAT_VORBIS ∧ ci.bSetVorbisQuality = true then
    some ((1 - ci.vorbisQuality) / 11)
  else none

/-- The divisor of the `case custom` branch of `switch (ci.lpfMode)`:
`1 - ci.customLpfCutoff / 100.0` when the transition width is 0, and
`ci.customLpfTransitionWidth / 100.0` otherwise. -/
def customSteepnessDivisor (ci : conversionInfo) : ℚ :=
  if ci.customLpfTransitionWidth = 0 then 1 - ci.customLpfCutoff / 100
  else ci.customLpfTransitionWidth / 100

/-! ## The slots of the output buffer -/

/-- From `OutBufferIndex` on, the output buffer still holds what `B` holds: no slot at or past
the current `OutBufferIndex` has been stored to since the buffer was `B`. -/
def UntouchedFrom {Flt Dth : Type} (B : Nat → ℚ) (st : PassState Flt Dth) : Prop :=
  ∀ j, st.OutBufferIndex ≤ j → st.OutBuffer j = B j

/-- The second argument of the call `outFile->write(...)` that ends a block on the three
resampling paths: `OutBufferIndex` when `outStartOffset <= 0`, and
`OutBufferIndex - outStartOffset` otherwise. -/
def writeCount {Flt Dth : Type} (st : PassState Flt Dth) : Int :=
  if st.outStartOffset ≤ 0 then (st.OutBufferIndex : Int)
  else (st.OutBufferIndex : Int) - st.outStartOffset

/-! ## The 32-bit computations of the filter plan -/

/-- The product that `BaseFilterSize` divides, as an integer without bounds:
`FILTERSIZE_MEDIUM * std::max(den, num)` for simple ratios and
`FILTERSIZE_HUGE * std::max(den, num)` otherwise.  The code forms it in `int`. -/
def BaseFilterSizeProduct (fs : FilterSizes) (FOriginal : Fraction) : Int :=
  if isSimpleRatio FOriginal then
    fs.FILTERSIZE_MEDIUM * max FOriginal.denominator FOriginal.numerator
  else fs.FILTERSIZE_HUGE * max FOriginal.denominator FOriginal.numerator

/-- The variable `OverSampFreq`: `InputSampleRate` is an `unsigned int`, so `F.numerator` is
converted to `unsigned int`, the product is formed modulo 2^32, and the result is converted
to `int`. -/
def OverSampFreq (InputSampleRate : Int) (F : Fraction) : Int :=
  toInt32 (((InputSampleRate % 2 ^ 32) * (F.numerator % 2 ^ 32)) % 2 ^ 32)

/-! ## Concrete library functions for the examples -/

/-- The function `pow` of `<math.h>` at exponents that are whole numbers and not negative:
`pow(b, e)` is `b` multiplied `e` times.  It stands in for `pow` in the examples, which use no
other exponents. -/
def powWhole (b e : ℚ) : ℚ :=
  b ^ ⌊e⌋.toNat

/-! ## Values of type `double` that are not finite -/

/-- A value of type `double`: a finite number (taken exact), plus or minus infinity, or a NaN.
The sign of a zero is not kept, and a finite result is never rounded to an infinity. -/
inductive Fp where
  | fin (q : ℚ)
  | inf (negative : Bool)
  | nan
  deriving DecidableEq

/-- The comparison `x <= y` of two `double` values: it is false when either is a NaN. -/
def Fp.le : Fp → Fp → Bool
  | Fp.fin a, Fp.fin b => decide (a ≤ b)
  | Fp.fin _, Fp.inf n => !n
  | Fp.inf n, Fp.fin _ => n
  | Fp.inf n, Fp.inf m => n || !m
  | Fp.nan, _ => false
  | _, Fp.nan => false

/-- The comparison `x < y` of two `double` values: it is false when either is a NaN. -/
def Fp.lt : Fp → Fp → Bool
  | Fp.fin a, Fp.fin b => decide (a < b)
  | Fp.fin _, Fp.inf n => !n
  | Fp.inf n, Fp.fin _ => n
  | Fp.inf n, Fp.inf m => n && !m
  | Fp.nan, _ => false
  | _, Fp.nan => false

/-- The function `std::abs` on `double` values. -/
def Fp.abs : Fp → Fp
  | Fp.fin a => Fp.fin |a|
  | Fp.inf _ => Fp.inf false
  | Fp.nan => Fp.nan

/-- The function `std::max(a, b)`, which is `(a < b) ? b : a`. -/
def Fp.max (a b : Fp) : Fp :=
  if Fp.lt a b then b else a

/-- The overload of `getCmdlineParam` for `double`, with the value that `atof` returns as it
is: `atof` returns an infinity or a NaN for texts such as `inf` and `nan`. -/
def getCmdlineParam_fp (atof : String → Fp) (argv : List String) (OptionName : String) : Fp :=
  match paramAfter argv OptionName with
  | some p => atof p
  | none => Fp.fin 0

/-- The value of `ci.Limit` after the section "normalize option and parameter" of
`parseParameters`, for an `atof` whose value need not be finite. -/
def parseLimit (atof : String → Fp) (argv : List String) : Fp :=
  if findCmdlineOption argv "-n" then
    let normalizeAmount := getCmdlineParam_fp atof argv "-n"
    if Fp.le normalizeAmount (Fp.fin 0) then Fp.fin 1 else normalizeAmount
  else Fp.fin 1

/-- The product of two `int` values as the compiled code forms it: the exact product reduced
to 32 bits in two's complement.  (C++ leaves the overflow of `int` undefined.) -/
def mulInt32 (a b : Int) : Int :=
  toInt32 (a * b)

/-- The call `GetSimplifiedFraction(InputSampleRate, ci.OutputSampleRate)` of `Convert`: the
two rates are `unsigned int` and are converted to the `int` parameters of the function. -/
def FOriginal32 (InputSampleRate OutputSampleRate : Int) : Fraction :=
  GetSimplifiedFraction (toInt32 InputSampleRate) (toInt32 OutputSampleRate)

/-- The fraction `F` that drives the pipeline, with the two products
`F.numerator *= overSamplingFactor` and `F.denominator *= overSamplingFactor` in 32 bits. -/
def pipelineFraction32 (ci : conversionInfo) (FOriginal : Fraction) : Fraction :=
  if isSimpleRatio FOriginal && ci.bMinPhase then
    { numerator := mulInt32 FOriginal.numerator 8
      denominator := mulInt32 FOriginal.denominator 8 }
  else FOriginal

/-- The variable `BaseFilterSize` with its product in 32 bits. -/
def BaseFilterSize32 (fs : FilterSizes) (FOriginal : Fraction) : Int :=
  if isSimpleRatio FOriginal then
    (mulInt32 fs.FILTERSIZE_MEDIUM (max FOriginal.denominator FOriginal.numerator)).tdiv 2
  else (mulInt32 fs.FILTERSIZE_HUGE (max FOriginal.denominator FOriginal.numerator)).tdiv 320

/-- The conversion `static_cast<int>(x)` of a `double`: the fractional part is discarded, and a
value outside the range of `int` gives `-2^31`, which is what the conversion instruction of
x86 returns.  (C++ leaves that case undefined.) -/
def castToInt32 (x : ℚ) : Int :=
  if -2 ^ 31 - 1 < x ∧ x < 2 ^ 31 then truncToInt x else -2 ^ 31

/-- The variable `FilterSize` as the compiled code computes it.  The product
`overSamplingFactor * BaseFilterSize` is an `int` product, its product with the `double`
`steepness` is rounded by `rnd`, the rounding of `double` arithmetic, and the result is
converted to `int`. -/
def FilterSize32 (rnd : ℚ → ℚ) (fs : FilterSizes) (ci : conversionInfo) (FOriginal : Fraction)
    (steepness : ℚ) : Int :=
  Int.lor
    (min
      (castToInt32
        (rnd (((mulInt32 (overSamplingFactor ci FOriginal) (BaseFilterSize32 fs FOriginal) : Int)
          : ℚ) * steepness)))
      fs.FILTERSIZE_LIMIT)
    1

/-! ## Theorems -/

/-- On natural-number arguments the loop computes the greatest common divisor, for every
amount of fuel above `y`. -/
theorem gcdLoop_eq_gcd (fuel : Nat) :
    ∀ x y : Nat, y < fuel → gcdLoop fuel (x : Int) (y : Int) = ((Nat.gcd x y : Nat) : Int) := by
  induction fuel with
  | zero => intro x y h; omega
  | succ n ih =>
    intro x y h
    unfold gcdLoop
    by_cases hy : y = 0
    · subst hy; simp
    · have hy0 : (y : Int) ≠ 0 := by exact_mod_cast hy
      rw [if_neg hy0]
      have h1 : (x : Int).tmod (y : Int) = ((x % y : Nat) : Int) := by
        rw [Int.tmod_eq_emod (by positivity) (by positivity)]; norm_cast
      simp only [h1]
      by_cases hr : x % y = 0
      · have hr0 : ((x % y : Nat) : Int) = 0 := by exact_mod_cast hr
        rw [if_pos hr0]
        have hdvd : y ∣ x := Nat.dvd_of_mod_eq_zero hr
        rw [Nat.gcd_eq_right hdvd]
      · have hr0 : ((x % y : Nat) : Int) ≠ 0 := by exact_mod_cast hr
        rw [if_neg hr0]
        have h2 : (y : Int).tmod ((x % y : Nat) : Int) = ((y % (x % y) : Nat) : Int) := by
          rw [Int.tmod_eq_emod (by positivity) (by positivity)]; norm_cast
        rw [h2]
        have hlt1 : x % y < y := Nat.mod_lt _ (Nat.pos_of_ne_zero hy)
        have hlt2 : y % (x % y) < x % y := Nat.mod_lt _ (Nat.pos_of_ne_zero hr)
        rw [ih (x % y) (y % (x % y)) (by omega)]
        congr 1
        rw [Nat.gcd_comm (x % y) (y % (x % y)), ← Nat.gcd_rec (x % y) y,
          Nat.gcd_comm x y, Nat.gcd_rec y x, Nat.gcd_comm]

/-- For positive arguments `gcd` returns the greatest common divisor. -/
theorem gcd_eq_gcd (a b : Int) (ha : 0 < a) (hb : 0 < b) :
    gcd a b = ((Int.gcd a b : Nat) : Int) := by
  obtain ⟨x, rfl⟩ := Int.eq_ofNat_of_zero_le ha.le
  obtain ⟨y, rfl⟩ := Int.eq_ofNat_of_zero_le hb.le
  unfold gcd
  have hx : ¬ ((x : Int) < 0) := by omega
  have hy : ¬ ((y : Int) < 0) := by omega
  simp only [if_neg hx, if_neg hy]
  rw [gcdLoop_eq_gcd _ x y (by simp)]
  simp [Int.gcd]

/-- C1: for positive sample rates `a` (input) and `b` (output), `GetSimplifiedFraction a b`
has numerator `b / g` and denominator `a / g`, where `g` is the greatest common divisor of
`a` and `b` (which is what `gcd a b` returns), and numerator and denominator are coprime. -/
theorem GetSimplifiedFraction_reduced (a b : Int) (ha : 0 < a) (hb : 0 < b) :
    gcd a b = ((Int.gcd a b : Nat) : Int) ∧
    (GetSimplifiedFraction a b).numerator = b / ((Int.gcd a b : Nat) : Int) ∧
    (GetSimplifiedFraction a b).denominator = a / ((Int.gcd a b : Nat) : Int) ∧
    Int.gcd (GetSimplifiedFraction a b).numerator (GetSimplifiedFraction a b).denominator = 1 := by
  have hg := gcd_eq_gcd a b ha hb
  have hgpos : 0 < Int.gcd a b := Int.gcd_pos_of_ne_zero_left b ha.ne'
  have hg0 : (0 : Int) ≤ ((Int.gcd a b : Nat) : Int) := by positivity
  have hn : (GetSimplifiedFraction a b).numerator = b / ((Int.gcd a b : Nat) : Int) := by
    simp only [GetSimplifiedFraction, hg]
    exact Int.tdiv_eq_ediv hb.le hg0
  have hd : (GetSimplifiedFraction a b).denominator = a / ((Int.gcd a b : Nat) : Int) := by
    simp only [GetSimplifiedFraction, hg]
    exact Int.tdiv_eq_ediv ha.le hg0
  refine ⟨hg, hn, hd, ?_⟩
  rw [hn, hd, Int.gcd_comm]
  exact Int.gcd_div_gcd_div_gcd hgpos

/-- C1 at the rates 44100 and 48000: the reduced ratio is 160 : 147. -/
theorem GetSimplifiedFraction_reduced_witness :
    (0 : Int) < 44100 ∧ (0 : Int) < 48000 ∧
    (GetSimplifiedFraction 44100 48000).numerator = 48000 / ((Int.gcd 44100 48000 : Nat) : Int) ∧
    GetSimplifiedFraction 44100 48000 = ⟨160, 147⟩ :=
  ⟨by decide, by decide,
    (GetSimplifiedFraction_reduced 44100 48000 (by decide) (by decide)).2.1, by decide⟩

/-! ### Properties preserved by the channel loops -/

section Invariants

variable {Flt Dth : Type}

theorem foldl_preserves {α β : Type} (P : β → Prop) (f : β → α → β)
    (h : ∀ b a, P b → P (f b a)) : ∀ (l : List α) (b : β), P b → P (l.foldl f b) := by
  intro l
  induction l with
  | nil => intro b hb; exact hb
  | cons a t ih => intro b hb; exact ih (f b a) (h b a hb)

variable {P : PassState Flt Dth → Prop}

theorem stable_putOrZero (hP : LoopStable P) (Fo : FIRFilterOps Flt) (Channel : Nat) (x : ℚ)
    (ii : Nat) (st : PassState Flt Dth) (h : P st) : P (putOrZero Fo Channel x ii st) :=
  hP.filters st _ h

theorem stable_advanceDi (hP : LoopStable P) (M : Int) (Channel : Nat)
    (st : PassState Flt Dth) (h : P st) : P (advanceDi M Channel st) := by
  unfold advanceDi
  split
  · exact hP.di st _ h
  · exact hP.di st _ h

theorem stable_emitGet (hP : LoopStable P) (Fo : FIRFilterOps Flt) (D : DithererOps Dth)
    (bDither : Bool) (Gain : ℚ) (nChannels Channel : Nat) (st : PassState Flt Dth) (h : P st) :
    P (emitGet Fo D bDither Gain nChannels Channel st) :=
  hP.store D bDither Gain nChannels Channel _ _ (hP.filters st _ h)

theorem stable_emitLazyGet (hP : LoopStable P) (Fo : FIRFilterOps Flt) (D : DithererOps Dth)
    (bDither : Bool) (Gain : ℚ) (L : Int) (nChannels Channel : Nat) (st : PassState Flt Dth)
    (h : P st) : P (emitLazyGet Fo D bDither Gain L nChannels Channel st) :=
  hP.store D bDither Gain nChannels Channel _ _ (hP.filters st _ h)

theorem stable_pathSample (hP : LoopStable P) (Fo : FIRFilterOps Flt) (D : DithererOps Dth)
    (USE_AVX bDither : Bool) (Gain : ℚ) (F : Fraction) (nChannels Channel : Nat) (x : ℚ)
    (st : PassState Flt Dth) (h : P st) :
    P (pathSample Fo D USE_AVX bDither Gain F nChannels Channel x st) := by
  unfold pathSample
  cases selectPath F with
  | copy => exact hP.copy D bDither Gain nChannels Channel x st h
  | decimate =>
    simp only [decimateSample]
    apply stable_advanceDi hP
    split
    · exact stable_emitGet hP Fo D bDither Gain nChannels Channel _ (stable_putOrZero hP Fo Channel x 0 st h)
    · exact stable_putOrZero hP Fo Channel x 0 st h
  | interpolate =>
    simp only [interpolateSample]
    apply foldl_preserves P _ _ _ _ h
    intro b ii hb
    simp only [interpolateStep]
    split
    · exact stable_emitGet hP Fo D bDither Gain nChannels Channel _ (stable_putOrZero hP Fo Channel x ii b hb)
    · exact stable_emitLazyGet hP Fo D bDither Gain _ nChannels Channel _
        (stable_putOrZero hP Fo Channel x ii b hb)
  | interpolateDecimate =>
    simp only [interpolateDecimateSample]
    apply foldl_preserves P _ _ _ _ h
    intro b ii hb
    simp only [interpolateDecimateStep]
    apply stable_advanceDi hP
    split
    · exact stable_emitLazyGet hP Fo D bDither Gain _ nChannels Channel _
        (stable_putOrZero hP Fo Channel x ii b hb)
    · exact stable_putOrZero hP Fo Channel x ii b hb

theorem stable_processBlock (hP : LoopStable P) (Fo : FIRFilterOps Flt) (D : DithererOps Dth)
    (USE_AVX bDither : Bool) (Gain : ℚ) (F : Fraction) (nChannels : Nat) (blk : List ℚ)
    (st : PassState Flt Dth) (h : P st) :
    P (processBlock (pathSample Fo D USE_AVX bDither Gain F nChannels) nChannels blk st) := by
  unfold processBlock
  apply foldl_preserves P _ _ _ _ h
  intro b Channel hb
  unfold channelLoop
  apply foldl_preserves P _ _ _ _ (hP.restart b hb)
  intro b1 k hb1
  exact stable_pathSample hP Fo D USE_AVX bDither Gain F nChannels Channel _ b1 hb1

theorem peakBound_stable : LoopStable (@PeakBound Flt Dth) where
  filters := fun st f h => h
  di := fun st d h => h
  restart := fun st h => h
  store := by
    intro D bDither Gain nChannels Channel v st h
    constructor
    · intro j
      simp only [storeSample, Function.update_apply]
      split
      · exact le_max_right _ _
      · exact le_trans (h.1 j) (le_max_left _ _)
    · intro y hy
      exact le_trans (h.2 y hy) (le_max_left _ _)
  copy := by
    intro D bDither Gain nChannels Channel v st h
    constructor
    · intro j
      simp only [copySample, Function.update_apply]
      split
      · exact le_max_right _ _
      · exact le_trans (h.1 j) (le_trans (le_abs_self _) (le_max_left _ _))
    · intro y hy
      exact le_trans (h.2 y hy) (le_trans (le_abs_self _) (le_max_left _ _))

theorem mem_bufferSlice {buf : Nat → ℚ} {start count : Nat} {y : ℚ}
    (h : y ∈ bufferSlice buf start count) : ∃ j, y = buf j := by
  simp only [bufferSlice, List.mem_map] at h
  obtain ⟨i, _, hi⟩ := h
  exact ⟨start + i, hi.symm⟩

theorem peakBound_blockStep (Fo : FIRFilterOps Flt) (D : DithererOps Dth)
    (USE_AVX bDither : Bool) (Gain : ℚ) (F : Fraction) (nChannels : Nat) (blk : List ℚ)
    (st : PassState Flt Dth) (h : PeakBound st) :
    PeakBound (blockStep Fo D USE_AVX bDither Gain F nChannels blk st) := by
  have h1 := stable_processBlock peakBound_stable Fo D USE_AVX bDither Gain F nChannels blk st h
  unfold blockStep
  have hw : ∀ s : PassState Flt Dth, PeakBound s → PeakBound (writeAll s) := by
    intro s hs
    refine ⟨hs.1, ?_⟩
    intro y hy
    simp only [writeAll, List.mem_append] at hy
    rcases hy with hy | hy
    · exact hs.2 y hy
    · obtain ⟨j, rfl⟩ := mem_bufferSlice hy
      exact hs.1 j
  simp only []
  split
  · exact hw _ h1
  · unfold writeTrimmed
    split
    · exact hw _ h1
    · refine ⟨h1.1, ?_⟩
      intro y hy
      simp only [List.mem_append] at hy
      rcases hy with hy | hy
      · exact h1.2 y hy
      · obtain ⟨j, rfl⟩ := mem_bufferSlice hy
        exact h1.1 j

theorem blockLoop_preserves {σ : Type} (P : σ → Prop) (body : List ℚ → σ → σ)
    (h : ∀ blk st, P st → P (body blk st)) :
    ∀ (blocks : List (List ℚ)) (st : σ), P st → P (blockLoop body blocks st) := by
  intro blocks
  induction blocks with
  | nil => intro st hst; exact h [] st hst
  | cons blk rest ih =>
    intro st hst
    unfold blockLoop
    split
    · exact ih _ (h blk st hst)
    · exact h blk st hst

theorem peakBound_runPass (Fo : FIRFilterOps Flt) (D : DithererOps Dth)
    (USE_AVX bDither : Bool) (F : Fraction) (nChannels BufferSize : Nat) (gd : Int)
    (blocks : List (List ℚ)) (Gain : ℚ) (Filters : Nat → Flt) (Ditherers : Nat → Dth) :
    PeakBound (runPass Fo D USE_AVX bDither F nChannels BufferSize gd blocks Gain Filters Ditherers) := by
  unfold runPass
  apply blockLoop_preserves PeakBound _ (fun blk st hst => peakBound_blockStep Fo D USE_AVX bDither Gain F nChannels blk st hst)
  constructor
  · intro j; simp [passStart]
  · intro y hy; simp [passStart] at hy

end Invariants

/-! ### Group delay -/

/-- C10: the group delay used for trimming is `(FilterSize - 1) / 2 / M`, in integer division,
with `M` the denominator of the reduced ratio before oversampling, when minimum phase is off and
delay trimming is on; it is 0 when minimum phase is on or delay trimming is off. -/
theorem groupDelay_cases (ci : conversionInfo) (FilterSize : Int) (FOriginal : Fraction) :
    (ci.bMinPhase = false ∧ ci.bDelayTrim = true →
      groupDelay ci FilterSize FOriginal = ((FilterSize - 1).tdiv 2).tdiv FOriginal.denominator ∧
      (1 ≤ FilterSize → 0 ≤ FOriginal.denominator →
        groupDelay ci FilterSize FOriginal = (FilterSize - 1) / 2 / FOriginal.denominator)) ∧
    (ci.bMinPhase = true ∨ ci.bDelayTrim = false → groupDelay ci FilterSize FOriginal = 0) := by
  constructor
  · rintro ⟨h1, h2⟩
    have h : groupDelay ci FilterSize FOriginal
        = ((FilterSize - 1).tdiv 2).tdiv FOriginal.denominator := by
      simp [groupDelay, h1, h2]
    refine ⟨h, fun hN hM => ?_⟩
    have e1 : (FilterSize - 1).tdiv 2 = (FilterSize - 1) / 2 :=
      Int.tdiv_eq_ediv (by omega) (by norm_num)
    rw [h, e1, Int.tdiv_eq_ediv (Int.ediv_nonneg (by omega) (by norm_num)) hM]
  · rintro (h | h)
    · simp [groupDelay, h]
    · simp [groupDelay, h]

/-- C10 for a 16001-tap linear-phase filter and the ratio 160 : 147: the delay is 54 frames. -/
theorem groupDelay_cases_witness :
    groupDelay {} 16001 ⟨160, 147⟩ = (Int.tdiv (Int.tdiv (16001 - 1) 2) 147) ∧
    groupDelay {} 16001 ⟨160, 147⟩ = 54 ∧
    groupDelay { bMinPhase := true } 16001 ⟨160, 147⟩ = 0 :=
  ⟨((groupDelay_cases {} 16001 ⟨160, 147⟩).1 ⟨rfl, rfl⟩).1, by decide,
    (groupDelay_cases { bMinPhase := true } 16001 ⟨160, 147⟩).2 (Or.inl rfl)⟩

/-! ### Gain -/

/-- C5: after a pass whose peak exceeds `Limit` the gain becomes the previous gain times
`clippingTrim * Limit / peak`, and with clipping protection on the next pass runs with that
gain; after a pass whose peak is at most `Limit` the gain is unchanged and the loop ends with
that pass. -/
theorem gain_after_pass {Flt Dth : Type} (Fo : FIRFilterOps Flt) (D : DithererOps Dth)
    (build : BuildConfig) (ci : conversionInfo) (F : Fraction) (nChannels BufferSize : Nat)
    (gd : Int) (blocks : List (List ℚ)) (fuel done : Nat) (Gain : ℚ) (Filters : Nat → Flt)
    (Ditherers : Nat → Dth) (st : PassState Flt Dth)
    (hst : st = runPass Fo D build.USE_AVX ci.bDither F nChannels BufferSize gd blocks Gain
      Filters Ditherers) :
    (ci.Limit < st.PeakOutputSample →
      gainAfterPass build.clippingTrim ci.Limit st.PeakOutputSample Gain
        = Gain * (build.clippingTrim * ci.Limit / st.PeakOutputSample) ∧
      (ci.disableClippingProtection = false →
        clippingLoop Fo D build ci F nChannels BufferSize gd blocks (fuel + 1) done Gain
            Filters Ditherers
          = clippingLoop Fo D build ci F nChannels BufferSize gd blocks fuel (done + 1)
              (Gain * (build.clippingTrim * ci.Limit / st.PeakOutputSample))
              (fun c => Fo.reset (st.Filters c))
              (if ci.bDither then
                fun c => D.reset (D.adjustGain (st.Ditherers c)
                  (build.clippingTrim * ci.Limit / st.PeakOutputSample))
               else st.Ditherers))) ∧
    (st.PeakOutputSample ≤ ci.Limit →
      gainAfterPass build.clippingTrim ci.Limit st.PeakOutputSample Gain = Gain ∧
      clippingLoop Fo D build ci F nChannels BufferSize gd blocks (fuel + 1) done Gain
          Filters Ditherers
        = some
            { outFile := st.outFile
              PeakOutputSample := st.PeakOutputSample
              Gain := Gain
              passes := done + 1 }) := by
  subst hst
  constructor
  · intro h
    refine ⟨by simp [gainAfterPass, GainAdjustment, h], fun hd => ?_⟩
    rw [clippingLoop]
    simp [hd, h, gainAfterPass, GainAdjustment]
  · intro h
    refine ⟨by simp [gainAfterPass, not_lt.mpr h], ?_⟩
    rw [clippingLoop]
    simp [not_lt.mpr h]

section

variable {Flt Dth : Type}

end

/-- The 1:1 pass over the one-sample mono file `[2]` with gain 1 has peak 2. -/
theorem runPass_example_two :
    (runPass oneTapFilter passThroughDitherer false false ⟨1, 1⟩ 1 8 0 [[2]] 1 (fun _ => 0)
      (fun _ => ())).PeakOutputSample = 2 := by
  simp [runPass, blockLoop, blockStep, processBlock, channelLoop, frameCount, pathSample,
    selectPath, copySample, writeAll, bufferSlice, passStart, List.range_succ]

/-- C5 on the one-sample mono file `[2]` with limit 1 and `clippingTrim = 9/10`: the first pass
has peak 2, so the gain 1 becomes `1 * (9/10 * 1 / 2)`. -/
theorem gain_after_pass_witness :
    gainAfterPass (9 / 10) 1
      (runPass oneTapFilter passThroughDitherer false false ⟨1, 1⟩ 1 8 0 [[2]] 1 (fun _ => 0)
        (fun _ => ())).PeakOutputSample 1
      = 1 * (9 / 10 * 1 /
          (runPass oneTapFilter passThroughDitherer false false ⟨1, 1⟩ 1 8 0 [[2]] 1 (fun _ => 0)
            (fun _ => ())).PeakOutputSample) :=
  ((gain_after_pass oneTapFilter passThroughDitherer { BUFFERSIZE := 8, clippingTrim := 9 / 10 }
    {} ⟨1, 1⟩ 1 8 0 [[2]] 0 0 1 (fun _ => 0) (fun _ => ()) _ rfl).1
    (by rw [runPass_example_two]; norm_num)).1

/-! ### Normalization and a silent input -/

/-- C7, as amended: with normalization on the measured peak is used as it is.  For a peak that
is not zero the initial gain is `user_gain * (L * (limit / peak))`, times the dither compensation
when dither is on; for a peak of zero the division `limit / peak` has no finite value and no
gain is produced. -/
theorem initialGain_normalize (pow : ℚ → ℚ → ℚ) (ci : conversionInfo) (F : Fraction) (Peak : ℚ)
    (bits : Int) (hN : ci.bNormalize = true) :
    (Peak ≠ 0 →
      initialGain pow ci F Peak bits
        = some (ci.gain * ((F.numerator : ℚ) * (ci.Limit / Peak)) *
            (if ci.bDither then DitherCompensation pow bits ci.DitherAmount else 1))) ∧
    (Peak = 0 → initialGain pow ci F Peak bits = none) := by
  constructor
  · intro hP
    cases hD : ci.bDither <;> simp [initialGain, fdiv, hN, hP, hD]
  · intro hP
    simp [initialGain, fdiv, hN, hP]

/-- C7, as amended, at the peak 1/2 with limit 1, gain 1 and `L = 1`: the gain is 2. -/
theorem initialGain_normalize_witness :
    initialGain (fun _ _ => 1) { bNormalize := true } ⟨1, 1⟩ (1 / 2) 16
      = some (1 * (((1 : Int) : ℚ) * (1 / (1 / 2))) * 1) :=
  (initialGain_normalize (fun _ _ => 1) { bNormalize := true } ⟨1, 1⟩ (1 / 2) 16 rfl).1
    (by norm_num)

/-- C7 fails on a silent stereo frame: the peak scan measures 0, and the initial gain is not
`user_gain * limit * L = 1` but has no finite value, so that `Convert` produces no result. -/
theorem initialGain_silent_counterexample :
    PeakInputSample true true [[0, 0]] = 0 ∧
    initialGain (fun _ _ => 1) { bNormalize := true } ⟨1, 1⟩ (PeakInputSample true true [[0, 0]]) 16
      ≠ some (1 * 1 * 1) ∧
    Convert oneTapFilter passThroughDitherer (fun _ _ => 1) { BUFFERSIZE := 8, clippingTrim := 9 / 10 }
      { bNormalize := true } true { channels := 2, samplerate := 44100, blocks := [[0, 0]] }
      1001 0 0 (fun _ => ()) 5 = none := by
  have hp : PeakInputSample true true [[0, 0]] = 0 := by
    simp [PeakInputSample, blockLoop, scanBlock]
  have hF : GetSimplifiedFraction 44100 44100 = ⟨1, 1⟩ := by decide
  refine ⟨hp, ?_, ?_⟩
  · rw [hp]; simp [initialGain, fdiv]
  · simp only [Convert, hF, hp]
    simp [initialGain, fdiv]

/-! ### Counting the samples stored by the channel loops -/

theorem phaseAfter_add (M : Int) (a b : Nat) (di : Int) :
    phaseAfter M (a + b) di = phaseAfter M b (phaseAfter M a di) := by
  induction a generalizing di with
  | zero => simp [phaseAfter]
  | succ n ih => rw [Nat.succ_add]; simp [phaseAfter, ih]

theorem emitCount_add (M : Int) (a b : Nat) (di : Int) :
    emitCount M (a + b) di = emitCount M a di + emitCount M b (phaseAfter M a di) := by
  induction a generalizing di with
  | zero => simp [emitCount, phaseAfter]
  | succ n ih => rw [Nat.succ_add]; simp [emitCount, phaseAfter, ih, Nat.add_assoc]

theorem phaseAfter_one_zero (T : Nat) : phaseAfter 1 T 0 = 0 := by
  induction T with
  | zero => rfl
  | succ n ih => simpa [phaseAfter, nextPhase] using ih

theorem emitCount_one_zero (T : Nat) : emitCount 1 T 0 = T := by
  induction T with
  | zero => rfl
  | succ n ih => simp [emitCount, nextPhase, ih, Nat.add_comm]

/-- With the counter at `N mod m` after `N` rounds, `T` more rounds leave it at
`(N + T) mod m` and store `⌈(N + T) / m⌉ - ⌈N / m⌉` samples. -/
theorem phase_closed_form (m : Nat) (hm : 1 ≤ m) (T : Nat) :
    ∀ N : Nat, phaseAfter (m : Int) T ((N % m : Nat) : Int) = (((N + T) % m : Nat) : Int) ∧
      emitCount (m : Int) T ((N % m : Nat) : Int) + (N + m - 1) / m = (N + T + m - 1) / m := by
  induction T with
  | zero => intro N; simp [phaseAfter, emitCount]
  | succ n ih =>
    intro N
    have hnext : nextPhase (m : Int) ((N % m : Nat) : Int) = (((N + 1) % m : Nat) : Int) := by
      unfold nextPhase
      have hlt : N % m < m := Nat.mod_lt _ hm
      by_cases h : N % m + 1 = m
      · have h1 : ((N % m : Nat) : Int) + 1 = (m : Int) := by exact_mod_cast h
        rw [if_pos h1]
        have : (N + 1) % m = 0 := by
          rw [← Nat.mod_add_mod N m 1, h, Nat.mod_self]
        simp [this]
      · have h1 : ¬ (((N % m : Nat) : Int) + 1 = (m : Int)) := by exact_mod_cast h
        rw [if_neg h1]
        have : (N + 1) % m = N % m + 1 := by
          rw [← Nat.mod_add_mod N m 1, Nat.mod_eq_of_lt (by omega)]
        rw [this]; push_cast; ring
    have h := ih (N + 1)
    constructor
    · simp only [phaseAfter, hnext]
      rw [h.1]; congr 2; omega
    · simp only [emitCount, hnext]
      have h2 := h.2
      have hstep : (N + 1 + m - 1) / m = (N + m - 1) / m + (if N % m = 0 then 1 else 0) := by
        have e1 : N + 1 + m - 1 = (N + m - 1) + 1 := by omega
        rw [e1, Nat.succ_div]
        congr 1
        have e2 : N + m - 1 + 1 = N + m := by omega
        rw [e2]
        by_cases h0 : N % m = 0
        · simp [h0, Nat.dvd_of_mod_eq_zero h0]
        · have : ¬ m ∣ N + m := by
            intro hd
            exact h0 (Nat.mod_eq_zero_of_dvd ((Nat.dvd_add_left (dvd_refl m)).mp hd))
          simp [h0, this]
      have hcast : (((N % m : Nat) : Int) = 0) ↔ N % m = 0 := by exact_mod_cast Iff.rfl
      have e3 : N + (n + 1) + m - 1 = N + 1 + n + m - 1 := by omega
      rw [e3, ← h2, hstep]
      by_cases h0 : N % m = 0
      · simp [h0]; omega
      · simp [h0, hcast]; omega

section Counting

variable {Flt Dth : Type}

theorem selectPath_copy {F : Fraction} (h : selectPath F = Path.copy) :
    F.numerator = 1 ∧ F.denominator = 1 := by
  unfold selectPath at h
  split_ifs at h with h1
  exact h1

theorem selectPath_decimate {F : Fraction} (h : selectPath F = Path.decimate) :
    F.numerator = 1 ∧ F.denominator ≠ 1 := by
  unfold selectPath at h
  split_ifs at h with h1 h2
  exact h2

theorem selectPath_interpolate {F : Fraction} (h : selectPath F = Path.interpolate) :
    F.denominator = 1 := by
  unfold selectPath at h
  split_ifs at h with h1 h2 h3
  exact h3

theorem advanceDi_di (M : Int) (c : Nat) (st : PassState Flt Dth) :
    (advanceDi M c st).di = Function.update st.di c (nextPhase M (st.di c)) := by
  unfold advanceDi nextPhase
  split <;> simp [*]

theorem advanceDi_OutBufferIndex (M : Int) (c : Nat) (st : PassState Flt Dth) :
    (advanceDi M c st).OutBufferIndex = st.OutBufferIndex := by
  unfold advanceDi
  split <;> rfl

theorem decimateSample_count (Fo : FIRFilterOps Flt) (D : DithererOps Dth) (bDither : Bool)
    (Gain : ℚ) (M : Int) (nChannels c : Nat) (x : ℚ) (st : PassState Flt Dth) :
    (decimateSample Fo D bDither Gain M nChannels c x st).OutBufferIndex
        = st.OutBufferIndex + nChannels * emitCount M 1 (st.di c) ∧
      (decimateSample Fo D bDither Gain M nChannels c x st).di
        = Function.update st.di c (phaseAfter M 1 (st.di c)) := by
  unfold decimateSample
  simp only [advanceDi_di, advanceDi_OutBufferIndex, emitCount, phaseAfter]
  by_cases h : st.di c = 0
  · simp [putOrZero, emitGet, storeSample, h]
  · simp [putOrZero, h]

theorem interpolateDecimateStep_count (Fo : FIRFilterOps Flt) (D : DithererOps Dth)
    (bDither : Bool) (Gain : ℚ) (L M : Int) (nChannels c : Nat) (x : ℚ)
    (st : PassState Flt Dth) (ii : Nat) :
    (interpolateDecimateStep Fo D bDither Gain L M nChannels c x st ii).OutBufferIndex
        = st.OutBufferIndex + nChannels * emitCount M 1 (st.di c) ∧
      (interpolateDecimateStep Fo D bDither Gain L M nChannels c x st ii).di
        = Function.update st.di c (phaseAfter M 1 (st.di c)) := by
  unfold interpolateDecimateStep
  simp only [advanceDi_di, advanceDi_OutBufferIndex, emitCount, phaseAfter]
  by_cases h : st.di c = 0
  · simp [putOrZero, emitLazyGet, storeSample, h]
  · simp [putOrZero, h]

theorem interpolateDecimateSample_count (Fo : FIRFilterOps Flt) (D : DithererOps Dth)
    (bDither : Bool) (Gain : ℚ) (L M : Int) (nChannels c : Nat) (x : ℚ)
    (st : PassState Flt Dth) (k : Nat) :
    ((List.range k).foldl (interpolateDecimateStep Fo D bDither Gain L M nChannels c x)
          st).OutBufferIndex
        = st.OutBufferIndex + nChannels * emitCount M k (st.di c) ∧
      ((List.range k).foldl (interpolateDecimateStep Fo D bDither Gain L M nChannels c x)
          st).di
        = Function.update st.di c (phaseAfter M k (st.di c)) := by
  induction k with
  | zero => simp [emitCount, phaseAfter]
  | succ n ih =>
    rw [List.range_succ, List.foldl_append]
    simp only [List.foldl_cons, List.foldl_nil]
    have h := interpolateDecimateStep_count Fo D bDither Gain L M nChannels c x
      ((List.range n).foldl (interpolateDecimateStep Fo D bDither Gain L M nChannels c x) st) n
    rw [h.1, h.2, ih.1, ih.2]
    simp only [Function.update_same, Function.update_idem]
    rw [emitCount_add, phaseAfter_add]
    constructor
    · ring
    · rfl

theorem interpolateSample_count (Fo : FIRFilterOps Flt) (D : DithererOps Dth)
    (USE_AVX bDither : Bool) (Gain : ℚ) (L : Int) (nChannels c : Nat) (x : ℚ)
    (st : PassState Flt Dth) (k : Nat) :
    ((List.range k).foldl (interpolateStep Fo D USE_AVX bDither Gain L nChannels c x)
          st).OutBufferIndex
        = st.OutBufferIndex + nChannels * k ∧
      ((List.range k).foldl (interpolateStep Fo D USE_AVX bDither Gain L nChannels c x)
          st).di = st.di := by
  induction k with
  | zero => simp
  | succ n ih =>
    rw [List.range_succ, List.foldl_append]
    simp only [List.foldl_cons, List.foldl_nil]
    constructor
    · have : ∀ s : PassState Flt Dth,
          (interpolateStep Fo D USE_AVX bDither Gain L nChannels c x s n).OutBufferIndex
            = s.OutBufferIndex + nChannels := by
        intro s
        unfold interpolateStep
        split <;> rfl
      rw [this, ih.1]; ring
    · have : ∀ s : PassState Flt Dth,
          (interpolateStep Fo D USE_AVX bDither Gain L nChannels c x s n).di = s.di := by
        intro s
        unfold interpolateStep
        split <;> rfl
      rw [this, ih.2]

/-- What one round of the loop over `s` does to `OutBufferIndex` and to the decimation
counters, on every path. -/
theorem pathSample_count (Fo : FIRFilterOps Flt) (D : DithererOps Dth) (USE_AVX bDither : Bool)
    (Gain : ℚ) (F : Fraction) (nChannels c : Nat) (x : ℚ) (st : PassState Flt Dth)
    (hdi : F.denominator = 1 → st.di c = 0) :
    (pathSample Fo D USE_AVX bDither Gain F nChannels c x st).OutBufferIndex
        = st.OutBufferIndex + nChannels * emitCount F.denominator F.numerator.toNat (st.di c) ∧
      (pathSample Fo D USE_AVX bDither Gain F nChannels c x st).di
        = Function.update st.di c (phaseAfter F.denominator F.numerator.toNat (st.di c)) := by
  cases hp : selectPath F with
  | copy =>
    simp only [pathSample, hp]
    obtain ⟨h1, h2⟩ := selectPath_copy hp
    have h0 := hdi h2
    rw [h1, h2, h0]
    simp only [Int.toNat_one, emitCount_one_zero, phaseAfter_one_zero]
    constructor
    · simp [copySample]
    · rw [← h0, Function.update_eq_self]; rfl
  | decimate =>
    simp only [pathSample, hp]
    obtain ⟨h1, h2⟩ := selectPath_decimate hp
    rw [h1]
    exact decimateSample_count Fo D bDither Gain F.denominator nChannels c x st
  | interpolate =>
    simp only [pathSample, hp]
    have h2 := selectPath_interpolate hp
    have h0 := hdi h2
    rw [h2, h0]
    simp only [emitCount_one_zero, phaseAfter_one_zero]
    have h := interpolateSample_count Fo D USE_AVX bDither Gain F.numerator nChannels c x st
      F.numerator.toNat
    refine ⟨h.1, ?_⟩
    rw [← h0, Function.update_eq_self]
    exact h.2
  | interpolateDecimate =>
    simp only [pathSample, hp]
    exact interpolateDecimateSample_count Fo D bDither Gain F.numerator F.denominator
      nChannels c x st F.numerator.toNat

theorem channelLoop_count (Fo : FIRFilterOps Flt) (D : DithererOps Dth) (USE_AVX bDither : Bool)
    (Gain : ℚ) (F : Fraction) (nChannels c : Nat) (blk : List ℚ) (st : PassState Flt Dth)
    (hdi : F.denominator = 1 → st.di c = 0) :
    (channelLoop (pathSample Fo D USE_AVX bDither Gain F nChannels) nChannels blk st
          c).OutBufferIndex
        = nChannels * emitCount F.denominator
            (frameCount blk.length nChannels * F.numerator.toNat) (st.di c) ∧
      (channelLoop (pathSample Fo D USE_AVX bDither Gain F nChannels) nChannels blk st c).di
        = Function.update st.di c
            (phaseAfter F.denominator (frameCount blk.length nChannels * F.numerator.toNat)
              (st.di c)) := by
  unfold channelLoop
  generalize frameCount blk.length nChannels = fr
  induction fr with
  | zero => simp [emitCount, phaseAfter]
  | succ n ih =>
    rw [List.range_succ, List.foldl_append]
    simp only [List.foldl_cons, List.foldl_nil]
    have hdi1 : F.denominator = 1 →
        ((List.range n).foldl
          (fun acc k =>
            pathSample Fo D USE_AVX bDither Gain F nChannels c
              (blk.getD (k * nChannels + c) 0) acc)
          { st with OutBufferIndex := 0 }).di c = 0 := by
      intro h1
      rw [ih.2, Function.update_same, h1, hdi h1, phaseAfter_one_zero]
    have h := pathSample_count Fo D USE_AVX bDither Gain F nChannels c
      (blk.getD (n * nChannels + c) 0) _ hdi1
    rw [h.1, h.2, ih.1, ih.2]
    simp only [Function.update_same, Function.update_idem]
    rw [Nat.succ_mul, emitCount_add, phaseAfter_add]
    constructor
    · ring
    · rfl

theorem processBlock_count (Fo : FIRFilterOps Flt) (D : DithererOps Dth) (USE_AVX bDither : Bool)
    (Gain : ℚ) (F : Fraction) (nChannels : Nat) (blk : List ℚ) (st : PassState Flt Dth)
    (p : Int) (hp : ∀ c, c < nChannels → st.di c = p) (hp1 : F.denominator = 1 → p = 0) :
    (∀ c, c < nChannels →
        (processBlock (pathSample Fo D USE_AVX bDither Gain F nChannels) nChannels blk st).di c
          = phaseAfter F.denominator (frameCount blk.length nChannels * F.numerator.toNat) p) ∧
      (1 ≤ nChannels →
        (processBlock (pathSample Fo D USE_AVX bDither Gain F nChannels) nChannels blk
            st).OutBufferIndex
          = nChannels * emitCount F.denominator
              (frameCount blk.length nChannels * F.numerator.toNat) p) := by
  unfold processBlock
  have key : ∀ n, n ≤ nChannels →
      (∀ c, c < n →
        ((List.range n).foldl
            (channelLoop (pathSample Fo D USE_AVX bDither Gain F nChannels) nChannels blk) st).di c
          = phaseAfter F.denominator (frameCount blk.length nChannels * F.numerator.toNat) p) ∧
      (∀ c, n ≤ c →
        ((List.range n).foldl
            (channelLoop (pathSample Fo D USE_AVX bDither Gain F nChannels) nChannels blk) st).di c
          = st.di c) ∧
      (1 ≤ n →
        ((List.range n).foldl
            (channelLoop (pathSample Fo D USE_AVX bDither Gain F nChannels) nChannels blk)
            st).OutBufferIndex
          = nChannels * emitCount F.denominator
              (frameCount blk.length nChannels * F.numerator.toNat) p) := by
    intro n
    induction n with
    | zero =>
      intro _
      refine ⟨fun c hc => absurd hc (Nat.not_lt_zero c), fun c _ => rfl, fun h => absurd h (by omega)⟩
    | succ n ih =>
      intro hn
      obtain ⟨ih1, ih2, _⟩ := ih (by omega)
      rw [List.range_succ, List.foldl_append]
      simp only [List.foldl_cons, List.foldl_nil]
      have hn' : ((List.range n).foldl
            (channelLoop (pathSample Fo D USE_AVX bDither Gain F nChannels) nChannels blk) st).di n
          = p := by
        rw [ih2 n (le_refl n)]; exact hp n (by omega)
      have h := channelLoop_count Fo D USE_AVX bDither Gain F nChannels n blk
        ((List.range n).foldl
            (channelLoop (pathSample Fo D USE_AVX bDither Gain F nChannels) nChannels blk) st)
        (fun h1 => by rw [hn']; exact hp1 h1)
      rw [hn'] at h
      refine ⟨fun c hc => ?_, fun c hc => ?_, fun _ => h.1⟩
      · rw [h.2]
        by_cases hcn : c = n
        · subst hcn; simp
        · rw [Function.update_noteq hcn]; exact ih1 c (by omega)
      · rw [h.2, Function.update_noteq (by omega)]
        exact ih2 c (by omega)
  obtain ⟨k1, _, k3⟩ := key nChannels (le_refl _)
  exact ⟨k1, k3⟩

/-! ### The write at the end of a block -/

theorem ioStable (a : List ℚ) (b : Int) :
    LoopStable (fun st : PassState Flt Dth => st.outFile = a ∧ st.outStartOffset = b) where
  filters := fun _ _ h => h
  di := fun _ _ h => h
  restart := fun _ h => h
  store := fun _ _ _ _ _ _ _ h => h
  copy := fun _ _ _ _ _ _ _ h => h

theorem processBlock_io (Fo : FIRFilterOps Flt) (D : DithererOps Dth) (USE_AVX bDither : Bool)
    (Gain : ℚ) (F : Fraction) (nChannels : Nat) (blk : List ℚ) (st : PassState Flt Dth) :
    (processBlock (pathSample Fo D USE_AVX bDither Gain F nChannels) nChannels blk st).outFile
        = st.outFile ∧
      (processBlock (pathSample Fo D USE_AVX bDither Gain F nChannels) nChannels blk
          st).outStartOffset = st.outStartOffset :=
  stable_processBlock (ioStable st.outFile st.outStartOffset) Fo D USE_AVX bDither Gain F
    nChannels blk st ⟨rfl, rfl⟩

theorem bufferSlice_length (buf : Nat → ℚ) (start count : Nat) :
    (bufferSlice buf start count).length = count := by
  simp [bufferSlice]

theorem bufferSlice_drop (buf : Nat → ℚ) (k n : Nat) :
    bufferSlice buf k (n - k) = (bufferSlice buf 0 n).drop k := by
  apply List.ext_getElem
  · simp [bufferSlice]
  · intro i h1 h2
    simp [bufferSlice]

theorem writeTrimmed_outFile (st : PassState Flt Dth) :
    (writeTrimmed st).outFile
      = st.outFile ++ (bufferSlice st.OutBuffer 0 st.OutBufferIndex).drop st.outStartOffset.toNat := by
  unfold writeTrimmed
  split
  · rename_i h
    have : st.outStartOffset.toNat = 0 := by omega
    simp [writeAll, this]
  · rename_i h
    have : ((st.OutBufferIndex : Int) - st.outStartOffset).toNat
        = st.OutBufferIndex - st.outStartOffset.toNat := by omega
    simp only [this, bufferSlice_drop]

theorem writeTrimmed_outStartOffset (st : PassState Flt Dth) :
    (writeTrimmed st).outStartOffset ≤ 0 := by
  unfold writeTrimmed
  split
  · rename_i h; exact h
  · exact le_refl _

theorem writeTrimmed_di (st : PassState Flt Dth) : (writeTrimmed st).di = st.di := by
  unfold writeTrimmed
  split <;> rfl

/-- The effect of one round of the block loop on a resampling path: the samples stored by the
channel loops are appended to the file, without the first `outStartOffset` of them. -/
theorem blockStep_resample (Fo : FIRFilterOps Flt) (D : DithererOps Dth) (USE_AVX bDither : Bool)
    (Gain : ℚ) (F : Fraction) (nChannels : Nat) (blk : List ℚ) (st : PassState Flt Dth)
    (hpath : selectPath F ≠ Path.copy) :
    (blockStep Fo D USE_AVX bDither Gain F nChannels blk st).outFile
        = st.outFile ++
          (bufferSlice
            (processBlock (pathSample Fo D USE_AVX bDither Gain F nChannels) nChannels blk
              st).OutBuffer 0
            (processBlock (pathSample Fo D USE_AVX bDither Gain F nChannels) nChannels blk
              st).OutBufferIndex).drop st.outStartOffset.toNat ∧
      (blockStep Fo D USE_AVX bDither Gain F nChannels blk st).outStartOffset ≤ 0 ∧
      (blockStep Fo D USE_AVX bDither Gain F nChannels blk st).di
        = (processBlock (pathSample Fo D USE_AVX bDither Gain F nChannels) nChannels blk st).di := by
  unfold blockStep
  simp only [if_neg hpath]
  have hio := processBlock_io Fo D USE_AVX bDither Gain F nChannels blk st
  refine ⟨?_, writeTrimmed_outStartOffset _, writeTrimmed_di _⟩
  rw [writeTrimmed_outFile, hio.1, hio.2]

/-! ### Sizes -/

theorem frameCount_le (len nChannels BufferSize : Nat) (hn : 1 ≤ nChannels)
    (hB : nChannels ∣ BufferSize) (hlen : len ≤ BufferSize) :
    frameCount len nChannels ≤ BufferSize / nChannels := by
  obtain ⟨k, rfl⟩ := hB
  unfold frameCount
  rw [Nat.mul_div_cancel_left k (by omega)]
  have h1 : len + nChannels - 1 < nChannels * (k + 1) := by
    rw [Nat.mul_add]; omega
  have := (Nat.div_lt_iff_lt_mul (by omega : 0 < nChannels)).mpr (by rw [Nat.mul_comm] at h1; exact h1)
  omega

theorem frameCount_of_dvd (len nChannels : Nat) (hn : 1 ≤ nChannels) (h : nChannels ∣ len) :
    frameCount len nChannels = len / nChannels := by
  obtain ⟨k, rfl⟩ := h
  unfold frameCount
  rw [Nat.mul_div_cancel_left k (by omega)]
  apply Nat.div_eq_of_lt_le
  · rw [Nat.mul_comm]; omega
  · rw [Nat.succ_mul, Nat.mul_comm]; omega

/-- The samples that one block of at most `BufferSize` samples produces fit in
`OutBufferSize - nChannels` slots. -/
theorem first_block_fits (fr l m nChannels BufferSize : Nat) (hm : 1 ≤ m)
    (hfr : fr * nChannels ≤ BufferSize) :
    nChannels * ((fr * l + m - 1) / m) ≤ nChannels + BufferSize * l / m := by
  have h1 : (fr * l + m - 1) / m ≤ fr * l / m + 1 := by
    have : (fr * l + m - 1) / m ≤ (fr * l + m) / m := Nat.div_le_div_right (by omega)
    rwa [Nat.add_div_right _ (by omega)] at this
  have h2 : nChannels * (fr * l / m) ≤ BufferSize * l / m := by
    rw [Nat.le_div_iff_mul_le (by omega)]
    calc nChannels * (fr * l / m) * m = nChannels * (fr * l / m * m) := by ring
      _ ≤ nChannels * (fr * l) := Nat.mul_le_mul_left _ (Nat.div_mul_le_self _ _)
      _ = fr * nChannels * l := by ring
      _ ≤ BufferSize * l := Nat.mul_le_mul_right _ hfr
  calc nChannels * ((fr * l + m - 1) / m) ≤ nChannels * (fr * l / m + 1) :=
        Nat.mul_le_mul_left _ h1
    _ = nChannels * (fr * l / m) + nChannels := by ring
    _ ≤ nChannels + BufferSize * l / m := by omega

theorem OutBufferSize_cast (nChannels BufferSize : Nat) (F : Fraction) (l m : Nat)
    (hL : F.numerator = (l : Int)) (hM : F.denominator = (m : Int)) :
    OutBufferSize nChannels BufferSize F - (nChannels : Int)
      = ((nChannels + BufferSize * l / m : Nat) : Int) := by
  unfold OutBufferSize
  rw [hL, hM, Int.tdiv_eq_ediv (by positivity) (by positivity)]
  push_cast
  ring

/-! ### The length of the output file of a pass -/

theorem blockLoop_length (Fo : FIRFilterOps Flt) (D : DithererOps Dth) (USE_AVX bDither : Bool)
    (Gain : ℚ) (F : Fraction) (nChannels : Nat) (l m : Nat)
    (hL : F.numerator = (l : Int)) (hM : F.denominator = (m : Int)) (hm : 1 ≤ m)
    (hn : 1 ≤ nChannels) (hpath : selectPath F ≠ Path.copy) :
    ∀ (blocks : List (List ℚ)) (st : PassState Flt Dth) (N : Nat),
      (∀ b ∈ blocks, 0 < b.length) →
      (∀ c, c < nChannels → st.di c = ((N % m : Nat) : Int)) →
      st.outStartOffset ≤ 0 →
      (blockLoop (blockStep Fo D USE_AVX bDither Gain F nChannels) blocks st).outFile.length
          + nChannels * ((N + m - 1) / m)
        = st.outFile.length
          + nChannels * ((N + totalFrames nChannels blocks * l + m - 1) / m) := by
  have hl' : F.numerator.toNat = l := by rw [hL]; simp
  have hstep : ∀ (blk : List ℚ) (st : PassState Flt Dth) (N : Nat),
      (∀ c, c < nChannels → st.di c = ((N % m : Nat) : Int)) →
      st.outStartOffset ≤ 0 →
      (blockStep Fo D USE_AVX bDither Gain F nChannels blk st).outFile.length
          + nChannels * ((N + m - 1) / m)
        = st.outFile.length
          + nChannels * ((N + frameCount blk.length nChannels * l + m - 1) / m) ∧
      (∀ c, c < nChannels →
        (blockStep Fo D USE_AVX bDither Gain F nChannels blk st).di c
          = (((N + frameCount blk.length nChannels * l) % m : Nat) : Int)) ∧
      (blockStep Fo D USE_AVX bDither Gain F nChannels blk st).outStartOffset ≤ 0 := by
    intro blk st N hdi hoff
    have hb := blockStep_resample Fo D USE_AVX bDither Gain F nChannels blk st hpath
    have hc := processBlock_count Fo D USE_AVX bDither Gain F nChannels blk st
      ((N % m : Nat) : Int) hdi
      (fun h1 => by
        have : m = 1 := by rw [hM] at h1; exact_mod_cast h1
        subst this; simp)
    rw [hl', hM] at hc
    have hcf := phase_closed_form m hm (frameCount blk.length nChannels * l) N
    refine ⟨?_, fun c hc1 => ?_, hb.2.1⟩
    · have h0 : st.outStartOffset.toNat = 0 := by omega
      rw [hb.1, h0, List.drop_zero, List.length_append, bufferSlice_length, hc.2 hn,
        ← hcf.2]
      ring
    · rw [hb.2.2, hc.1 c hc1, hcf.1]
  intro blocks
  induction blocks with
  | nil =>
    intro st N _ hdi hoff
    have h := (hstep [] st N hdi hoff).1
    simpa [blockLoop, totalFrames, frameCount, Nat.sub_one_lt (by omega : nChannels ≠ 0),
      Nat.div_eq_of_lt] using h
  | cons b rest ih =>
    intro st N hpos hdi hoff
    have hb0 : 0 < b.length := hpos b (List.mem_cons_self _ _)
    rw [blockLoop, if_pos hb0]
    obtain ⟨h1, h2, h3⟩ := hstep b st N hdi hoff
    have h4 := ih (blockStep Fo D USE_AVX bDither Gain F nChannels b st)
      (N + frameCount b.length nChannels * l)
      (fun b' hb' => hpos b' (List.mem_cons_of_mem _ hb')) h2 h3
    have e : N + totalFrames nChannels (b :: rest) * l
        = N + frameCount b.length nChannels * l + totalFrames nChannels rest * l := by
      simp [totalFrames]; ring
    rw [e]
    omega

theorem first_block_count (Fo : FIRFilterOps Flt) (D : DithererOps Dth) (USE_AVX bDither : Bool)
    (Gain : ℚ) (F : Fraction) (nChannels BufferSize : Nat) (gd : Int) (l m : Nat)
    (hL : F.numerator = (l : Int)) (hM : F.denominator = (m : Int)) (hm : 1 ≤ m)
    (hn : 1 ≤ nChannels) (blk : List ℚ) (Filters : Nat → Flt) (Ditherers : Nat → Dth) :
    (processBlock (pathSample Fo D USE_AVX bDither Gain F nChannels) nChannels blk
        (passStart nChannels BufferSize F gd Filters Ditherers)).OutBufferIndex
      = nChannels * ((frameCount blk.length nChannels * l + m - 1) / m) := by
  have hl' : F.numerator.toNat = l := by rw [hL]; simp
  have hc := processBlock_count Fo D USE_AVX bDither Gain F nChannels blk
    (passStart nChannels BufferSize F gd Filters Ditherers) 0 (fun _ _ => rfl) (fun _ => rfl)
  rw [hl', hM] at hc
  have hcf := (phase_closed_form m hm (frameCount blk.length nChannels * l) 0).2
  have h0 : (m - 1) / m = 0 := Nat.div_eq_of_lt (by omega)
  simp only [Nat.zero_mod, Nat.cast_zero, Nat.zero_add, h0, Nat.add_zero] at hcf
  rw [hc.2 hn, hcf]

/-- The length of the output file of a pass on a resampling path: all samples stored, less the
start offset or the output of the first block, whichever is smaller. -/
theorem runPass_length (Fo : FIRFilterOps Flt) (D : DithererOps Dth) (USE_AVX bDither : Bool)
    (F : Fraction) (nChannels BufferSize : Nat) (gd : Int) (l m : Nat)
    (hL : F.numerator = (l : Int)) (hM : F.denominator = (m : Int)) (hm : 1 ≤ m)
    (hn : 1 ≤ nChannels) (hpath : selectPath F ≠ Path.copy)
    (b1 : List ℚ) (rest : List (List ℚ)) (hpos : ∀ b ∈ b1 :: rest, 0 < b.length)
    (Gain : ℚ) (Filters : Nat → Flt) (Ditherers : Nat → Dth) :
    (runPass Fo D USE_AVX bDither F nChannels BufferSize gd (b1 :: rest) Gain Filters
        Ditherers).outFile.length
      + min (outStartOffset nChannels BufferSize F gd).toNat
          (nChannels * ((frameCount b1.length nChannels * l + m - 1) / m))
      = nChannels * ((totalFrames nChannels (b1 :: rest) * l + m - 1) / m) := by
  have hb0 : 0 < b1.length := hpos b1 (List.mem_cons_self _ _)
  unfold runPass
  rw [blockLoop, if_pos hb0]
  have hb := blockStep_resample Fo D USE_AVX bDither Gain F nChannels b1
    (passStart nChannels BufferSize F gd Filters Ditherers) hpath
  have hidx := first_block_count Fo D USE_AVX bDither Gain F nChannels BufferSize gd l m hL hM hm
    hn b1 Filters Ditherers
  have hl' : F.numerator.toNat = l := by rw [hL]; simp
  have hc := processBlock_count Fo D USE_AVX bDither Gain F nChannels b1
    (passStart nChannels BufferSize F gd Filters Ditherers) 0 (fun _ _ => rfl) (fun _ => rfl)
  rw [hl', hM] at hc
  have hcf := (phase_closed_form m hm (frameCount b1.length nChannels * l) 0).1
  simp only [Nat.zero_mod, Nat.cast_zero, Nat.zero_add] at hcf
  have hdi : ∀ c, c < nChannels →
      (blockStep Fo D USE_AVX bDither Gain F nChannels b1
        (passStart nChannels BufferSize F gd Filters Ditherers)).di c
        = (((frameCount b1.length nChannels * l) % m : Nat) : Int) := by
    intro c hc1
    rw [hb.2.2, hc.1 c hc1, hcf]
  have hrest := blockLoop_length Fo D USE_AVX bDither Gain F nChannels l m hL hM hm hn hpath rest
    (blockStep Fo D USE_AVX bDither Gain F nChannels b1
      (passStart nChannels BufferSize F gd Filters Ditherers))
    (frameCount b1.length nChannels * l)
    (fun b' hb' => hpos b' (List.mem_cons_of_mem _ hb')) hdi hb.2.1
  have hlen1 : (blockStep Fo D USE_AVX bDither Gain F nChannels b1
      (passStart nChannels BufferSize F gd Filters Ditherers)).outFile.length
      = nChannels * ((frameCount b1.length nChannels * l + m - 1) / m)
        - (outStartOffset nChannels BufferSize F gd).toNat := by
    have e1 : (passStart nChannels BufferSize F gd Filters Ditherers).outFile = [] := rfl
    have e2 : (passStart nChannels BufferSize F gd Filters Ditherers).outStartOffset
        = outStartOffset nChannels BufferSize F gd := rfl
    rw [hb.1, List.length_append, List.length_drop, bufferSlice_length, hidx, e1, e2]
    simp
  have e : totalFrames nChannels (b1 :: rest) * l
      = frameCount b1.length nChannels * l + totalFrames nChannels rest * l := by
    simp [totalFrames]; ring
  rw [e]
  have hmono : nChannels * ((frameCount b1.length nChannels * l + m - 1) / m)
      ≤ nChannels * ((frameCount b1.length nChannels * l + totalFrames nChannels rest * l
          + m - 1) / m) :=
    Nat.mul_le_mul_left _ (Nat.div_le_div_right (by omega))
  omega

end Counting

section Trim

variable {Flt Dth : Type}

theorem outStartOffset_cast (nChannels BufferSize : Nat) (F : Fraction) (gd : Int) (l m : Nat)
    (hL : F.numerator = (l : Int)) (hM : F.denominator = (m : Int)) :
    outStartOffset nChannels BufferSize F gd
      = min (gd * (nChannels : Int)) ((nChannels + BufferSize * l / m : Nat) : Int) := by
  unfold outStartOffset
  rw [OutBufferSize_cast nChannels BufferSize F l m hL hM]

end Trim

section PassCount

variable {Flt Dth : Type}

theorem totalFrames_of_dvd (nChannels : Nat) (hn : 1 ≤ nChannels) :
    ∀ blocks : List (List ℚ), (∀ b ∈ blocks, nChannels ∣ b.length) →
      totalFrames nChannels blocks = (blocks.map List.length).sum / nChannels := by
  intro blocks
  induction blocks with
  | nil => intro _; simp [totalFrames]
  | cons b rest ih =>
    intro h
    have hb : nChannels ∣ b.length := h b (List.mem_cons_self _ _)
    have hr := ih (fun b' hb' => h b' (List.mem_cons_of_mem _ hb'))
    have e : totalFrames nChannels (b :: rest)
        = frameCount b.length nChannels + totalFrames nChannels rest := by
      simp [totalFrames]
    rw [e, hr, frameCount_of_dvd b.length nChannels hn hb]
    simp only [List.map_cons, List.sum_cons]
    rw [Nat.add_div_of_dvd_right hb]

/-- `nChannels * ⌈f * l / m⌉` exceeds `⌊nChannels * f * l / m⌋` by at most `nChannels`. -/
theorem ceil_floor_gap (nChannels f l m : Nat) (hm : 1 ≤ m) :
    nChannels * f * l / m ≤ nChannels * ((f * l + m - 1) / m) ∧
      nChannels * ((f * l + m - 1) / m) ≤ nChannels * f * l / m + nChannels := by
  have hq1 : f * l ≤ (f * l + m - 1) / m * m := by
    have := Nat.div_add_mod (f * l + m - 1) m
    have hlt : (f * l + m - 1) % m < m := Nat.mod_lt _ (by omega)
    have e : (f * l + m - 1) / m * m = m * ((f * l + m - 1) / m) := Nat.mul_comm _ _
    omega
  have hq2 : (f * l + m - 1) / m ≤ f * l / m + 1 := by
    have : (f * l + m - 1) / m ≤ (f * l + m) / m := Nat.div_le_div_right (by omega)
    rwa [Nat.add_div_right _ (by omega)] at this
  constructor
  · apply Nat.div_le_of_le_mul
    calc nChannels * f * l = nChannels * (f * l) := by ring
      _ ≤ nChannels * ((f * l + m - 1) / m * m) := Nat.mul_le_mul_left _ hq1
      _ = m * (nChannels * ((f * l + m - 1) / m)) := by ring
  · have h3 : nChannels * (f * l / m) ≤ nChannels * f * l / m := by
      rw [Nat.le_div_iff_mul_le (by omega)]
      calc nChannels * (f * l / m) * m = nChannels * (f * l / m * m) := by ring
        _ ≤ nChannels * (f * l) := Nat.mul_le_mul_left _ (Nat.div_mul_le_self _ _)
        _ = nChannels * f * l := by ring
    calc nChannels * ((f * l + m - 1) / m) ≤ nChannels * (f * l / m + 1) :=
          Nat.mul_le_mul_left _ hq2
      _ = nChannels * (f * l / m) + nChannels := by ring
      _ ≤ nChannels * f * l / m + nChannels := by omega

/-- C8, as amended: on a resampling path, for an input of `n` samples in whole frames, split in
any way into read blocks of at most `BufferSize` samples, the number of samples written in a
pass is `nChannels * ⌈(n / nChannels) * L / M⌉` less the smaller of `groupDelay * nChannels` and
the number of samples that the first block produces.  When the first block produces at least
`groupDelay * nChannels` samples, the number written plus `groupDelay * nChannels` lies between
`⌊n * L / M⌋` and `⌊n * L / M⌋ + nChannels`. -/
theorem pass_output_count (Fo : FIRFilterOps Flt) (D : DithererOps Dth) (USE_AVX bDither : Bool)
    (F : Fraction) (nChannels BufferSize : Nat) (gd : Int) (l m : Nat)
    (hL : F.numerator = (l : Int)) (hM : F.denominator = (m : Int)) (hm : 1 ≤ m)
    (hn : 1 ≤ nChannels) (hpath : selectPath F ≠ Path.copy) (hB : nChannels ∣ BufferSize)
    (b1 : List ℚ) (rest : List (List ℚ))
    (hblocks : ∀ b ∈ b1 :: rest, 0 < b.length ∧ nChannels ∣ b.length)
    (hlen : b1.length ≤ BufferSize)
    (Gain : ℚ) (Filters : Nat → Flt) (Ditherers : Nat → Dth) (n : Nat)
    (hnlen : n = ((b1 :: rest).map List.length).sum) :
    (runPass Fo D USE_AVX bDither F nChannels BufferSize gd (b1 :: rest) Gain Filters
        Ditherers).outFile.length
        + min (gd * (nChannels : Int)).toNat
            (nChannels * ((b1.length / nChannels * l + m - 1) / m))
      = nChannels * ((n / nChannels * l + m - 1) / m) ∧
    ((gd * (nChannels : Int)).toNat ≤ nChannels * ((b1.length / nChannels * l + m - 1) / m) →
      n * l / m ≤ (runPass Fo D USE_AVX bDither F nChannels BufferSize gd (b1 :: rest) Gain
          Filters Ditherers).outFile.length + (gd * (nChannels : Int)).toNat ∧
      (runPass Fo D USE_AVX bDither F nChannels BufferSize gd (b1 :: rest) Gain Filters
          Ditherers).outFile.length + (gd * (nChannels : Int)).toNat
        ≤ n * l / m + nChannels) := by
  have hlenf := runPass_length Fo D USE_AVX bDither F nChannels BufferSize gd l m hL hM hm hn
    hpath b1 rest (fun b hb => (hblocks b hb).1) Gain Filters Ditherers
  have hb1 : nChannels ∣ b1.length := (hblocks b1 (List.mem_cons_self _ _)).2
  have hfc : frameCount b1.length nChannels = b1.length / nChannels :=
    frameCount_of_dvd b1.length nChannels hn hb1
  have htf := totalFrames_of_dvd nChannels hn (b1 :: rest) (fun b hb => (hblocks b hb).2)
  rw [← hnlen] at htf
  rw [hfc, htf] at hlenf
  have hfr := frameCount_le b1.length nChannels BufferSize hn hB hlen
  rw [hfc] at hfr
  have hfit := first_block_fits (b1.length / nChannels) l m nChannels BufferSize hm
    (le_trans (Nat.mul_le_mul_right _ hfr) (Nat.div_mul_le_self _ _))
  have hoff : min (outStartOffset nChannels BufferSize F gd).toNat
        (nChannels * ((b1.length / nChannels * l + m - 1) / m))
      = min (gd * (nChannels : Int)).toNat
        (nChannels * ((b1.length / nChannels * l + m - 1) / m)) := by
    rw [outStartOffset_cast nChannels BufferSize F gd l m hL hM]
    omega
  rw [hoff] at hlenf
  have hdvd : nChannels ∣ n := by
    rw [hnlen]
    exact List.dvd_sum (by
      intro x hx
      obtain ⟨b, hb, rfl⟩ := List.mem_map.mp hx
      exact (hblocks b hb).2)
  have hgap := ceil_floor_gap nChannels (n / nChannels) l m hm
  rw [Nat.mul_div_cancel' hdvd] at hgap
  refine ⟨hlenf, fun hfirst => ?_⟩
  rw [min_eq_left hfirst] at hlenf
  exact ⟨by omega, by omega⟩

/-- C8, as amended, on a stereo 1:2 pass with `groupDelay = 1` over the blocks of 8 and 4
samples: 4 samples are written, `4 + 2 = 2 * ⌈6 / 2⌉`, and `4 + 2` lies between `⌊12 / 2⌋` and
`⌊12 / 2⌋ + 2`. -/
theorem pass_output_count_witness :
    (runPass oneTapFilter passThroughDitherer false false ⟨1, 2⟩ 2 8 1
        [[1, 2, 3, 4, 5, 6, 7, 8], [9, 10, 11, 12]] 1 (fun _ => 0)
        (fun _ => ())).outFile.length
        + min (1 * ((2 : Nat) : Int)).toNat (2 * ((8 / 2 * 1 + 2 - 1) / 2))
      = 2 * ((12 / 2 * 1 + 2 - 1) / 2) ∧
    12 * 1 / 2 ≤ (runPass oneTapFilter passThroughDitherer false false ⟨1, 2⟩ 2 8 1
        [[1, 2, 3, 4, 5, 6, 7, 8], [9, 10, 11, 12]] 1 (fun _ => 0)
        (fun _ => ())).outFile.length + (1 * ((2 : Nat) : Int)).toNat ∧
    (runPass oneTapFilter passThroughDitherer false false ⟨1, 2⟩ 2 8 1
        [[1, 2, 3, 4, 5, 6, 7, 8], [9, 10, 11, 12]] 1 (fun _ => 0)
        (fun _ => ())).outFile.length + (1 * ((2 : Nat) : Int)).toNat ≤ 12 * 1 / 2 + 2 :=
  ⟨(pass_output_count oneTapFilter passThroughDitherer false false ⟨1, 2⟩ 2 8 1 1 2 rfl rfl
      (by decide) (by decide) (by decide) (by decide) [1, 2, 3, 4, 5, 6, 7, 8]
      [[9, 10, 11, 12]] (by decide) (by decide) 1 (fun _ => 0) (fun _ => ()) 12
      (by decide)).1,
    (pass_output_count oneTapFilter passThroughDitherer false false ⟨1, 2⟩ 2 8 1 1 2 rfl rfl
      (by decide) (by decide) (by decide) (by decide) [1, 2, 3, 4, 5, 6, 7, 8]
      [[9, 10, 11, 12]] (by decide) (by decide) 1 (fun _ => 0) (fun _ => ()) 12
      (by decide)).2 (by decide)⟩

/-- C8 fails when the first block produces fewer samples than the group-delay skip.  A mono
1:2 pass with `groupDelay = 375` over a file of 4 samples writes nothing, while
`⌊4 * 1 / 2⌋ - 375` is `-373`.  A mono 1:2 pass with `groupDelay = 5` over three blocks of 4
samples (`BufferSize = 4`) writes 4 samples, while `⌊12 * 1 / 2⌋ - 5` is 1. -/
theorem pass_output_count_counterexample :
    ((runPass oneTapFilter passThroughDitherer false false ⟨1, 2⟩ 1 32768 375
        [[1, 1, 1, 1]] 1 (fun _ => 0) (fun _ => ())).outFile.length = 0 ∧
      ¬ (|(((runPass oneTapFilter passThroughDitherer false false ⟨1, 2⟩ 1 32768 375
          [[1, 1, 1, 1]] 1 (fun _ => 0) (fun _ => ())).outFile.length : Nat) : Int)
          - (4 * 1 / 2 - 375 * 1)| ≤ 1)) ∧
    ((runPass oneTapFilter passThroughDitherer false false ⟨1, 2⟩ 1 4 5
        [[1, 2, 3, 4], [5, 6, 7, 8], [9, 10, 11, 12]] 1 (fun _ => 0)
        (fun _ => ())).outFile.length = 4 ∧
      ¬ (|(((runPass oneTapFilter passThroughDitherer false false ⟨1, 2⟩ 1 4 5
          [[1, 2, 3, 4], [5, 6, 7, 8], [9, 10, 11, 12]] 1 (fun _ => 0)
          (fun _ => ())).outFile.length : Nat) : Int) - (12 * 1 / 2 - 5 * 1)| ≤ 1)) := by
  have h1 := runPass_length oneTapFilter passThroughDitherer false false ⟨1, 2⟩ 1 32768 375 1 2
    rfl rfl (by decide) (by decide) (by decide) [1, 1, 1, 1] [] (by decide) 1 (fun _ => 0)
    (fun _ => ())
  have h2 := runPass_length oneTapFilter passThroughDitherer false false ⟨1, 2⟩ 1 4 5 1 2
    rfl rfl (by decide) (by decide) (by decide) [1, 2, 3, 4] [[5, 6, 7, 8], [9, 10, 11, 12]]
    (by decide) 1 (fun _ => 0) (fun _ => ())
  have e1 : (outStartOffset 1 32768 ⟨1, 2⟩ 375).toNat = 375 := by decide
  have e2 : (outStartOffset 1 4 ⟨1, 2⟩ 5).toNat = 3 := by decide
  have e3 : totalFrames 1 [[(1 : ℚ), 1, 1, 1]] = 4 := by decide
  have e4 : totalFrames 1 [[(1 : ℚ), 2, 3, 4], [5, 6, 7, 8], [9, 10, 11, 12]] = 12 := by decide
  have e5 : frameCount 4 1 = 4 := by decide
  simp only [List.length_cons, List.length_nil, e1, e3] at h1
  simp only [List.length_cons, List.length_nil, e2, e4] at h2
  norm_num [e5] at h1 h2
  have l1 : (runPass oneTapFilter passThroughDitherer false false ⟨1, 2⟩ 1 32768 375
        [[1, 1, 1, 1]] 1 (fun _ => 0) (fun _ => ())).outFile.length = 0 := by
    simpa using h1
  have l2 : (runPass oneTapFilter passThroughDitherer false false ⟨1, 2⟩ 1 4 5
        [[1, 2, 3, 4], [5, 6, 7, 8], [9, 10, 11, 12]] 1 (fun _ => 0)
        (fun _ => ())).outFile.length = 4 := by
    omega
  refine ⟨⟨l1, ?_⟩, ⟨l2, ?_⟩⟩
  · rw [l1]; norm_num
  · rw [l2]; norm_num [abs_le]

end PassCount

section CopyPath

variable {Flt Dth : Type}

/-! ### The 1:1 path -/

theorem copySample_OutBufferIndex (D : DithererOps Dth) (bDither : Bool) (Gain : ℚ)
    (nChannels c : Nat) (v : ℚ) (st : PassState Flt Dth) :
    (copySample D bDither Gain nChannels c v st).OutBufferIndex
      = st.OutBufferIndex + nChannels := rfl

theorem copySample_OutBuffer (D : DithererOps Dth) (Gain : ℚ) (nChannels c : Nat) (v : ℚ)
    (st : PassState Flt Dth) :
    (copySample D false Gain nChannels c v st).OutBuffer
      = Function.update st.OutBuffer (st.OutBufferIndex + c) (Gain * v) := rfl

theorem copy_rounds_buffer (D : DithererOps Dth) (Gain : ℚ) (nChannels c : Nat) (blk : List ℚ)
    (hc : c < nChannels) (st0 : PassState Flt Dth) (h0 : st0.OutBufferIndex = 0) (k : Nat) :
    ((List.range k).foldl
        (fun acc i => copySample D false Gain nChannels c (blk.getD (i * nChannels + c) 0) acc)
        st0).OutBufferIndex = k * nChannels ∧
      ∀ j, ((List.range k).foldl
        (fun acc i => copySample D false Gain nChannels c (blk.getD (i * nChannels + c) 0) acc)
        st0).OutBuffer j
        = if j % nChannels = c ∧ j / nChannels < k then Gain * blk.getD j 0
          else st0.OutBuffer j := by
  induction k with
  | zero => simp [h0]
  | succ n ih =>
    rw [List.range_succ, List.foldl_append]
    simp only [List.foldl_cons, List.foldl_nil]
    obtain ⟨ih1, ih2⟩ := ih
    constructor
    · rw [copySample_OutBufferIndex, ih1]; ring
    · intro j
      rw [copySample_OutBuffer, ih1, Function.update_apply]
      have hpos : 0 < nChannels := by omega
      by_cases hj : j = n * nChannels + c
      · subst hj
        have hm : (n * nChannels + c) % nChannels = c := by
          rw [Nat.add_comm, Nat.add_mul_mod_self_right, Nat.mod_eq_of_lt hc]
        have hd : (n * nChannels + c) / nChannels = n := by
          rw [Nat.add_comm, Nat.add_mul_div_right _ _ hpos, Nat.div_eq_of_lt hc, Nat.zero_add]
        simp [hm, hd]
      · rw [if_neg hj, ih2 j]
        have hiff : (j % nChannels = c ∧ j / nChannels < n + 1)
            ↔ (j % nChannels = c ∧ j / nChannels < n) := by
          constructor
          · rintro ⟨h1, h2⟩
            refine ⟨h1, ?_⟩
            by_contra hlt
            have hd : j / nChannels = n := by omega
            have := Nat.div_add_mod j nChannels
            rw [hd, h1, Nat.mul_comm] at this
            exact hj this.symm
          · rintro ⟨h1, h2⟩
            exact ⟨h1, by omega⟩
        by_cases hp : j % nChannels = c ∧ j / nChannels < n
        · rw [if_pos hp, if_pos (hiff.mpr hp)]
        · rw [if_neg hp, if_neg (fun h => hp (hiff.mp h))]

theorem copy_processBlock_buffer (D : DithererOps Dth) (Gain : ℚ) (nChannels : Nat)
    (blk : List ℚ) (st : PassState Flt Dth) (n : Nat) (hn : n ≤ nChannels) :
    ∀ j, ((List.range n).foldl
        (channelLoop (fun Channel => copySample D false Gain nChannels Channel) nChannels blk)
        st).OutBuffer j
      = if j % nChannels < n ∧ j / nChannels < frameCount blk.length nChannels then
          Gain * blk.getD j 0
        else st.OutBuffer j := by
  induction n with
  | zero => intro j; simp
  | succ n ih =>
    intro j
    rw [List.range_succ, List.foldl_append]
    simp only [List.foldl_cons, List.foldl_nil]
    have h := (copy_rounds_buffer D Gain nChannels n blk (by omega)
      { (List.range n).foldl
          (channelLoop (fun Channel => copySample D false Gain nChannels Channel) nChannels blk)
          st with OutBufferIndex := 0 } rfl (frameCount blk.length nChannels)).2 j
    unfold channelLoop at h ⊢
    rw [h]
    have ihj := ih (by omega) j
    unfold channelLoop at ihj
    simp only [ihj]
    by_cases h1 : j / nChannels < frameCount blk.length nChannels
    · by_cases h2 : j % nChannels = n
      · simp [h1, h2]
      · by_cases h3 : j % nChannels < n
        · have : j % nChannels < n + 1 := by omega
          simp [h1, h2, h3, this]
        · have : ¬ j % nChannels < n + 1 := by omega
          simp [h1, h2, h3, this]
    · simp [h1]

theorem copy_processBlock (D : DithererOps Dth) (Gain : ℚ) (nChannels : Nat) (blk : List ℚ)
    (st : PassState Flt Dth) (hn : 1 ≤ nChannels) :
    (processBlock (fun Channel => copySample D false Gain nChannels Channel) nChannels blk
        st).OutBufferIndex = frameCount blk.length nChannels * nChannels ∧
      ∀ j, j / nChannels < frameCount blk.length nChannels →
        (processBlock (fun Channel => copySample D false Gain nChannels Channel) nChannels blk
          st).OutBuffer j = Gain * blk.getD j 0 := by
  constructor
  · unfold processBlock
    obtain ⟨k, rfl⟩ : ∃ k, nChannels = k + 1 := ⟨nChannels - 1, by omega⟩
    rw [List.range_succ, List.foldl_append]
    simp only [List.foldl_cons, List.foldl_nil]
    unfold channelLoop
    exact (copy_rounds_buffer D Gain (k + 1) k blk (by omega) _ rfl _).1
  · intro j hj
    have h := copy_processBlock_buffer D Gain nChannels blk st nChannels (le_refl _) j
    unfold processBlock
    rw [h, if_pos ⟨Nat.mod_lt _ (by omega), hj⟩]

theorem bufferSlice_copy (buf : Nat → ℚ) (Gain : ℚ) (blk : List ℚ)
    (h : ∀ j, j < blk.length → buf j = Gain * blk.getD j 0) :
    bufferSlice buf 0 blk.length = blk.map (fun x => Gain * x) := by
  apply List.ext_getElem
  · simp [bufferSlice]
  · intro i h1 h2
    have hi : i < blk.length := by simpa [bufferSlice] using h1
    simp only [bufferSlice, List.getElem_map, List.getElem_range, Nat.zero_add]
    rw [h i hi, List.getD_eq_getElem _ _ hi]

theorem copySample_PeakOutputSample (D : DithererOps Dth) (Gain : ℚ) (nChannels c : Nat)
    (v : ℚ) (st : PassState Flt Dth) :
    (copySample D false Gain nChannels c v st).PeakOutputSample
      = max (abs st.PeakOutputSample) (abs (Gain * v)) := rfl

theorem copy_peak_stable (D : DithererOps Dth) (Gain : ℚ) (nChannels : Nat) (blk : List ℚ)
    (B : ℚ) (hblk : ∀ x ∈ blk, |Gain * x| ≤ B) (st : PassState Flt Dth)
    (hst : PeakWithin B st) :
    PeakWithin B
      (processBlock (fun Channel => copySample D false Gain nChannels Channel) nChannels blk
        st) := by
  have hB : 0 ≤ B := le_trans (abs_nonneg _) hst
  unfold processBlock
  refine foldl_preserves (PeakWithin B) _ ?_ _ _ hst
  intro b c hb
  unfold channelLoop
  refine foldl_preserves (PeakWithin B) _ ?_ _ _ hb
  intro acc i hacc
  have hv : |Gain * blk.getD (i * nChannels + c) 0| ≤ B := by
    by_cases hi : i * nChannels + c < blk.length
    · rw [List.getD_eq_getElem _ _ hi]
      exact hblk _ (List.getElem_mem _)
    · rw [List.getD_eq_default _ _ (by omega)]
      simpa using hB
  unfold PeakWithin
  rw [copySample_PeakOutputSample,
    abs_of_nonneg (le_trans (abs_nonneg _) (le_max_left _ _))]
  exact max_le hacc hv

theorem copy_blockStep (Fo : FIRFilterOps Flt) (D : DithererOps Dth) (USE_AVX : Bool)
    (Gain : ℚ) (F : Fraction) (nChannels : Nat) (hp : selectPath F = Path.copy)
    (hn : 1 ≤ nChannels) (blk : List ℚ) (hblk : nChannels ∣ blk.length)
    (st : PassState Flt Dth) :
    (blockStep Fo D USE_AVX false Gain F nChannels blk st).outFile
        = st.outFile ++ blk.map (fun x => Gain * x) ∧
      ∀ B, (∀ x ∈ blk, |Gain * x| ≤ B) → PeakWithin B st →
        PeakWithin B (blockStep Fo D USE_AVX false Gain F nChannels blk st) := by
  have hps : pathSample Fo D USE_AVX false Gain F nChannels
      = fun Channel => copySample D false Gain nChannels Channel := by
    simp only [pathSample, hp]
  have hio := processBlock_io Fo D USE_AVX false Gain F nChannels blk st
  have hfc := frameCount_of_dvd blk.length nChannels hn hblk
  have hlen : frameCount blk.length nChannels * nChannels = blk.length := by
    rw [hfc]; exact Nat.div_mul_cancel hblk
  unfold blockStep
  simp only [hp, if_true]
  rw [hps] at hio ⊢
  obtain ⟨h1, h2⟩ := copy_processBlock D Gain nChannels blk st hn
  constructor
  · show _ ++ bufferSlice _ 0 _ = _
    rw [hio.1, h1, hlen]
    congr 1
    apply bufferSlice_copy
    intro j hj
    apply h2
    rw [hfc]
    exact (Nat.div_lt_iff_lt_mul (by omega)).mpr (by rw [Nat.div_mul_cancel hblk]; exact hj)
  · intro B hB hst
    exact copy_peak_stable D Gain nChannels blk B hB st hst

theorem copy_runPass (Fo : FIRFilterOps Flt) (D : DithererOps Dth) (USE_AVX : Bool)
    (Gain : ℚ) (F : Fraction) (nChannels BufferSize : Nat) (gd : Int)
    (hp : selectPath F = Path.copy) (hn : 1 ≤ nChannels) (blocks : List (List ℚ))
    (hblocks : ∀ b ∈ blocks, 0 < b.length ∧ nChannels ∣ b.length)
    (Filters : Nat → Flt) (Ditherers : Nat → Dth) :
    (runPass Fo D USE_AVX false F nChannels BufferSize gd blocks Gain Filters Ditherers).outFile
        = blocks.flatten.map (fun x => Gain * x) ∧
      ∀ B, 0 ≤ B → (∀ b ∈ blocks, ∀ x ∈ b, |Gain * x| ≤ B) →
        (runPass Fo D USE_AVX false F nChannels BufferSize gd blocks Gain Filters
          Ditherers).PeakOutputSample ≤ B := by
  have key : ∀ (bs : List (List ℚ)) (st : PassState Flt Dth),
      (∀ b ∈ bs, 0 < b.length ∧ nChannels ∣ b.length) →
      (blockLoop (blockStep Fo D USE_AVX false Gain F nChannels) bs st).outFile
          = st.outFile ++ bs.flatten.map (fun x => Gain * x) ∧
        ∀ B, (∀ b ∈ bs, ∀ x ∈ b, |Gain * x| ≤ B) → PeakWithin B st →
          PeakWithin B (blockLoop (blockStep Fo D USE_AVX false Gain F nChannels) bs st) := by
    intro bs
    induction bs with
    | nil =>
      intro st _
      have h := copy_blockStep Fo D USE_AVX Gain F nChannels hp hn [] (by simp) st
      constructor
      · simpa [blockLoop] using h.1
      · intro B _ hst
        exact h.2 B (by simp) hst
    | cons b rest ih =>
      intro st hbs
      obtain ⟨hb0, hbd⟩ := hbs b (List.mem_cons_self _ _)
      have h := copy_blockStep Fo D USE_AVX Gain F nChannels hp hn b hbd st
      have hr := ih (blockStep Fo D USE_AVX false Gain F nChannels b st)
        (fun b' hb' => hbs b' (List.mem_cons_of_mem _ hb'))
      rw [blockLoop, if_pos hb0]
      constructor
      · rw [hr.1, h.1]; simp
      · intro B hB hst
        exact hr.2 B (fun b' hb' => hB b' (List.mem_cons_of_mem _ hb'))
          (h.2 B (hB b (List.mem_cons_self _ _)) hst)
  have h := key blocks (passStart nChannels BufferSize F gd Filters Ditherers) hblocks
  unfold runPass
  constructor
  · rw [h.1]; simp [passStart]
  · intro B hB hx
    exact le_trans (le_abs_self _) (h.2 B hx (by simpa [passStart, PeakWithin] using hB))

end CopyPath

section Identity

variable {Flt Dth : Type}

theorem GetSimplifiedFraction_self (r : Int) (hr : 0 < r) :
    GetSimplifiedFraction r r = ⟨1, 1⟩ := by
  have hg : gcd r r = r := by
    rw [gcd_eq_gcd r r hr hr, Int.gcd_self, Int.natCast_natAbs, abs_of_pos hr]
  simp only [GetSimplifiedFraction, hg, Int.tdiv_self hr.ne']

/-- C2, as amended: when the input and output sample rates are equal, dither is off, the gain
is 1 and normalization is off (so that `Limit` is 1), and the input is a sequence of non-empty
blocks of whole frames, `Convert` runs one pass with gain 1 and writes exactly the input
samples, in order, provided that clipping protection is off or no input sample exceeds 1 in
absolute value. -/
theorem Convert_identity (Fo : FIRFilterOps Flt) (D : DithererOps Dth) (pow : ℚ → ℚ → ℚ)
    (build : BuildConfig) (ci : conversionInfo) (peakDetection : Bool) (infile : FileReader)
    (FilterSize : Int) (OutputFileFormat : Nat) (Filter0 : Flt) (Ditherers0 : Nat → Dth)
    (fuel : Nat)
    (hrate : infile.samplerate = ci.OutputSampleRate) (hpos : 0 < ci.OutputSampleRate)
    (hD : ci.bDither = false) (hg : ci.gain = 1) (hN : ci.bNormalize = false)
    (hLim : ci.Limit = 1) (hn : 1 ≤ infile.channels)
    (hblocks : ∀ b ∈ infile.blocks, 0 < b.length ∧ infile.channels ∣ b.length)
    (hpeak : ci.disableClippingProtection = true ∨ ∀ b ∈ infile.blocks, ∀ x ∈ b, |x| ≤ 1) :
    ∃ r, Convert Fo D pow build ci peakDetection infile FilterSize OutputFileFormat Filter0
        Ditherers0 (fuel + 1) = some r ∧
      r.outFile = infile.blocks.flatten ∧ r.Gain = 1 ∧ r.passes = 1 := by
  have hF : GetSimplifiedFraction infile.samplerate ci.OutputSampleRate = ⟨1, 1⟩ := by
    rw [hrate]; exact GetSimplifiedFraction_self _ hpos
  have hpF : pipelineFraction ci ⟨1, 1⟩ = ⟨1, 1⟩ := by
    simp [pipelineFraction, isSimpleRatio]
  have hG : initialGain pow ci ⟨1, 1⟩
      (PeakInputSample ci.bNormalize peakDetection infile.blocks)
      (outputSignalBits OutputFileFormat) = some 1 := by
    simp [initialGain, hN, hD, hg, hLim]
  have hcopy : selectPath ⟨1, 1⟩ = Path.copy := by decide
  unfold Convert
  simp only [hF, hpF, hG]
  rw [clippingLoop]
  have hpass := copy_runPass Fo D build.USE_AVX 1 ⟨1, 1⟩ infile.channels
    (build.BUFFERSIZE / infile.channels * infile.channels)
    (groupDelay ci FilterSize ⟨1, 1⟩) hcopy hn infile.blocks hblocks (fun _ => Filter0)
    Ditherers0
  simp only [hD]
  have hout : (runPass Fo D build.USE_AVX false ⟨1, 1⟩ infile.channels
      (build.BUFFERSIZE / infile.channels * infile.channels)
      (groupDelay ci FilterSize ⟨1, 1⟩) infile.blocks 1 (fun _ => Filter0)
      Ditherers0).outFile = infile.blocks.flatten := by
    rw [hpass.1]; simp
  have hcond : (!ci.disableClippingProtection &&
      decide ((runPass Fo D build.USE_AVX false ⟨1, 1⟩ infile.channels
        (build.BUFFERSIZE / infile.channels * infile.channels)
        (groupDelay ci FilterSize ⟨1, 1⟩) infile.blocks 1 (fun _ => Filter0)
        Ditherers0).PeakOutputSample > ci.Limit)) = false := by
    rcases hpeak with hdis | hle
    · simp [hdis]
    · have := hpass.2 1 (by norm_num) (fun b hb x hx => by simpa using hle b hb x hx)
      simp [hLim, not_lt.mpr this]
  rw [if_neg (by rw [hcond]; simp)]
  exact ⟨_, rfl, hout, rfl, rfl⟩

/-- C2, as amended, on a stereo file of two frames. -/
theorem Convert_identity_witness :
    ∃ r, Convert oneTapFilter passThroughDitherer (fun _ _ => 1)
        { BUFFERSIZE := 8, clippingTrim := 9 / 10 } {} true
        { channels := 2, samplerate := 44100, blocks := [[1 / 2, -1, 0, 1 / 4]] } 1001 0 0
        (fun _ => ()) (4 + 1) = some r ∧
      r.outFile = [[1 / 2, -1, 0, 1 / 4]].flatten ∧ r.Gain = 1 ∧ r.passes = 1 :=
  Convert_identity oneTapFilter passThroughDitherer (fun _ _ => 1)
    { BUFFERSIZE := 8, clippingTrim := 9 / 10 } {} true
    { channels := 2, samplerate := 44100, blocks := [[1 / 2, -1, 0, 1 / 4]] } 1001 0 0
    (fun _ => ()) 4 rfl (by decide) rfl rfl rfl rfl (by decide) (by decide)
    (Or.inr (by
      intro b hb x hx
      simp only [List.mem_singleton] at hb
      subst hb
      simp only [List.mem_cons, List.mem_singleton, List.not_mem_nil, or_false] at hx
      rcases hx with rfl | rfl | rfl | rfl <;> norm_num [abs_le]))

/-- C2 fails on an input that exceeds full scale: for the mono one-sample file `[2]` at equal
rates, dither off, gain 1, normalization off and clipping protection on, the first pass has
peak 2 > 1, so a second pass runs with gain `9/20` and the file kept holds `9/10`, not `2`. -/
theorem Convert_identity_counterexample :
    Convert oneTapFilter passThroughDitherer (fun _ _ => 1)
        { BUFFERSIZE := 8, clippingTrim := 9 / 10 } {} true
        { channels := 1, samplerate := 44100, blocks := [[2]] } 1001 0 0 (fun _ => ()) 5
      = some { outFile := [9 / 10], PeakOutputSample := 9 / 10, Gain := 9 / 20, passes := 2 } ∧
    ([9 / 10] : List ℚ) ≠ [[2]].flatten := by
  have hF : GetSimplifiedFraction 44100 44100 = ⟨1, 1⟩ := by decide
  have hA : |(9 / 10 : ℚ)| = 9 / 10 := abs_of_pos (by norm_num)
  have h2 : |(2 : ℚ)| = 2 := abs_of_pos (by norm_num)
  constructor
  · simp only [Convert, hF]
    norm_num [PeakInputSample, blockLoop, scanBlock, pipelineFraction, isSimpleRatio,
      initialGain, fdiv, outputSignalBits, clippingLoop, runPass, passStart, blockStep,
      processBlock, channelLoop, frameCount, pathSample, selectPath, copySample, writeAll,
      bufferSlice, gainAfterPass, GainAdjustment, List.range_succ, hA, h2]
  · norm_num

end Identity

section Scaling

variable {Flt Dth : Type}

/-! ### Without dither a pass is linear in the gain -/

theorem foldl_commute {α σ τ : Type} (φ : σ → τ) (f : σ → α → σ) (g : τ → α → τ)
    (h : ∀ s x, g (φ s) x = φ (f s x)) :
    ∀ (l : List α) (s : σ), l.foldl g (φ s) = φ (l.foldl f s) := by
  intro l
  induction l with
  | nil => intro s; rfl
  | cons x t ih => intro s; simp only [List.foldl_cons, h, ih]

theorem scale_update (a : ℚ) (buf : Nat → ℚ) (i : Nat) (y : ℚ) :
    Function.update (fun j => a * buf j) i (a * y) = fun j => a * Function.update buf i y j := by
  funext j
  by_cases h : j = i
  · subst h; simp
  · simp [Function.update_noteq h]

theorem storeSample_scale (D : DithererOps Dth) (a Gain : ℚ) (nChannels c : Nat) (v : ℚ)
    (d : Nat → Dth) (st : PassState Flt Dth) :
    storeSample D false (a * Gain) nChannels c v (scaleState a d st)
      = scaleState a d (storeSample D false Gain nChannels c v st) := by
  simp only [storeSample, scaleState, Bool.false_eq_true, if_false, Function.update_eq_self,
    mul_assoc, scale_update, abs_mul, mul_max_of_nonneg _ _ (abs_nonneg a)]

theorem copySample_scale (D : DithererOps Dth) (a Gain : ℚ) (nChannels c : Nat) (v : ℚ)
    (d : Nat → Dth) (st : PassState Flt Dth) :
    copySample D false (a * Gain) nChannels c v (scaleState a d st)
      = scaleState a d (copySample D false Gain nChannels c v st) := by
  simp only [copySample, scaleState, Bool.false_eq_true, if_false, Function.update_eq_self,
    mul_assoc, scale_update, abs_mul, abs_abs, mul_max_of_nonneg _ _ (abs_nonneg a)]

theorem advanceDi_scale (M : Int) (c : Nat) (a : ℚ) (d : Nat → Dth) (st : PassState Flt Dth) :
    advanceDi M c (scaleState a d st) = scaleState a d (advanceDi M c st) := by
  unfold advanceDi
  by_cases h : st.di c + 1 = M
  · have h1 : (scaleState a d st).di c + 1 = M := h
    rw [if_pos h, if_pos h1]; rfl
  · have h1 : ¬ (scaleState a d st).di c + 1 = M := h
    rw [if_neg h, if_neg h1]; rfl

theorem pathSample_scale (Fo : FIRFilterOps Flt) (D : DithererOps Dth) (USE_AVX : Bool)
    (a Gain : ℚ) (F : Fraction) (nChannels c : Nat) (x : ℚ) (d : Nat → Dth)
    (st : PassState Flt Dth) :
    pathSample Fo D USE_AVX false (a * Gain) F nChannels c x (scaleState a d st)
      = scaleState a d (pathSample Fo D USE_AVX false Gain F nChannels c x st) := by
  have hget : ∀ s : PassState Flt Dth,
      emitGet Fo D false (a * Gain) nChannels c (scaleState a d s)
        = scaleState a d (emitGet Fo D false Gain nChannels c s) := by
    intro s
    exact storeSample_scale D a Gain nChannels c _ d
      { s with Filters := Function.update s.Filters c (Fo.get (s.Filters c)).2 }
  have hlazy : ∀ (L : Int) (s : PassState Flt Dth),
      emitLazyGet Fo D false (a * Gain) L nChannels c (scaleState a d s)
        = scaleState a d (emitLazyGet Fo D false Gain L nChannels c s) := by
    intro L s
    exact storeSample_scale D a Gain nChannels c _ d
      { s with Filters := Function.update s.Filters c (Fo.LazyGet (s.Filters c) L).2 }
  have hput : ∀ (ii : Nat) (s : PassState Flt Dth),
      putOrZero Fo c x ii (scaleState a d s) = scaleState a d (putOrZero Fo c x ii s) :=
    fun _ _ => rfl
  cases hp : selectPath F with
  | copy =>
    simp only [pathSample, hp]
    exact copySample_scale D a Gain nChannels c x d st
  | decimate =>
    simp only [pathSample, hp, decimateSample]
    rw [hput]
    by_cases h0 : (putOrZero Fo c x 0 st).di c = 0
    · have h1 : (scaleState a d (putOrZero Fo c x 0 st)).di c = 0 := h0
      rw [if_pos h0, if_pos h1, hget, advanceDi_scale]
    · have h1 : ¬ (scaleState a d (putOrZero Fo c x 0 st)).di c = 0 := h0
      rw [if_neg h0, if_neg h1, advanceDi_scale]
  | interpolate =>
    simp only [pathSample, hp, interpolateSample]
    apply foldl_commute
    intro s ii
    simp only [interpolateStep]
    rw [hput]
    cases USE_AVX
    · simp only [Bool.false_eq_true, if_false]; exact hlazy _ _
    · simp only [if_true]; exact hget _
  | interpolateDecimate =>
    simp only [pathSample, hp, interpolateDecimateSample]
    apply foldl_commute
    intro s ii
    simp only [interpolateDecimateStep]
    rw [hput]
    by_cases h0 : (putOrZero Fo c x ii s).di c = 0
    · have h1 : (scaleState a d (putOrZero Fo c x ii s)).di c = 0 := h0
      rw [if_pos h0, if_pos h1, hlazy, advanceDi_scale]
    · have h1 : ¬ (scaleState a d (putOrZero Fo c x ii s)).di c = 0 := h0
      rw [if_neg h0, if_neg h1, advanceDi_scale]

theorem processBlock_scale (Fo : FIRFilterOps Flt) (D : DithererOps Dth) (USE_AVX : Bool)
    (a Gain : ℚ) (F : Fraction) (nChannels : Nat) (blk : List ℚ) (d : Nat → Dth)
    (st : PassState Flt Dth) :
    processBlock (pathSample Fo D USE_AVX false (a * Gain) F nChannels) nChannels blk
        (scaleState a d st)
      = scaleState a d
          (processBlock (pathSample Fo D USE_AVX false Gain F nChannels) nChannels blk st) := by
  unfold processBlock
  apply foldl_commute
  intro s c
  unfold channelLoop
  exact foldl_commute (scaleState a d) _ _
    (fun s1 k => pathSample_scale Fo D USE_AVX a Gain F nChannels c _ d s1) _
    { s with OutBufferIndex := 0 }

theorem bufferSlice_scale (a : ℚ) (buf : Nat → ℚ) (start count : Nat) :
    bufferSlice (fun j => a * buf j) start count
      = (bufferSlice buf start count).map (fun y => a * y) := by
  simp [bufferSlice]

theorem writeAll_scale (a : ℚ) (d : Nat → Dth) (st : PassState Flt Dth) :
    writeAll (scaleState a d st) = scaleState a d (writeAll st) := by
  simp only [writeAll, scaleState, bufferSlice_scale, List.map_append]

theorem writeTrimmed_scale (a : ℚ) (d : Nat → Dth) (st : PassState Flt Dth) :
    writeTrimmed (scaleState a d st) = scaleState a d (writeTrimmed st) := by
  unfold writeTrimmed
  by_cases h : st.outStartOffset ≤ 0
  · have h1 : (scaleState a d st).outStartOffset ≤ 0 := h
    rw [if_pos h, if_pos h1, writeAll_scale]
  · have h1 : ¬ (scaleState a d st).outStartOffset ≤ 0 := h
    rw [if_neg h, if_neg h1]
    simp only [scaleState, bufferSlice_scale, List.map_append]

theorem blockStep_scale (Fo : FIRFilterOps Flt) (D : DithererOps Dth) (USE_AVX : Bool)
    (a Gain : ℚ) (F : Fraction) (nChannels : Nat) (blk : List ℚ) (d : Nat → Dth)
    (st : PassState Flt Dth) :
    blockStep Fo D USE_AVX false (a * Gain) F nChannels blk (scaleState a d st)
      = scaleState a d (blockStep Fo D USE_AVX false Gain F nChannels blk st) := by
  unfold blockStep
  simp only [processBlock_scale]
  split
  · exact writeAll_scale a d _
  · exact writeTrimmed_scale a d _

theorem blockLoop_commute {σ τ : Type} (φ : σ → τ) (f : List ℚ → σ → σ) (g : List ℚ → τ → τ)
    (h : ∀ blk s, g blk (φ s) = φ (f blk s)) :
    ∀ (blocks : List (List ℚ)) (s : σ), blockLoop g blocks (φ s) = φ (blockLoop f blocks s) := by
  intro blocks
  induction blocks with
  | nil => intro s; simp only [blockLoop, h]
  | cons b rest ih =>
    intro s
    simp only [blockLoop, h, ih]
    split <;> rfl

/-- Without dither, the pass with gain `a * Gain` is the pass with gain `Gain` scaled by `a`. -/
theorem runPass_scale (Fo : FIRFilterOps Flt) (D : DithererOps Dth) (USE_AVX : Bool)
    (F : Fraction) (nChannels BufferSize : Nat) (gd : Int) (blocks : List (List ℚ))
    (a Gain : ℚ) (Filters : Nat → Flt) (d0 d : Nat → Dth) :
    runPass Fo D USE_AVX false F nChannels BufferSize gd blocks (a * Gain) Filters d
      = scaleState a d
          (runPass Fo D USE_AVX false F nChannels BufferSize gd blocks Gain Filters d0) := by
  unfold runPass
  have h0 : passStart nChannels BufferSize F gd Filters d
      = scaleState a d (passStart nChannels BufferSize F gd Filters d0) := by
    simp [passStart, scaleState]
  rw [h0]
  exact blockLoop_commute (scaleState a d) _ _
    (fun blk s => blockStep_scale Fo D USE_AVX a Gain F nChannels blk d s) blocks _

theorem runPass_peak_nonneg (Fo : FIRFilterOps Flt) (D : DithererOps Dth)
    (USE_AVX bDither : Bool) (F : Fraction) (nChannels BufferSize : Nat) (gd : Int)
    (blocks : List (List ℚ)) (Gain : ℚ) (Filters : Nat → Flt) (Ditherers : Nat → Dth) :
    0 ≤ (runPass Fo D USE_AVX bDither F nChannels BufferSize gd blocks Gain Filters
      Ditherers).PeakOutputSample :=
  le_trans (abs_nonneg _)
    ((peakBound_runPass Fo D USE_AVX bDither F nChannels BufferSize gd blocks Gain Filters
      Ditherers).1 0)

/-- Without dither, with `0 ≤ clippingTrim ≤ 1`, `0 ≤ Limit` and a filter `reset` that restores
the state the filters start from, the clipping detection loop ends after at most two passes;
when there is a second pass its peak is `clippingTrim * Limit`. -/
theorem clippingLoop_two_passes (Fo : FIRFilterOps Flt) (D : DithererOps Dth)
    (build : BuildConfig) (ci : conversionInfo) (F : Fraction) (nChannels BufferSize : Nat)
    (gd : Int) (blocks : List (List ℚ)) (fuel done : Nat) (Gain : ℚ) (Filter0 : Flt)
    (Ditherers : Nat → Dth) (hD : ci.bDither = false) (hLim : 0 ≤ ci.Limit)
    (htrim0 : 0 ≤ build.clippingTrim) (htrim1 : build.clippingTrim ≤ 1)
    (hreset : ∀ s, Fo.reset s = Filter0) :
    ∃ r, clippingLoop Fo D build ci F nChannels BufferSize gd blocks (fuel + 2) done Gain
        (fun _ => Filter0) Ditherers = some r ∧
      r.passes ≤ done + 2 ∧
      (r.passes = done + 2 → r.PeakOutputSample = build.clippingTrim * ci.Limit) ∧
      (ci.disableClippingProtection = false → r.PeakOutputSample ≤ ci.Limit) := by
  rw [clippingLoop]
  simp only [hD]
  by_cases hc : (!ci.disableClippingProtection &&
      decide ((runPass Fo D build.USE_AVX false F nChannels BufferSize gd blocks Gain
        (fun _ => Filter0) Ditherers).PeakOutputSample > ci.Limit)) = true
  · rw [if_pos hc]
    simp only [Bool.and_eq_true, Bool.not_eq_true', decide_eq_true_eq] at hc
    obtain ⟨hdis, hgt⟩ := hc
    have hP0 : 0 < (runPass Fo D build.USE_AVX false F nChannels BufferSize gd blocks Gain
        (fun _ => Filter0) Ditherers).PeakOutputSample := lt_of_le_of_lt hLim hgt
    have hF : (fun c => Fo.reset ((runPass Fo D build.USE_AVX false F nChannels BufferSize gd
        blocks Gain (fun _ => Filter0) Ditherers).Filters c)) = fun _ => Filter0 := by
      funext c; exact hreset _
    have hG : gainAfterPass build.clippingTrim ci.Limit
        (runPass Fo D build.USE_AVX false F nChannels BufferSize gd blocks Gain
          (fun _ => Filter0) Ditherers).PeakOutputSample Gain
        = GainAdjustment build.clippingTrim ci.Limit
            (runPass Fo D build.USE_AVX false F nChannels BufferSize gd blocks Gain
              (fun _ => Filter0) Ditherers).PeakOutputSample * Gain := by
      simp only [gainAfterPass, if_pos hgt]; ring
    rw [hF, hG, clippingLoop]
    simp only [hD, Bool.false_eq_true, if_false]
    rw [runPass_scale Fo D build.USE_AVX F nChannels BufferSize gd blocks _ Gain
      (fun _ => Filter0) Ditherers]
    have hpk : (scaleState
        (GainAdjustment build.clippingTrim ci.Limit
          (runPass Fo D build.USE_AVX false F nChannels BufferSize gd blocks Gain
            (fun _ => Filter0) Ditherers).PeakOutputSample)
        (runPass Fo D build.USE_AVX false F nChannels BufferSize gd blocks Gain
          (fun _ => Filter0) Ditherers).Ditherers
        (runPass Fo D build.USE_AVX false F nChannels BufferSize gd blocks Gain
          (fun _ => Filter0) Ditherers)).PeakOutputSample
        = build.clippingTrim * ci.Limit := by
      simp only [scaleState, GainAdjustment]
      rw [abs_div, abs_of_pos hP0, abs_of_nonneg (mul_nonneg htrim0 hLim)]
      field_simp
    have hle : build.clippingTrim * ci.Limit ≤ ci.Limit := by
      nlinarith
    rw [if_neg (by simp [hpk, not_lt.mpr hle])]
    exact ⟨_, rfl, by simp, fun _ => hpk, fun _ => by rw [hpk]; exact hle⟩
  · rw [if_neg hc]
    refine ⟨_, rfl, by simp, fun h => by simp at h, fun hdis => ?_⟩
    simp only [hdis, Bool.not_false, Bool.true_and, decide_eq_true_eq, not_lt] at hc
    exact hc

/-- The dither-off case of the convergence of clipping recovery: with dither off,
`0 ≤ clippingTrim ≤ 1`, `0 ≤ Limit`, a finite initial gain and a filter `reset` that restores the
state the filters start from, `Convert` returns after at most two passes for every fuel of at
least 2; a second pass has peak `clippingTrim * Limit`, and with clipping protection on the final
peak is at most `Limit`. -/
theorem Convert_two_passes (Fo : FIRFilterOps Flt) (D : DithererOps Dth) (pow : ℚ → ℚ → ℚ)
    (build : BuildConfig) (ci : conversionInfo) (peakDetection : Bool) (infile : FileReader)
    (FilterSize : Int) (OutputFileFormat : Nat) (Filter0 : Flt) (Ditherers0 : Nat → Dth)
    (fuel : Nat) (hD : ci.bDither = false) (hLim : 0 ≤ ci.Limit)
    (htrim0 : 0 ≤ build.clippingTrim) (htrim1 : build.clippingTrim ≤ 1)
    (hreset : ∀ s, Fo.reset s = Filter0) (Gain : ℚ)
    (hG : initialGain pow ci
      (pipelineFraction ci (GetSimplifiedFraction infile.samplerate ci.OutputSampleRate))
      (PeakInputSample ci.bNormalize peakDetection infile.blocks)
      (outputSignalBits OutputFileFormat) = some Gain) :
    ∃ r, Convert Fo D pow build ci peakDetection infile FilterSize OutputFileFormat Filter0
        Ditherers0 (fuel + 2) = some r ∧
      r.passes ≤ 2 ∧
      (r.passes = 2 → r.PeakOutputSample = build.clippingTrim * ci.Limit) ∧
      (ci.disableClippingProtection = false → r.PeakOutputSample ≤ ci.Limit) := by
  unfold Convert
  simp only [hG]
  simpa using clippingLoop_two_passes Fo D build ci _ _ _ _ _ fuel 0 Gain Filter0 Ditherers0 hD
    hLim htrim0 htrim1 hreset

/-- The two-pass bound on the mono one-sample file `[2]` at equal rates: the second pass has
peak `9/10 * 1`. -/
theorem Convert_two_passes_example :
    ∃ r, Convert oneTapFilter passThroughDitherer (fun _ _ => 1)
        { BUFFERSIZE := 8, clippingTrim := 9 / 10 } {} true
        { channels := 1, samplerate := 44100, blocks := [[2]] } 1001 0 0 (fun _ => ()) (3 + 2)
        = some r ∧
      r.passes ≤ 2 ∧ (r.passes = 2 → r.PeakOutputSample = 9 / 10 * 1) ∧
      (false = false → r.PeakOutputSample ≤ 1) :=
  Convert_two_passes oneTapFilter passThroughDitherer (fun _ _ => 1)
    { BUFFERSIZE := 8, clippingTrim := 9 / 10 } {} true
    { channels := 1, samplerate := 44100, blocks := [[2]] } 1001 0 0 (fun _ => ()) 3 rfl
    (by norm_num) (by norm_num) (by norm_num) (fun _ => rfl) 1
    (by
      have hF : GetSimplifiedFraction 44100 44100 = ⟨1, 1⟩ := by decide
      simp only [hF]
      simp [initialGain, pipelineFraction, isSimpleRatio])

end Scaling

/-! ### Ratio that drives the pipeline -/

/-- For positive sample rates the reduced ratio has positive coprime terms. -/
theorem GetSimplifiedFraction_pos_coprime (a b : Int) (ha : 0 < a) (hb : 0 < b) :
    1 ≤ (GetSimplifiedFraction a b).numerator ∧ 1 ≤ (GetSimplifiedFraction a b).denominator ∧
    Int.gcd (GetSimplifiedFraction a b).numerator (GetSimplifiedFraction a b).denominator = 1 := by
  have hg := gcd_eq_gcd a b ha hb
  have hgpos : 0 < Int.gcd a b := Int.gcd_pos_of_ne_zero_left b ha.ne'
  have hg0 : (0 : Int) < ((Int.gcd a b : Nat) : Int) := by exact_mod_cast hgpos
  have hn : (GetSimplifiedFraction a b).numerator = b / ((Int.gcd a b : Nat) : Int) := by
    simp only [GetSimplifiedFraction, hg]
    exact Int.tdiv_eq_ediv hb.le hg0.le
  have hd : (GetSimplifiedFraction a b).denominator = a / ((Int.gcd a b : Nat) : Int) := by
    simp only [GetSimplifiedFraction, hg]
    exact Int.tdiv_eq_ediv ha.le hg0.le
  have hdb : ((Int.gcd a b : Nat) : Int) ∣ b := Int.gcd_dvd_right
  have hda : ((Int.gcd a b : Nat) : Int) ∣ a := Int.gcd_dvd_left
  refine ⟨?_, ?_, ?_⟩
  · rw [hn]
    exact Int.le_ediv_of_mul_le hg0 (by rw [one_mul]; exact Int.le_of_dvd hb hdb)
  · rw [hd]
    exact Int.le_ediv_of_mul_le hg0 (by rw [one_mul]; exact Int.le_of_dvd ha hda)
  · rw [hn, hd, Int.gcd_comm]
    exact Int.gcd_div_gcd_div_gcd hgpos

/-- The test for "simple ratios" in terms of the smaller term of the ratio. -/
theorem isSimpleRatio_iff (FOriginal : Fraction) :
    isSimpleRatio FOriginal = true ↔
      FOriginal.numerator ≠ FOriginal.denominator ∧
        min FOriginal.numerator FOriginal.denominator ≤ 4 := by
  simp only [isSimpleRatio, Bool.and_eq_true, Bool.or_eq_true, decide_eq_true_eq, min_le_iff]

/-- On natural numbers, or-ing with 1 sets the lowest bit. -/
theorem nat_lor_one (m : Nat) : m ||| 1 = 2 * (m / 2) + 1 := by
  apply Nat.eq_of_testBit_eq
  intro i
  cases i with
  | zero => simp [Nat.testBit_zero]; omega
  | succ j =>
    rw [Nat.testBit_lor, Nat.testBit_succ, Nat.testBit_succ, Nat.testBit_succ]
    have h1 : (1 : Nat) / 2 = 0 := by norm_num
    have h2 : (2 * (m / 2) + 1) / 2 = m / 2 := by omega
    rw [h1, h2]; simp

/-- On natural numbers, removing the bits of 1 clears the lowest bit. -/
theorem nat_ldiff_one (m : Nat) : Nat.ldiff m 1 = 2 * (m / 2) := by
  apply Nat.eq_of_testBit_eq
  intro i
  cases i with
  | zero =>
    rw [Nat.testBit_ldiff, Nat.testBit_zero, Nat.testBit_zero, Nat.testBit_zero]
    simp
  | succ j =>
    rw [Nat.testBit_ldiff, Nat.testBit_succ, Nat.testBit_succ, Nat.testBit_succ]
    have h1 : (1 : Nat) / 2 = 0 := by norm_num
    have h2 : (2 * (m / 2)) / 2 = m / 2 := by omega
    rw [h1, h2]; simp

/-- The expression `n | 1` on integers, negative ones included: an even `n` becomes `n + 1`, an
odd `n` is unchanged. -/
theorem int_lor_one (n : Int) : Int.lor n 1 = if n % 2 = 0 then n + 1 else n := by
  cases n with
  | ofNat m =>
    have e : Int.lor (Int.ofNat m) 1 = ((m ||| 1 : Nat) : Int) := rfl
    rw [e, nat_lor_one]
    split_ifs with h
    · simp only [Int.ofNat_eq_coe] at h ⊢; omega
    · simp only [Int.ofNat_eq_coe] at h ⊢; omega
  | negSucc m =>
    have e : Int.lor (Int.negSucc m) 1 = Int.negSucc (Nat.ldiff m 1) := rfl
    rw [e, nat_ldiff_one]
    split_ifs with h
    · simp only [Int.negSucc_eq] at h ⊢; push_cast; omega
    · simp only [Int.negSucc_eq] at h ⊢; push_cast; omega

/-- The steepness is not finite only in custom mode with automatic transition width and a
cut-off of 100 percent. -/
theorem steepness_eq_none_iff (ci : conversionInfo) :
    steepness ci = none ↔
      ci.lpfMode = LPFMode.custom ∧ ci.customLpfTransitionWidth = 0 ∧ ci.customLpfCutoff = 100 := by
  unfold steepness
  cases hm : ci.lpfMode with
  | normal => simp
  | relaxed => simp
  | steep => simp
  | custom =>
    by_cases ht : ci.customLpfTransitionWidth = 0
    · simp only [ht, if_true, fdiv, true_and]
      constructor
      · intro h
        by_cases h0 : 1 - ci.customLpfCutoff / 100 = 0
        · linarith
        · rw [if_neg h0] at h; exact absurd h (by simp)
      · intro h
        rw [if_pos (by rw [h]; norm_num)]
    · simp only [ht, if_false, fdiv, false_and, and_false, iff_false]
      rw [if_neg (div_ne_zero ht (by norm_num))]
      simp

/-- The variable `FilterSize` of `Convert` is an odd integer whenever it has a value, and it has
one unless the steepness is not finite. -/
theorem FilterSize_odd_or_none (fs : FilterSizes) (ci : conversionInfo) (InputSampleRate : Int)
    (InputSampleCount InputFileFormat : Nat) :
    (∃ N, (convertPlan fs ci InputSampleRate InputSampleCount InputFileFormat).FilterSize = some N ∧
      N % 2 = 1) ∨
    ((convertPlan fs ci InputSampleRate InputSampleCount InputFileFormat).FilterSize = none ∧
      ci.lpfMode = LPFMode.custom ∧ ci.customLpfTransitionWidth = 0 ∧ ci.customLpfCutoff = 100) := by
  simp only [convertPlan, FilterSize]
  cases hs : steepness ci with
  | none =>
    right
    exact ⟨rfl, (steepness_eq_none_iff ci).1 hs⟩
  | some s =>
    left
    refine ⟨_, rfl, ?_⟩
    show (Int.lor _ 1) % 2 = 1
    rw [int_lor_one]
    split_ifs with h <;> omega

/-- C17: with `targetNyquist = min(inRate, outRate) / 2`, the cut-off `ft` and the steepness
chosen by `Convert` are `(10 * targetNyquist / 11, 1)` in normal mode,
`(21 * targetNyquist / 22, 1)` in relaxed mode, `(21 * targetNyquist / 22, 2)` in steep mode,
and in custom mode `ft = cutoff / 100 * targetNyquist` with steepness
`0.090909091 / (1 - cutoff / 100)` when the transition width is 0 and
`0.090909091 / (transition / 100)` otherwise.  The arithmetic is exact; the quotient with
divisor `1 - cutoff / 100 = 0` is not finite. -/
theorem ft_steepness_table (fs : FilterSizes) (ci : conversionInfo) (InputSampleRate : Int)
    (InputSampleCount InputFileFormat : Nat) :
    (convertPlan fs ci InputSampleRate InputSampleCount InputFileFormat).targetNyquist =
      ((min InputSampleRate ci.OutputSampleRate : Int) : ℚ) / 2 ∧
    (ci.lpfMode = LPFMode.normal →
      (convertPlan fs ci InputSampleRate InputSampleCount InputFileFormat).ft =
        10 * (((min InputSampleRate ci.OutputSampleRate : Int) : ℚ) / 2) / 11 ∧
      (convertPlan fs ci InputSampleRate InputSampleCount InputFileFormat).steepness = some 1) ∧
    (ci.lpfMode = LPFMode.relaxed →
      (convertPlan fs ci InputSampleRate InputSampleCount InputFileFormat).ft =
        21 * (((min InputSampleRate ci.OutputSampleRate : Int) : ℚ) / 2) / 22 ∧
      (convertPlan fs ci InputSampleRate InputSampleCount InputFileFormat).steepness = some 1) ∧
    (ci.lpfMode = LPFMode.steep →
      (convertPlan fs ci InputSampleRate InputSampleCount InputFileFormat).ft =
        21 * (((min InputSampleRate ci.OutputSampleRate : Int) : ℚ) / 2) / 22 ∧
      (convertPlan fs ci InputSampleRate InputSampleCount InputFileFormat).steepness = some 2) ∧
    (ci.lpfMode = LPFMode.custom →
      (convertPlan fs ci InputSampleRate InputSampleCount InputFileFormat).ft =
        ci.customLpfCutoff / 100 * (((min InputSampleRate ci.OutputSampleRate : Int) : ℚ) / 2) ∧
      (ci.customLpfTransitionWidth = 0 → 1 - ci.customLpfCutoff / 100 ≠ 0 →
        (convertPlan fs ci InputSampleRate InputSampleCount InputFileFormat).steepness =
          some (90909091 / 1000000000 / (1 - ci.customLpfCutoff / 100))) ∧
      (ci.customLpfTransitionWidth = 0 → 1 - ci.customLpfCutoff / 100 = 0 →
        (convertPlan fs ci InputSampleRate InputSampleCount InputFileFormat).steepness = none) ∧
      (ci.customLpfTransitionWidth ≠ 0 →
        (convertPlan fs ci InputSampleRate InputSampleCount InputFileFormat).steepness =
          some (90909091 / 1000000000 / (ci.customLpfTransitionWidth / 100)))) := by
  refine ⟨rfl, ?_, ?_, ?_, ?_⟩
  · intro h
    simp only [convertPlan, ft, steepness, targetNyquist, h, and_self]
  · intro h
    simp only [convertPlan, ft, steepness, targetNyquist, h, and_self]
  · intro h
    simp only [convertPlan, ft, steepness, targetNyquist, h, and_self]
  · intro h
    refine ⟨?_, ?_, ?_, ?_⟩
    · simp only [convertPlan, ft, targetNyquist, h]
    · intro ht h0
      simp only [convertPlan, steepness, h, ht, if_true, fdiv, if_neg h0]
    · intro ht h0
      simp only [convertPlan, steepness, h, ht, if_true, fdiv, if_pos h0]
    · intro ht
      simp only [convertPlan, steepness, h, if_neg ht, fdiv,
        if_neg (div_ne_zero ht (by norm_num : (100 : ℚ) ≠ 0))]

/-- C17 for 44100 Hz to 48000 Hz: `targetNyquist = 22050`; normal mode gives the cut-off
`220500 / 11` and steepness 1, steep mode gives `463050 / 22` and steepness 2, and custom mode
with a cut-off of 95 percent and automatic transition width gives `20947.5` and steepness
`0.090909091 / 0.05`. -/
theorem ft_steepness_table_witness :
    (convertPlan ⟨3000, 300000, 1000000⟩ { OutputSampleRate := 48000 } 44100 1000 0x010002).ft =
      10 * ((((min 44100 48000 : Int)) : ℚ) / 2) / 11 ∧
    (convertPlan ⟨3000, 300000, 1000000⟩ { OutputSampleRate := 48000, lpfMode := LPFMode.steep }
      44100 1000 0x010002).steepness = some 2 ∧
    (convertPlan ⟨3000, 300000, 1000000⟩
      { OutputSampleRate := 48000, lpfMode := LPFMode.custom, customLpfCutoff := 95 }
      44100 1000 0x010002).steepness = some (90909091 / 1000000000 / (1 - 95 / 100)) ∧
    (90909091 / 1000000000 / (1 - 95 / 100) : ℚ) = 90909091 / 50000000 :=
  ⟨((ft_steepness_table ⟨3000, 300000, 1000000⟩ { OutputSampleRate := 48000 } 44100 1000
      0x010002).2.1 rfl).1,
    ((ft_steepness_table ⟨3000, 300000, 1000000⟩
      { OutputSampleRate := 48000, lpfMode := LPFMode.steep } 44100 1000 0x010002).2.2.2.1 rfl).2,
    ((ft_steepness_table ⟨3000, 300000, 1000000⟩
      { OutputSampleRate := 48000, lpfMode := LPFMode.custom, customLpfCutoff := 95 }
      44100 1000 0x010002).2.2.2.2 rfl).2.1 rfl (by norm_num),
    by norm_num⟩

/-! ### The switch to RF64 -/

/-- The value returned by `getSfBytesPerSample` is between 1 and 8. -/
theorem getSfBytesPerSample_range (format : Nat) :
    1 ≤ getSfBytesPerSample format ∧ getSfBytesPerSample format ≤ 8 := by
  unfold getSfBytesPerSample
  simp only
  split_ifs <;> decide

/-- After the switch the container type is RF64 and the subformat bits are those of the format
before. -/
theorem switchToRf64_bits (fmt : Nat) :
    switchToRf64 fmt &&& SF_FORMAT_TYPEMASK = SF_FORMAT_RF64 ∧
    switchToRf64 fmt &&& SF_FORMAT_SUBMASK = fmt &&& SF_FORMAT_SUBMASK := by
  unfold switchToRf64
  constructor
  · rw [Nat.and_distrib_right, Nat.and_assoc]
    have h1 : (0xFFFFFFFF ^^^ SF_FORMAT_TYPEMASK) &&& SF_FORMAT_TYPEMASK = 0 := by decide
    have h2 : SF_FORMAT_RF64 &&& SF_FORMAT_TYPEMASK = SF_FORMAT_RF64 := by decide
    rw [h1, h2]; simp
  · rw [Nat.and_distrib_right, Nat.and_assoc]
    have h1 : (0xFFFFFFFF ^^^ SF_FORMAT_TYPEMASK) &&& SF_FORMAT_SUBMASK = SF_FORMAT_SUBMASK := by
      decide
    have h2 : SF_FORMAT_RF64 &&& SF_FORMAT_SUBMASK = 0 := by decide
    rw [h1, h2]; simp

/-- A non-negative `int` converts to `uint64_t` unchanged. -/
theorem toUInt64_natCast (x : Nat) (h1 : x < 2 ^ 64) : toUInt64 (x : Int) = x := by
  unfold toUInt64
  rw [Int.emod_eq_of_lt (by positivity) (by exact_mod_cast h1)]
  simp

/-- When the product `inputSamples * bytesPerSample * numerator` is below `2^64`, the variable
`outputDataSize` is the integer quotient of that product by the denominator. -/
theorem outputDataSize_exact (n b L M : Nat) (hb : 1 ≤ b) (hb2 : b < 2 ^ 64) (hL : 1 ≤ L)
    (hL2 : L < 2 ^ 64) (hM2 : M < 2 ^ 64) (hfit : n * b * L < 2 ^ 64) :
    outputDataSize n (b : Int) (L : Int) (M : Int) = n * b * L / M := by
  have h1 : n * b ≤ n * b * L := Nat.le_mul_of_pos_right _ (by omega)
  have h2 : n ≤ n * b := Nat.le_mul_of_pos_right _ (by omega)
  unfold outputDataSize
  rw [toUInt64_natCast b hb2, toUInt64_natCast L hL2, toUInt64_natCast M hM2,
    Nat.mod_eq_of_lt (by omega : n < 2 ^ 64), Nat.mod_eq_of_lt (by omega : n * b < 2 ^ 64),
    Nat.mod_eq_of_lt hfit]

/-- C18, within the range of `uint64_t`: for every WAV or WAVEX output format, a reduced ratio
`L : M` of positive `int` values and an input whose predicted size
`input_samples * bytes_per_sample * L` is below `2^64`, if
`bytes_per_sample * input_samples * L / M ≥ 2^32` or the rf64 option is set, the output format
gets the container type RF64 and keeps its subformat bits; otherwise it is unchanged. -/
theorem rf64Switch_spec (ci : conversionInfo) (InputSampleCount : Nat) (FOriginal : Fraction)
    (OutputFileFormat : Nat)
    (hfmt : OutputFileFormat &&& SF_FORMAT_TYPEMASK = SF_FORMAT_WAV ∨
      OutputFileFormat &&& SF_FORMAT_TYPEMASK = SF_FORMAT_WAVEX)
    (hL : 1 ≤ FOriginal.numerator) (hL2 : FOriginal.numerator < 2 ^ 31)
    (hM : 1 ≤ FOriginal.denominator) (hM2 : FOriginal.denominator < 2 ^ 31)
    (hfit : (InputSampleCount : Int) * getSfBytesPerSample OutputFileFormat * FOriginal.numerator
      < 2 ^ 64) :
    (ci.bRf64 = true ∨
      (2 ^ 32 : ℚ) ≤ (getSfBytesPerSample OutputFileFormat : ℚ) * (InputSampleCount : ℚ) *
        (FOriginal.numerator : ℚ) / (FOriginal.denominator : ℚ) →
      rf64Switch ci InputSampleCount FOriginal OutputFileFormat &&& SF_FORMAT_TYPEMASK
        = SF_FORMAT_RF64 ∧
      rf64Switch ci InputSampleCount FOriginal OutputFileFormat &&& SF_FORMAT_SUBMASK
        = OutputFileFormat &&& SF_FORMAT_SUBMASK) ∧
    (¬ (ci.bRf64 = true ∨
      (2 ^ 32 : ℚ) ≤ (getSfBytesPerSample OutputFileFormat : ℚ) * (InputSampleCount : ℚ) *
        (FOriginal.numerator : ℚ) / (FOriginal.denominator : ℚ)) →
      rf64Switch ci InputSampleCount FOriginal OutputFileFormat = OutputFileFormat) := by
  obtain ⟨hb1, hb8⟩ := getSfBytesPerSample_range OutputFileFormat
  obtain ⟨b, hb⟩ := Int.eq_ofNat_of_zero_le (by omega : 0 ≤ getSfBytesPerSample OutputFileFormat)
  obtain ⟨L, hLe⟩ := Int.eq_ofNat_of_zero_le (by omega : 0 ≤ FOriginal.numerator)
  obtain ⟨M, hMe⟩ := Int.eq_ofNat_of_zero_le (by omega : 0 ≤ FOriginal.denominator)
  rw [hb, hLe] at hfit
  rw [hb] at hb1 hb8
  rw [hLe] at hL hL2
  rw [hMe] at hM hM2
  have hfit' : InputSampleCount * b * L < 2 ^ 64 := by exact_mod_cast hfit
  have hM0 : 0 < M := by omega
  have hsize : checkWarnOutputSize InputSampleCount (getSfBytesPerSample OutputFileFormat)
      FOriginal.numerator FOriginal.denominator = true ↔
      (2 ^ 32 : ℚ) ≤ (getSfBytesPerSample OutputFileFormat : ℚ) * (InputSampleCount : ℚ) *
        (FOriginal.numerator : ℚ) / (FOriginal.denominator : ℚ) := by
    unfold checkWarnOutputSize
    rw [hb, hLe, hMe, outputDataSize_exact InputSampleCount b L M (by omega) (by omega) (by omega)
      (by omega) (by omega) hfit', decide_eq_true_eq, Nat.le_div_iff_mul_le hM0]
    have hMq : (0 : ℚ) < (M : ℚ) := by exact_mod_cast hM0
    simp only [Int.cast_natCast]
    rw [le_div_iff₀ hMq]
    constructor
    · intro h
      have : ((2 ^ 32 * M : Nat) : ℚ) ≤ ((InputSampleCount * b * L : Nat) : ℚ) := by
        exact_mod_cast h
      push_cast at this
      linarith
    · intro h
      have : ((2 ^ 32 * M : Nat) : ℚ) ≤ ((InputSampleCount * b * L : Nat) : ℚ) := by
        push_cast
        linarith
      exact_mod_cast this
  have hcond : (ci.bRf64 ||
      checkWarnOutputSize InputSampleCount (getSfBytesPerSample OutputFileFormat)
        FOriginal.numerator FOriginal.denominator) = true ↔
      (ci.bRf64 = true ∨
        (2 ^ 32 : ℚ) ≤ (getSfBytesPerSample OutputFileFormat : ℚ) * (InputSampleCount : ℚ) *
          (FOriginal.numerator : ℚ) / (FOriginal.denominator : ℚ)) := by
    rw [Bool.or_eq_true, hsize]
  unfold rf64Switch
  rw [if_pos hfmt]
  constructor
  · intro h
    rw [if_pos (hcond.2 h)]
    exact switchToRf64_bits OutputFileFormat
  · intro h
    rw [if_neg (fun h' => h (hcond.1 h'))]

/-- C18 for 16-bit WAV output at the ratio 160 : 147: an input of 2000000000 samples is predicted
to give more than `2^32` bytes, so the format `0x010002` becomes `0x220002`; an input of 1000
samples leaves the format unchanged. -/
theorem rf64Switch_spec_witness :
    rf64Switch {} 2000000000 ⟨160, 147⟩ 0x010002 &&& SF_FORMAT_TYPEMASK = SF_FORMAT_RF64 ∧
    rf64Switch {} 2000000000 ⟨160, 147⟩ 0x010002 &&& SF_FORMAT_SUBMASK
      = 0x010002 &&& SF_FORMAT_SUBMASK ∧
    rf64Switch {} 2000000000 ⟨160, 147⟩ 0x010002 = 0x220002 ∧
    rf64Switch {} 1000 ⟨160, 147⟩ 0x010002 = 0x010002 := by
  have hb : getSfBytesPerSample 0x010002 = 2 := by decide
  have h := (rf64Switch_spec {} 2000000000 ⟨160, 147⟩ 0x010002 (Or.inl (by decide)) (by decide)
    (by decide) (by decide) (by decide) (by decide)).1
    (Or.inr (by rw [hb]; norm_num))
  exact ⟨h.1, h.2, by decide, by decide⟩

/-- C18, failing input: a mono WAV file of unsigned 8-bit samples with `2^62` frames at 48000 Hz,
converted to 192000 Hz without the rf64 option.  The reduced ratio is 4 : 1 and
`bytes_per_sample * input_samples * L / M = 2^64`, which is above `2^32`; but in `uint64_t` the
product `2^62 * 1 * 4` is 0, so `outputDataSize` is 0, `checkWarnOutputSize` returns `false`
and the format stays WAV. -/
theorem rf64Switch_overflow_counterexample :
    GetSimplifiedFraction 48000 192000 = ⟨4, 1⟩ ∧
    0x010005 &&& SF_FORMAT_TYPEMASK = SF_FORMAT_WAV ∧
    getSfBytesPerSample 0x010005 = 1 ∧
    (2 ^ 32 : ℚ) ≤ (1 : ℚ) * (2 ^ 62 : ℚ) * (4 : ℚ) / (1 : ℚ) ∧
    outputDataSize (2 ^ 62) 1 4 1 = 0 ∧
    checkWarnOutputSize (2 ^ 62) 1 4 1 = false ∧
    rf64Switch {} (2 ^ 62) (GetSimplifiedFraction 48000 192000) 0x010005 = 0x010005 ∧
    (convertPlan ⟨3000, 300000, 1000000⟩ { OutputSampleRate := 192000 } 48000 (2 ^ 62)
      0x010005).OutputFileFormat = 0x010005 := by
  refine ⟨by decide, by decide, by decide, by norm_num, by decide, by decide, by decide, by decide⟩

/-! ### Output format for the bit format "8" -/

/-- The loop over the major formats stops at the first format whose extension matches. -/
theorem majorFormatLoop_find (majorFormats : List SF_FORMAT_INFO) (outFileExt : String)
    (info m : SF_FORMAT_INFO)
    (h : majorFormats.find? (fun e => stricmpEq e.extension outFileExt) = some m) :
    majorFormatLoop majorFormats outFileExt info = (m, true) := by
  induction majorFormats generalizing info with
  | nil => simp at h
  | cons e rest ih =>
    unfold majorFormatLoop
    by_cases he : stricmpEq e.extension outFileExt = true
    · rw [if_pos he]
      simp only [List.find?_cons, he] at h
      injection h with h
      rw [h]
    · rw [if_neg he]
      simp only [List.find?_cons, he] at h
      exact ih e h

/-! ### Bad parameters -/

/-- The options read after the core parameters leave the filenames and the output sample rate
as the section "core parameters" set them. -/
theorem parseOptions_core (ids : DitherProfileIDs) (atoi : String → Int) (atof : String → ℚ)
    (argv : List String) (ci : conversionInfo) :
    (parseOptions ids atoi atof argv ci).InputFilename = getCmdlineParam_string argv "-i" ∧
    (parseOptions ids atoi atof argv ci).OutputFilename = getCmdlineParam_string argv "-o" ∧
    (parseOptions ids atoi atof argv ci).OutputSampleRate
      = getCmdlineParam_unsigned atoi argv "-r" := by
  have hg : ∀ c : conversionInfo,
      (parseGain atof argv c).InputFilename = c.InputFilename ∧
      (parseGain atof argv c).OutputFilename = c.OutputFilename ∧
      (parseGain atof argv c).OutputSampleRate = c.OutputSampleRate := by
    intro c
    unfold parseGain
    simp only
    split <;> exact ⟨rfl, rfl, rfl⟩
  have hd : ∀ c : conversionInfo,
      (parseDither atof argv c).InputFilename = c.InputFilename ∧
      (parseDither atof argv c).OutputFilename = c.OutputFilename ∧
      (parseDither atof argv c).OutputSampleRate = c.OutputSampleRate :=
    fun c => ⟨rfl, rfl, rfl⟩
  have hn : ∀ c : conversionInfo,
      (parseNoiseShape ids atoi argv c).InputFilename = c.InputFilename ∧
      (parseNoiseShape ids atoi argv c).OutputFilename = c.OutputFilename ∧
      (parseNoiseShape ids atoi argv c).OutputSampleRate = c.OutputSampleRate :=
    fun c => ⟨rfl, rfl, rfl⟩
  have hs : ∀ c : conversionInfo,
      (parseSeed atoi argv c).InputFilename = c.InputFilename ∧
      (parseSeed atoi argv c).OutputFilename = c.OutputFilename ∧
      (parseSeed atoi argv c).OutputSampleRate = c.OutputSampleRate :=
    fun c => ⟨rfl, rfl, rfl⟩
  have hc : ∀ c : conversionInfo,
      (parseCompression atoi atof argv c).InputFilename = c.InputFilename ∧
      (parseCompression atoi atof argv c).OutputFilename = c.OutputFilename ∧
      (parseCompression atoi atof argv c).OutputSampleRate = c.OutputSampleRate :=
    fun c => ⟨rfl, rfl, rfl⟩
  have hl : ∀ c : conversionInfo,
      (parseLpf atof argv c).InputFilename = c.InputFilename ∧
      (parseLpf atof argv c).OutputFilename = c.OutputFilename ∧
      (parseLpf atof argv c).OutputSampleRate = c.OutputSampleRate :=
    fun c => ⟨rfl, rfl, rfl⟩
  have hw : ∀ c : conversionInfo,
      (parseSwitches argv c).InputFilename = c.InputFilename ∧
      (parseSwitches argv c).OutputFilename = c.OutputFilename ∧
      (parseSwitches argv c).OutputSampleRate = c.OutputSampleRate :=
    fun c => ⟨rfl, rfl, rfl⟩
  unfold parseOptions
  refine ⟨?_, ?_, ?_⟩
  · rw [(hw _).1, (hl _).1, (hc _).1, (hs _).1, (hn _).1, (hd _).1, (hg _).1]; rfl
  · rw [(hw _).2.1, (hl _).2.1, (hc _).2.1, (hs _).2.1, (hn _).2.1, (hd _).2.1, (hg _).2.1]; rfl
  · rw [(hw _).2.2, (hl _).2.2, (hc _).2.2, (hs _).2.2, (hn _).2.2, (hd _).2.2, (hg _).2.2]; rfl

/-- The section "test for bad parameters" rejects a zero sample rate and equal filenames. -/
theorem testBadParameters_rejects (ci : conversionInfo)
    (h : ci.OutputSampleRate = 0 ∨ ci.OutputFilename = ci.InputFilename) :
    (testBadParameters ci).result = false ∧ (testBadParameters ci).bBadParams = true := by
  have hb : (testBadParameters ci).bBadParams = true := by
    show (if ci.OutputSampleRate = 0 then true
      else (if ci.OutputFilename = "" then decide (ci.InputFilename = "")
        else decide (ci.OutputFilename = ci.InputFilename))) = true
    rcases h with h | h
    · rw [if_pos h]
    · by_cases h0 : ci.OutputSampleRate = 0
      · rw [if_pos h0]
      · rw [if_neg h0]
        by_cases he : ci.OutputFilename = ""
        · rw [if_pos he, decide_eq_true_eq, ← h]; exact he
        · rw [if_neg he, decide_eq_true_eq]; exact h
  have hr : (testBadParameters ci).result = !(testBadParameters ci).bBadParams := rfl
  exact ⟨by rw [hr, hb]; rfl, hb⟩

/-- The value read for `-r` is 0 exactly when the rate is missing (no `-r`, or nothing after
it) or the text after `-r` converts to 0. -/
theorem rate_zero_iff (atoi : String → Int) (argv : List String) :
    getCmdlineParam_unsigned atoi argv "-r" = 0 ↔
      paramAfter argv "-r" = none ∨ ∃ s, paramAfter argv "-r" = some s ∧ atoi s % 2 ^ 32 = 0 := by
  unfold getCmdlineParam_unsigned
  cases paramAfter argv "-r" with
  | none => simp
  | some s => simp

/-- Without a terminating switch `parseParameters` reads the options and tests them. -/
theorem parseParameters_of_no_switch (ids : DitherProfileIDs) (atoi : String → Int)
    (atof : String → ℚ) (ci : conversionInfo) (bBadParams : Bool) (argv : List String)
    (h : terminatingSwitch argv = false) :
    parseParameters ids atoi atof ci bBadParams argv
      = testBadParameters (parseOptions ids atoi atof argv (initializeDefaults ids ci)) := by
  simp only [terminatingSwitch, Bool.or_eq_false_iff] at h
  obtain ⟨⟨⟨⟨⟨h1, h2⟩, h3⟩, h4⟩, h5⟩, h6⟩ := h
  unfold parseParameters
  simp only [h1, h2, h3, h4, h5, h6, Bool.or_self, Bool.false_eq_true, if_false]

/-- With a terminating switch `parseParameters` returns `false` and leaves `bBadParams` as it
was. -/
theorem parseParameters_of_switch (ids : DitherProfileIDs) (atoi : String → Int)
    (atof : String → ℚ) (ci : conversionInfo) (bBadParams : Bool) (argv : List String)
    (h : terminatingSwitch argv = true) :
    (parseParameters ids atoi atof ci bBadParams argv).result = false ∧
    (parseParameters ids atoi atof ci bBadParams argv).bBadParams = bBadParams := by
  unfold parseParameters
  simp only
  split_ifs with h1 h2 h3 h4 h5
  · exact ⟨rfl, rfl⟩
  · exact ⟨rfl, rfl⟩
  · exact ⟨rfl, rfl⟩
  · exact ⟨rfl, rfl⟩
  · exact ⟨rfl, rfl⟩
  · exfalso
    simp only [terminatingSwitch, Bool.or_eq_true] at h
    simp only [Bool.or_eq_true, not_or] at h1
    tauto

/-- C20, counterexample: the command line `ReSampler --version` gives no output sample rate;
`parseParameters` returns `false` but leaves `bBadParams` at `false`, and `main` exits with
`EXIT_SUCCESS`. -/
theorem parseParameters_version_counterexample :
    paramAfter ["ReSampler", "--version"] "-r" = none ∧
    (parseParameters ⟨0, 6, 2, 14⟩ (fun _ => 0) (fun _ => 0) {} false
      ["ReSampler", "--version"]).result = false ∧
    (parseParameters ⟨0, 6, 2, 14⟩ (fun _ => 0) (fun _ => 0) {} false
      ["ReSampler", "--version"]).bBadParams = false := by
  decide

/-- C20, amended: for every command line without a terminating switch (`--help`, `-h`,
`--version`, `--sndfile-version`, `--listsubformats`, `--showDitherProfiles`), if the output
sample rate read for `-r` is 0 (the rate is missing or its text converts to 0) or the output
filename is given and equals the input filename, `parseParameters` returns `false` and sets
`bBadParams` to `true`, and `main` leaves through `exit(EXIT_FAILURE)` before any statement that
opens a file.  With a terminating switch `parseParameters` returns `false` too, but leaves
`bBadParams` as it was, and `main` leaves through `exit(EXIT_SUCCESS)`. -/
theorem parseParameters_rejects (ids : DitherProfileIDs) (atoi : String → Int) (atof : String → ℚ)
    (ci : conversionInfo) (bBadParams : Bool) (argv : List String) :
    (terminatingSwitch argv = false →
      (paramAfter argv "-r" = none ∨ (∃ s, paramAfter argv "-r" = some s ∧ atoi s % 2 ^ 32 = 0) ∨
        ∃ o, paramAfter argv "-o" = some o ∧ getCmdlineParam_string argv "-i" = o) →
      (parseParameters ids atoi atof ci bBadParams argv).result = false ∧
      (parseParameters ids atoi atof ci bBadParams argv).bBadParams = true ∧
      mainStart ids atoi atof ci argv = MainStart.exit true) ∧
    (terminatingSwitch argv = true →
      (parseParameters ids atoi atof ci bBadParams argv).result = false ∧
      (parseParameters ids atoi atof ci bBadParams argv).bBadParams = bBadParams ∧
      mainStart ids atoi atof ci argv = MainStart.exit false) := by
  constructor
  · intro hsw hbad
    obtain ⟨hi, ho, hr⟩ := parseOptions_core ids atoi atof argv (initializeDefaults ids ci)
    have hcond : (parseOptions ids atoi atof argv (initializeDefaults ids ci)).OutputSampleRate = 0 ∨
        (parseOptions ids atoi atof argv (initializeDefaults ids ci)).OutputFilename
          = (parseOptions ids atoi atof argv (initializeDefaults ids ci)).InputFilename := by
      rcases hbad with h | h | ⟨o, h1, h2⟩
      · left; rw [hr]; exact (rate_zero_iff atoi argv).2 (Or.inl h)
      · left; rw [hr]; exact (rate_zero_iff atoi argv).2 (Or.inr h)
      · right
        rw [ho, hi, h2]
        simp only [getCmdlineParam_string, h1]
    have key : ∀ b, (parseParameters ids atoi atof ci b argv).result = false ∧
        (parseParameters ids atoi atof ci b argv).bBadParams = true := by
      intro b
      rw [parseParameters_of_no_switch ids atoi atof ci b argv hsw]
      exact testBadParameters_rejects _ hcond
    refine ⟨(key bBadParams).1, (key bBadParams).2, ?_⟩
    unfold mainStart
    simp only [(key false).1, (key false).2, Bool.not_false, if_true]
  · intro hsw
    have key := parseParameters_of_switch ids atoi atof ci
    refine ⟨(key bBadParams argv hsw).1, (key bBadParams argv hsw).2, ?_⟩
    unfold mainStart
    simp only [(key false argv hsw).1, (key false argv hsw).2, Bool.not_false, if_true]

/-- C20, amended, on three command lines: one without `-r`, one with equal filenames, and one
with `--help`. -/
theorem parseParameters_rejects_witness :
    mainStart ⟨0, 6, 2, 14⟩ (fun _ => 48000) (fun _ => 0) {}
      ["ReSampler", "-i", "a.wav", "-o", "b.wav"] = MainStart.exit true ∧
    (parseParameters ⟨0, 6, 2, 14⟩ (fun _ => 48000) (fun _ => 0) {} false
      ["ReSampler", "-i", "a.wav", "-o", "a.wav", "-r", "48000"]).bBadParams = true ∧
    mainStart ⟨0, 6, 2, 14⟩ (fun _ => 48000) (fun _ => 0) {}
      ["ReSampler", "-i", "a.wav", "-o", "b.wav", "--help"] = MainStart.exit false :=
  ⟨((parseParameters_rejects ⟨0, 6, 2, 14⟩ (fun _ => 48000) (fun _ => 0) {} false
      ["ReSampler", "-i", "a.wav", "-o", "b.wav"]).1 (by decide) (Or.inl (by decide))).2.2,
    ((parseParameters_rejects ⟨0, 6, 2, 14⟩ (fun _ => 48000) (fun _ => 0) {} false
      ["ReSampler", "-i", "a.wav", "-o", "a.wav", "-r", "48000"]).1 (by decide)
      (Or.inr (Or.inr ⟨"a.wav", by decide, by decide⟩))).2.1,
    ((parseParameters_rejects ⟨0, 6, 2, 14⟩ (fun _ => 48000) (fun _ => 0) {} false
      ["ReSampler", "-i", "a.wav", "-o", "b.wav", "--help"]).2 (by decide)).2.2⟩

/-! ### Polyphase equivalence -/

/-- A sum over the members of a list that satisfy `p` is the sum over the list of the terms
that satisfy `p`. -/
theorem sum_map_filter (l : List Nat) (p : Nat → Bool) (f : Nat → ℚ) :
    ((l.filter p).map f).sum = (l.map (fun i => if p i then f i else 0)).sum := by
  induction l with
  | nil => rfl
  | cons a rest ih =>
    by_cases h : p a = true
    · simp [List.filter_cons, h, ih]
    · simp [List.filter_cons, h, ih]

/-- After a push the newest sample sits in the slot that was the head. -/
theorem slot_after_push_zero (N head : Nat) (hh : head < N) :
    ((head + 1) % N + N - 1 - 0) % N = head := by
  have h1 : (head + 1) % N + N - 1 - 0 = (head + 1) % N + (N - 1) := by omega
  rw [h1, Nat.mod_add_mod, show head + 1 + (N - 1) = head + N by omega, Nat.add_mod_right,
    Nat.mod_eq_of_lt hh]

/-- After a push the sample at delay `d + 1` sits in the slot that held delay `d`. -/
theorem slot_after_push_succ (N head d : Nat) (hd : d + 1 < N) :
    ((head + 1) % N + N - 1 - (d + 1)) % N = (head + N - 1 - d) % N := by
  have h1 : (head + 1) % N + N - 1 - (d + 1) = (head + 1) % N + (N - 1 - (d + 1)) := by omega
  rw [h1, Nat.mod_add_mod]
  congr 1
  omega

/-- The slots of the delays below `N - 1` differ from the head. -/
theorem slot_ne_head (N head d : Nat) (hh : head < N) (hd : d + 1 < N) :
    (head + N - 1 - d) % N ≠ head := by
  intro h
  by_cases hc : head + N - 1 - d < N
  · rw [Nat.mod_eq_of_lt hc] at h
    omega
  · have h2 : head + N - 1 - d = (head - 1 - d) + N := by omega
    rw [h2, Nat.add_mod_right, Nat.mod_eq_of_lt (by omega)] at h
    omega

/-- A filter after `reset()` holds only zeros. -/
theorem zeroStuffed_fresh (N : Nat) (taps : Nat → ℚ) (L p : Nat) :
    ZeroStuffed L p (FIRState.fresh N taps) :=
  ⟨fun h => h, fun _ _ _ => rfl⟩

/-- A `push` after a complete round `push(x); push_zero() × (L - 1)` starts the next round. -/
theorem zeroStuffed_push (L : Nat) (hL : 1 ≤ L) (st : FIRState) (x : ℚ)
    (h : ZeroStuffed L (L - 1) st) : ZeroStuffed L 0 (st.push x) := by
  obtain ⟨hh, hz⟩ := h
  refine ⟨fun hN => Nat.mod_lt _ hN, ?_⟩
  intro d hd hne
  have hN : 0 < st.N := by
    have : d < st.N := hd
    omega
  cases d with
  | zero => exact absurd rfl hne
  | succ d' =>
    have hd' : d' + 1 < st.N := hd
    have e : (st.push x).slot (d' + 1) = st.slot d' := slot_after_push_succ st.N st.head d' hd'
    have hne' : st.slot d' ≠ st.head := slot_ne_head st.N st.head d' (hh hN) hd'
    show Function.update st.ring st.head x ((st.push x).slot (d' + 1)) = 0
    rw [e, Function.update_noteq hne']
    apply hz d' (by omega)
    intro hc
    apply hne
    rw [Nat.add_mod, hc, Nat.mod_eq_of_lt (by omega : L - 1 < L), Nat.zero_mod,
      show L - 1 + 1 % L = L - 1 + 1 % L from rfl]
    rcases Nat.lt_or_ge 1 L with h1 | h1
    · rw [Nat.mod_eq_of_lt h1, show L - 1 + 1 = L by omega, Nat.mod_self]
    · have : L = 1 := by omega
      subst this
      rfl

/-- A `push_zero` moves the zero-insertion phase on by one. -/
theorem zeroStuffed_push_zero (L p : Nat) (st : FIRState) (h : ZeroStuffed L p st) :
    ZeroStuffed L (p + 1) st.push_zero := by
  obtain ⟨hh, hz⟩ := h
  refine ⟨fun hN => Nat.mod_lt _ hN, ?_⟩
  intro d hd hne
  have hN : 0 < st.N := by
    have : d < st.N := hd
    omega
  cases d with
  | zero =>
    have e : st.push_zero.slot 0 = st.head := slot_after_push_zero st.N st.head (hh hN)
    show Function.update st.ring st.head 0 (st.push_zero.slot 0) = 0
    rw [e, Function.update_same]
  | succ d' =>
    have hd' : d' + 1 < st.N := hd
    have e : st.push_zero.slot (d' + 1) = st.slot d' :=
      slot_after_push_succ st.N st.head d' hd'
    have hne' : st.slot d' ≠ st.head := slot_ne_head st.N st.head d' (hh hN) hd'
    show Function.update st.ring st.head 0 (st.push_zero.slot (d' + 1)) = 0
    rw [e, Function.update_noteq hne']
    apply hz d' (by omega)
    intro hc
    apply hne
    rw [Nat.add_mod, hc, ← Nat.add_mod]

/-- After `push(x); push_zero() × k` that follow a complete round, the phase is `k`. -/
theorem zeroStuffed_stuffed (L : Nat) (hL : 1 ≤ L) (st : FIRState) (x : ℚ) (k : Nat)
    (h : ZeroStuffed L (L - 1) st) :
    ZeroStuffed L k (st.stuffed x k) ∧ (st.stuffed x k).phase = k ∧
    (st.stuffed x k).N = st.N ∧ (st.stuffed x k).taps = st.taps := by
  induction k with
  | zero => exact ⟨zeroStuffed_push L hL st x h, rfl, rfl, rfl⟩
  | succ k ih =>
    have e : st.stuffed x (k + 1) = (st.stuffed x k).push_zero := by
      unfold FIRState.stuffed
      rw [Function.iterate_succ_apply']
    rw [e]
    exact ⟨zeroStuffed_push_zero L k _ ih.1, by show (st.stuffed x k).phase + 1 = k + 1; rw [ih.2.1],
      ih.2.2.1, ih.2.2.2⟩

/-- When all samples outside the current polyphase subfilter are zero, `lazy_get(L)` returns the
value of `get()`. -/
theorem lazy_get_of_zeroStuffed (L : Nat) (st : FIRState) (h : ZeroStuffed L st.phase st) :
    st.lazy_get L = st.get := by
  unfold FIRState.lazy_get FIRState.get
  rw [sum_map_filter]
  congr 1
  apply List.map_congr_left
  intro i hi
  have hi' : i < st.N := List.mem_range.1 hi
  by_cases hp : i % L = st.phase % L
  · simp [hp]
  · simp [hp, h.2 i hi' hp]

/-- The state of a filter after the rounds `push(y); push_zero() × (L - 1)` for the samples `y`
of `rounds`, started after `reset()`. -/
theorem zeroStuffed_rounds (L : Nat) (hL : 1 ≤ L) (rounds : List ℚ) (st : FIRState)
    (h : ZeroStuffed L (L - 1) st) :
    ZeroStuffed L (L - 1) (rounds.foldl (fun s y => s.stuffed y (L - 1)) st) := by
  induction rounds generalizing st with
  | nil => exact h
  | cons y rest ih =>
    exact ih _ (zeroStuffed_stuffed L hL st y (L - 1) h).1

/-- C11, on the engine of the specification: for every filter (`N` taps `taps`, started by
`reset()`) and every sequence of events `push(y); push_zero() × (L - 1)`, after a further
`push(x)` and after each of the up to `L - 1` calls of `push_zero()` that follow it,
`lazy_get(L)` returns the value that `get()`, the full convolution over the ring, returns at
that moment. -/
theorem lazy_get_eq_get (N : Nat) (taps : Nat → ℚ) (L : Nat) (rounds : List ℚ) (x : ℚ) (k : Nat)
    (hk : k < L) :
    (((rounds.foldl (fun s y => s.stuffed y (L - 1)) (FIRState.fresh N taps)).stuffed x k).lazy_get L
      = ((rounds.foldl (fun s y => s.stuffed y (L - 1)) (FIRState.fresh N taps)).stuffed x k).get) ∧
    (specFIRFilter.LazyGet
        ((rounds.foldl (fun s y => s.stuffed y (L - 1)) (FIRState.fresh N taps)).stuffed x k)
        (L : Int)).1
      = (specFIRFilter.get
        ((rounds.foldl (fun s y => s.stuffed y (L - 1)) (FIRState.fresh N taps)).stuffed x k)).1 := by
  have hL : 1 ≤ L := by omega
  have h1 := zeroStuffed_rounds L hL rounds (FIRState.fresh N taps) (zeroStuffed_fresh N taps L _)
  obtain ⟨h2, h3, -, -⟩ := zeroStuffed_stuffed L hL _ x k h1
  have h4 := lazy_get_of_zeroStuffed L _ (by rw [h3]; exact h2)
  refine ⟨h4, ?_⟩
  show FIRState.lazy_get _ ((L : Int).toNat) = FIRState.get _
  rw [Int.toNat_ofNat]
  exact h4

/-- C11 for the taps 1, 2, 3 and `L = 2`: after the round `push(5); push_zero()` followed by
`push(7); push_zero()`, both `lazy_get(2)` and `get()` return `2 * 7 = 14`. -/
theorem lazy_get_eq_get_witness :
    (1 : Nat) < 2 ∧
    ((([(5 : ℚ)].foldl (fun s y => s.stuffed y (2 - 1))
        (FIRState.fresh 3 (fun i => (i : ℚ) + 1))).stuffed 7 1).lazy_get 2
      = (([(5 : ℚ)].foldl (fun s y => s.stuffed y (2 - 1))
        (FIRState.fresh 3 (fun i => (i : ℚ) + 1))).stuffed 7 1).get) ∧
    (([(5 : ℚ)].foldl (fun s y => s.stuffed y (2 - 1))
        (FIRState.fresh 3 (fun i => (i : ℚ) + 1))).stuffed 7 1).get = 14 := by
  refine ⟨by decide, (lazy_get_eq_get 3 (fun i => (i : ℚ) + 1) 2 [5] 7 1 (by decide)).1, ?_⟩
  norm_num [FIRState.get, FIRState.stuffed, FIRState.push, FIRState.push_zero, FIRState.fresh,
    FIRState.slot, List.range_succ, Function.update]

/-! ### The tasks of `ConvertMT` and the loops of `Convert` -/

section TaskSim

variable {Flt Dth : Type}

/-- Two pass states with the same fields are equal. -/
theorem passState_ext (s t : PassState Flt Dth) (h1 : s.Filters = t.Filters)
    (h2 : s.Ditherers = t.Ditherers) (h3 : s.di = t.di) (h4 : s.OutBuffer = t.OutBuffer)
    (h5 : s.OutBufferIndex = t.OutBufferIndex) (h6 : s.PeakOutputSample = t.PeakOutputSample)
    (h7 : s.outStartOffset = t.outStartOffset) (h8 : s.outFile = t.outFile) : s = t := by
  cases s; cases t
  simp only [PassState.mk.injEq]
  exact ⟨h1, h2, h3, h4, h5, h6, h7, h8⟩

theorem storeSample_merge (D : DithererOps Dth) (bDither : Bool) (Gain : ℚ) (nChannels c : Nat)
    (v : ℚ) (u : Bool) (P : ℚ) (ts : TaskState Flt Dth) :
    storeSample D bDither Gain nChannels c v (mergeLocal u c P ts)
      = mergeLocal u c P (storeLocal D bDither Gain nChannels c v ts) := by
  apply passState_ext <;> try rfl
  exact (max_assoc _ _ _)

theorem putOrZero_merge (Fo : FIRFilterOps Flt) (c : Nat) (x : ℚ) (ii : Nat) (u : Bool) (P : ℚ)
    (ts : TaskState Flt Dth) :
    putOrZero Fo c x ii (mergeLocal u c P ts) = mergeLocal u c P (putOrZeroLocal Fo c x ii ts) :=
  rfl

theorem emitGet_merge (Fo : FIRFilterOps Flt) (D : DithererOps Dth) (bDither : Bool) (Gain : ℚ)
    (nChannels c : Nat) (u : Bool) (P : ℚ) (ts : TaskState Flt Dth) :
    emitGet Fo D bDither Gain nChannels c (mergeLocal u c P ts)
      = mergeLocal u c P (emitGetLocal Fo D bDither Gain nChannels c ts) :=
  storeSample_merge D bDither Gain nChannels c _ u P
    { ts with mem := { ts.mem with
        Filters := Function.update ts.mem.Filters c (Fo.get (ts.mem.Filters c)).2 } }

theorem emitLazyGet_merge (Fo : FIRFilterOps Flt) (D : DithererOps Dth) (bDither : Bool)
    (Gain : ℚ) (L : Int) (nChannels c : Nat) (u : Bool) (P : ℚ) (ts : TaskState Flt Dth) :
    emitLazyGet Fo D bDither Gain L nChannels c (mergeLocal u c P ts)
      = mergeLocal u c P (emitLazyGetLocal Fo D bDither Gain L nChannels c ts) :=
  storeSample_merge D bDither Gain nChannels c _ u P
    { ts with mem := { ts.mem with
        Filters := Function.update ts.mem.Filters c (Fo.LazyGet (ts.mem.Filters c) L).2 } }

theorem mergeLocal_di (c : Nat) (P : ℚ) (ts : TaskState Flt Dth) :
    (mergeLocal true c P ts).di c = ts.localDecimationIndex := by
  show Function.update ts.mem.di c ts.localDecimationIndex c = _
  rw [Function.update_same]

theorem advanceDi_merge (M : Int) (c : Nat) (P : ℚ) (ts : TaskState Flt Dth) :
    advanceDi M c (mergeLocal true c P ts) = mergeLocal true c P (advanceLocal M ts) := by
  unfold advanceDi advanceLocal
  rw [mergeLocal_di]
  by_cases h : ts.localDecimationIndex + 1 = M
  · rw [if_pos h, if_pos h]
    apply passState_ext <;> try rfl
    show Function.update (Function.update ts.mem.di c ts.localDecimationIndex) c 0 = _
    rw [Function.update_idem]; rfl
  · rw [if_neg h, if_neg h]
    apply passState_ext <;> try rfl
    show Function.update (Function.update ts.mem.di c ts.localDecimationIndex) c _ = _
    rw [Function.update_idem]; rfl

end TaskSim

section TaskSim2

variable {Flt Dth : Type}

/-- One round of the loop over `s`: the body of `Convert` on the merged state is the body of the
task of `ConvertMT`. -/
theorem pathSample_merge (Fo : FIRFilterOps Flt) (D : DithererOps Dth) (USE_AVX bDither : Bool)
    (Gain : ℚ) (F : Fraction) (nChannels c : Nat) (x : ℚ) (P : ℚ) (ts : TaskState Flt Dth)
    (hp : selectPath F ≠ Path.copy) :
    pathSample Fo D USE_AVX bDither Gain F nChannels c x
        (mergeLocal (decide (selectPath F ≠ Path.interpolate)) c P ts)
      = mergeLocal (decide (selectPath F ≠ Path.interpolate)) c P
          (taskSample Fo D USE_AVX bDither Gain F nChannels c x ts) := by
  cases hs : selectPath F with
  | copy => exact absurd hs hp
  | decimate =>
    have hu : decide (Path.decimate ≠ Path.interpolate) = true := by decide
    simp only [pathSample, taskSample, hs, decimateSample, decimateTaskSample, hu]
    rw [putOrZero_merge, mergeLocal_di]
    have e : (putOrZeroLocal Fo c x 0 ts).localDecimationIndex = ts.localDecimationIndex := rfl
    by_cases h0 : ts.localDecimationIndex = 0
    · rw [e, if_pos h0, if_pos h0, emitGet_merge, advanceDi_merge]
    · rw [e, if_neg h0, if_neg h0, advanceDi_merge]
  | interpolate =>
    have hu : decide (Path.interpolate ≠ Path.interpolate) = false := by decide
    simp only [pathSample, taskSample, hs, interpolateSample, interpolateTaskSample, hu]
    apply foldl_commute (mergeLocal false c P)
    intro s ii
    simp only [interpolateStep, interpolateTaskStep]
    rw [putOrZero_merge]
    cases USE_AVX
    · simp only [Bool.false_eq_true, if_false]; exact emitLazyGet_merge _ _ _ _ _ _ _ _ _ _
    · simp only [if_true]; exact emitGet_merge _ _ _ _ _ _ _ _ _
  | interpolateDecimate =>
    have hu : decide (Path.interpolateDecimate ≠ Path.interpolate) = true := by decide
    simp only [pathSample, taskSample, hs, interpolateDecimateSample,
      interpolateDecimateTaskSample, hu]
    apply foldl_commute (mergeLocal true c P)
    intro s ii
    simp only [interpolateDecimateStep, interpolateDecimateTaskStep]
    rw [putOrZero_merge, mergeLocal_di]
    have e : (putOrZeroLocal Fo c x ii s).localDecimationIndex = s.localDecimationIndex := rfl
    by_cases h0 : s.localDecimationIndex = 0
    · rw [e, if_pos h0, if_pos h0, emitLazyGet_merge, advanceDi_merge]
    · rw [e, if_neg h0, if_neg h0, advanceDi_merge]

/-- The loop over `s` of `Convert` for one channel, started with a peak that is not negative,
ends in the state that the task of `ConvertMT` for that channel reaches, with the local
variables of the task in the place of `di[Channel]`, `OutBufferIndex` and the peak. -/
theorem channelLoop_eq_taskLoop (Fo : FIRFilterOps Flt) (D : DithererOps Dth)
    (USE_AVX bDither : Bool) (Gain : ℚ) (F : Fraction) (nChannels c : Nat) (blk : List ℚ)
    (st : PassState Flt Dth) (hp : selectPath F ≠ Path.copy) (hpeak : 0 ≤ st.PeakOutputSample) :
    channelLoop (pathSample Fo D USE_AVX bDither Gain F nChannels) nChannels blk st c
      = mergeLocal (decide (selectPath F ≠ Path.interpolate)) c st.PeakOutputSample
          (taskLoop (taskSample Fo D USE_AVX bDither Gain F nChannels) nChannels blk c
            { mem := st
              localDecimationIndex :=
                if decide (selectPath F ≠ Path.interpolate) then st.di c else 0
              localPeak := 0
              localOutBufferIndex := 0 }) := by
  have hstart : ({ st with OutBufferIndex := 0 } : PassState Flt Dth)
      = mergeLocal (decide (selectPath F ≠ Path.interpolate)) c st.PeakOutputSample
          { mem := st
            localDecimationIndex :=
              if decide (selectPath F ≠ Path.interpolate) then st.di c else 0
            localPeak := 0
            localOutBufferIndex := 0 } := by
    apply passState_ext <;> try rfl
    · show st.di = if decide (selectPath F ≠ Path.interpolate) = true then
        Function.update st.di c (if decide (selectPath F ≠ Path.interpolate) = true then st.di c
          else 0) else st.di
      by_cases hu : decide (selectPath F ≠ Path.interpolate) = true
      · rw [if_pos hu, if_pos hu, Function.update_eq_self]
      · rw [if_neg hu]
    · show st.PeakOutputSample = max st.PeakOutputSample 0
      rw [max_eq_left hpeak]
  unfold channelLoop taskLoop
  rw [hstart]
  apply foldl_commute
    (mergeLocal (decide (selectPath F ≠ Path.interpolate)) c st.PeakOutputSample)
  intro s k
  exact pathSample_merge Fo D USE_AVX bDither Gain F nChannels c _ _ s hp

end TaskSim2

/-! ### A task touches only the part of the memory that belongs to its channel -/

section TaskFrame

variable {Flt Dth : Type}

theorem foldl_commute_inv {α σ τ : Type} (φ : σ → τ) (f : σ → α → σ) (g : τ → α → τ)
    (I : σ → Prop) (h : ∀ s x, I s → g (φ s) x = φ (f s x) ∧ I (f s x)) :
    ∀ (l : List α) (s : σ), I s → l.foldl g (φ s) = φ (l.foldl f s) ∧ I (l.foldl f s) := by
  intro l
  induction l with
  | nil => intro s hs; exact ⟨rfl, hs⟩
  | cons x t ih =>
    intro s hs
    simp only [List.foldl_cons]
    rw [(h s x hs).1]
    exact ih _ (h s x hs).2

theorem graft_update_at {α : Type} (f g : Nat → α) (c : Nat) (v : α) :
    Function.update (fun j => if j = c then f j else g j) c v
      = fun j => if j = c then Function.update f c v j else g j := by
  funext j
  by_cases h : j = c
  · subst h; simp
  · simp [h]

theorem graft_update_slot (f g : Nat → ℚ) (n c i : Nat) (v : ℚ) (hi : i % n = c) :
    Function.update (fun j => if j % n = c then f j else g j) i v
      = fun j => if j % n = c then Function.update f i v j else g j := by
  funext j
  by_cases h : j = i
  · subst h; simp [hi]
  · simp [h]

theorem slot_mod (n c idx : Nat) (hc : c < n) (hidx : n ∣ idx) : (idx + c) % n = c := by
  obtain ⟨k, rfl⟩ := hidx
  rw [Nat.mul_add_mod, Nat.mod_eq_of_lt hc]

theorem taskState_ext (s t : TaskState Flt Dth) (h1 : s.mem = t.mem)
    (h2 : s.localDecimationIndex = t.localDecimationIndex) (h3 : s.localPeak = t.localPeak)
    (h4 : s.localOutBufferIndex = t.localOutBufferIndex) : s = t := by
  cases s; cases t
  simp only [TaskState.mk.injEq]
  exact ⟨h1, h2, h3, h4⟩

theorem graft_Ditherers (n c : Nat) (o m : PassState Flt Dth) :
    (graft n c o m).Ditherers c = m.Ditherers c := by
  show (if c = c then m.Ditherers c else o.Ditherers c) = _
  rw [if_pos rfl]

theorem graft_Filters (n c : Nat) (o m : PassState Flt Dth) :
    (graft n c o m).Filters c = m.Filters c := by
  show (if c = c then m.Filters c else o.Filters c) = _
  rw [if_pos rfl]

theorem graft_di (n c : Nat) (o m : PassState Flt Dth) :
    (graft n c o m).di c = m.di c := by
  show (if c = c then m.di c else o.di c) = _
  rw [if_pos rfl]

theorem storeLocal_graft (D : DithererOps Dth) (bDither : Bool) (Gain : ℚ) (n c : Nat) (v : ℚ)
    (o : PassState Flt Dth) (ts : TaskState Flt Dth) (hc : c < n)
    (hidx : n ∣ ts.localOutBufferIndex) :
    storeLocal D bDither Gain n c v (graftTask n c o ts)
      = graftTask n c o (storeLocal D bDither Gain n c v ts) := by
  have hslot := slot_mod n c ts.localOutBufferIndex hc hidx
  unfold storeLocal
  simp only [graftTask, graft_Ditherers]
  apply taskState_ext <;> try rfl
  apply passState_ext <;> try rfl
  · exact graft_update_at _ _ c _
  · exact graft_update_slot _ _ n c _ _ hslot

theorem storeLocal_idx (D : DithererOps Dth) (bDither : Bool) (Gain : ℚ) (n c : Nat) (v : ℚ)
    (ts : TaskState Flt Dth) (hidx : n ∣ ts.localOutBufferIndex) :
    n ∣ (storeLocal D bDither Gain n c v ts).localOutBufferIndex :=
  Dvd.dvd.add hidx (dvd_refl n)

end TaskFrame

section TaskFrame2

variable {Flt Dth : Type}

theorem putOrZeroLocal_graft (Fo : FIRFilterOps Flt) (n c : Nat) (x : ℚ) (ii : Nat)
    (o : PassState Flt Dth) (ts : TaskState Flt Dth) :
    putOrZeroLocal Fo c x ii (graftTask n c o ts)
      = graftTask n c o (putOrZeroLocal Fo c x ii ts) := by
  unfold putOrZeroLocal putOrZero
  simp only [graftTask, graft_Filters]
  apply taskState_ext <;> try rfl
  apply passState_ext <;> try rfl
  exact graft_update_at _ _ c _

theorem emitGetLocal_graft (Fo : FIRFilterOps Flt) (D : DithererOps Dth) (bDither : Bool)
    (Gain : ℚ) (n c : Nat) (o : PassState Flt Dth) (ts : TaskState Flt Dth) (hc : c < n)
    (hidx : n ∣ ts.localOutBufferIndex) :
    emitGetLocal Fo D bDither Gain n c (graftTask n c o ts)
      = graftTask n c o (emitGetLocal Fo D bDither Gain n c ts) := by
  unfold emitGetLocal
  have e : ({ graftTask n c o ts with
      mem := { (graftTask n c o ts).mem with
        Filters := Function.update (graftTask n c o ts).mem.Filters c
          (Fo.get ((graftTask n c o ts).mem.Filters c)).2 } } : TaskState Flt Dth)
      = graftTask n c o { ts with
          mem := { ts.mem with
            Filters := Function.update ts.mem.Filters c (Fo.get (ts.mem.Filters c)).2 } } := by
    simp only [graftTask, graft_Filters]
    apply taskState_ext <;> try rfl
    apply passState_ext <;> try rfl
    exact graft_update_at _ _ c _
  simp only
  rw [e]
  have e2 : (graftTask n c o ts).mem.Filters c = ts.mem.Filters c := graft_Filters n c o ts.mem
  rw [e2]
  exact storeLocal_graft D bDither Gain n c _ o _ hc hidx

theorem emitLazyGetLocal_graft (Fo : FIRFilterOps Flt) (D : DithererOps Dth) (bDither : Bool)
    (Gain : ℚ) (L : Int) (n c : Nat) (o : PassState Flt Dth) (ts : TaskState Flt Dth)
    (hc : c < n) (hidx : n ∣ ts.localOutBufferIndex) :
    emitLazyGetLocal Fo D bDither Gain L n c (graftTask n c o ts)
      = graftTask n c o (emitLazyGetLocal Fo D bDither Gain L n c ts) := by
  unfold emitLazyGetLocal
  have e : ({ graftTask n c o ts with
      mem := { (graftTask n c o ts).mem with
        Filters := Function.update (graftTask n c o ts).mem.Filters c
          (Fo.LazyGet ((graftTask n c o ts).mem.Filters c) L).2 } } : TaskState Flt Dth)
      = graftTask n c o { ts with
          mem := { ts.mem with
            Filters := Function.update ts.mem.Filters c
              (Fo.LazyGet (ts.mem.Filters c) L).2 } } := by
    simp only [graftTask, graft_Filters]
    apply taskState_ext <;> try rfl
    apply passState_ext <;> try rfl
    exact graft_update_at _ _ c _
  simp only
  rw [e]
  have e2 : (graftTask n c o ts).mem.Filters c = ts.mem.Filters c := graft_Filters n c o ts.mem
  rw [e2]
  exact storeLocal_graft D bDither Gain n c _ o _ hc hidx

theorem advanceLocal_graft (M : Int) (n c : Nat) (o : PassState Flt Dth)
    (ts : TaskState Flt Dth) :
    advanceLocal M (graftTask n c o ts) = graftTask n c o (advanceLocal M ts) := by
  unfold advanceLocal
  have e : (graftTask n c o ts).localDecimationIndex = ts.localDecimationIndex := rfl
  rw [e]
  by_cases h : ts.localDecimationIndex + 1 = M
  · rw [if_pos h, if_pos h]; rfl
  · rw [if_neg h, if_neg h]; rfl

theorem advanceLocal_idx (M : Int) (ts : TaskState Flt Dth) :
    (advanceLocal M ts).localOutBufferIndex = ts.localOutBufferIndex := by
  unfold advanceLocal
  split <;> rfl

/-- One round of the loop over `s` of a task commutes with grafting, and keeps
`localOutBufferIndex` a multiple of `nChannels`. -/
theorem taskSample_graft (Fo : FIRFilterOps Flt) (D : DithererOps Dth) (USE_AVX bDither : Bool)
    (Gain : ℚ) (F : Fraction) (n c : Nat) (x : ℚ) (o : PassState Flt Dth)
    (ts : TaskState Flt Dth) (hc : c < n) (hidx : n ∣ ts.localOutBufferIndex) :
    taskSample Fo D USE_AVX bDither Gain F n c x (graftTask n c o ts)
        = graftTask n c o (taskSample Fo D USE_AVX bDither Gain F n c x ts) ∧
      n ∣ (taskSample Fo D USE_AVX bDither Gain F n c x ts).localOutBufferIndex := by
  have hput : ∀ (ii : Nat) (s : TaskState Flt Dth),
      (putOrZeroLocal Fo c x ii s).localOutBufferIndex = s.localOutBufferIndex := fun _ _ => rfl
  have hputd : ∀ (ii : Nat) (s : TaskState Flt Dth),
      (putOrZeroLocal Fo c x ii s).localDecimationIndex = s.localDecimationIndex := fun _ _ => rfl
  have hgd : ∀ s : TaskState Flt Dth,
      (graftTask n c o s).localDecimationIndex = s.localDecimationIndex := fun _ => rfl
  have hget : ∀ s : TaskState Flt Dth, n ∣ s.localOutBufferIndex →
      n ∣ (emitGetLocal Fo D bDither Gain n c s).localOutBufferIndex := by
    intro s hs
    exact storeLocal_idx D bDither Gain n c _ _ hs
  have hlazy : ∀ (L : Int) (s : TaskState Flt Dth), n ∣ s.localOutBufferIndex →
      n ∣ (emitLazyGetLocal Fo D bDither Gain L n c s).localOutBufferIndex := by
    intro L s hs
    exact storeLocal_idx D bDither Gain n c _ _ hs
  cases hs : selectPath F with
  | copy =>
    simp only [taskSample, hs]
    exact ⟨trivial, hidx⟩
  | decimate =>
    simp only [taskSample, hs, decimateTaskSample]
    rw [putOrZeroLocal_graft, hgd, hputd]
    by_cases h0 : ts.localDecimationIndex = 0
    · rw [if_pos h0, if_pos h0,
        emitGetLocal_graft Fo D bDither Gain n c o _ hc (by rw [hput]; exact hidx),
        advanceLocal_graft, advanceLocal_idx]
      exact ⟨rfl, hget _ (by rw [hput]; exact hidx)⟩
    · rw [if_neg h0, if_neg h0, advanceLocal_graft, advanceLocal_idx]
      exact ⟨rfl, by rw [hput]; exact hidx⟩
  | interpolate =>
    simp only [taskSample, hs, interpolateTaskSample]
    apply foldl_commute_inv (graftTask n c o) _ _ (fun s => n ∣ s.localOutBufferIndex) _ _ _ hidx
    intro s ii hI
    simp only [interpolateTaskStep]
    rw [putOrZeroLocal_graft]
    cases USE_AVX
    · simp only [Bool.false_eq_true, if_false]
      exact ⟨emitLazyGetLocal_graft Fo D bDither Gain _ n c o _ hc (by rw [hput]; exact hI),
        hlazy _ _ (by rw [hput]; exact hI)⟩
    · simp only [if_true]
      exact ⟨emitGetLocal_graft Fo D bDither Gain n c o _ hc (by rw [hput]; exact hI),
        hget _ (by rw [hput]; exact hI)⟩
  | interpolateDecimate =>
    simp only [taskSample, hs, interpolateDecimateTaskSample]
    apply foldl_commute_inv (graftTask n c o) _ _ (fun s => n ∣ s.localOutBufferIndex) _ _ _ hidx
    intro s ii hI
    simp only [interpolateDecimateTaskStep]
    rw [putOrZeroLocal_graft, hgd, hputd]
    by_cases h0 : s.localDecimationIndex = 0
    · rw [if_pos h0, if_pos h0,
        emitLazyGetLocal_graft Fo D bDither Gain _ n c o _ hc (by rw [hput]; exact hI),
        advanceLocal_graft, advanceLocal_idx]
      exact ⟨rfl, hlazy _ _ (by rw [hput]; exact hI)⟩
    · rw [if_neg h0, if_neg h0, advanceLocal_graft, advanceLocal_idx]
      exact ⟨rfl, by rw [hput]; exact hI⟩

/-- The loop over `s` of a task commutes with grafting. -/
theorem taskLoop_graft (Fo : FIRFilterOps Flt) (D : DithererOps Dth) (USE_AVX bDither : Bool)
    (Gain : ℚ) (F : Fraction) (n c : Nat) (blk : List ℚ) (o : PassState Flt Dth)
    (ts : TaskState Flt Dth) (hc : c < n) (hidx : n ∣ ts.localOutBufferIndex) :
    taskLoop (taskSample Fo D USE_AVX bDither Gain F n) n blk c (graftTask n c o ts)
      = graftTask n c o (taskLoop (taskSample Fo D USE_AVX bDither Gain F n) n blk c ts) := by
  unfold taskLoop
  exact (foldl_commute_inv (graftTask n c o) _ _ (fun s => n ∣ s.localOutBufferIndex)
    (fun s k hI => taskSample_graft Fo D USE_AVX bDither Gain F n c _ o s hc hI) _ ts hidx).1

end TaskFrame2

section TaskComm

variable {Flt Dth : Type}

theorem graft_self (n c : Nat) (m : PassState Flt Dth) : graft n c m m = m := by
  apply passState_ext <;> try rfl
  · funext j; show (if j = c then m.Filters j else m.Filters j) = _; rw [ite_self]
  · funext j; show (if j = c then m.Ditherers j else m.Ditherers j) = _; rw [ite_self]
  · funext j; show (if j = c then m.di j else m.di j) = _; rw [ite_self]
  · funext i; show (if i % n = c then m.OutBuffer i else m.OutBuffer i) = _; rw [ite_self]

/-- The memory and the result that a task leaves do not depend on the vector of results. -/
theorem channelTask_r (Fo : FIRFilterOps Flt) (D : DithererOps Dth) (USE_AVX bDither : Bool)
    (Gain : ℚ) (F : Fraction) (n : Nat) (blk : List ℚ) (m : PassState Flt Dth)
    (r r0 : Nat → Res) (c : Nat) :
    channelTask Fo D USE_AVX bDither Gain F n blk { mem := m, r := r } c
      = { mem := (channelTask Fo D USE_AVX bDither Gain F n blk { mem := m, r := r0 } c).mem
          r := Function.update r c
            ((channelTask Fo D USE_AVX bDither Gain F n blk { mem := m, r := r0 } c).r c) } := by
  unfold channelTask
  simp only [Function.update_same]

/-- A task run on a memory whose part for the channel of the task comes from `m` leaves the
rest of that memory alone, and the part of the channel as if it had run on `m`. -/
theorem channelTask_graft (Fo : FIRFilterOps Flt) (D : DithererOps Dth) (USE_AVX bDither : Bool)
    (Gain : ℚ) (F : Fraction) (n : Nat) (blk : List ℚ) (o : PassState Flt Dth)
    (pool : TaskPool Flt Dth) (c : Nat) (hc : c < n) :
    channelTask Fo D USE_AVX bDither Gain F n blk (graftPool n c o pool) c
      = graftPool n c o (channelTask Fo D USE_AVX bDither Gain F n blk pool c) := by
  have hstart : ({ mem := graft n c o pool.mem
                   localDecimationIndex :=
                     if decide (selectPath F ≠ Path.interpolate) = true then
                       (graft n c o pool.mem).di c else 0
                   localPeak := 0
                   localOutBufferIndex := 0 } : TaskState Flt Dth)
      = graftTask n c o
          { mem := pool.mem
            localDecimationIndex :=
              if decide (selectPath F ≠ Path.interpolate) = true then pool.mem.di c else 0
            localPeak := 0
            localOutBufferIndex := 0 } := by
    rw [graft_di]; rfl
  unfold channelTask
  simp only [graftPool]
  rw [hstart, taskLoop_graft Fo D USE_AVX bDither Gain F n c blk o _ hc (dvd_zero n)]
  by_cases hu : decide (selectPath F ≠ Path.interpolate) = true
  · simp only [hu, if_true]
    congr 1
    apply passState_ext <;> try rfl
    exact graft_update_at _ _ c _
  · simp only [hu]
    rfl

/-- What a task leaves outside the part of the memory that belongs to its channel is what it
found there. -/
theorem channelTask_frame (Fo : FIRFilterOps Flt) (D : DithererOps Dth) (USE_AVX bDither : Bool)
    (Gain : ℚ) (F : Fraction) (n : Nat) (blk : List ℚ) (pool : TaskPool Flt Dth) (c : Nat)
    (hc : c < n) :
    (channelTask Fo D USE_AVX bDither Gain F n blk pool c).mem
      = graft n c pool.mem (channelTask Fo D USE_AVX bDither Gain F n blk pool c).mem := by
  have h := channelTask_graft Fo D USE_AVX bDither Gain F n blk pool.mem pool c hc
  have e : graftPool n c pool.mem pool = pool := by
    unfold graftPool
    rw [graft_self]
  rw [e] at h
  exact congrArg TaskPool.mem h

end TaskComm

section TaskComm2

variable {Flt Dth : Type}

theorem taskPool_ext (s t : TaskPool Flt Dth) (h1 : s.mem = t.mem) (h2 : s.r = t.r) : s = t := by
  cases s; cases t
  simp only [TaskPool.mk.injEq]
  exact ⟨h1, h2⟩

/-- The fields of the memory outside the part of channel `c`, after the task of `c`. -/
theorem channelTask_outside (Fo : FIRFilterOps Flt) (D : DithererOps Dth)
    (USE_AVX bDither : Bool) (Gain : ℚ) (F : Fraction) (n : Nat) (blk : List ℚ)
    (pool : TaskPool Flt Dth) (c : Nat) (hc : c < n) :
    (∀ j, j ≠ c → (channelTask Fo D USE_AVX bDither Gain F n blk pool c).mem.Filters j
      = pool.mem.Filters j) ∧
    (∀ j, j ≠ c → (channelTask Fo D USE_AVX bDither Gain F n blk pool c).mem.Ditherers j
      = pool.mem.Ditherers j) ∧
    (∀ j, j ≠ c → (channelTask Fo D USE_AVX bDither Gain F n blk pool c).mem.di j
      = pool.mem.di j) ∧
    (∀ i, i % n ≠ c → (channelTask Fo D USE_AVX bDither Gain F n blk pool c).mem.OutBuffer i
      = pool.mem.OutBuffer i) ∧
    (channelTask Fo D USE_AVX bDither Gain F n blk pool c).mem.OutBufferIndex
      = pool.mem.OutBufferIndex ∧
    (channelTask Fo D USE_AVX bDither Gain F n blk pool c).mem.PeakOutputSample
      = pool.mem.PeakOutputSample ∧
    (channelTask Fo D USE_AVX bDither Gain F n blk pool c).mem.outStartOffset
      = pool.mem.outStartOffset ∧
    (channelTask Fo D USE_AVX bDither Gain F n blk pool c).mem.outFile = pool.mem.outFile := by
  have h := channelTask_frame Fo D USE_AVX bDither Gain F n blk pool c hc
  generalize (channelTask Fo D USE_AVX bDither Gain F n blk pool c).mem = T at h
  refine ⟨?_, ?_, ?_, ?_, ?_, ?_, ?_, ?_⟩
  · intro j hj
    have e : T.Filters j = if j = c then T.Filters j else pool.mem.Filters j :=
      congrFun (congrArg PassState.Filters h) j
    rw [if_neg hj] at e; exact e
  · intro j hj
    have e : T.Ditherers j = if j = c then T.Ditherers j else pool.mem.Ditherers j :=
      congrFun (congrArg PassState.Ditherers h) j
    rw [if_neg hj] at e; exact e
  · intro j hj
    have e : T.di j = if j = c then T.di j else pool.mem.di j :=
      congrFun (congrArg PassState.di h) j
    rw [if_neg hj] at e; exact e
  · intro i hi
    have e : T.OutBuffer i = if i % n = c then T.OutBuffer i else pool.mem.OutBuffer i :=
      congrFun (congrArg PassState.OutBuffer h) i
    rw [if_neg hi] at e; exact e
  · have e : T.OutBufferIndex = (graft n c pool.mem T).OutBufferIndex :=
      congrArg PassState.OutBufferIndex h
    exact e
  · have e : T.PeakOutputSample = (graft n c pool.mem T).PeakOutputSample :=
      congrArg PassState.PeakOutputSample h
    exact e
  · have e : T.outStartOffset = (graft n c pool.mem T).outStartOffset :=
      congrArg PassState.outStartOffset h
    exact e
  · have e : T.outFile = (graft n c pool.mem T).outFile := congrArg PassState.outFile h
    exact e

/-- The task of channel `x`, run after the task of another channel `y`, leaves the part of `x`
as it does when run first, and the rest as the task of `y` left it. -/
theorem channelTask_after (Fo : FIRFilterOps Flt) (D : DithererOps Dth)
    (USE_AVX bDither : Bool) (Gain : ℚ) (F : Fraction) (n : Nat) (blk : List ℚ)
    (pool : TaskPool Flt Dth) (x y : Nat) (hx : x < n) (hy : y < n) (hxy : x ≠ y) :
    channelTask Fo D USE_AVX bDither Gain F n blk
        (channelTask Fo D USE_AVX bDither Gain F n blk pool y) x
      = { mem := graft n x (channelTask Fo D USE_AVX bDither Gain F n blk pool y).mem
            (channelTask Fo D USE_AVX bDither Gain F n blk pool x).mem
          r := Function.update
            (Function.update pool.r y
              ((channelTask Fo D USE_AVX bDither Gain F n blk pool y).r y))
            x ((channelTask Fo D USE_AVX bDither Gain F n blk pool x).r x) } := by
  obtain ⟨hF, hD, hd, hB, h5, h6, h7, h8⟩ :=
    channelTask_outside Fo D USE_AVX bDither Gain F n blk pool y hy
  have hBr : (channelTask Fo D USE_AVX bDither Gain F n blk pool y).r
      = Function.update pool.r y ((channelTask Fo D USE_AVX bDither Gain F n blk pool y).r y) := by
    have h := channelTask_r Fo D USE_AVX bDither Gain F n blk pool.mem pool.r pool.r y
    exact congrArg TaskPool.r h
  have hAx := channelTask_r Fo D USE_AVX bDither Gain F n blk pool.mem
    (channelTask Fo D USE_AVX bDither Gain F n blk pool y).r pool.r x
  generalize hBdef : channelTask Fo D USE_AVX bDither Gain F n blk pool y = B at *
  have e1 : B = graftPool n x B.mem { mem := pool.mem, r := B.r } := by
    apply taskPool_ext
    · show B.mem = graft n x B.mem pool.mem
      apply passState_ext <;> try rfl
      · funext j
        show B.mem.Filters j = if j = x then pool.mem.Filters j else B.mem.Filters j
        by_cases hj : j = x
        · rw [if_pos hj, hF j (by rw [hj]; exact hxy)]
        · rw [if_neg hj]
      · funext j
        show B.mem.Ditherers j = if j = x then pool.mem.Ditherers j else B.mem.Ditherers j
        by_cases hj : j = x
        · rw [if_pos hj, hD j (by rw [hj]; exact hxy)]
        · rw [if_neg hj]
      · funext j
        show B.mem.di j = if j = x then pool.mem.di j else B.mem.di j
        by_cases hj : j = x
        · rw [if_pos hj, hd j (by rw [hj]; exact hxy)]
        · rw [if_neg hj]
      · funext i
        show B.mem.OutBuffer i = if i % n = x then pool.mem.OutBuffer i else B.mem.OutBuffer i
        by_cases hi : i % n = x
        · rw [if_pos hi, hB i (by rw [hi]; exact hxy)]
        · rw [if_neg hi]
    · rfl
  have e2 : channelTask Fo D USE_AVX bDither Gain F n blk B x
      = graftPool n x B.mem
          (channelTask Fo D USE_AVX bDither Gain F n blk { mem := pool.mem, r := B.r } x) := by
    conv_lhs => rw [e1]
    exact channelTask_graft Fo D USE_AVX bDither Gain F n blk B.mem _ x hx
  rw [e2, hAx]
  apply taskPool_ext
  · rfl
  · exact congrArg (fun r => Function.update r x
      ((channelTask Fo D USE_AVX bDither Gain F n blk pool x).r x)) hBr

/-- The tasks of two channels commute. -/
theorem channelTask_comm (Fo : FIRFilterOps Flt) (D : DithererOps Dth)
    (USE_AVX bDither : Bool) (Gain : ℚ) (F : Fraction) (n : Nat) (blk : List ℚ)
    (pool : TaskPool Flt Dth) (x y : Nat) (hx : x < n) (hy : y < n) :
    channelTask Fo D USE_AVX bDither Gain F n blk
        (channelTask Fo D USE_AVX bDither Gain F n blk pool y) x
      = channelTask Fo D USE_AVX bDither Gain F n blk
        (channelTask Fo D USE_AVX bDither Gain F n blk pool x) y := by
  by_cases hxy : x = y
  · subst hxy; rfl
  rw [channelTask_after Fo D USE_AVX bDither Gain F n blk pool x y hx hy hxy,
    channelTask_after Fo D USE_AVX bDither Gain F n blk pool y x hy hx (Ne.symm hxy)]
  obtain ⟨hF, hD, hd, hB, h5, h6, h7, h8⟩ :=
    channelTask_outside Fo D USE_AVX bDither Gain F n blk pool y hy
  obtain ⟨gF, gD, gd, gB, g5, g6, g7, g8⟩ :=
    channelTask_outside Fo D USE_AVX bDither Gain F n blk pool x hx
  generalize channelTask Fo D USE_AVX bDither Gain F n blk pool y = B at *
  generalize channelTask Fo D USE_AVX bDither Gain F n blk pool x = A at *
  apply taskPool_ext
  · show graft n x B.mem A.mem = graft n y A.mem B.mem
    apply passState_ext
    · funext j
      show (if j = x then A.mem.Filters j else B.mem.Filters j)
        = if j = y then B.mem.Filters j else A.mem.Filters j
      by_cases h1 : j = x
      · rw [if_pos h1, if_neg (by rw [h1]; exact hxy)]
      · by_cases h2 : j = y
        · rw [if_neg h1, if_pos h2]
        · rw [if_neg h1, if_neg h2, hF j h2, gF j h1]
    · funext j
      show (if j = x then A.mem.Ditherers j else B.mem.Ditherers j)
        = if j = y then B.mem.Ditherers j else A.mem.Ditherers j
      by_cases h1 : j = x
      · rw [if_pos h1, if_neg (by rw [h1]; exact hxy)]
      · by_cases h2 : j = y
        · rw [if_neg h1, if_pos h2]
        · rw [if_neg h1, if_neg h2, hD j h2, gD j h1]
    · funext j
      show (if j = x then A.mem.di j else B.mem.di j)
        = if j = y then B.mem.di j else A.mem.di j
      by_cases h1 : j = x
      · rw [if_pos h1, if_neg (by rw [h1]; exact hxy)]
      · by_cases h2 : j = y
        · rw [if_neg h1, if_pos h2]
        · rw [if_neg h1, if_neg h2, hd j h2, gd j h1]
    · funext i
      show (if i % n = x then A.mem.OutBuffer i else B.mem.OutBuffer i)
        = if i % n = y then B.mem.OutBuffer i else A.mem.OutBuffer i
      by_cases h1 : i % n = x
      · rw [if_pos h1, if_neg (by rw [h1]; exact hxy)]
      · by_cases h2 : i % n = y
        · rw [if_neg h1, if_pos h2]
        · rw [if_neg h1, if_neg h2, hB i h2, gB i h1]
    · show B.mem.OutBufferIndex = A.mem.OutBufferIndex
      rw [h5, g5]
    · show B.mem.PeakOutputSample = A.mem.PeakOutputSample
      rw [h6, g6]
    · show B.mem.outStartOffset = A.mem.outStartOffset
      rw [h7, g7]
    · show B.mem.outFile = A.mem.outFile
      rw [h8, g8]
  · show Function.update (Function.update pool.r y (B.r y)) x (A.r x)
      = Function.update (Function.update pool.r x (A.r x)) y (B.r y)
    exact Function.update_comm (Ne.symm hxy) _ _ _

end TaskComm2

section TaskBlock

variable {Flt Dth : Type}

/-- Collecting the result of one more channel. -/
theorem collectResults_succ (k : Nat) (pool : TaskPool Flt Dth) :
    collectResults (k + 1) pool
      = { collectResults k pool with
          OutBufferIndex := (pool.r k).outputBufferIndex
          PeakOutputSample := max (collectResults k pool).PeakOutputSample (pool.r k).peak } := by
  unfold collectResults
  rw [List.range_succ, List.foldl_append]
  rfl

/-- The loop "collect results" changes `OutBufferIndex` and `PeakOutputSample` only, and what it
stores in them depends on the results of the channels it visits and on the two values it
starts from. -/
theorem collectResults_congr (k : Nat) (m m1 : PassState Flt Dth) (r r1 : Nat → Res)
    (hr : ∀ c, c < k → r1 c = r c) (hi : m1.OutBufferIndex = m.OutBufferIndex)
    (hp : m1.PeakOutputSample = m.PeakOutputSample) :
    collectResults k { mem := m1, r := r1 }
      = { m1 with
          OutBufferIndex := (collectResults k { mem := m, r := r }).OutBufferIndex
          PeakOutputSample := (collectResults k { mem := m, r := r }).PeakOutputSample } := by
  induction k with
  | zero =>
    show m1 = _
    apply passState_ext <;> try rfl
    · exact hi
    · exact hp
  | succ k ih =>
    rw [collectResults_succ, collectResults_succ, ih (fun c hc => hr c (by omega))]
    apply passState_ext <;> try rfl
    · show (r1 k).outputBufferIndex = (r k).outputBufferIndex
      rw [hr k (by omega)]
    · show max _ (r1 k).peak = max _ (r k).peak
      rw [hr k (by omega)]

/-- The loop over `s` of `Convert` for channel `c`, in terms of the task of `ConvertMT`. -/
theorem channelLoop_eq_channelTask (Fo : FIRFilterOps Flt) (D : DithererOps Dth)
    (USE_AVX bDither : Bool) (Gain : ℚ) (F : Fraction) (n c : Nat) (blk : List ℚ)
    (st : PassState Flt Dth) (r : Nat → Res) (hp : selectPath F ≠ Path.copy)
    (hpeak : 0 ≤ st.PeakOutputSample) :
    channelLoop (pathSample Fo D USE_AVX bDither Gain F n) n blk st c
      = { (channelTask Fo D USE_AVX bDither Gain F n blk { mem := st, r := r } c).mem with
          OutBufferIndex :=
            ((channelTask Fo D USE_AVX bDither Gain F n blk { mem := st, r := r } c).r c).outputBufferIndex
          PeakOutputSample := max st.PeakOutputSample
            ((channelTask Fo D USE_AVX bDither Gain F n blk { mem := st, r := r } c).r c).peak } := by
  rw [channelLoop_eq_taskLoop Fo D USE_AVX bDither Gain F n c blk st hp hpeak]
  unfold channelTask
  simp only [Function.update_same]
  by_cases hu : decide (selectPath F ≠ Path.interpolate) = true
  · simp only [hu, if_true]
    rfl
  · simp only [hu]
    rfl

/-- A task does not read `OutBufferIndex` and `PeakOutputSample` of the shared memory. -/
theorem channelTask_scalars (Fo : FIRFilterOps Flt) (D : DithererOps Dth)
    (USE_AVX bDither : Bool) (Gain : ℚ) (F : Fraction) (n c : Nat) (blk : List ℚ)
    (m : PassState Flt Dth) (r : Nat → Res) (a : Nat) (b : ℚ) (hc : c < n) :
    channelTask Fo D USE_AVX bDither Gain F n blk
        { mem := { m with OutBufferIndex := a, PeakOutputSample := b }, r := r } c
      = { mem := { (channelTask Fo D USE_AVX bDither Gain F n blk { mem := m, r := r } c).mem with
            OutBufferIndex := a, PeakOutputSample := b }
          r := (channelTask Fo D USE_AVX bDither Gain F n blk { mem := m, r := r } c).r } := by
  obtain ⟨hF, hD, hd, hB, h5, h6, h7, h8⟩ :=
    channelTask_outside Fo D USE_AVX bDither Gain F n blk { mem := m, r := r } c hc
  have e1 : ({ mem := { m with OutBufferIndex := a, PeakOutputSample := b }, r := r } :
      TaskPool Flt Dth)
      = graftPool n c { m with OutBufferIndex := a, PeakOutputSample := b }
          { mem := m, r := r } := by
    apply taskPool_ext
    · show _ = graft n c { m with OutBufferIndex := a, PeakOutputSample := b } m
      apply passState_ext <;> try rfl
      · funext j; show m.Filters j = if j = c then m.Filters j else m.Filters j; rw [ite_self]
      · funext j; show m.Ditherers j = if j = c then m.Ditherers j else m.Ditherers j
        rw [ite_self]
      · funext j; show m.di j = if j = c then m.di j else m.di j; rw [ite_self]
      · funext i
        show m.OutBuffer i = if i % n = c then m.OutBuffer i else m.OutBuffer i
        rw [ite_self]
    · rfl
  rw [e1, channelTask_graft Fo D USE_AVX bDither Gain F n blk _ _ c hc]
  generalize channelTask Fo D USE_AVX bDither Gain F n blk { mem := m, r := r } c = T at *
  apply taskPool_ext
  · show graft n c { m with OutBufferIndex := a, PeakOutputSample := b } T.mem
      = { T.mem with OutBufferIndex := a, PeakOutputSample := b }
    apply passState_ext <;> try rfl
    · funext j
      show (if j = c then T.mem.Filters j else m.Filters j) = T.mem.Filters j
      by_cases hj : j = c
      · rw [if_pos hj]
      · rw [if_neg hj, hF j hj]
    · funext j
      show (if j = c then T.mem.Ditherers j else m.Ditherers j) = T.mem.Ditherers j
      by_cases hj : j = c
      · rw [if_pos hj]
      · rw [if_neg hj, hD j hj]
    · funext j
      show (if j = c then T.mem.di j else m.di j) = T.mem.di j
      by_cases hj : j = c
      · rw [if_pos hj]
      · rw [if_neg hj, hd j hj]
    · funext i
      show (if i % n = c then T.mem.OutBuffer i else m.OutBuffer i) = T.mem.OutBuffer i
      by_cases hi : i % n = c
      · rw [if_pos hi]
      · rw [if_neg hi, hB i hi]
    · show m.outStartOffset = T.mem.outStartOffset
      rw [h7]
    · show m.outFile = T.mem.outFile
      rw [h8]
  · rfl

/-- With the tasks run in the order of the channels, the first `k` tasks of `ConvertMT`
followed by the collection of their results leave what the loops of `Convert` over the first
`k` channels leave. -/
theorem processBlock_prefix (Fo : FIRFilterOps Flt) (D : DithererOps Dth)
    (USE_AVX bDither : Bool) (Gain : ℚ) (F : Fraction) (n : Nat) (blk : List ℚ)
    (st : PassState Flt Dth) (r : Nat → Res) (hp : selectPath F ≠ Path.copy)
    (hpeak : 0 ≤ st.PeakOutputSample) :
    ∀ k, k ≤ n →
      (List.range k).foldl (channelLoop (pathSample Fo D USE_AVX bDither Gain F n) n blk) st
        = collectResults k
            ((List.range k).foldl (channelTask Fo D USE_AVX bDither Gain F n blk)
              { mem := st, r := r }) ∧
      0 ≤ ((List.range k).foldl
        (channelLoop (pathSample Fo D USE_AVX bDither Gain F n) n blk) st).PeakOutputSample := by
  intro k
  induction k with
  | zero => intro _; exact ⟨rfl, hpeak⟩
  | succ k ih =>
    intro hk
    obtain ⟨ih1, ih2⟩ := ih (by omega)
    rw [List.range_succ, List.foldl_append, List.foldl_append]
    simp only [List.foldl_cons, List.foldl_nil]
    generalize hC : (List.range k).foldl
      (channelLoop (pathSample Fo D USE_AVX bDither Gain F n) n blk) st = C at *
    generalize hM : (List.range k).foldl (channelTask Fo D USE_AVX bDither Gain F n blk)
      { mem := st, r := r } = M at *
    have hC3 : C = { M.mem with
        OutBufferIndex := C.OutBufferIndex, PeakOutputSample := C.PeakOutputSample } := by
      have h := collectResults_congr k M.mem M.mem M.r M.r (fun _ _ => rfl) rfl rfl
      rw [← ih1] at h
      exact h
    have hS := channelLoop_eq_channelTask Fo D USE_AVX bDither Gain F n k blk C M.r hp ih2
    have hI := channelTask_scalars Fo D USE_AVX bDither Gain F n k blk M.mem M.r
      C.OutBufferIndex C.PeakOutputSample (by omega)
    rw [← hC3] at hI
    rw [hI] at hS
    have hT : channelTask Fo D USE_AVX bDither Gain F n blk { mem := M.mem, r := M.r } k
        = channelTask Fo D USE_AVX bDither Gain F n blk M k := rfl
    rw [hT] at hS
    obtain ⟨-, -, -, -, h5, h6, -, -⟩ :=
      channelTask_outside Fo D USE_AVX bDither Gain F n blk M k (by omega)
    have hr : ∀ c, c < k →
        (channelTask Fo D USE_AVX bDither Gain F n blk M k).r c = M.r c := by
      intro c hc
      have h := channelTask_r Fo D USE_AVX bDither Gain F n blk M.mem M.r M.r k
      have h' := congrFun (congrArg TaskPool.r h) c
      rw [hT] at h'
      rw [h']
      exact Function.update_noteq (by omega) _ _
    have hX := collectResults_congr k M.mem
      (channelTask Fo D USE_AVX bDither Gain F n blk M k).mem M.r
      (channelTask Fo D USE_AVX bDither Gain F n blk M k).r hr h5 h6
    have hM' : ({ mem := M.mem, r := M.r } : TaskPool Flt Dth) = M := rfl
    rw [hM', ← ih1] at hX
    have hT' : ({ mem := (channelTask Fo D USE_AVX bDither Gain F n blk M k).mem
                  r := (channelTask Fo D USE_AVX bDither Gain F n blk M k).r } :
        TaskPool Flt Dth) = channelTask Fo D USE_AVX bDither Gain F n blk M k := rfl
    rw [hT'] at hX
    rw [collectResults_succ, hX, hS]
    refine ⟨?_, ?_⟩
    · apply passState_ext <;> rfl
    · exact le_trans ih2 (le_max_left _ _)

end TaskBlock

section TaskOrder

variable {Flt Dth : Type}

/-- The tasks of a block may run in any order: the pool they leave is the one that the order of
the channels gives. -/
theorem channelTask_order (Fo : FIRFilterOps Flt) (D : DithererOps Dth)
    (USE_AVX bDither : Bool) (Gain : ℚ) (F : Fraction) (n : Nat) (blk : List ℚ)
    (order : List Nat) (horder : order.Perm (List.range n)) (pool : TaskPool Flt Dth) :
    order.foldl (channelTask Fo D USE_AVX bDither Gain F n blk) pool
      = (List.range n).foldl (channelTask Fo D USE_AVX bDither Gain F n blk) pool := by
  apply List.Perm.foldl_eq' horder
  intro x hx y hy z
  have hx' : x < n := List.mem_range.1 (horder.mem_iff.1 hx)
  have hy' : y < n := List.mem_range.1 (horder.mem_iff.1 hy)
  exact channelTask_comm Fo D USE_AVX bDither Gain F n blk z y x hy' hx'

/-- C12: for every input block, every configuration (filter and ditherer operations, gain,
ratio, dither switch, build) and every state of the channels at the start of the block, with a
running peak that is not negative (both drivers start a pass with the peak 0 and only ever
raise it), `ConvertMT` with its channel tasks run in any order `order` leaves the same pass
state as the loops of `Convert` do for that block: the same interleaved output buffer, the same
`OutBufferIndex`, the same decimation indices `di`, the same peak, and the same filters and
ditherers; so the same samples are written to the file.  The peak stays non-negative. -/
theorem processBlockMT_eq_processBlock (Fo : FIRFilterOps Flt) (D : DithererOps Dth)
    (USE_AVX bDither : Bool) (Gain : ℚ) (F : Fraction) (nChannels : Nat) (order : List Nat)
    (r : Nat → Res) (blk : List ℚ) (st : PassState Flt Dth)
    (horder : order.Perm (List.range nChannels)) (hpeak : 0 ≤ st.PeakOutputSample) :
    (selectPath F ≠ Path.copy →
      processBlockMT Fo D USE_AVX bDither Gain F nChannels order r blk st
        = processBlock (pathSample Fo D USE_AVX bDither Gain F nChannels) nChannels blk st ∧
      0 ≤ (processBlockMT Fo D USE_AVX bDither Gain F nChannels order r blk st).PeakOutputSample) ∧
    blockStepMT Fo D USE_AVX bDither Gain F nChannels order r blk st
      = blockStep Fo D USE_AVX bDither Gain F nChannels blk st := by
  have key : selectPath F ≠ Path.copy →
      processBlockMT Fo D USE_AVX bDither Gain F nChannels order r blk st
        = processBlock (pathSample Fo D USE_AVX bDither Gain F nChannels) nChannels blk st ∧
      0 ≤ (processBlockMT Fo D USE_AVX bDither Gain F nChannels order r blk st).PeakOutputSample := by
    intro hp
    obtain ⟨h1, h2⟩ := processBlock_prefix Fo D USE_AVX bDither Gain F nChannels blk st r hp hpeak
      nChannels (le_refl _)
    have e : processBlockMT Fo D USE_AVX bDither Gain F nChannels order r blk st
        = processBlock (pathSample Fo D USE_AVX bDither Gain F nChannels) nChannels blk st := by
      unfold processBlockMT processBlock
      rw [channelTask_order Fo D USE_AVX bDither Gain F nChannels blk order horder, h1]
    refine ⟨e, ?_⟩
    rw [e]
    exact h2
  refine ⟨key, ?_⟩
  unfold blockStepMT blockStep
  by_cases hp : selectPath F = Path.copy
  · rw [if_pos hp, if_pos hp]
  · rw [if_neg hp, if_neg hp, (key hp).1]

/-- C12 for two channels, the ratio 1 : 2 and the block 1, 2, 3, 4, with the task of channel 1
run before the task of channel 0: both drivers leave the samples 1 and 2 in the output buffer,
`OutBufferIndex = 2` and the peak 2. -/
theorem processBlockMT_eq_processBlock_witness :
    [1, 0].Perm (List.range 2) ∧
    (0 : ℚ) ≤ (passStart 2 8 ⟨1, 2⟩ 0 (fun _ => (0 : ℚ)) (fun _ => ())).PeakOutputSample ∧
    processBlockMT oneTapFilter passThroughDitherer false false 1 ⟨1, 2⟩ 2 [1, 0]
        (fun _ => ⟨0, 0⟩) [1, 2, 3, 4] (passStart 2 8 ⟨1, 2⟩ 0 (fun _ => (0 : ℚ)) (fun _ => ()))
      = processBlock (pathSample oneTapFilter passThroughDitherer false false 1 ⟨1, 2⟩ 2) 2
        [1, 2, 3, 4] (passStart 2 8 ⟨1, 2⟩ 0 (fun _ => (0 : ℚ)) (fun _ => ())) ∧
    (processBlockMT oneTapFilter passThroughDitherer false false 1 ⟨1, 2⟩ 2 [1, 0]
        (fun _ => ⟨0, 0⟩) [1, 2, 3, 4]
        (passStart 2 8 ⟨1, 2⟩ 0 (fun _ => (0 : ℚ)) (fun _ => ()))).PeakOutputSample = 2 ∧
    (processBlockMT oneTapFilter passThroughDitherer false false 1 ⟨1, 2⟩ 2 [1, 0]
        (fun _ => ⟨0, 0⟩) [1, 2, 3, 4]
        (passStart 2 8 ⟨1, 2⟩ 0 (fun _ => (0 : ℚ)) (fun _ => ()))).OutBufferIndex = 2 ∧
    (processBlockMT oneTapFilter passThroughDitherer false false 1 ⟨1, 2⟩ 2 [1, 0]
        (fun _ => ⟨0, 0⟩) [1, 2, 3, 4]
        (passStart 2 8 ⟨1, 2⟩ 0 (fun _ => (0 : ℚ)) (fun _ => ()))).OutBuffer 0 = 1 ∧
    (processBlockMT oneTapFilter passThroughDitherer false false 1 ⟨1, 2⟩ 2 [1, 0]
        (fun _ => ⟨0, 0⟩) [1, 2, 3, 4]
        (passStart 2 8 ⟨1, 2⟩ 0 (fun _ => (0 : ℚ)) (fun _ => ()))).OutBuffer 1 = 2 := by
  have hs : selectPath ⟨1, 2⟩ = Path.decimate := by decide
  have h1 : |(1 : ℚ)| = 1 := abs_of_pos (by norm_num)
  have h2 : |(2 : ℚ)| = 2 := abs_of_pos (by norm_num)
  refine ⟨by decide, le_refl _,
    ((processBlockMT_eq_processBlock oneTapFilter passThroughDitherer false false 1 ⟨1, 2⟩ 2
      [1, 0] (fun _ => ⟨0, 0⟩) [1, 2, 3, 4]
      (passStart 2 8 ⟨1, 2⟩ 0 (fun _ => (0 : ℚ)) (fun _ => ())) (by decide) (le_refl _)).1
      (by decide)).1, ?_⟩
  norm_num [processBlockMT, collectResults, channelTask, taskLoop, taskSample, hs,
    decimateTaskSample, putOrZeroLocal, putOrZero, emitGetLocal, storeLocal, advanceLocal,
    oneTapFilter, passThroughDitherer, passStart, frameCount, List.range_succ, Function.update,
    h1, h2]

end TaskOrder

/-! ### The filter length for configurations that come from the command line -/

/-- After the options are read, the custom low-pass mode is in use only with a cut-off between
1 and 99.9 percent. -/
theorem parseOptions_custom_cutoff (ids : DitherProfileIDs) (atoi : String → Int)
    (atof : String → ℚ) (argv : List String) (ci : conversionInfo)
    (h : (parseOptions ids atoi atof argv ci).lpfMode = LPFMode.custom) :
    1 ≤ (parseOptions ids atoi atof argv ci).customLpfCutoff ∧
    (parseOptions ids atoi atof argv ci).customLpfCutoff ≤ 999 / 10 := by
  have key : ∀ c : conversionInfo, (parseLpf atof argv c).lpfMode = LPFMode.custom →
      1 ≤ (parseLpf atof argv c).customLpfCutoff ∧
      (parseLpf atof argv c).customLpfCutoff ≤ 999 / 10 := by
    intro c hc
    have hm : (parseLpf atof argv c).lpfMode =
        if findCmdlineOption argv "--lpf-cutoff" = true then LPFMode.custom
        else (if findCmdlineOption argv "--steepLPF" = true then LPFMode.steep
          else (if findCmdlineOption argv "--relaxedLPF" = true then LPFMode.relaxed
            else LPFMode.normal)) := rfl
    have hv : (parseLpf atof argv c).customLpfCutoff =
        if findCmdlineOption argv "--lpf-cutoff" = true then
          max 1 (min (getCmdlineParam_double atof argv "--lpf-cutoff") (999 / 10))
        else c.customLpfCutoff := rfl
    by_cases hcut : findCmdlineOption argv "--lpf-cutoff" = true
    · rw [hv, if_pos hcut]
      exact ⟨le_max_left _ _, max_le (by norm_num) (min_le_right _ _)⟩
    · rw [hm, if_neg hcut] at hc
      split_ifs at hc
  exact key _ h

/-- C15: for every configuration and every pair of sample rates, the variable `FilterSize` of
`Convert` is an odd integer.  It has a value unless the steepness is not finite, which needs
custom mode with automatic transition width and a cut-off of exactly 100 percent; a
configuration that `parseParameters` accepts has a cut-off of at most 99.9 percent, so that
`FilterSize` always has a value for it. -/
theorem FilterSize_odd (fs : FilterSizes) (ci : conversionInfo) (InputSampleRate : Int)
    (InputSampleCount InputFileFormat : Nat) :
    ((∃ N, (convertPlan fs ci InputSampleRate InputSampleCount InputFileFormat).FilterSize = some N ∧
      N % 2 = 1) ∨
    ((convertPlan fs ci InputSampleRate InputSampleCount InputFileFormat).FilterSize = none ∧
      ci.lpfMode = LPFMode.custom ∧ ci.customLpfTransitionWidth = 0 ∧
      ci.customLpfCutoff = 100)) ∧
    ∀ (ids : DitherProfileIDs) (atoi : String → Int) (atof : String → ℚ) (ci0 : conversionInfo)
      (bBadParams : Bool) (argv : List String),
      (parseParameters ids atoi atof ci0 bBadParams argv).result = true →
      ∃ N, (convertPlan fs (parseParameters ids atoi atof ci0 bBadParams argv).ci InputSampleRate
          InputSampleCount InputFileFormat).FilterSize = some N ∧ N % 2 = 1 := by
  refine ⟨FilterSize_odd_or_none fs ci InputSampleRate InputSampleCount InputFileFormat, ?_⟩
  intro ids atoi atof ci0 b argv hres
  have hsw : terminatingSwitch argv = false := by
    by_contra hc
    have ht : terminatingSwitch argv = true := by
      cases h : terminatingSwitch argv
      · exact absurd h hc
      · rfl
    rw [(parseParameters_of_switch ids atoi atof ci0 b argv ht).1] at hres
    exact absurd hres (by decide)
  rcases FilterSize_odd_or_none fs (parseParameters ids atoi atof ci0 b argv).ci InputSampleRate
    InputSampleCount InputFileFormat with h | ⟨-, hm, -, hc⟩
  · exact h
  · exfalso
    rw [parseParameters_of_no_switch ids atoi atof ci0 b argv hsw] at hm hc
    have hm' : (parseOptions ids atoi atof argv (initializeDefaults ids ci0)).lpfMode
        = LPFMode.custom := hm
    have hc' : (parseOptions ids atoi atof argv (initializeDefaults ids ci0)).customLpfCutoff
        = 100 := hc
    have := (parseOptions_custom_cutoff ids atoi atof argv _ hm').2
    rw [hc'] at this
    norm_num at this

/-- C15 on a command line that selects the custom mode with a cut-off of 100 percent, which
`parseParameters` lowers to 99.9: the command line is accepted and `FilterSize` has an odd
value. -/
theorem FilterSize_odd_witness :
    (parseParameters ⟨0, 6, 2, 14⟩ (fun _ => 48000) (fun _ => 100) {} false
      ["ReSampler", "-i", "a.wav", "-o", "b.wav", "-r", "48000", "--lpf-cutoff", "100"]).result
      = true ∧
    ∃ N, (convertPlan ⟨3000, 300000, 1000000⟩
        (parseParameters ⟨0, 6, 2, 14⟩ (fun _ => 48000) (fun _ => 100) {} false
          ["ReSampler", "-i", "a.wav", "-o", "b.wav", "-r", "48000", "--lpf-cutoff", "100"]).ci
        44100 1000 0x010002).FilterSize = some N ∧ N % 2 = 1 := by
  have hres : (parseParameters ⟨0, 6, 2, 14⟩ (fun _ => 48000) (fun _ => 100) {} false
      ["ReSampler", "-i", "a.wav", "-o", "b.wav", "-r", "48000", "--lpf-cutoff", "100"]).result
      = true := by decide
  exact ⟨hres, (FilterSize_odd ⟨3000, 300000, 1000000⟩ {} 44100 1000 0x010002).2
    ⟨0, 6, 2, 14⟩ (fun _ => 48000) (fun _ => 100) {} false _ hres⟩

/-! ### `get` and `LazyGet` in the "Interpolate only" loop of `Convert` -/

section AvxBuild

variable {Dth : Type}

theorem blockLoop_agree {σ : Type} (I : σ → Prop) (f g : List ℚ → σ → σ)
    (h : ∀ blk s, I s → f blk s = g blk s ∧ I (f blk s)) :
    ∀ (blocks : List (List ℚ)) (s : σ), I s →
      blockLoop f blocks s = blockLoop g blocks s ∧ I (blockLoop f blocks s) := by
  intro blocks
  induction blocks with
  | nil =>
    intro s hs
    simp only [blockLoop]
    exact h [] s hs
  | cons b rest ih =>
    intro s hs
    simp only [blockLoop]
    split
    · rw [← (h b s hs).1]
      exact ih _ (h b s hs).2
    · exact h b s hs

/-- With the engine of the specification, storing `get()` and storing `LazyGet(L)` are the same
when the samples outside the current polyphase subfilter are zero. -/
theorem emitGet_eq_emitLazyGet (D : DithererOps Dth) (bDither : Bool) (Gain : ℚ) (L : Int)
    (n c : Nat) (s : PassState FIRState Dth)
    (h : ZeroStuffed L.toNat (s.Filters c).phase (s.Filters c)) :
    emitGet specFIRFilter D bDither Gain n c s
      = emitLazyGet specFIRFilter D bDither Gain L n c s := by
  unfold emitGet emitLazyGet
  simp only [specFIRFilter]
  rw [lazy_get_of_zeroStuffed L.toNat _ h]

/-- The filters after storing `get()` are the filters before. -/
theorem emitGet_Filters (D : DithererOps Dth) (bDither : Bool) (Gain : ℚ)
    (n c : Nat) (s : PassState FIRState Dth) :
    (emitGet specFIRFilter D bDither Gain n c s).Filters = s.Filters := by
  show Function.update s.Filters c (s.Filters c) = s.Filters
  exact Function.update_eq_self c s.Filters

/-- The loop over `ii` of the "Interpolate only" path, for a filter that has seen complete
rounds only: with and without `USE_AVX` the first `k` rounds leave the same state, in which the
filter of the channel has seen `push(x)` and `k - 1` calls of `push_zero()`. -/
theorem interpolateSteps_avx (D : DithererOps Dth) (bDither : Bool) (Gain : ℚ) (L : Int)
    (n c : Nat) (x : ℚ) (st : PassState FIRState Dth) (hL : 1 ≤ L.toNat)
    (h : ZeroStuffed L.toNat (L.toNat - 1) (st.Filters c)) :
    ∀ k,
      (List.range (k + 1)).foldl (interpolateStep specFIRFilter D true bDither Gain L n c x) st
        = (List.range (k + 1)).foldl
            (interpolateStep specFIRFilter D false bDither Gain L n c x) st ∧
      ((List.range (k + 1)).foldl
          (interpolateStep specFIRFilter D true bDither Gain L n c x) st).Filters
        = Function.update st.Filters c ((st.Filters c).stuffed x k) := by
  have hstep : ∀ (k : Nat) (a : PassState FIRState Dth),
      (putOrZero specFIRFilter c x k a).Filters = Function.update st.Filters c
        ((st.Filters c).stuffed x k) →
      interpolateStep specFIRFilter D true bDither Gain L n c x a k
        = interpolateStep specFIRFilter D false bDither Gain L n c x a k ∧
      (interpolateStep specFIRFilter D true bDither Gain L n c x a k).Filters
        = Function.update st.Filters c ((st.Filters c).stuffed x k) := by
    intro k a hp
    have hz := zeroStuffed_stuffed L.toNat hL (st.Filters c) x k h
    have hpc : (putOrZero specFIRFilter c x k a).Filters c = (st.Filters c).stuffed x k := by
      rw [hp, Function.update_same]
    have hz' : ZeroStuffed L.toNat ((putOrZero specFIRFilter c x k a).Filters c).phase
        ((putOrZero specFIRFilter c x k a).Filters c) := by
      rw [hpc, hz.2.1]; exact hz.1
    simp only [interpolateStep, if_true, Bool.false_eq_true, if_false]
    refine ⟨emitGet_eq_emitLazyGet D bDither Gain L n c _ hz', ?_⟩
    rw [emitGet_Filters, hp]
  intro k
  induction k with
  | zero =>
    have hp : (putOrZero specFIRFilter c x 0 st).Filters
        = Function.update st.Filters c ((st.Filters c).stuffed x 0) := rfl
    have e : List.range (0 + 1) = [0] := rfl
    rw [e]
    simp only [List.foldl_cons, List.foldl_nil]
    exact hstep 0 st hp
  | succ k ih =>
    obtain ⟨ih1, ih2⟩ := ih
    rw [List.range_succ, List.foldl_append, List.foldl_append, ← ih1]
    simp only [List.foldl_cons, List.foldl_nil]
    generalize (List.range (k + 1)).foldl
      (interpolateStep specFIRFilter D true bDither Gain L n c x) st = a at *
    have hp : (putOrZero specFIRFilter c x (k + 1) a).Filters
        = Function.update st.Filters c ((st.Filters c).stuffed x (k + 1)) := by
      show Function.update a.Filters c
        (if k + 1 = 0 then specFIRFilter.put (a.Filters c) x
          else specFIRFilter.putZero (a.Filters c)) = _
      rw [if_neg (by omega), ih2, Function.update_same, Function.update_idem]
      have e : specFIRFilter.putZero ((st.Filters c).stuffed x k)
          = (st.Filters c).stuffed x (k + 1) := by
        show FIRState.push_zero _ = _
        unfold FIRState.stuffed
        rw [Function.iterate_succ_apply']
      rw [e]
    exact hstep (k + 1) a hp

end AvxBuild

section AvxBuild2

variable {Dth : Type}

/-- A filter after `reset()` holds only zeros. -/
theorem zeroStuffed_reset (L p : Nat) (f : FIRState) : ZeroStuffed L p f.reset :=
  ⟨fun h => h, fun _ _ _ => rfl⟩

/-- The body of the loop over `s` of the "Interpolate only" path does not depend on `USE_AVX`,
and leaves the filters with complete rounds only. -/
theorem interpolateSample_avx (D : DithererOps Dth) (bDither : Bool) (Gain : ℚ) (L : Int)
    (n c : Nat) (x : ℚ) (st : PassState FIRState Dth) (h : RoundsDone L st) :
    interpolateSample specFIRFilter D true bDither Gain L n c x st
        = interpolateSample specFIRFilter D false bDither Gain L n c x st ∧
      RoundsDone L (interpolateSample specFIRFilter D true bDither Gain L n c x st) := by
  unfold interpolateSample
  rcases Nat.eq_zero_or_pos L.toNat with h0 | hpos
  · rw [h0]
    exact ⟨rfl, h⟩
  · obtain ⟨k, hk⟩ : ∃ k, L.toNat = k + 1 := ⟨L.toNat - 1, by omega⟩
    obtain ⟨h1, h2⟩ := interpolateSteps_avx D bDither Gain L n c x st hpos (h c) k
    rw [hk]
    refine ⟨h1, ?_⟩
    intro c'
    rw [h2]
    by_cases hc : c' = c
    · subst hc
      rw [Function.update_same]
      have hz := (zeroStuffed_stuffed L.toNat hpos (st.Filters c') x k (h c')).1
      have e : L.toNat - 1 = k := by omega
      rw [e]
      exact hz
    · rw [Function.update_noteq hc]
      exact h c'

/-- The per-sample body of every path does not depend on `USE_AVX`; in the "Interpolate only"
path this needs filters that have seen complete rounds only, and the body leaves such
filters. -/
theorem pathSample_avx (D : DithererOps Dth) (bDither : Bool) (Gain : ℚ) (F : Fraction)
    (n c : Nat) (x : ℚ) (st : PassState FIRState Dth)
    (h : selectPath F = Path.interpolate → RoundsDone F.numerator st) :
    pathSample specFIRFilter D true bDither Gain F n c x st
        = pathSample specFIRFilter D false bDither Gain F n c x st ∧
      (selectPath F = Path.interpolate →
        RoundsDone F.numerator (pathSample specFIRFilter D true bDither Gain F n c x st)) := by
  cases hs : selectPath F with
  | copy => simp only [pathSample, hs]; exact ⟨trivial, fun h => absurd h (by decide)⟩
  | decimate => simp only [pathSample, hs]; exact ⟨trivial, fun h => absurd h (by decide)⟩
  | interpolateDecimate =>
    simp only [pathSample, hs]; exact ⟨trivial, fun h => absurd h (by decide)⟩
  | interpolate =>
    simp only [pathSample, hs]
    obtain ⟨h1, h2⟩ := interpolateSample_avx D bDither Gain F.numerator n c x st (h hs)
    exact ⟨h1, fun _ => h2⟩

/-- One round of the block loop does not depend on `USE_AVX`. -/
theorem blockStep_avx (D : DithererOps Dth) (bDither : Bool) (Gain : ℚ) (F : Fraction)
    (n : Nat) (blk : List ℚ) (st : PassState FIRState Dth)
    (h : selectPath F = Path.interpolate → RoundsDone F.numerator st) :
    blockStep specFIRFilter D true bDither Gain F n blk st
        = blockStep specFIRFilter D false bDither Gain F n blk st ∧
      (selectPath F = Path.interpolate →
        RoundsDone F.numerator (blockStep specFIRFilter D true bDither Gain F n blk st)) := by
  have hchan : ∀ (c : Nat) (s : PassState FIRState Dth),
      (selectPath F = Path.interpolate → RoundsDone F.numerator s) →
      channelLoop (pathSample specFIRFilter D true bDither Gain F n) n blk s c
        = channelLoop (pathSample specFIRFilter D false bDither Gain F n) n blk s c ∧
      (selectPath F = Path.interpolate → RoundsDone F.numerator
        (channelLoop (pathSample specFIRFilter D true bDither Gain F n) n blk s c)) := by
    intro c s hs
    unfold channelLoop
    have h0 : selectPath F = Path.interpolate →
        RoundsDone F.numerator ({ s with OutBufferIndex := 0 } : PassState FIRState Dth) := hs
    have := foldl_commute_inv (fun t : PassState FIRState Dth => t)
      (fun acc k => pathSample specFIRFilter D true bDither Gain F n c
        (blk.getD (k * n + c) 0) acc)
      (fun acc k => pathSample specFIRFilter D false bDither Gain F n c
        (blk.getD (k * n + c) 0) acc)
      (fun t => selectPath F = Path.interpolate → RoundsDone F.numerator t)
      (fun t k ht => by
        obtain ⟨e1, e2⟩ := pathSample_avx D bDither Gain F n c (blk.getD (k * n + c) 0) t ht
        exact ⟨e1.symm, e2⟩)
      (List.range (frameCount blk.length n)) _ h0
    exact ⟨this.1.symm, this.2⟩
  have hproc : processBlock (pathSample specFIRFilter D true bDither Gain F n) n blk st
        = processBlock (pathSample specFIRFilter D false bDither Gain F n) n blk st ∧
      (selectPath F = Path.interpolate → RoundsDone F.numerator
        (processBlock (pathSample specFIRFilter D true bDither Gain F n) n blk st)) := by
    unfold processBlock
    have := foldl_commute_inv (fun t : PassState FIRState Dth => t)
      (channelLoop (pathSample specFIRFilter D true bDither Gain F n) n blk)
      (channelLoop (pathSample specFIRFilter D false bDither Gain F n) n blk)
      (fun t => selectPath F = Path.interpolate → RoundsDone F.numerator t)
      (fun t c ht => by
        obtain ⟨e1, e2⟩ := hchan c t ht
        exact ⟨e1.symm, e2⟩)
      (List.range n) st h
    exact ⟨this.1.symm, this.2⟩
  unfold blockStep
  simp only
  rw [← hproc.1]
  refine ⟨rfl, fun hp => ?_⟩
  have hR := hproc.2 hp
  rw [if_neg (by rw [hp]; decide)]
  unfold writeTrimmed
  split
  · exact hR
  · exact hR

/-- With the engine of the specification, started after `reset()`, a pass of `Convert` does not
depend on whether `USE_AVX` is defined. -/
theorem runPass_avx (D : DithererOps Dth) (bDither : Bool) (F : Fraction)
    (n BufferSize : Nat) (gd : Int) (blocks : List (List ℚ)) (Gain : ℚ)
    (Filters : Nat → FIRState) (Ditherers : Nat → Dth)
    (h : ∀ c, ZeroStuffed F.numerator.toNat (F.numerator.toNat - 1) (Filters c)) :
    runPass specFIRFilter D true bDither F n BufferSize gd blocks Gain Filters Ditherers
      = runPass specFIRFilter D false bDither F n BufferSize gd blocks Gain Filters Ditherers := by
  have h0 : RoundsDone F.numerator (passStart n BufferSize F gd Filters Ditherers) := h
  unfold runPass
  exact (blockLoop_agree
    (fun t : PassState FIRState Dth => selectPath F = Path.interpolate → RoundsDone F.numerator t)
    _ _ (fun blk s hs => blockStep_avx D bDither Gain F n blk s hs) blocks
    (passStart n BufferSize F gd Filters Ditherers) (fun _ => h0)).1

end AvxBuild2

section AvxBuild3

variable {Dth : Type}

/-- With the engine of the specification, the clipping detection loop does not depend on
whether `USE_AVX` is defined. -/
theorem clippingLoop_avx (D : DithererOps Dth) (build : BuildConfig) (ci : conversionInfo)
    (F : Fraction) (n BufferSize : Nat) (gd : Int) (blocks : List (List ℚ)) :
    ∀ (fuel done : Nat) (Gain : ℚ) (Filters : Nat → FIRState) (Ditherers : Nat → Dth),
      (∀ c, ZeroStuffed F.numerator.toNat (F.numerator.toNat - 1) (Filters c)) →
      clippingLoop specFIRFilter D { build with USE_AVX := true } ci F n BufferSize gd blocks
          fuel done Gain Filters Ditherers
        = clippingLoop specFIRFilter D { build with USE_AVX := false } ci F n BufferSize gd blocks
          fuel done Gain Filters Ditherers := by
  intro fuel
  induction fuel with
  | zero => intro done Gain Filters Ditherers _; rfl
  | succ fuel ih =>
    intro done Gain Filters Ditherers h
    unfold clippingLoop
    simp only
    rw [runPass_avx D ci.bDither F n BufferSize gd blocks Gain Filters Ditherers h]
    split
    · exact ih _ _ _ _ (fun c => zeroStuffed_reset _ _ _)
    · rfl

/-- With the engine of the specification, started after `reset()`, `Convert` returns the same
result whether `USE_AVX` is defined (the "Interpolate only" loop calls `get()`) or not (it calls
`LazyGet(L)`). -/
theorem Convert_avx (D : DithererOps Dth) (pow : ℚ → ℚ → ℚ) (build : BuildConfig)
    (ci : conversionInfo) (peakDetection : Bool) (infile : FileReader) (FilterSize : Int)
    (OutputFileFormat : Nat) (N : Nat) (taps : Nat → ℚ) (Ditherers0 : Nat → Dth) (fuel : Nat) :
    Convert specFIRFilter D pow { build with USE_AVX := true } ci peakDetection infile FilterSize
        OutputFileFormat (FIRState.fresh N taps) Ditherers0 fuel
      = Convert specFIRFilter D pow { build with USE_AVX := false } ci peakDetection infile
        FilterSize OutputFileFormat (FIRState.fresh N taps) Ditherers0 fuel := by
  unfold Convert
  simp only
  split
  · rfl
  · exact clippingLoop_avx D build ci _ _ _ _ _ fuel 0 _ _ Ditherers0
      (fun _ => zeroStuffed_fresh N taps _ _)

end AvxBuild3

/-! ### What the options leave in `ci` -/

/-- The test for bad parameters changes no field of `ci` other than `OutputFilename`. -/
theorem testBadParameters_fields (ci : conversionInfo) :
    (testBadParameters ci).ci.Limit = ci.Limit ∧
    (testBadParameters ci).ci.ditherProfileID = ci.ditherProfileID ∧
    (testBadParameters ci).ci.vorbisQuality = ci.vorbisQuality ∧
    (testBadParameters ci).ci.bSetVorbisQuality = ci.bSetVorbisQuality ∧
    (testBadParameters ci).ci.lpfMode = ci.lpfMode ∧
    (testBadParameters ci).ci.customLpfCutoff = ci.customLpfCutoff ∧
    (testBadParameters ci).ci.customLpfTransitionWidth = ci.customLpfTransitionWidth ∧
    (testBadParameters ci).ci.InputFilename = ci.InputFilename :=
  ⟨rfl, rfl, rfl, rfl, rfl, rfl, rfl, rfl⟩

/-- The value of `Limit` after the options are read: the amount that follows `-n` when that
amount is positive, and 1 when it is not or when `-n` is absent. -/
theorem parseOptions_Limit (ids : DitherProfileIDs) (atoi : String → Int) (atof : String → ℚ)
    (argv : List String) (ci : conversionInfo) :
    (parseOptions ids atoi atof argv ci).Limit =
      if findCmdlineOption argv "-n" = true then
        (if getCmdlineParam_double atof argv "-n" ≤ 0 then 1
          else getCmdlineParam_double atof argv "-n")
      else 1 := by
  have hg : ∀ c : conversionInfo, (parseGain atof argv c).Limit =
      if findCmdlineOption argv "-n" = true then
        (if getCmdlineParam_double atof argv "-n" ≤ 0 then 1
          else getCmdlineParam_double atof argv "-n")
      else 1 := by
    intro c
    unfold parseGain
    simp only
    split <;> rfl
  have hd : ∀ c : conversionInfo, (parseDither atof argv c).Limit = c.Limit := fun _ => rfl
  have hn : ∀ c : conversionInfo, (parseNoiseShape ids atoi argv c).Limit = c.Limit :=
    fun _ => rfl
  have hs : ∀ c : conversionInfo, (parseSeed atoi argv c).Limit = c.Limit := fun _ => rfl
  have hc : ∀ c : conversionInfo, (parseCompression atoi atof argv c).Limit = c.Limit :=
    fun _ => rfl
  have hl : ∀ c : conversionInfo, (parseLpf atof argv c).Limit = c.Limit := fun _ => rfl
  have hw : ∀ c : conversionInfo, (parseSwitches argv c).Limit = c.Limit := fun _ => rfl
  unfold parseOptions
  rw [hw, hl, hc, hs, hn, hd, hg]

/-- A command line that `parseParameters` accepts has no terminating switch. -/
theorem no_switch_of_accepted (ids : DitherProfileIDs) (atoi : String → Int)
    (atof : String → ℚ) (ci : conversionInfo) (bBadParams : Bool) (argv : List String)
    (h : (parseParameters ids atoi atof ci bBadParams argv).result = true) :
    terminatingSwitch argv = false := by
  cases hsw : terminatingSwitch argv with
  | false => rfl
  | true =>
    rw [(parseParameters_of_switch ids atoi atof ci bBadParams argv hsw).1] at h
    exact absurd h (by decide)

/-- The value of `Limit` that `parseParameters` leaves for a command line without a
terminating switch. -/
theorem parseParameters_Limit_eq (ids : DitherProfileIDs) (atoi : String → Int)
    (atof : String → ℚ) (ci : conversionInfo) (bBadParams : Bool) (argv : List String)
    (h : terminatingSwitch argv = false) :
    (parseParameters ids atoi atof ci bBadParams argv).ci.Limit =
      if findCmdlineOption argv "-n" = true then
        (if getCmdlineParam_double atof argv "-n" ≤ 0 then 1
          else getCmdlineParam_double atof argv "-n")
      else 1 := by
  rw [parseParameters_of_no_switch ids atoi atof ci bBadParams argv h,
    (testBadParameters_fields _).1, parseOptions_Limit]

/-- The dither profile after the options are read. -/
theorem parseOptions_ditherProfileID (ids : DitherProfileIDs) (atoi : String → Int)
    (atof : String → ℚ) (argv : List String) (ci : conversionInfo) :
    (parseOptions ids atoi atof argv ci).ditherProfileID =
      if findCmdlineOption argv "--flat-tpdf" = true then ids.flat
      else if findCmdlineOption argv "--ns" = true then
        (if (if getCmdlineParam_int atoi argv "--ns" < 0 then 0
              else getCmdlineParam_int atoi argv "--ns") ≥ ids.last
          then getDefaultNoiseShape ids (toInt32 (getCmdlineParam_unsigned atoi argv "-r"))
          else (if getCmdlineParam_int atoi argv "--ns" < 0 then 0
              else getCmdlineParam_int atoi argv "--ns"))
      else getDefaultNoiseShape ids (toInt32 (getCmdlineParam_unsigned atoi argv "-r")) := by
  have hg : ∀ c : conversionInfo,
      (parseGain atof argv c).OutputSampleRate = c.OutputSampleRate := by
    intro c
    unfold parseGain
    simp only
    split <;> rfl
  have hd : ∀ c : conversionInfo,
      (parseDither atof argv c).OutputSampleRate = c.OutputSampleRate := fun _ => rfl
  have hn : ∀ c : conversionInfo, (parseNoiseShape ids atoi argv c).ditherProfileID =
      if findCmdlineOption argv "--flat-tpdf" = true then ids.flat
      else if findCmdlineOption argv "--ns" = true then
        (if (if getCmdlineParam_int atoi argv "--ns" < 0 then 0
              else getCmdlineParam_int atoi argv "--ns") ≥ ids.last
          then getDefaultNoiseShape ids (toInt32 c.OutputSampleRate)
          else (if getCmdlineParam_int atoi argv "--ns" < 0 then 0
              else getCmdlineParam_int atoi argv "--ns"))
      else getDefaultNoiseShape ids (toInt32 c.OutputSampleRate) := fun _ => rfl
  have hs : ∀ c : conversionInfo, (parseSeed atoi argv c).ditherProfileID = c.ditherProfileID :=
    fun _ => rfl
  have hc : ∀ c : conversionInfo,
      (parseCompression atoi atof argv c).ditherProfileID = c.ditherProfileID := fun _ => rfl
  have hl : ∀ c : conversionInfo, (parseLpf atof argv c).ditherProfileID = c.ditherProfileID :=
    fun _ => rfl
  have hw : ∀ c : conversionInfo, (parseSwitches argv c).ditherProfileID = c.ditherProfileID :=
    fun _ => rfl
  have hr : (parseCore atoi argv ci).OutputSampleRate = getCmdlineParam_unsigned atoi argv "-r" :=
    rfl
  unfold parseOptions
  rw [hw, hl, hc, hs, hn, hd, hg, hr]

/-- The Vorbis quality after the options are read. -/
theorem parseOptions_vorbisQuality (ids : DitherProfileIDs) (atoi : String → Int)
    (atof : String → ℚ) (argv : List String) (ci : conversionInfo) :
    (parseOptions ids atoi atof argv ci).bSetVorbisQuality
      = findCmdlineOption argv "--vorbisQuality" ∧
    (findCmdlineOption argv "--vorbisQuality" = true →
      (parseOptions ids atoi atof argv ci).vorbisQuality =
        if (if getCmdlineParam_double atof argv "--vorbisQuality" < -1 then -1
            else getCmdlineParam_double atof argv "--vorbisQuality") > 10 then 10
        else (if getCmdlineParam_double atof argv "--vorbisQuality" < -1 then -1
            else getCmdlineParam_double atof argv "--vorbisQuality")) := by
  have hc1 : ∀ c : conversionInfo, (parseCompression atoi atof argv c).bSetVorbisQuality
      = findCmdlineOption argv "--vorbisQuality" := fun _ => rfl
  have hc2 : ∀ c : conversionInfo, (parseCompression atoi atof argv c).vorbisQuality =
      if findCmdlineOption argv "--vorbisQuality" = true then
        (if (if getCmdlineParam_double atof argv "--vorbisQuality" < -1 then -1
            else getCmdlineParam_double atof argv "--vorbisQuality") > 10 then 10
        else (if getCmdlineParam_double atof argv "--vorbisQuality" < -1 then -1
            else getCmdlineParam_double atof argv "--vorbisQuality"))
      else c.vorbisQuality := fun _ => rfl
  have hl1 : ∀ c : conversionInfo, (parseLpf atof argv c).bSetVorbisQuality
      = c.bSetVorbisQuality := fun _ => rfl
  have hl2 : ∀ c : conversionInfo, (parseLpf atof argv c).vorbisQuality = c.vorbisQuality :=
    fun _ => rfl
  have hw1 : ∀ c : conversionInfo, (parseSwitches argv c).bSetVorbisQuality
      = c.bSetVorbisQuality := fun _ => rfl
  have hw2 : ∀ c : conversionInfo, (parseSwitches argv c).vorbisQuality = c.vorbisQuality :=
    fun _ => rfl
  unfold parseOptions
  refine ⟨?_, ?_⟩
  · rw [hw1, hl1, hc1]
  · intro h
    rw [hw2, hl2, hc2, if_pos h]

/-- The low-pass settings after the options are read. -/
theorem parseOptions_lpf (ids : DitherProfileIDs) (atoi : String → Int)
    (atof : String → ℚ) (argv : List String) (ci : conversionInfo) :
    ((parseOptions ids atoi atof argv ci).lpfMode = LPFMode.custom ↔
      findCmdlineOption argv "--lpf-cutoff" = true) ∧
    (findCmdlineOption argv "--lpf-cutoff" = true →
      (parseOptions ids atoi atof argv ci).customLpfCutoff
        = max 1 (min (getCmdlineParam_double atof argv "--lpf-cutoff") (999 / 10))) ∧
    (parseOptions ids atoi atof argv ci).customLpfTransitionWidth =
      if findCmdlineOption argv "--lpf-transition" = true then
        max (1 / 10) (min (getCmdlineParam_double atof argv "--lpf-transition") (999 / 10))
      else 0 := by
  have hm : ∀ c : conversionInfo, (parseLpf atof argv c).lpfMode =
      if findCmdlineOption argv "--lpf-cutoff" = true then LPFMode.custom
      else (if findCmdlineOption argv "--steepLPF" = true then LPFMode.steep
        else (if findCmdlineOption argv "--relaxedLPF" = true then LPFMode.relaxed
          else LPFMode.normal)) := fun _ => rfl
  have hv : ∀ c : conversionInfo, (parseLpf atof argv c).customLpfCutoff =
      if findCmdlineOption argv "--lpf-cutoff" = true then
        max 1 (min (getCmdlineParam_double atof argv "--lpf-cutoff") (999 / 10))
      else c.customLpfCutoff := fun _ => rfl
  have ht : ∀ c : conversionInfo, (parseLpf atof argv c).customLpfTransitionWidth =
      if findCmdlineOption argv "--lpf-transition" = true then
        max (1 / 10) (min (getCmdlineParam_double atof argv "--lpf-transition") (999 / 10))
      else 0 := fun _ => rfl
  have hw1 : ∀ c : conversionInfo, (parseSwitches argv c).lpfMode = c.lpfMode := fun _ => rfl
  have hw2 : ∀ c : conversionInfo, (parseSwitches argv c).customLpfCutoff = c.customLpfCutoff :=
    fun _ => rfl
  have hw3 : ∀ c : conversionInfo, (parseSwitches argv c).customLpfTransitionWidth
      = c.customLpfTransitionWidth := fun _ => rfl
  unfold parseOptions
  refine ⟨?_, ?_, ?_⟩
  · rw [hw1, hm]
    by_cases hcut : findCmdlineOption argv "--lpf-cutoff" = true
    · simp [hcut]
    · rw [if_neg hcut]
      constructor
      · intro h
        split_ifs at h
      · intro h
        exact absurd h hcut
  · intro h
    rw [hw2, hv, if_pos h]
  · rw [hw3, ht]

/-! ### The Vorbis quality -/

/-- The Vorbis quality that `parseParameters` leaves for a command line with `--vorbisQuality`
and without a terminating switch lies between -1 and 10, and the quality is marked as set. -/
theorem parseParameters_vorbisQuality (ids : DitherProfileIDs) (atoi : String → Int)
    (atof : String → ℚ) (ci : conversionInfo) (bBadParams : Bool) (argv : List String)
    (hsw : terminatingSwitch argv = false)
    (hq : findCmdlineOption argv "--vorbisQuality" = true) :
    (parseParameters ids atoi atof ci bBadParams argv).ci.bSetVorbisQuality = true ∧
    -1 ≤ (parseParameters ids atoi atof ci bBadParams argv).ci.vorbisQuality ∧
    (parseParameters ids atoi atof ci bBadParams argv).ci.vorbisQuality ≤ 10 ∧
    (-1 ≤ getCmdlineParam_double atof argv "--vorbisQuality" →
      getCmdlineParam_double atof argv "--vorbisQuality" ≤ 10 →
      (parseParameters ids atoi atof ci bBadParams argv).ci.vorbisQuality
        = getCmdlineParam_double atof argv "--vorbisQuality") := by
  rw [parseParameters_of_no_switch ids atoi atof ci bBadParams argv hsw,
    (testBadParameters_fields _).2.2.1, (testBadParameters_fields _).2.2.2.1,
    (parseOptions_vorbisQuality ids atoi atof argv _).1,
    (parseOptions_vorbisQuality ids atoi atof argv _).2 hq]
  refine ⟨hq, ?_, ?_, ?_⟩
  · split_ifs <;> linarith
  · split_ifs <;> linarith
  · intro h1 h2
    rw [if_neg (not_lt.mpr h1), if_neg (not_lt.mpr h2)]

/-! ### The dither profile -/

/-- C23: `getDefaultNoiseShape(rate)` returns the `standard` profile for every rate up to
48000 and the `flat_f` profile for every rate above 48000. -/
theorem getDefaultNoiseShape_cases (ids : DitherProfileIDs) (sampleRate : Int) :
    getDefaultNoiseShape ids sampleRate
      = if sampleRate ≤ 48000 then ids.standard else ids.flat_f := by
  unfold getDefaultNoiseShape
  split_ifs <;> first | rfl | omega

/-- The default noise shape is `standard` or `flat_f`. -/
theorem getDefaultNoiseShape_mem (ids : DitherProfileIDs) (sampleRate : Int) :
    getDefaultNoiseShape ids sampleRate = ids.standard ∨
      getDefaultNoiseShape ids sampleRate = ids.flat_f := by
  unfold getDefaultNoiseShape
  split_ifs <;> simp

/-- The dither profile that `parseParameters` leaves for a command line without a terminating
switch. -/
theorem parseParameters_ditherProfileID_eq (ids : DitherProfileIDs) (atoi : String → Int)
    (atof : String → ℚ) (ci : conversionInfo) (bBadParams : Bool) (argv : List String)
    (hsw : terminatingSwitch argv = false) :
    (parseParameters ids atoi atof ci bBadParams argv).ci.ditherProfileID
      = (parseOptions ids atoi atof argv (initializeDefaults ids ci)).ditherProfileID := by
  rw [parseParameters_of_no_switch ids atoi atof ci bBadParams argv hsw,
    (testBadParameters_fields _).2.1]

/-- The dither profile that `parseParameters` leaves for a command line with a terminating
switch is the default `standard`. -/
theorem parseParameters_ditherProfileID_switch (ids : DitherProfileIDs) (atoi : String → Int)
    (atof : String → ℚ) (ci : conversionInfo) (bBadParams : Bool) (argv : List String)
    (hsw : terminatingSwitch argv = true) :
    (parseParameters ids atoi atof ci bBadParams argv).ci.ditherProfileID = ids.standard := by
  unfold parseParameters
  simp only
  split_ifs with h1 h2 h3 h4 h5
  · rfl
  · rfl
  · rfl
  · rfl
  · rfl
  · exfalso
    simp only [terminatingSwitch, Bool.or_eq_true] at hsw
    simp only [Bool.or_eq_true, not_or] at h1
    tauto

/-- C29, counterexample: for the command line `ReSampler --version --flat-tpdf`, with the
profiles numbered `flat = 0`, `standard = 6`, `flat_f = 2`, `end = 14`, the dither profile
after `parseParameters` is `standard` and not `flat`. -/
theorem parseParameters_flat_tpdf_counterexample :
    findCmdlineOption ["ReSampler", "--version", "--flat-tpdf"] "--flat-tpdf" = true ∧
    (parseParameters ⟨0, 6, 2, 14⟩ (fun _ => 0) (fun _ => 0) {} false
      ["ReSampler", "--version", "--flat-tpdf"]).ci.ditherProfileID = 6 ∧
    (parseParameters ⟨0, 6, 2, 14⟩ (fun _ => 0) (fun _ => 0) {} false
      ["ReSampler", "--version", "--flat-tpdf"]).ci.ditherProfileID
        ≠ (⟨0, 6, 2, 14⟩ : DitherProfileIDs).flat := by
  decide

/-- C29, amended: for every command line, after `parseParameters` the dither profile id
satisfies `0 ≤ ditherProfileID < DitherProfileID::end`, given that the enumerators `flat`,
`standard` and `flat_f` lie in that range; it is `flat` whenever `--flat-tpdf` is present and
no terminating switch is, regardless of `--ns`. -/
theorem parseParameters_ditherProfileID (ids : DitherProfileIDs) (atoi : String → Int)
    (atof : String → ℚ) (ci : conversionInfo) (bBadParams : Bool) (argv : List String)
    (hflat : 0 ≤ ids.flat ∧ ids.flat < ids.last)
    (hstandard : 0 ≤ ids.standard ∧ ids.standard < ids.last)
    (hflat_f : 0 ≤ ids.flat_f ∧ ids.flat_f < ids.last) :
    (0 ≤ (parseParameters ids atoi atof ci bBadParams argv).ci.ditherProfileID ∧
      (parseParameters ids atoi atof ci bBadParams argv).ci.ditherProfileID < ids.last) ∧
    (terminatingSwitch argv = false → findCmdlineOption argv "--flat-tpdf" = true →
      (parseParameters ids atoi atof ci bBadParams argv).ci.ditherProfileID = ids.flat) := by
  have hdef : ∀ r, 0 ≤ getDefaultNoiseShape ids r ∧ getDefaultNoiseShape ids r < ids.last := by
    intro r
    rcases getDefaultNoiseShape_mem ids r with h | h <;> rw [h]
    · exact hstandard
    · exact hflat_f
  constructor
  · cases hsw : terminatingSwitch argv with
    | true =>
      rw [parseParameters_ditherProfileID_switch ids atoi atof ci bBadParams argv hsw]
      exact hstandard
    | false =>
      rw [parseParameters_ditherProfileID_eq ids atoi atof ci bBadParams argv hsw,
        parseOptions_ditherProfileID]
      split_ifs with h1 h2 h3 h4 h5
      · exact hflat
      · exact hdef _
      · exact ⟨le_refl _, by omega⟩
      · exact hdef _
      · exact ⟨by omega, by omega⟩
      · exact hdef _
  · intro hsw hf
    rw [parseParameters_ditherProfileID_eq ids atoi atof ci bBadParams argv hsw,
      parseOptions_ditherProfileID, if_pos hf]

/-- C29, amended, on the command line `ReSampler ... --ns 99 --flat-tpdf`. -/
theorem parseParameters_ditherProfileID_witness :
    (0 ≤ (parseParameters ⟨0, 6, 2, 14⟩ (fun _ => 99) (fun _ => 0) {} false
        ["ReSampler", "-i", "a.wav", "-o", "b.wav", "-r", "99", "--ns", "99",
          "--flat-tpdf"]).ci.ditherProfileID ∧
      (parseParameters ⟨0, 6, 2, 14⟩ (fun _ => 99) (fun _ => 0) {} false
        ["ReSampler", "-i", "a.wav", "-o", "b.wav", "-r", "99", "--ns", "99",
          "--flat-tpdf"]).ci.ditherProfileID < 14) ∧
    (parseParameters ⟨0, 6, 2, 14⟩ (fun _ => 99) (fun _ => 0) {} false
        ["ReSampler", "-i", "a.wav", "-o", "b.wav", "-r", "99", "--ns", "99",
          "--flat-tpdf"]).ci.ditherProfileID = 0 :=
  ⟨(parseParameters_ditherProfileID ⟨0, 6, 2, 14⟩ (fun _ => 99) (fun _ => 0) {} false
      ["ReSampler", "-i", "a.wav", "-o", "b.wav", "-r", "99", "--ns", "99", "--flat-tpdf"]
      (by decide) (by decide) (by decide)).1,
    (parseParameters_ditherProfileID ⟨0, 6, 2, 14⟩ (fun _ => 99) (fun _ => 0) {} false
      ["ReSampler", "-i", "a.wav", "-o", "b.wav", "-r", "99", "--ns", "99", "--flat-tpdf"]
      (by decide) (by decide) (by decide)).2 (by decide) (by decide)⟩

/-! ### The custom low-pass mode -/

/-- In custom mode the steepness is 0.090909091 divided by the divisor of the branch. -/
theorem steepness_custom (ci : conversionInfo) (h : ci.lpfMode = LPFMode.custom) :
    steepness ci = fdiv (90909091 / 1000000000) (customSteepnessDivisor ci) := by
  unfold steepness customSteepnessDivisor
  rw [h]
  simp only
  split_ifs <;> rfl

/-- C30: for every command line that selects the custom low-pass mode (it has `--lpf-cutoff`
and no terminating switch, so that `parseParameters` reads the option), `parseParameters`
leaves the mode at `custom`, the cut-off in [1, 99.9] and the transition width either 0 (not
given) or in [0.1, 99.9]; the divisor of the custom steepness in `Convert`
(`1 - cutoff / 100`, or `transition / 100`) is then positive, so it is not zero, and the
steepness has a value that is strictly positive. -/
theorem parseParameters_custom_lpf (ids : DitherProfileIDs) (atoi : String → Int)
    (atof : String → ℚ) (ci : conversionInfo) (bBadParams : Bool) (argv : List String)
    (hsw : terminatingSwitch argv = false)
    (hcut : findCmdlineOption argv "--lpf-cutoff" = true) :
    (parseParameters ids atoi atof ci bBadParams argv).ci.lpfMode = LPFMode.custom ∧
    (1 ≤ (parseParameters ids atoi atof ci bBadParams argv).ci.customLpfCutoff ∧
      (parseParameters ids atoi atof ci bBadParams argv).ci.customLpfCutoff ≤ 999 / 10) ∧
    ((findCmdlineOption argv "--lpf-transition" = false ∧
        (parseParameters ids atoi atof ci bBadParams argv).ci.customLpfTransitionWidth = 0) ∨
      (findCmdlineOption argv "--lpf-transition" = true ∧
        1 / 10 ≤ (parseParameters ids atoi atof ci bBadParams argv).ci.customLpfTransitionWidth ∧
        (parseParameters ids atoi atof ci bBadParams argv).ci.customLpfTransitionWidth
          ≤ 999 / 10)) ∧
    0 < customSteepnessDivisor (parseParameters ids atoi atof ci bBadParams argv).ci ∧
    ∃ s : ℚ, steepness (parseParameters ids atoi atof ci bBadParams argv).ci = some s ∧
      0 < s := by
  have hmode : (parseParameters ids atoi atof ci bBadParams argv).ci.lpfMode
      = LPFMode.custom := by
    rw [parseParameters_of_no_switch ids atoi atof ci bBadParams argv hsw,
      (testBadParameters_fields _).2.2.2.2.1]
    exact (parseOptions_lpf ids atoi atof argv _).1.2 hcut
  have hc : (parseParameters ids atoi atof ci bBadParams argv).ci.customLpfCutoff
      = max 1 (min (getCmdlineParam_double atof argv "--lpf-cutoff") (999 / 10)) := by
    rw [parseParameters_of_no_switch ids atoi atof ci bBadParams argv hsw,
      (testBadParameters_fields _).2.2.2.2.2.1]
    exact (parseOptions_lpf ids atoi atof argv _).2.1 hcut
  have ht : (parseParameters ids atoi atof ci bBadParams argv).ci.customLpfTransitionWidth
      = if findCmdlineOption argv "--lpf-transition" = true then
          max (1 / 10) (min (getCmdlineParam_double atof argv "--lpf-transition") (999 / 10))
        else 0 := by
    rw [parseParameters_of_no_switch ids atoi atof ci bBadParams argv hsw,
      (testBadParameters_fields _).2.2.2.2.2.2.1]
    exact (parseOptions_lpf ids atoi atof argv _).2.2
  have hc1 : 1 ≤ (parseParameters ids atoi atof ci bBadParams argv).ci.customLpfCutoff := by
    rw [hc]; exact le_max_left _ _
  have hc2 : (parseParameters ids atoi atof ci bBadParams argv).ci.customLpfCutoff
      ≤ 999 / 10 := by
    rw [hc]; exact max_le (by norm_num) (min_le_right _ _)
  have htw : (findCmdlineOption argv "--lpf-transition" = false ∧
        (parseParameters ids atoi atof ci bBadParams argv).ci.customLpfTransitionWidth = 0) ∨
      (findCmdlineOption argv "--lpf-transition" = true ∧
        1 / 10 ≤ (parseParameters ids atoi atof ci bBadParams argv).ci.customLpfTransitionWidth ∧
        (parseParameters ids atoi atof ci bBadParams argv).ci.customLpfTransitionWidth
          ≤ 999 / 10) := by
    rw [ht]
    cases hx : findCmdlineOption argv "--lpf-transition" with
    | false => left; simp
    | true =>
      right
      simp only [if_true, true_and]
      exact ⟨le_max_left _ _, max_le (by norm_num) (min_le_right _ _)⟩
  have hdiv : 0 < customSteepnessDivisor (parseParameters ids atoi atof ci bBadParams argv).ci := by
    unfold customSteepnessDivisor
    split_ifs with h0
    · linarith
    · rcases htw with ⟨_, h⟩ | ⟨_, h, _⟩
      · exact absurd h h0
      · linarith
  refine ⟨hmode, ⟨hc1, hc2⟩, htw, hdiv, ?_⟩
  rw [steepness_custom _ hmode]
  unfold fdiv
  rw [if_neg (ne_of_gt hdiv)]
  exact ⟨_, rfl, div_pos (by norm_num) hdiv⟩

/-- C30 on the command line `ReSampler -i a.wav -o b.wav -r 48000 --lpf-cutoff 200`, where
the cut-off read is far above the range. -/
theorem parseParameters_custom_lpf_witness :
    0 < customSteepnessDivisor
      (parseParameters ⟨0, 6, 2, 14⟩ (fun _ => 48000) (fun _ => 200) {} false
        ["ReSampler", "-i", "a.wav", "-o", "b.wav", "-r", "48000", "--lpf-cutoff",
          "200"]).ci ∧
    ∃ s : ℚ, steepness
      (parseParameters ⟨0, 6, 2, 14⟩ (fun _ => 48000) (fun _ => 200) {} false
        ["ReSampler", "-i", "a.wav", "-o", "b.wav", "-r", "48000", "--lpf-cutoff",
          "200"]).ci = some s ∧ 0 < s :=
  (parseParameters_custom_lpf ⟨0, 6, 2, 14⟩ (fun _ => 48000) (fun _ => 200) {} false
    ["ReSampler", "-i", "a.wav", "-o", "b.wav", "-r", "48000", "--lpf-cutoff", "200"]
    (by decide) (by decide)).2.2.2

/-! ### The filenames -/

/-- The default output filename of an input filename `p.q` whose part `q` after the last dot
has no dot is `p(converted).q`. -/
theorem defaultOutputFilename_dot (p q : List Char) (hq : '.' ∉ q) :
    defaultOutputFilename (String.mk (p ++ '.' :: q))
      = String.mk (p ++ "(converted)".data ++ '.' :: q) := by
  unfold defaultOutputFilename
  have hmem : '.' ∈ (String.mk (p ++ '.' :: q)).data := by simp
  rw [if_pos hmem]
  have hidx : (p ++ '.' :: q).reverse.indexOf '.' = q.length := by
    rw [List.reverse_append, List.reverse_cons, List.append_assoc,
      List.indexOf_append_of_not_mem (by simpa using hq)]
    simp
  have hdot : (p ++ '.' :: q).length - 1 - (p ++ '.' :: q).reverse.indexOf '.' = p.length := by
    rw [hidx]
    simp only [List.length_append, List.length_cons]
    omega
  simp only [hdot]
  rw [List.take_left' rfl, List.drop_left' rfl]

/-- The default output filename of an input filename without a dot. -/
theorem defaultOutputFilename_no_dot (s : String) (h : '.' ∉ s.data) :
    defaultOutputFilename s = s ++ "(converted)" := by
  unfold defaultOutputFilename
  rw [if_neg h]

/-- The default output filename is 11 characters longer than the input filename. -/
theorem defaultOutputFilename_length (s : String) :
    (defaultOutputFilename s).data.length = s.data.length + 11 := by
  unfold defaultOutputFilename
  split_ifs with h
  · have hlt : s.data.reverse.indexOf '.' < s.data.reverse.length :=
      List.indexOf_lt_length.mpr (by simpa using h)
    rw [List.length_reverse] at hlt
    have h11 : "(converted)".data.length = 11 := by decide
    simp only [List.length_append, List.length_take, List.length_drop, h11]
    omega
  · have h11 : "(converted)".data.length = 11 := by decide
    rw [String.data_append, List.length_append, h11]

/-- The default output filename is not empty and differs from the input filename. -/
theorem defaultOutputFilename_ne (s : String) :
    defaultOutputFilename s ≠ "" ∧ defaultOutputFilename s ≠ s := by
  have h := defaultOutputFilename_length s
  constructor
  · intro e
    rw [e] at h
    simp at h
  · intro e
    rw [e] at h
    omega

/-- What the test for bad parameters has found when it accepts: a sample rate other than 0,
and either no output filename with an input filename, from which the output filename is made,
or an output filename that differs from the input filename. -/
theorem testBadParameters_accepts (ci : conversionInfo)
    (h : (testBadParameters ci).result = true) :
    ci.OutputSampleRate ≠ 0 ∧
    ((ci.OutputFilename = "" ∧ ci.InputFilename ≠ "" ∧
        (testBadParameters ci).ci.OutputFilename = defaultOutputFilename ci.InputFilename) ∨
      (ci.OutputFilename ≠ "" ∧ ci.OutputFilename ≠ ci.InputFilename ∧
        (testBadParameters ci).ci.OutputFilename = ci.OutputFilename)) := by
  have hr : (testBadParameters ci).result =
      !(if ci.OutputSampleRate = 0 then true
        else (if ci.OutputFilename = "" then decide (ci.InputFilename = "")
          else decide (ci.OutputFilename = ci.InputFilename))) := rfl
  have ho : (testBadParameters ci).ci.OutputFilename =
      if ci.OutputFilename = "" ∧ ci.InputFilename ≠ "" then
        defaultOutputFilename ci.InputFilename
      else ci.OutputFilename := rfl
  rw [hr] at h
  by_cases hrate : ci.OutputSampleRate = 0
  · rw [if_pos hrate] at h
    exact absurd h (by decide)
  · rw [if_neg hrate] at h
    refine ⟨hrate, ?_⟩
    by_cases hout : ci.OutputFilename = ""
    · rw [if_pos hout] at h
      have hin : ci.InputFilename ≠ "" := by
        intro e
        rw [e] at h
        exact absurd h (by decide)
      left
      refine ⟨hout, hin, ?_⟩
      rw [ho, if_pos ⟨hout, hin⟩]
    · rw [if_neg hout] at h
      have hne : ci.OutputFilename ≠ ci.InputFilename := by
        intro e
        rw [decide_eq_true e] at h
        exact absurd h (by decide)
      right
      refine ⟨hout, hne, ?_⟩
      rw [ho, if_neg (fun hh => hout hh.1)]

section BufferBounds

variable {Flt Dth : Type}

/-! ### The indices of the output buffer that the channel loops store to -/

theorem untouched_storeSample (B : Nat → ℚ) (D : DithererOps Dth) (bDither : Bool) (Gain : ℚ)
    (nChannels Channel : Nat) (hc : Channel < nChannels) (v : ℚ) (st : PassState Flt Dth)
    (h : UntouchedFrom B st) :
    UntouchedFrom B (storeSample D bDither Gain nChannels Channel v st) := by
  intro j hj
  have hj1 : st.OutBufferIndex + nChannels ≤ j := hj
  have e : (storeSample D bDither Gain nChannels Channel v st).OutBuffer j
      = Function.update st.OutBuffer (st.OutBufferIndex + Channel)
          (if bDither then D.Dither (st.Ditherers Channel) (Gain * v)
            else (Gain * v, st.Ditherers Channel)).1 j := rfl
  rw [e, Function.update_noteq (by omega)]
  exact h j (by omega)

theorem untouched_copySample (B : Nat → ℚ) (D : DithererOps Dth) (bDither : Bool) (Gain : ℚ)
    (nChannels Channel : Nat) (hc : Channel < nChannels) (v : ℚ) (st : PassState Flt Dth)
    (h : UntouchedFrom B st) :
    UntouchedFrom B (copySample D bDither Gain nChannels Channel v st) := by
  intro j hj
  have hj1 : st.OutBufferIndex + nChannels ≤ j := hj
  have e : (copySample D bDither Gain nChannels Channel v st).OutBuffer j
      = Function.update st.OutBuffer (st.OutBufferIndex + Channel)
          (if bDither then D.Dither (st.Ditherers Channel) (Gain * v)
            else (Gain * v, st.Ditherers Channel)).1 j := rfl
  rw [e, Function.update_noteq (by omega)]
  exact h j (by omega)

theorem untouched_putOrZero (B : Nat → ℚ) (Fo : FIRFilterOps Flt) (Channel : Nat) (x : ℚ)
    (ii : Nat) (st : PassState Flt Dth) (h : UntouchedFrom B st) :
    UntouchedFrom B (putOrZero Fo Channel x ii st) := h

theorem untouched_advanceDi (B : Nat → ℚ) (M : Int) (Channel : Nat) (st : PassState Flt Dth)
    (h : UntouchedFrom B st) : UntouchedFrom B (advanceDi M Channel st) := by
  unfold advanceDi
  split
  · exact h
  · exact h

theorem untouched_emitGet (B : Nat → ℚ) (Fo : FIRFilterOps Flt) (D : DithererOps Dth)
    (bDither : Bool) (Gain : ℚ) (nChannels Channel : Nat) (hc : Channel < nChannels)
    (st : PassState Flt Dth) (h : UntouchedFrom B st) :
    UntouchedFrom B (emitGet Fo D bDither Gain nChannels Channel st) :=
  untouched_storeSample B D bDither Gain nChannels Channel hc _ _ h

theorem untouched_emitLazyGet (B : Nat → ℚ) (Fo : FIRFilterOps Flt) (D : DithererOps Dth)
    (bDither : Bool) (Gain : ℚ) (L : Int) (nChannels Channel : Nat) (hc : Channel < nChannels)
    (st : PassState Flt Dth) (h : UntouchedFrom B st) :
    UntouchedFrom B (emitLazyGet Fo D bDither Gain L nChannels Channel st) :=
  untouched_storeSample B D bDither Gain nChannels Channel hc _ _ h

/-- One round of the loop over `s` stores below the `OutBufferIndex` that it leaves. -/
theorem untouched_pathSample (B : Nat → ℚ) (Fo : FIRFilterOps Flt) (D : DithererOps Dth)
    (USE_AVX bDither : Bool) (Gain : ℚ) (F : Fraction) (nChannels Channel : Nat)
    (hc : Channel < nChannels) (x : ℚ) (st : PassState Flt Dth) (h : UntouchedFrom B st) :
    UntouchedFrom B (pathSample Fo D USE_AVX bDither Gain F nChannels Channel x st) := by
  unfold pathSample
  cases selectPath F with
  | copy => exact untouched_copySample B D bDither Gain nChannels Channel hc x st h
  | decimate =>
    simp only [decimateSample]
    apply untouched_advanceDi B
    split
    · exact untouched_emitGet B Fo D bDither Gain nChannels Channel hc _
        (untouched_putOrZero B Fo Channel x 0 st h)
    · exact untouched_putOrZero B Fo Channel x 0 st h
  | interpolate =>
    simp only [interpolateSample]
    apply foldl_preserves (UntouchedFrom B) _ _ _ _ h
    intro b ii hb
    simp only [interpolateStep]
    split
    · exact untouched_emitGet B Fo D bDither Gain nChannels Channel hc _
        (untouched_putOrZero B Fo Channel x ii b hb)
    · exact untouched_emitLazyGet B Fo D bDither Gain _ nChannels Channel hc _
        (untouched_putOrZero B Fo Channel x ii b hb)
  | interpolateDecimate =>
    simp only [interpolateDecimateSample]
    apply foldl_preserves (UntouchedFrom B) _ _ _ _ h
    intro b ii hb
    simp only [interpolateDecimateStep]
    apply untouched_advanceDi B
    split
    · exact untouched_emitLazyGet B Fo D bDither Gain _ nChannels Channel hc _
        (untouched_putOrZero B Fo Channel x ii b hb)
    · exact untouched_putOrZero B Fo Channel x ii b hb

/-- The loop over `s` of one channel stores only below the `OutBufferIndex` that it leaves. -/
theorem untouched_channelLoop (Fo : FIRFilterOps Flt) (D : DithererOps Dth)
    (USE_AVX bDither : Bool) (Gain : ℚ) (F : Fraction) (nChannels Channel : Nat)
    (hc : Channel < nChannels) (blk : List ℚ) (st : PassState Flt Dth) :
    UntouchedFrom st.OutBuffer
      (channelLoop (pathSample Fo D USE_AVX bDither Gain F nChannels) nChannels blk st
        Channel) := by
  have h0 : UntouchedFrom st.OutBuffer ({ st with OutBufferIndex := 0 } : PassState Flt Dth) :=
    fun j _ => rfl
  unfold channelLoop
  apply foldl_preserves (UntouchedFrom st.OutBuffer) _ _ _ _ h0
  intro b k hb
  exact untouched_pathSample st.OutBuffer Fo D USE_AVX bDither Gain F nChannels Channel hc _ b hb

/-- From a decimation counter in `0 .. m - 1`, `T` rounds store at most `⌈T / m⌉` samples. -/
theorem emitCount_le (m : Nat) (hm : 1 ≤ m) (T : Nat) (d : Int) (h0 : 0 ≤ d)
    (h1 : d < (m : Int)) : emitCount (m : Int) T d ≤ (T + m - 1) / m := by
  obtain ⟨N, rfl⟩ := Int.eq_ofNat_of_zero_le h0
  have hN : N < m := by exact_mod_cast h1
  have hmod : N % m = N := Nat.mod_eq_of_lt hN
  have h := (phase_closed_form m hm T N).2
  rw [hmod] at h
  have hle : (N + T + m - 1) / m ≤ (T + m - 1) / m + (N + m - 1) / m := by
    by_cases hz : N = 0
    · subst hz
      simp
    · have e1 : (N + m - 1) / m = 1 := by
        apply Nat.div_eq_of_lt_le
        · rw [Nat.one_mul]; omega
        · omega
      rw [e1]
      have e2 : (T + m - 1) / m + 1 = (T + m - 1 + m) / m := by
        rw [Nat.add_div_right _ (by omega)]
      rw [e2]
      apply Nat.div_le_div_right
      omega
  omega

end BufferBounds

section BufferBounds2

variable {Flt Dth : Type}

theorem foldl_preserves_mem {α β : Type} (P : β → Prop) (f : β → α → β) :
    ∀ (l : List α) (b : β), (∀ b a, a ∈ l → P b → P (f b a)) → P b → P (l.foldl f b) := by
  intro l
  induction l with
  | nil => intro b _ hb; exact hb
  | cons a t ih =>
    intro b h hb
    exact ih (f b a) (fun b1 a1 ha1 => h b1 a1 (List.mem_cons_of_mem _ ha1))
      (h b a (List.mem_cons_self _ _) hb)

/-- A decimation counter in `0 .. m - 1` stays there. -/
theorem phaseAfter_range (m : Nat) (hm : 1 ≤ m) (T : Nat) (d : Int) (h0 : 0 ≤ d)
    (h1 : d < (m : Int)) :
    0 ≤ phaseAfter (m : Int) T d ∧ phaseAfter (m : Int) T d < (m : Int) := by
  obtain ⟨N, rfl⟩ := Int.eq_ofNat_of_zero_le h0
  have hN : N < m := by exact_mod_cast h1
  have h := (phase_closed_form m hm T N).1
  rw [Nat.mod_eq_of_lt hN] at h
  rw [h]
  exact ⟨Int.natCast_nonneg _, by exact_mod_cast Nat.mod_lt _ (by omega)⟩

/-- The loop over `s` of one channel, run on a block of at most `BufferSize` samples from a
decimation counter in `0 .. m - 1`, leaves `OutBufferIndex` at most at
`nChannels + BufferSize * l / m`, leaves the counter of the channel in `0 .. m - 1`, and does
not change the counters of the other channels. -/
theorem channelLoop_index_le (Fo : FIRFilterOps Flt) (D : DithererOps Dth)
    (USE_AVX bDither : Bool) (Gain : ℚ) (F : Fraction) (nChannels BufferSize c : Nat)
    (l m : Nat) (hL : F.numerator = (l : Int)) (hM : F.denominator = (m : Int)) (hm : 1 ≤ m)
    (hn : 1 ≤ nChannels) (hB : nChannels ∣ BufferSize) (blk : List ℚ)
    (hlen : blk.length ≤ BufferSize) (st : PassState Flt Dth) (hc : c < nChannels)
    (hdi : ∀ c1, c1 < nChannels → 0 ≤ st.di c1 ∧ st.di c1 < F.denominator) :
    (channelLoop (pathSample Fo D USE_AVX bDither Gain F nChannels) nChannels blk st
        c).OutBufferIndex ≤ nChannels + BufferSize * l / m ∧
    ∀ c1, c1 < nChannels →
      0 ≤ (channelLoop (pathSample Fo D USE_AVX bDither Gain F nChannels) nChannels blk st
        c).di c1 ∧
      (channelLoop (pathSample Fo D USE_AVX bDither Gain F nChannels) nChannels blk st
        c).di c1 < F.denominator := by
  have h1 : F.denominator = 1 → st.di c = 0 := by
    intro h
    have := hdi c hc
    omega
  obtain ⟨hidx, hd⟩ := channelLoop_count Fo D USE_AVX bDither Gain F nChannels c blk st h1
  have hl : F.numerator.toNat = l := by rw [hL]; exact Int.toNat_natCast l
  rw [hl, hM] at hidx hd
  have hdc : 0 ≤ st.di c ∧ st.di c < (m : Int) := by
    have := hdi c hc
    rw [hM] at this
    exact this
  constructor
  · rw [hidx]
    have hfr : frameCount blk.length nChannels * nChannels ≤ BufferSize :=
      le_trans (Nat.mul_le_mul_right _ (frameCount_le blk.length nChannels BufferSize hn hB hlen))
        (Nat.div_mul_le_self _ _)
    exact le_trans
      (Nat.mul_le_mul_left _ (emitCount_le m hm _ (st.di c) hdc.1 hdc.2))
      (first_block_fits (frameCount blk.length nChannels) l m nChannels BufferSize hm hfr)
  · intro c1 hc1
    rw [hd, hM]
    by_cases e : c1 = c
    · subst e
      rw [Function.update_same]
      exact phaseAfter_range m hm _ _ hdc.1 hdc.2
    · rw [Function.update_noteq e]
      have := hdi c1 hc1
      rw [hM] at this
      exact this

/-- The channel loops of one block of at most `BufferSize` samples leave every slot of the
output buffer from `nChannels + BufferSize * l / m` on as it was. -/
theorem processBlock_untouched (Fo : FIRFilterOps Flt) (D : DithererOps Dth)
    (USE_AVX bDither : Bool) (Gain : ℚ) (F : Fraction) (nChannels BufferSize : Nat)
    (l m : Nat) (hL : F.numerator = (l : Int)) (hM : F.denominator = (m : Int)) (hm : 1 ≤ m)
    (hn : 1 ≤ nChannels) (hB : nChannels ∣ BufferSize) (blk : List ℚ)
    (hlen : blk.length ≤ BufferSize) (st : PassState Flt Dth)
    (hdi : ∀ c, c < nChannels → 0 ≤ st.di c ∧ st.di c < F.denominator) :
    (∀ j, nChannels + BufferSize * l / m ≤ j →
      (processBlock (pathSample Fo D USE_AVX bDither Gain F nChannels) nChannels blk
        st).OutBuffer j = st.OutBuffer j) ∧
    (processBlock (pathSample Fo D USE_AVX bDither Gain F nChannels) nChannels blk
        st).OutBufferIndex ≤ nChannels + BufferSize * l / m := by
  have key : ∀ k, k ≤ nChannels →
      (∀ c, c < nChannels → 0 ≤ ((List.range k).foldl
            (channelLoop (pathSample Fo D USE_AVX bDither Gain F nChannels) nChannels blk)
            st).di c ∧
          ((List.range k).foldl
            (channelLoop (pathSample Fo D USE_AVX bDither Gain F nChannels) nChannels blk)
            st).di c < F.denominator) ∧
      (∀ j, nChannels + BufferSize * l / m ≤ j →
        ((List.range k).foldl
            (channelLoop (pathSample Fo D USE_AVX bDither Gain F nChannels) nChannels blk)
            st).OutBuffer j = st.OutBuffer j) ∧
      (1 ≤ k →
        ((List.range k).foldl
            (channelLoop (pathSample Fo D USE_AVX bDither Gain F nChannels) nChannels blk)
            st).OutBufferIndex ≤ nChannels + BufferSize * l / m) := by
    intro k
    induction k with
    | zero =>
      intro _
      exact ⟨hdi, fun _ _ => rfl, fun h => absurd h (by omega)⟩
    | succ k ih =>
      intro hk
      obtain ⟨ih1, ih2, _⟩ := ih (by omega)
      rw [List.range_succ, List.foldl_append]
      simp only [List.foldl_cons, List.foldl_nil]
      obtain ⟨hidx, hd⟩ := channelLoop_index_le Fo D USE_AVX bDither Gain F nChannels BufferSize
        k l m hL hM hm hn hB blk hlen _ (by omega) ih1
      refine ⟨hd, ?_, fun _ => hidx⟩
      intro j hj
      rw [untouched_channelLoop Fo D USE_AVX bDither Gain F nChannels k (by omega) blk _ j
        (le_trans hidx hj)]
      exact ih2 j hj
  obtain ⟨_, k2, k3⟩ := key nChannels (le_refl _)
  exact ⟨k2, k3 hn⟩

end BufferBounds2

section BufferBounds3

variable {Flt Dth : Type}

/-- C24: for every channel count `nChannels ≥ 1`, every ratio `l : m`, every block of at most
`BufferSize` samples and every starting decimation phase (the counters `di` of the channels in
`0 .. m - 1`), the channel loops of `Convert` leave every slot of the output buffer from
`OutBufferSize - nChannels` on as it was, whatever the buffer held before; so every index that
they store to is below `OutBufferSize - nChannels`, which is below
`OutBufferSize = 2 * nChannels + BufferSize * l / m`.  The `OutBufferIndex` that the loops leave
is at most `OutBufferSize - nChannels` as well.  `BufferSize` is a multiple of `nChannels`, as
`Convert` makes it. -/
theorem channel_loops_within_OutBuffer (Fo : FIRFilterOps Flt) (D : DithererOps Dth)
    (USE_AVX bDither : Bool) (Gain : ℚ) (F : Fraction) (nChannels BufferSize : Nat)
    (l m : Nat) (hL : F.numerator = (l : Int)) (hM : F.denominator = (m : Int)) (hm : 1 ≤ m)
    (hn : 1 ≤ nChannels) (hB : nChannels ∣ BufferSize) (blk : List ℚ)
    (hlen : blk.length ≤ BufferSize) (st : PassState Flt Dth)
    (hdi : ∀ c, c < nChannels → 0 ≤ st.di c ∧ st.di c < F.denominator) :
    (∀ j : Nat, OutBufferSize nChannels BufferSize F - (nChannels : Int) ≤ (j : Int) →
      (processBlock (pathSample Fo D USE_AVX bDither Gain F nChannels) nChannels blk
        st).OutBuffer j = st.OutBuffer j) ∧
    (((processBlock (pathSample Fo D USE_AVX bDither Gain F nChannels) nChannels blk
        st).OutBufferIndex : Nat) : Int)
      ≤ OutBufferSize nChannels BufferSize F - (nChannels : Int) ∧
    OutBufferSize nChannels BufferSize F - (nChannels : Int)
      < OutBufferSize nChannels BufferSize F ∧
    OutBufferSize nChannels BufferSize F = ((2 * nChannels + BufferSize * l / m : Nat) : Int) := by
  obtain ⟨h1, h2⟩ := processBlock_untouched Fo D USE_AVX bDither Gain F nChannels BufferSize
    l m hL hM hm hn hB blk hlen st hdi
  have hc := OutBufferSize_cast nChannels BufferSize F l m hL hM
  refine ⟨?_, ?_, by omega, ?_⟩
  · intro j hj
    rw [hc] at hj
    exact h1 j (by exact_mod_cast hj)
  · rw [hc]
    exact_mod_cast h2
  · have : OutBufferSize nChannels BufferSize F
        = ((nChannels + BufferSize * l / m : Nat) : Int) + (nChannels : Int) := by
      rw [← hc]; ring
    rw [this]
    push_cast
    ring

/-- C24 on a stereo 3:2 pass with `BufferSize = 8`, a block of eight samples and the
counters at phase 1: `OutBufferSize` is 16, and no slot from 14 on is stored to. -/
theorem channel_loops_within_OutBuffer_witness :
    (∀ j : Nat, OutBufferSize 2 8 ⟨3, 2⟩ - ((2 : Nat) : Int) ≤ (j : Int) →
      (processBlock (pathSample oneTapFilter passThroughDitherer false false 1 ⟨3, 2⟩ 2) 2
        [1, 2, 3, 4, 5, 6, 7, 8]
        { passStart 2 8 ⟨3, 2⟩ 1 (fun _ => 0) (fun _ => ()) with di := fun _ => 1 }).OutBuffer j
      = (fun _ => (0 : ℚ)) j) ∧
    OutBufferSize 2 8 ⟨3, 2⟩ = 16 :=
  ⟨(channel_loops_within_OutBuffer oneTapFilter passThroughDitherer false false 1 ⟨3, 2⟩ 2 8
      3 2 rfl rfl (by decide) (by decide) (by decide) [1, 2, 3, 4, 5, 6, 7, 8] (by decide)
      { passStart 2 8 ⟨3, 2⟩ 1 (fun _ => 0) (fun _ => ()) with di := fun _ => 1 }
      (fun _ _ => ⟨(by decide : (0 : Int) ≤ 1), (by decide : (1 : Int) < 2)⟩)).1,
    by decide⟩

end BufferBounds3

section FirstWrite

variable {Flt Dth : Type}

/-! ### The first write of a pass -/

/-- The write that ends a block appends `writeCount` samples, none when that count is not
positive. -/
theorem writeTrimmed_length (st : PassState Flt Dth) :
    (writeTrimmed st).outFile.length = st.outFile.length + (writeCount st).toNat := by
  unfold writeTrimmed writeCount
  split
  · simp [writeAll, bufferSlice_length]
  · simp [bufferSlice_length]

/-- The state in which the first write of a pass finds `outStartOffset` and `OutBufferIndex`. -/
theorem first_block_state (Fo : FIRFilterOps Flt) (D : DithererOps Dth) (USE_AVX bDither : Bool)
    (Gain : ℚ) (F : Fraction) (nChannels BufferSize : Nat) (gd : Int) (l m : Nat)
    (hL : F.numerator = (l : Int)) (hM : F.denominator = (m : Int)) (hm : 1 ≤ m)
    (hn : 1 ≤ nChannels) (blk : List ℚ) (Filters : Nat → Flt) (Ditherers : Nat → Dth) :
    (processBlock (pathSample Fo D USE_AVX bDither Gain F nChannels) nChannels blk
        (passStart nChannels BufferSize F gd Filters Ditherers)).outStartOffset
      = min (gd * (nChannels : Int)) ((nChannels + BufferSize * l / m : Nat) : Int) ∧
    (processBlock (pathSample Fo D USE_AVX bDither Gain F nChannels) nChannels blk
        (passStart nChannels BufferSize F gd Filters Ditherers)).OutBufferIndex
      = nChannels * ((frameCount blk.length nChannels * l + m - 1) / m) ∧
    (processBlock (pathSample Fo D USE_AVX bDither Gain F nChannels) nChannels blk
        (passStart nChannels BufferSize F gd Filters Ditherers)).outFile = [] := by
  have hio := processBlock_io Fo D USE_AVX bDither Gain F nChannels blk
    (passStart nChannels BufferSize F gd Filters Ditherers)
  refine ⟨?_, first_block_count Fo D USE_AVX bDither Gain F nChannels BufferSize gd l m hL hM hm
    hn blk Filters Ditherers, ?_⟩
  · rw [hio.2]
    exact outStartOffset_cast nChannels BufferSize F gd l m hL hM
  · rw [hio.1]
    rfl

/-- C25, counterexample: a mono 1:2 pass with `groupDelay = 375` and `BufferSize = 32768` over a
first block of 4 samples.  The channel loop leaves `OutBufferIndex = 2`, `outStartOffset` is
375, and the count of the first write is -373. -/
theorem first_write_count_counterexample :
    outStartOffset 1 32768 ⟨1, 2⟩ 375 = 375 ∧
    (processBlock (pathSample oneTapFilter passThroughDitherer false false 1 ⟨1, 2⟩ 1) 1
        [1, 1, 1, 1] (passStart 1 32768 ⟨1, 2⟩ 375 (fun _ => 0) (fun _ => ()))).OutBufferIndex
      = 2 ∧
    writeCount
      (processBlock (pathSample oneTapFilter passThroughDitherer false false 1 ⟨1, 2⟩ 1) 1
        [1, 1, 1, 1] (passStart 1 32768 ⟨1, 2⟩ 375 (fun _ => 0) (fun _ => ()))) = -373 := by
  obtain ⟨h1, h2, _⟩ := first_block_state oneTapFilter passThroughDitherer false false 1 ⟨1, 2⟩
    1 32768 375 1 2 rfl rfl (by decide) (by decide) [1, 1, 1, 1] (fun _ => 0) (fun _ => ())
  have e2 : 1 * ((frameCount [(1 : ℚ), 1, 1, 1].length 1 * 1 + 2 - 1) / 2) = 2 := by decide
  have e1 : min (375 * ((1 : Nat) : Int)) ((1 + 32768 * 1 / 2 : Nat) : Int) = 375 := by decide
  rw [e2] at h2
  rw [e1] at h1
  refine ⟨by decide, h2, ?_⟩
  unfold writeCount
  rw [h1, h2]
  decide

/-- C25, where it holds: on the first write of a pass on a resampling path, the count passed to
the output write is not negative exactly when `outStartOffset ≤ OutBufferIndex`, and this is
the case whenever the first block produces at least `groupDelay` samples per channel
(`groupDelay ≤ ⌈frames * l / m⌉`). -/
theorem first_write_count_nonneg (Fo : FIRFilterOps Flt) (D : DithererOps Dth)
    (USE_AVX bDither : Bool) (Gain : ℚ) (F : Fraction) (nChannels BufferSize : Nat) (gd : Int)
    (l m : Nat) (hL : F.numerator = (l : Int)) (hM : F.denominator = (m : Int)) (hm : 1 ≤ m)
    (hn : 1 ≤ nChannels) (blk : List ℚ) (Filters : Nat → Flt) (Ditherers : Nat → Dth)
    (hgd : gd ≤ (((frameCount blk.length nChannels * l + m - 1) / m : Nat) : Int)) :
    (0 ≤ writeCount
        (processBlock (pathSample Fo D USE_AVX bDither Gain F nChannels) nChannels blk
          (passStart nChannels BufferSize F gd Filters Ditherers)) ↔
      (processBlock (pathSample Fo D USE_AVX bDither Gain F nChannels) nChannels blk
          (passStart nChannels BufferSize F gd Filters Ditherers)).outStartOffset
        ≤ (((processBlock (pathSample Fo D USE_AVX bDither Gain F nChannels) nChannels blk
          (passStart nChannels BufferSize F gd Filters Ditherers)).OutBufferIndex : Nat) : Int)) ∧
    (processBlock (pathSample Fo D USE_AVX bDither Gain F nChannels) nChannels blk
        (passStart nChannels BufferSize F gd Filters Ditherers)).outStartOffset
      ≤ (((processBlock (pathSample Fo D USE_AVX bDither Gain F nChannels) nChannels blk
        (passStart nChannels BufferSize F gd Filters Ditherers)).OutBufferIndex : Nat) : Int) ∧
    0 ≤ writeCount
      (processBlock (pathSample Fo D USE_AVX bDither Gain F nChannels) nChannels blk
        (passStart nChannels BufferSize F gd Filters Ditherers)) := by
  obtain ⟨h1, h2, _⟩ := first_block_state Fo D USE_AVX bDither Gain F nChannels BufferSize gd
    l m hL hM hm hn blk Filters Ditherers
  have hle : (processBlock (pathSample Fo D USE_AVX bDither Gain F nChannels) nChannels blk
        (passStart nChannels BufferSize F gd Filters Ditherers)).outStartOffset
      ≤ (((processBlock (pathSample Fo D USE_AVX bDither Gain F nChannels) nChannels blk
        (passStart nChannels BufferSize F gd Filters Ditherers)).OutBufferIndex : Nat) : Int) := by
    rw [h1, h2]
    apply le_trans (min_le_left _ _)
    push_cast
    rw [mul_comm]
    exact mul_le_mul_of_nonneg_left hgd (Int.natCast_nonneg _)
  have hiff : ∀ st : PassState Flt Dth,
      0 ≤ writeCount st ↔ st.outStartOffset ≤ ((st.OutBufferIndex : Nat) : Int) := by
    intro st
    unfold writeCount
    split_ifs with h
    · constructor
      · intro _
        exact le_trans h (Int.natCast_nonneg _)
      · intro _
        exact Int.natCast_nonneg _
    · constructor <;> intro hh <;> omega
  exact ⟨hiff _, hle, (hiff _).2 hle⟩

/-- C25, where it holds, on a stereo 1:2 pass with `groupDelay = 1`, `BufferSize = 8` and a
first block of four frames. -/
theorem first_write_count_nonneg_witness :
    0 ≤ writeCount
      (processBlock (pathSample oneTapFilter passThroughDitherer false false 1 ⟨1, 2⟩ 2) 2
        [1, 2, 3, 4, 5, 6, 7, 8] (passStart 2 8 ⟨1, 2⟩ 1 (fun _ => 0) (fun _ => ()))) :=
  (first_write_count_nonneg oneTapFilter passThroughDitherer false false 1 ⟨1, 2⟩ 2 8 1 1 2
    rfl rfl (by decide) (by decide) [1, 2, 3, 4, 5, 6, 7, 8] (fun _ => 0) (fun _ => ())
    (by decide)).2.2

/-- C26, counterexample: with two channels, `BufferSize = 8`, the ratio 2:3 and
`groupDelay = 4`, `OutBufferSize` is 9 and `outStartOffset` is `min(8, 7) = 7`, which is not
a multiple of 2. -/
theorem outStartOffset_counterexample :
    OutBufferSize 2 8 ⟨2, 3⟩ = 9 ∧ outStartOffset 2 8 ⟨2, 3⟩ 4 = 7 ∧
    ¬ (((2 : Nat) : Int) ∣ outStartOffset 2 8 ⟨2, 3⟩ 4) := by
  decide

/-- C26, amended: `outStartOffset = min(groupDelay * nChannels, OutBufferSize - nChannels)` is
a multiple of `nChannels` whenever `groupDelay * nChannels ≤ OutBufferSize - nChannels`.
Otherwise it is `OutBufferSize - nChannels`, which is a multiple of `nChannels` exactly when
`BufferSize * l / m` is one, and then the first write of the pass appends no sample, whatever
the first block of at most `BufferSize` samples holds.  So the samples that are written after
the skip start on a frame boundary. -/
theorem outStartOffset_frame_boundary (F : Fraction) (nChannels BufferSize : Nat) (gd : Int)
    (l m : Nat) (hL : F.numerator = (l : Int)) (hM : F.denominator = (m : Int)) (hm : 1 ≤ m)
    (hn : 1 ≤ nChannels) (hB : nChannels ∣ BufferSize) :
    (gd * (nChannels : Int) ≤ OutBufferSize nChannels BufferSize F - (nChannels : Int) →
      outStartOffset nChannels BufferSize F gd = gd * (nChannels : Int) ∧
      (nChannels : Int) ∣ outStartOffset nChannels BufferSize F gd) ∧
    (OutBufferSize nChannels BufferSize F - (nChannels : Int) < gd * (nChannels : Int) →
      outStartOffset nChannels BufferSize F gd
        = OutBufferSize nChannels BufferSize F - (nChannels : Int) ∧
      ((nChannels : Int) ∣ outStartOffset nChannels BufferSize F gd ↔
        nChannels ∣ BufferSize * l / m) ∧
      ∀ (Fo : FIRFilterOps Flt) (D : DithererOps Dth) (USE_AVX bDither : Bool) (Gain : ℚ)
        (blk : List ℚ) (Filters : Nat → Flt) (Ditherers : Nat → Dth),
        selectPath F ≠ Path.copy → blk.length ≤ BufferSize →
        (blockStep Fo D USE_AVX bDither Gain F nChannels blk
          (passStart nChannels BufferSize F gd Filters Ditherers)).outFile = []) := by
  have hc := OutBufferSize_cast nChannels BufferSize F l m hL hM
  constructor
  · intro h
    have e : outStartOffset nChannels BufferSize F gd = gd * (nChannels : Int) := by
      unfold outStartOffset
      exact min_eq_left h
    exact ⟨e, by rw [e]; exact Dvd.intro_left gd rfl⟩
  · intro h
    have e : outStartOffset nChannels BufferSize F gd
        = OutBufferSize nChannels BufferSize F - (nChannels : Int) := by
      unfold outStartOffset
      exact min_eq_right (le_of_lt h)
    refine ⟨e, ?_, ?_⟩
    · rw [e, hc, Int.natCast_dvd_natCast]
      exact (Nat.dvd_add_right (dvd_refl _))
    · intro Fo D USE_AVX bDither Gain blk Filters Ditherers hpath hlen
      obtain ⟨h1, h2, h3⟩ := first_block_state Fo D USE_AVX bDither Gain F nChannels
        BufferSize gd l m hL hM hm hn blk Filters Ditherers
      have hfr : frameCount blk.length nChannels * nChannels ≤ BufferSize :=
        le_trans
          (Nat.mul_le_mul_right _ (frameCount_le blk.length nChannels BufferSize hn hB hlen))
          (Nat.div_mul_le_self _ _)
      have hfit := first_block_fits (frameCount blk.length nChannels) l m nChannels BufferSize
        hm hfr
      have hoff : (processBlock (pathSample Fo D USE_AVX bDither Gain F nChannels) nChannels
          blk (passStart nChannels BufferSize F gd Filters Ditherers)).outStartOffset
            = ((nChannels + BufferSize * l / m : Nat) : Int) := by
        rw [h1]
        rw [hc] at h
        exact min_eq_right (le_of_lt h)
      have hlen0 : (blockStep Fo D USE_AVX bDither Gain F nChannels blk
          (passStart nChannels BufferSize F gd Filters Ditherers)).outFile.length = 0 := by
        unfold blockStep
        simp only [if_neg hpath]
        rw [writeTrimmed_length, h3]
        unfold writeCount
        rw [hoff, h2]
        split_ifs with hh
        · exfalso
          have hpos : 0 < nChannels + BufferSize * l / m :=
            Nat.lt_of_lt_of_le hn (Nat.le_add_right nChannels _)
          have hpos1 : (0 : Int) < ((nChannels + BufferSize * l / m : Nat) : Int) := by
            exact_mod_cast hpos
          exact absurd hh (not_le.mpr hpos1)
        · simp only [List.length_nil, Nat.zero_add]
          rw [Int.toNat_eq_zero]
          have hfit1 :
              ((nChannels * ((frameCount blk.length nChannels * l + m - 1) / m) : Nat) : Int)
                ≤ ((nChannels + BufferSize * l / m : Nat) : Int) := by exact_mod_cast hfit
          exact sub_nonpos.mpr hfit1
      exact List.length_eq_zero.mp hlen0

/-- C26, amended, at two channels, `BufferSize = 8`, the ratio 1:2 and `groupDelay = 1`: the
offset is 2. -/
theorem outStartOffset_frame_boundary_witness :
    outStartOffset 2 8 ⟨1, 2⟩ 1 = 1 * ((2 : Nat) : Int) ∧
    ((2 : Nat) : Int) ∣ outStartOffset 2 8 ⟨1, 2⟩ 1 :=
  (@outStartOffset_frame_boundary ℚ Unit ⟨1, 2⟩ 2 8 1 1 2 rfl rfl (by decide)
    (by decide) (by decide)).1 (by decide)

end FirstWrite

/-! ### The 32-bit computations of the filter plan -/

/-- A value in the range of `int` survives the conversion from `unsigned int`. -/
theorem toInt32_of_fits (x : Int) (h0 : 0 ≤ x) (h1 : x < 2 ^ 31) : toInt32 x = x := by
  unfold toInt32
  rw [Int.emod_eq_of_lt (by omega) (by omega)]
  omega

/-- `BaseFilterSize` is the product divided by 2 or by 320. -/
theorem BaseFilterSize_eq_product (fs : FilterSizes) (FOriginal : Fraction) :
    BaseFilterSize fs FOriginal
      = (BaseFilterSizeProduct fs FOriginal).tdiv (if isSimpleRatio FOriginal then 2 else 320) := by
  unfold BaseFilterSize BaseFilterSizeProduct
  split_ifs <;> rfl

/-- The steepness is positive in every low-pass mode, given a positive divisor in the custom
mode. -/
theorem steepness_pos (ci : conversionInfo)
    (hcustom : ci.lpfMode = LPFMode.custom → 0 < customSteepnessDivisor ci) :
    ∃ s : ℚ, steepness ci = some s ∧ 0 < s := by
  cases hm : ci.lpfMode with
  | normal => exact ⟨1, by unfold steepness; rw [hm], by norm_num⟩
  | relaxed => exact ⟨1, by unfold steepness; rw [hm], by norm_num⟩
  | steep => exact ⟨2, by unfold steepness; rw [hm], by norm_num⟩
  | custom =>
    have hd := hcustom hm
    refine ⟨(90909091 / 1000000000) / customSteepnessDivisor ci, ?_, div_pos (by norm_num) hd⟩
    unfold steepness customSteepnessDivisor at *
    rw [hm]
    simp only
    split_ifs with h0
    · rw [if_pos h0] at hd
      unfold fdiv
      rw [if_neg (ne_of_gt hd)]
    · rw [if_neg h0] at hd
      unfold fdiv
      rw [if_neg (ne_of_gt hd)]

/-- The value `n | 1` of a non-negative `n` of at most `B` lies between 1 and `B + 1`. -/
theorem int_lor_one_bounds (n B : Int) (h0 : 0 ≤ n) (h1 : n ≤ B) :
    1 ≤ Int.lor n 1 ∧ Int.lor n 1 ≤ B + 1 := by
  rw [int_lor_one]
  split_ifs with h <;> constructor <;> omega

/-! ### The Vorbis quality handed to the output file -/

/-- C22, failing input: with `--vorbisQuality 10` and an Ogg Vorbis output (format
`0x200060`) the value handed to the output file is -9/11, which is negative. -/
theorem vorbisCompressionLevel_counterexample :
    (parseParameters ⟨0, 6, 2, 14⟩ (fun _ => 48000) (fun _ => 10) {} false
      ["ReSampler", "-i", "in.wav", "-o", "out.ogg", "-r", "48000", "--vorbisQuality",
        "10"]).ci.vorbisQuality = 10 ∧
    vorbisCompressionLevel
      (parseParameters ⟨0, 6, 2, 14⟩ (fun _ => 48000) (fun _ => 10) {} false
        ["ReSampler", "-i", "in.wav", "-o", "out.ogg", "-r", "48000", "--vorbisQuality",
          "10"]).ci 0x200060 = some (-9 / 11) ∧
    ¬ ((0 : ℚ) ≤ -9 / 11) := by
  have h := parseParameters_vorbisQuality ⟨0, 6, 2, 14⟩ (fun _ => 48000) (fun _ => (10 : ℚ)) {}
    false ["ReSampler", "-i", "in.wav", "-o", "out.ogg", "-r", "48000", "--vorbisQuality", "10"]
    (by decide) (by decide)
  have hv : getCmdlineParam_double (fun _ => (10 : ℚ))
      ["ReSampler", "-i", "in.wav", "-o", "out.ogg", "-r", "48000", "--vorbisQuality", "10"]
      "--vorbisQuality" = 10 := by
    simp [getCmdlineParam_double, paramAfter]
  have hq := h.2.2.2 (by rw [hv]; norm_num) (by rw [hv])
  rw [hv] at hq
  refine ⟨hq, ?_, by norm_num⟩
  unfold vorbisCompressionLevel
  rw [if_pos ⟨by decide, h.1⟩, hq]
  norm_num

/-- C22, where it holds: for every Vorbis quality `q` between -1 and 1, when the output format
is a Vorbis one and the quality was set, the compression value `(1 - q) / 11` that `Convert`
passes to the output file lies in [0, 1]. -/
theorem vorbisCompressionLevel_range (ci : conversionInfo) (OutputFileFormat : Nat)
    (hfmt : OutputFileFormat &&& SF_FORMAT_VORBIS = SF_FORMAT_VORBIS)
    (hset : ci.bSetVorbisQuality = true)
    (hlo : -1 ≤ ci.vorbisQuality) (hhi : ci.vorbisQuality ≤ 1) :
    ∃ cl : ℚ, vorbisCompressionLevel ci OutputFileFormat = some cl ∧
      cl = (1 - ci.vorbisQuality) / 11 ∧ 0 ≤ cl ∧ cl ≤ 1 := by
  refine ⟨(1 - ci.vorbisQuality) / 11, ?_, rfl, ?_, ?_⟩
  · unfold vorbisCompressionLevel
    rw [if_pos ⟨hfmt, hset⟩]
  · apply div_nonneg <;> linarith
  · rw [div_le_one (by norm_num)]
    linarith

/-- C22, where it holds, on the configuration that `parseParameters` leaves for
`--vorbisQuality 0` and on the Ogg Vorbis format `0x200060`. -/
theorem vorbisCompressionLevel_range_witness :
    ∃ cl : ℚ, vorbisCompressionLevel
        (parseParameters ⟨0, 6, 2, 14⟩ (fun _ => 48000) (fun _ => 0) {} false
          ["ReSampler", "-i", "in.wav", "-o", "out.ogg", "-r", "48000", "--vorbisQuality",
            "0"]).ci 0x200060 = some cl ∧
      cl = (1 - (parseParameters ⟨0, 6, 2, 14⟩ (fun _ => 48000) (fun _ => 0) {} false
          ["ReSampler", "-i", "in.wav", "-o", "out.ogg", "-r", "48000", "--vorbisQuality",
            "0"]).ci.vorbisQuality) / 11 ∧ 0 ≤ cl ∧ cl ≤ 1 := by
  have h := parseParameters_vorbisQuality ⟨0, 6, 2, 14⟩ (fun _ => 48000) (fun _ => (0 : ℚ)) {}
    false ["ReSampler", "-i", "in.wav", "-o", "out.ogg", "-r", "48000", "--vorbisQuality", "0"]
    (by decide) (by decide)
  have hv : getCmdlineParam_double (fun _ => (0 : ℚ))
      ["ReSampler", "-i", "in.wav", "-o", "out.ogg", "-r", "48000", "--vorbisQuality", "0"]
      "--vorbisQuality" = 0 := by
    simp [getCmdlineParam_double, paramAfter]
  have hq := h.2.2.2 (by rw [hv]; norm_num) (by rw [hv]; norm_num)
  rw [hv] at hq
  exact vorbisCompressionLevel_range _ 0x200060 (by decide) h.1 h.2.1 (by rw [hq]; norm_num)

/-! ### The filenames of an accepted command line -/

/-- C28, failing input: the command line `ReSampler -o out.wav -r 48000` has no input
filename; `parseParameters` accepts it, and `InputFilename` is empty. -/
theorem parseParameters_no_input_counterexample :
    (parseParameters ⟨0, 6, 2, 14⟩ (fun _ => 48000) (fun _ => 0) {} false
      ["ReSampler", "-o", "out.wav", "-r", "48000"]).result = true ∧
    (parseParameters ⟨0, 6, 2, 14⟩ (fun _ => 48000) (fun _ => 0) {} false
      ["ReSampler", "-o", "out.wav", "-r", "48000"]).ci.InputFilename = "" := by
  decide

/-- C28, where it holds: for every command line that `parseParameters` accepts and that gives
an input filename or gives no output filename, the resulting `InputFilename` is not empty and
the resulting `OutputFilename` is not empty and differs from `InputFilename`; when no output
filename is given (`-o` is omitted, or no text follows it) the output name is the input name
with `(converted)` inserted before its last dot, or appended when it has no dot. -/
theorem parseParameters_filenames (ids : DitherProfileIDs) (atoi : String → Int)
    (atof : String → ℚ) (ci : conversionInfo) (bBadParams : Bool) (argv : List String)
    (h : (parseParameters ids atoi atof ci bBadParams argv).result = true)
    (hgiven : getCmdlineParam_string argv "-i" ≠ "" ∨ getCmdlineParam_string argv "-o" = "") :
    (parseParameters ids atoi atof ci bBadParams argv).ci.InputFilename ≠ "" ∧
    (parseParameters ids atoi atof ci bBadParams argv).ci.OutputFilename ≠ "" ∧
    (parseParameters ids atoi atof ci bBadParams argv).ci.OutputFilename
      ≠ (parseParameters ids atoi atof ci bBadParams argv).ci.InputFilename ∧
    (getCmdlineParam_string argv "-o" = "" →
      (∀ p q : List Char,
        (parseParameters ids atoi atof ci bBadParams argv).ci.InputFilename
          = String.mk (p ++ '.' :: q) →
        '.' ∉ q →
        (parseParameters ids atoi atof ci bBadParams argv).ci.OutputFilename
          = String.mk (p ++ "(converted)".data ++ '.' :: q)) ∧
      ('.' ∉ (parseParameters ids atoi atof ci bBadParams argv).ci.InputFilename.data →
        (parseParameters ids atoi atof ci bBadParams argv).ci.OutputFilename
          = (parseParameters ids atoi atof ci bBadParams argv).ci.InputFilename
            ++ "(converted)")) := by
  have hsw := no_switch_of_accepted ids atoi atof ci bBadParams argv h
  rw [parseParameters_of_no_switch ids atoi atof ci bBadParams argv hsw] at h ⊢
  obtain ⟨hi, ho, _⟩ := parseOptions_core ids atoi atof argv (initializeDefaults ids ci)
  have hin := (testBadParameters_fields
    (parseOptions ids atoi atof argv (initializeDefaults ids ci))).2.2.2.2.2.2.2
  obtain ⟨_, hcase⟩ := testBadParameters_accepts _ h
  rw [hin, hi]
  rw [hi, ho] at hcase
  rcases hcase with ⟨hout, hinp, hdef⟩ | ⟨hout, hne, hkeep⟩
  · rw [hdef]
    refine ⟨hinp, (defaultOutputFilename_ne _).1, (defaultOutputFilename_ne _).2, ?_⟩
    intro _
    refine ⟨?_, ?_⟩
    · intro p q hpq hq
      rw [hpq]
      exact defaultOutputFilename_dot p q hq
    · intro hnd
      exact defaultOutputFilename_no_dot _ hnd
  · rw [hkeep]
    have hinp : getCmdlineParam_string argv "-i" ≠ "" := by
      rcases hgiven with hg | hg
      · exact hg
      · exact absurd hg hout
    refine ⟨hinp, hout, hne, ?_⟩
    intro hh
    exact absurd hh hout

/-- C28, where it holds, on the command line `ReSampler -i my.song.wav -r 48000`: the output
filename is `my.song(converted).wav`. -/
theorem parseParameters_filenames_witness :
    (parseParameters ⟨0, 6, 2, 14⟩ (fun _ => 48000) (fun _ => 0) {} false
      ["ReSampler", "-i", "my.song.wav", "-r", "48000"]).ci.OutputFilename
        = "my.song(converted).wav" :=
  ((parseParameters_filenames ⟨0, 6, 2, 14⟩ (fun _ => 48000) (fun _ => 0) {} false
      ["ReSampler", "-i", "my.song.wav", "-r", "48000"] (by decide)
      (Or.inl (by decide))).2.2.2
    (by decide)).1 "my.song".data "wav".data (by decide) (by decide)

/-! ### Output format for the bit format "8" -/

/-- C19, failing input: the extension `WAV` with the bit format "8".  The extension matches
the major format `wav` (the match is made without regard to case), but it is not the string
`wav`, and `determineOutputFormat` returns signed 8-bit WAV (`0x010001`), not unsigned 8-bit
WAV (`0x010005`). -/
theorem determineOutputFormat_upper_case_counterexample :
    stricmpEq "wav" "WAV" = true ∧
    determineOutputFormat [⟨0x010000, "wav"⟩, ⟨0x020000, "aiff"⟩, ⟨0x170000, "flac"⟩]
      [("8", 0x0001), ("16", 0x0002)] "WAV" "8" = 0x010001 ∧
    determineOutputFormat [⟨0x010000, "wav"⟩, ⟨0x020000, "aiff"⟩, ⟨0x170000, "flac"⟩]
      [("8", 0x0001), ("16", 0x0002)] "WAV" "8" ≠ 0x010000 ||| SF_FORMAT_PCM_U8 := by
  decide

/-- C19, where it holds: when the output extension matches a major format of libsndfile
(without regard to case; `m` is the first such format) and the bit format is "8",
`determineOutputFormat` returns `m.format | SF_FORMAT_PCM_U8` when the extension is one of the
strings `mat`, `rf64`, `voc`, `w64`, `wav` as written, in lower case, and
`m.format | SF_FORMAT_PCM_S8` when the extension is none of these five names in any mix of
upper and lower case. -/
theorem determineOutputFormat_eight (majorFormats : List SF_FORMAT_INFO)
    (subFormats : List (String × Nat)) (outFileExt : String)
    (hmatch : ∃ e ∈ majorFormats, stricmpEq e.extension outFileExt = true) :
    ∃ m, majorFormats.find? (fun e => stricmpEq e.extension outFileExt) = some m ∧
      m ∈ majorFormats ∧ stricmpEq m.extension outFileExt = true ∧
      (outFileExt ∈ ["mat", "rf64", "voc", "w64", "wav"] →
        determineOutputFormat majorFormats subFormats outFileExt "8"
          = m.format ||| SF_FORMAT_PCM_U8) ∧
      ((∀ x ∈ ["mat", "rf64", "voc", "w64", "wav"], stricmpEq x outFileExt = false) →
        determineOutputFormat majorFormats subFormats outFileExt "8"
          = m.format ||| SF_FORMAT_PCM_S8) := by
  obtain ⟨e, he, hee⟩ := hmatch
  have hsome : (majorFormats.find? (fun e => stricmpEq e.extension outFileExt)).isSome = true := by
    rw [List.find?_isSome]
    exact ⟨e, he, hee⟩
  obtain ⟨m, hm⟩ := Option.isSome_iff_exists.1 hsome
  have hloop := majorFormatLoop_find majorFormats outFileExt { format := 0, extension := "" } m hm
  refine ⟨m, hm, List.mem_of_find?_eq_some hm, ?_, ?_, ?_⟩
  · have h := List.find?_some hm
    simpa using h
  · intro hin
    have hin' : outFileExt = "mat" ∨ outFileExt = "rf64" ∨ outFileExt = "voc" ∨
        outFileExt = "w64" ∨ outFileExt = "wav" := by
      simpa using hin
    simp only [determineOutputFormat, hloop, if_true, if_pos hin']
  · intro hnone
    have hself : ∀ x : String, stricmpEq x x = true := by
      intro x
      simp [stricmpEq]
    have hout' : ¬ (outFileExt = "mat" ∨ outFileExt = "rf64" ∨ outFileExt = "voc" ∨
        outFileExt = "w64" ∨ outFileExt = "wav") := by
      intro hor
      have hmem : outFileExt ∈ ["mat", "rf64", "voc", "w64", "wav"] := by
        simpa using hor
      have hf := hnone outFileExt hmem
      rw [hself] at hf
      exact absurd hf (by decide)
    simp only [determineOutputFormat, hloop, if_true, if_neg hout']

/-- C19, where it holds, for a list of three major formats: `wav` gives unsigned 8-bit WAV
(`0x010005`) and `aiff` gives signed 8-bit AIFF (`0x020001`). -/
theorem determineOutputFormat_eight_witness :
    determineOutputFormat [⟨0x010000, "wav"⟩, ⟨0x020000, "aiff"⟩, ⟨0x170000, "flac"⟩]
      [("8", 0x0001), ("16", 0x0002)] "wav" "8" = 0x010005 ∧
    determineOutputFormat [⟨0x010000, "wav"⟩, ⟨0x020000, "aiff"⟩, ⟨0x170000, "flac"⟩]
      [("8", 0x0001), ("16", 0x0002)] "aiff" "8" = 0x020001 := by
  obtain ⟨m, hm, -, -, hU, -⟩ :=
    determineOutputFormat_eight [⟨0x010000, "wav"⟩, ⟨0x020000, "aiff"⟩, ⟨0x170000, "flac"⟩]
      [("8", 0x0001), ("16", 0x0002)] "wav" ⟨⟨0x010000, "wav"⟩, by decide, by decide⟩
  obtain ⟨m2, hm2, -, -, -, hS⟩ :=
    determineOutputFormat_eight [⟨0x010000, "wav"⟩, ⟨0x020000, "aiff"⟩, ⟨0x170000, "flac"⟩]
      [("8", 0x0001), ("16", 0x0002)] "aiff" ⟨⟨0x020000, "aiff"⟩, by decide, by decide⟩
  have hm' : m = ⟨0x010000, "wav"⟩ := by
    have : List.find? (fun e => stricmpEq e.extension "wav")
        [⟨0x010000, "wav"⟩, ⟨0x020000, "aiff"⟩, ⟨0x170000, "flac"⟩]
        = some (⟨0x010000, "wav"⟩ : SF_FORMAT_INFO) := by decide
    rw [this] at hm
    injection hm with hm
    exact hm.symm
  have hm2' : m2 = ⟨0x020000, "aiff"⟩ := by
    have : List.find? (fun e => stricmpEq e.extension "aiff")
        [⟨0x010000, "wav"⟩, ⟨0x020000, "aiff"⟩, ⟨0x170000, "flac"⟩]
        = some (⟨0x020000, "aiff"⟩ : SF_FORMAT_INFO) := by decide
    rw [this] at hm2
    injection hm2 with hm2
    exact hm2.symm
  refine ⟨?_, ?_⟩
  · rw [hU (by decide), hm']
    decide
  · rw [hS (by decide), hm2']
    decide

section TrimFirst

variable {Flt Dth : Type}

/-! ### The group-delay skip of the first write -/

/-- C9, counterexample: a mono 1:2 pass with `groupDelay = 375` and `BufferSize = 32768` over a
first block of 4 samples.  The channel loop stores 2 samples, the first write appends none of
them, so 2 samples are dropped and not `groupDelay * channels = 375`; the next write appends
its whole block, so the rest of the skip is not carried over. -/
theorem first_write_short_block_counterexample :
    (processBlock (pathSample oneTapFilter passThroughDitherer false false 1 ⟨1, 2⟩ 1) 1
        [1, 1, 1, 1] (passStart 1 32768 ⟨1, 2⟩ 375 (fun _ => 0) (fun _ => ()))).OutBufferIndex
      = 2 ∧
    (blockStep oneTapFilter passThroughDitherer false false 1 ⟨1, 2⟩ 1 [1, 1, 1, 1]
        (passStart 1 32768 ⟨1, 2⟩ 375 (fun _ => 0) (fun _ => ()))).outFile = [] ∧
    (blockStep oneTapFilter passThroughDitherer false false 1 ⟨1, 2⟩ 1 [1, 1, 1, 1]
        (passStart 1 32768 ⟨1, 2⟩ 375 (fun _ => 0) (fun _ => ()))).outStartOffset ≤ 0 ∧
    ¬ ((375 : Int) * ((1 : Nat) : Int) ≤ 2) := by
  obtain ⟨-, h2, -⟩ := first_block_state oneTapFilter passThroughDitherer false false 1 ⟨1, 2⟩
    1 32768 375 1 2 rfl rfl (by decide) (by decide) [1, 1, 1, 1] (fun _ => 0) (fun _ => ())
  have e2 : 1 * ((frameCount [(1 : ℚ), 1, 1, 1].length 1 * 1 + 2 - 1) / 2) = 2 := by decide
  rw [e2] at h2
  have hb := blockStep_resample oneTapFilter passThroughDitherer false false 1 ⟨1, 2⟩ 1
    [1, 1, 1, 1] (passStart 1 32768 ⟨1, 2⟩ 375 (fun _ => 0) (fun _ => ())) (by decide)
  refine ⟨h2, ?_, hb.2.1, by decide⟩
  rw [hb.1]
  have e1 : (passStart 1 32768 ⟨1, 2⟩ 375 (fun _ => (0 : ℚ)) (fun _ => ())).outFile = [] := rfl
  have e3 : (passStart 1 32768 ⟨1, 2⟩ 375 (fun _ => (0 : ℚ)) (fun _ => ())).outStartOffset.toNat
      = 375 := by decide
  rw [e1, e3, List.nil_append, List.drop_eq_nil_of_le]
  rw [bufferSlice_length, h2]
  decide

/-- C9, amended: on a resampling path (any `F` other than 1:1) the first write of a pass
appends the samples stored for the first block without their leading `groupDelay * nChannels`
samples.  When the first block has stored at least that many samples, exactly
`groupDelay * nChannels` samples are dropped; when it has stored fewer, all of them are dropped
and nothing is appended.  In both cases the skip is exhausted after the first write: every
later write appends all samples stored for its block.  The block read is at most `BufferSize`
samples, and `BufferSize` is a multiple of `nChannels`. -/
theorem first_write_drops_group_delay (Fo : FIRFilterOps Flt) (D : DithererOps Dth)
    (USE_AVX bDither : Bool) (Gain : ℚ) (F : Fraction) (nChannels BufferSize : Nat) (gd : Int)
    (l m : Nat) (hL : F.numerator = (l : Int)) (hM : F.denominator = (m : Int)) (hm : 1 ≤ m)
    (hn : 1 ≤ nChannels) (hpath : selectPath F ≠ Path.copy) (hB : nChannels ∣ BufferSize)
    (blk : List ℚ) (hlen : blk.length ≤ BufferSize) (Filters : Nat → Flt)
    (Ditherers : Nat → Dth) :
    (blockStep Fo D USE_AVX bDither Gain F nChannels blk
        (passStart nChannels BufferSize F gd Filters Ditherers)).outFile
      = (bufferSlice
          (processBlock (pathSample Fo D USE_AVX bDither Gain F nChannels) nChannels blk
            (passStart nChannels BufferSize F gd Filters Ditherers)).OutBuffer 0
          (processBlock (pathSample Fo D USE_AVX bDither Gain F nChannels) nChannels blk
            (passStart nChannels BufferSize F gd Filters Ditherers)).OutBufferIndex).drop
          (gd * (nChannels : Int)).toNat ∧
    ((gd * (nChannels : Int)).toNat
        ≤ (processBlock (pathSample Fo D USE_AVX bDither Gain F nChannels) nChannels blk
          (passStart nChannels BufferSize F gd Filters Ditherers)).OutBufferIndex →
      (blockStep Fo D USE_AVX bDither Gain F nChannels blk
          (passStart nChannels BufferSize F gd Filters Ditherers)).outFile.length
        + (gd * (nChannels : Int)).toNat
        = (processBlock (pathSample Fo D USE_AVX bDither Gain F nChannels) nChannels blk
          (passStart nChannels BufferSize F gd Filters Ditherers)).OutBufferIndex) ∧
    ((processBlock (pathSample Fo D USE_AVX bDither Gain F nChannels) nChannels blk
          (passStart nChannels BufferSize F gd Filters Ditherers)).OutBufferIndex
        < (gd * (nChannels : Int)).toNat →
      (blockStep Fo D USE_AVX bDither Gain F nChannels blk
          (passStart nChannels BufferSize F gd Filters Ditherers)).outFile = []) ∧
    (blockStep Fo D USE_AVX bDither Gain F nChannels blk
        (passStart nChannels BufferSize F gd Filters Ditherers)).outStartOffset ≤ 0 ∧
    ∀ (st : PassState Flt Dth) (later : List ℚ), st.outStartOffset ≤ 0 →
      (blockStep Fo D USE_AVX bDither Gain F nChannels later st).outFile
        = st.outFile ++
          bufferSlice
            (processBlock (pathSample Fo D USE_AVX bDither Gain F nChannels) nChannels later
              st).OutBuffer 0
            (processBlock (pathSample Fo D USE_AVX bDither Gain F nChannels) nChannels later
              st).OutBufferIndex ∧
      (blockStep Fo D USE_AVX bDither Gain F nChannels later st).outStartOffset ≤ 0 := by
  have hb := blockStep_resample Fo D USE_AVX bDither Gain F nChannels blk
    (passStart nChannels BufferSize F gd Filters Ditherers) hpath
  have hidx := first_block_count Fo D USE_AVX bDither Gain F nChannels BufferSize gd l m hL hM hm
    hn blk Filters Ditherers
  have hfr := frameCount_le blk.length nChannels BufferSize hn hB hlen
  have hfit := first_block_fits (frameCount blk.length nChannels) l m nChannels BufferSize hm
    (le_trans (Nat.mul_le_mul_right _ hfr) (Nat.div_mul_le_self _ _))
  have hdrop : (blockStep Fo D USE_AVX bDither Gain F nChannels blk
        (passStart nChannels BufferSize F gd Filters Ditherers)).outFile
      = (bufferSlice
          (processBlock (pathSample Fo D USE_AVX bDither Gain F nChannels) nChannels blk
            (passStart nChannels BufferSize F gd Filters Ditherers)).OutBuffer 0
          (processBlock (pathSample Fo D USE_AVX bDither Gain F nChannels) nChannels blk
            (passStart nChannels BufferSize F gd Filters Ditherers)).OutBufferIndex).drop
          (gd * (nChannels : Int)).toNat := by
    rw [hb.1]
    have e1 : (passStart nChannels BufferSize F gd Filters Ditherers).outFile = [] := rfl
    have e2 : (passStart nChannels BufferSize F gd Filters Ditherers).outStartOffset
        = outStartOffset nChannels BufferSize F gd := rfl
    rw [e1, e2, List.nil_append, outStartOffset_cast nChannels BufferSize F gd l m hL hM]
    by_cases hle : gd * (nChannels : Int) ≤ ((nChannels + BufferSize * l / m : Nat) : Int)
    · rw [min_eq_left hle]
    · rw [min_eq_right (le_of_not_le hle), List.drop_eq_nil_of_le, List.drop_eq_nil_of_le]
      · rw [bufferSlice_length, hidx]; omega
      · rw [bufferSlice_length, hidx]; omega
  refine ⟨hdrop, ?_, ?_, hb.2.1, fun st later hoff => ?_⟩
  · intro hle
    rw [hdrop, List.length_drop, bufferSlice_length]
    omega
  · intro hlt
    rw [hdrop, List.drop_eq_nil_of_le]
    rw [bufferSlice_length]
    omega
  · have hl := blockStep_resample Fo D USE_AVX bDither Gain F nChannels later st hpath
    have h0 : st.outStartOffset.toNat = 0 := by omega
    refine ⟨?_, hl.2.1⟩
    rw [hl.1, h0, List.drop_zero]

/-- C9, amended, on a stereo 1:2 pass with `groupDelay = 1`, `BufferSize = 8` and a first block
of four frames: the channel loops store 4 samples and the first write leaves out exactly 2. -/
theorem first_write_drops_group_delay_witness :
    (blockStep oneTapFilter passThroughDitherer false false 1 ⟨1, 2⟩ 2 [1, 2, 3, 4, 5, 6, 7, 8]
        (passStart 2 8 ⟨1, 2⟩ 1 (fun _ => 0) (fun _ => ()))).outFile.length
      + (1 * ((2 : Nat) : Int)).toNat
      = (processBlock (pathSample oneTapFilter passThroughDitherer false false 1 ⟨1, 2⟩ 2) 2
          [1, 2, 3, 4, 5, 6, 7, 8]
          (passStart 2 8 ⟨1, 2⟩ 1 (fun _ => 0) (fun _ => ()))).OutBufferIndex := by
  have hidx := first_block_count oneTapFilter passThroughDitherer false false 1 ⟨1, 2⟩ 2 8 1 1 2
    rfl rfl (by decide) (by decide) [1, 2, 3, 4, 5, 6, 7, 8] (fun _ => 0) (fun _ => ())
  have e : 2 * ((frameCount [(1 : ℚ), 2, 3, 4, 5, 6, 7, 8].length 2 * 1 + 2 - 1) / 2) = 4 := by
    decide
  rw [e] at hidx
  exact (first_write_drops_group_delay oneTapFilter passThroughDitherer false false 1 ⟨1, 2⟩ 2 8
    1 1 2 rfl rfl (by decide) (by decide) (by decide) (by decide) [1, 2, 3, 4, 5, 6, 7, 8]
    (by decide) (fun _ => 0) (fun _ => ())).2.1 (by rw [hidx]; decide)

end TrimFirst

/-! ### The initial gain -/

/-- The dither compensation for 16 and for 32 signal bits with one bit of dither. -/
theorem DitherCompensation_examples :
    DitherCompensation powWhole 16 1 = 32767 / 32768 ∧
    DitherCompensation powWhole 24 1 = 8388607 / 8388608 ∧
    DitherCompensation powWhole 32 1 = 2147483647 / 2147483648 := by
  have e15 : Int.toNat 15 = 15 := by decide
  have e23 : Int.toNat 23 = 23 := by decide
  have e31 : Int.toNat 31 = 31 := by decide
  refine ⟨?_, ?_, ?_⟩ <;>
  · simp only [DitherCompensation, powWhole]
    norm_num [e15, e23, e31]

/-- C6, counterexample: 32-bit PCM output in a WAV file (format `0x010004`) with one bit of
dither, gain 1, limit 1, no normalization and `L = 1`.  The output has 4 bytes per sample, that
is a bit depth of 32, but `outputSignalBits` is 16, and the initial gain is `32767 / 32768`,
not the `2147483647 / 2147483648` that the formula gives for `b = 32`. -/
theorem initialGain_bit_depth_counterexample :
    getSfBytesPerSample 0x010004 = 4 ∧ outputSignalBits 0x010004 = 16 ∧
    initialGain powWhole { bDither := true } ⟨1, 1⟩ 1 (outputSignalBits 0x010004)
      = some (32767 / 32768) ∧
    specInitialGain powWhole 1 1 1 false true 1 32 1 = some (2147483647 / 2147483648) ∧
    (32767 / 32768 : ℚ) ≠ 2147483647 / 2147483648 := by
  have hb : outputSignalBits 0x010004 = 16 := by decide
  refine ⟨by decide, hb, ?_, ?_, by norm_num⟩
  · rw [hb]
    simp only [initialGain, Bool.false_eq_true, if_false, if_true, Option.map_some']
    rw [DitherCompensation_examples.1]
    norm_num
  · have h := DitherCompensation_examples.2.2
    simp only [DitherCompensation] at h
    simp only [specInitialGain, Bool.false_eq_true, if_false, if_true, Option.map_some']
    norm_num at h ⊢
    rw [h]

/-- C6, amended: the initial gain of `Convert` is
`user_gain * (normalize ? limit / measured_peak : limit) * L` with `L = F.numerator` the
interpolation factor that drives the pipeline, multiplied when dither is on by
`(2^(b-1) - 2^(d-1)) / 2^(b-1)`, where `d` is `DitherAmount` and `b` is `outputSignalBits`:
24 for 24-bit PCM output, 8 for signed or unsigned 8-bit PCM output, and 16 for every other
output subformat.  So `b` is the bit depth of the output (8 times its bytes per sample) for
8-bit, 16-bit and 24-bit PCM, and it is 16 for 32-bit PCM, float and double output, whose
samples have 4, 4 and 8 bytes.  The clipping detection loop of `Convert` starts with this
gain. -/
theorem initialGain_eq_spec {Flt Dth : Type} (Fo : FIRFilterOps Flt) (D : DithererOps Dth)
    (pow : ℚ → ℚ → ℚ) (build : BuildConfig) (ci : conversionInfo) (peakDetection : Bool)
    (infile : FileReader) (FilterSize : Int) (OutputFileFormat : Nat) (Filter0 : Flt)
    (Ditherers0 : Nat → Dth) (fuel : Nat) (F : Fraction) (Peak : ℚ) :
    initialGain pow ci F Peak (outputSignalBits OutputFileFormat)
        = specInitialGain pow ci.gain ci.Limit Peak ci.bNormalize ci.bDither F.numerator
            (outputSignalBits OutputFileFormat) ci.DitherAmount ∧
    Convert Fo D pow build ci peakDetection infile FilterSize OutputFileFormat Filter0 Ditherers0
        fuel
      = (specInitialGain pow ci.gain ci.Limit
          (PeakInputSample ci.bNormalize peakDetection infile.blocks) ci.bNormalize ci.bDither
          (pipelineFraction ci
            (GetSimplifiedFraction infile.samplerate ci.OutputSampleRate)).numerator
          (outputSignalBits OutputFileFormat) ci.DitherAmount).bind
        (fun Gain =>
          clippingLoop Fo D build ci
            (pipelineFraction ci (GetSimplifiedFraction infile.samplerate ci.OutputSampleRate))
            infile.channels (build.BUFFERSIZE / infile.channels * infile.channels)
            (groupDelay ci FilterSize
              (GetSimplifiedFraction infile.samplerate ci.OutputSampleRate))
            infile.blocks fuel 0 Gain (fun _ => Filter0) Ditherers0) ∧
    outputSignalBits OutputFileFormat
      = (if OutputFileFormat &&& SF_FORMAT_SUBMASK = SF_FORMAT_PCM_24 then 24
        else if OutputFileFormat &&& SF_FORMAT_SUBMASK = SF_FORMAT_PCM_S8 ∨
          OutputFileFormat &&& SF_FORMAT_SUBMASK = SF_FORMAT_PCM_U8 then 8
        else 16) ∧
    (OutputFileFormat &&& SF_FORMAT_SUBMASK = SF_FORMAT_PCM_S8 ∨
        OutputFileFormat &&& SF_FORMAT_SUBMASK = SF_FORMAT_PCM_U8 ∨
        OutputFileFormat &&& SF_FORMAT_SUBMASK = SF_FORMAT_PCM_16 ∨
        OutputFileFormat &&& SF_FORMAT_SUBMASK = SF_FORMAT_PCM_24 →
      outputSignalBits OutputFileFormat = 8 * getSfBytesPerSample OutputFileFormat) ∧
    (OutputFileFormat &&& SF_FORMAT_SUBMASK = SF_FORMAT_PCM_32 ∨
        OutputFileFormat &&& SF_FORMAT_SUBMASK = SF_FORMAT_FLOAT ∨
        OutputFileFormat &&& SF_FORMAT_SUBMASK = SF_FORMAT_DOUBLE →
      outputSignalBits OutputFileFormat = 16 ∧
      4 ≤ getSfBytesPerSample OutputFileFormat) := by
  have key : ∀ (F : Fraction) (Peak : ℚ),
      initialGain pow ci F Peak (outputSignalBits OutputFileFormat)
        = specInitialGain pow ci.gain ci.Limit Peak ci.bNormalize ci.bDither F.numerator
            (outputSignalBits OutputFileFormat) ci.DitherAmount := by
    intro F Peak
    unfold initialGain specInitialGain DitherCompensation fdiv
    cases hN : ci.bNormalize <;> cases hD : ci.bDither <;> by_cases hP : Peak = 0 <;>
      simp [hP, mul_comm, mul_assoc, mul_left_comm]
  refine ⟨key F Peak, ?_, ?_, ?_, ?_⟩
  · unfold Convert
    simp only [key]
    cases specInitialGain pow ci.gain ci.Limit
      (PeakInputSample ci.bNormalize peakDetection infile.blocks) ci.bNormalize ci.bDither
      (pipelineFraction ci
        (GetSimplifiedFraction infile.samplerate ci.OutputSampleRate)).numerator
      (outputSignalBits OutputFileFormat) ci.DitherAmount <;> rfl
  · unfold outputSignalBits
    split_ifs <;> simp_all
  · unfold outputSignalBits getSfBytesPerSample
    rintro (h | h | h | h) <;>
      simp [h, SF_FORMAT_PCM_16, SF_FORMAT_PCM_24, SF_FORMAT_PCM_S8, SF_FORMAT_PCM_U8,
        SF_FORMAT_PCM_32]
  · unfold outputSignalBits getSfBytesPerSample
    rintro (h | h | h) <;>
      simp [h, SF_FORMAT_PCM_16, SF_FORMAT_PCM_24, SF_FORMAT_PCM_S8, SF_FORMAT_PCM_U8,
        SF_FORMAT_PCM_32, SF_FORMAT_FLOAT, SF_FORMAT_DOUBLE]

/-- C6, amended, for 24-bit PCM output in a WAV file (format `0x010003`) with one bit of dither,
gain 1, limit 1, no normalization and `L = 1`: `b` is 24 and the initial gain is
`(2^23 - 2^0) / 2^23 = 8388607 / 8388608`. -/
theorem initialGain_eq_spec_witness :
    outputSignalBits 0x010003 = 8 * getSfBytesPerSample 0x010003 ∧
    initialGain powWhole { bDither := true } ⟨1, 1⟩ 1 (outputSignalBits 0x010003)
      = some (8388607 / 8388608) := by
  have h := initialGain_eq_spec oneTapFilter passThroughDitherer powWhole
    { BUFFERSIZE := 8, clippingTrim := 9 / 10 } { bDither := true } true
    { channels := 1, samplerate := 44100, blocks := [[1 / 2]] } 1001 0x010003 0 (fun _ => ())
    1 ⟨1, 1⟩ 1
  refine ⟨h.2.2.2.1 (Or.inr (Or.inr (Or.inr (by decide)))), ?_⟩
  rw [h.1]
  have hb : outputSignalBits 0x010003 = 24 := by decide
  have hd := DitherCompensation_examples.2.1
  simp only [DitherCompensation] at hd
  rw [hb]
  simp only [specInitialGain, Bool.false_eq_true, if_false, if_true, Option.map_some']
  norm_num at hd ⊢
  rw [hd]

/-- When `atof` returns finite values only, `parseLimit` is the `Limit` of the options read
with the rational `atof`. -/
theorem parseLimit_of_finite (atofQ : String → ℚ) (atof : String → Fp) (argv : List String)
    (hfin : ∀ s, atof s = Fp.fin (atofQ s)) :
    parseLimit atof argv =
      Fp.fin (if findCmdlineOption argv "-n" = true then
        (if getCmdlineParam_double atofQ argv "-n" ≤ 0 then 1
          else getCmdlineParam_double atofQ argv "-n")
        else 1) := by
  have hp : getCmdlineParam_fp atof argv "-n" = Fp.fin (getCmdlineParam_double atofQ argv "-n") := by
    unfold getCmdlineParam_fp getCmdlineParam_double
    cases paramAfter argv "-n" with
    | none => rfl
    | some p => exact hfin p
  unfold parseLimit
  cases hn : findCmdlineOption argv "-n" with
  | false => simp
  | true =>
    simp only [if_true, hp, Fp.le, decide_eq_true_eq]
    by_cases hle : getCmdlineParam_double atofQ argv "-n" ≤ 0
    · rw [if_pos hle, if_pos hle]
    · rw [if_neg hle, if_neg hle]

/-- C21, counterexample: the command line
`ReSampler -i in.wav -o out.wav -r 48000 -n 2` is accepted, and its `Limit` is 2, which is
not in (0, 1]. -/
theorem parseParameters_Limit_counterexample :
    (parseParameters ⟨0, 6, 2, 14⟩ (fun _ => 48000) (fun _ => 2) {} false
      ["ReSampler", "-i", "in.wav", "-o", "out.wav", "-r", "48000", "-n", "2"]).result = true ∧
    (parseParameters ⟨0, 6, 2, 14⟩ (fun _ => 48000) (fun _ => 2) {} false
      ["ReSampler", "-i", "in.wav", "-o", "out.wav", "-r", "48000", "-n", "2"]).ci.Limit = 2 ∧
    ¬ ((parseParameters ⟨0, 6, 2, 14⟩ (fun _ => 48000) (fun _ => 2) {} false
      ["ReSampler", "-i", "in.wav", "-o", "out.wav", "-r", "48000", "-n", "2"]).ci.Limit
        ≤ 1) ∧
    parseLimit (fun _ => Fp.fin 2)
      ["ReSampler", "-i", "in.wav", "-o", "out.wav", "-r", "48000", "-n", "2"] = Fp.fin 2 ∧
    Fp.le (Fp.fin 2) (Fp.fin 1) = false := by
  have e : (parseParameters ⟨0, 6, 2, 14⟩ (fun _ => 48000) (fun _ => 2) {} false
      ["ReSampler", "-i", "in.wav", "-o", "out.wav", "-r", "48000", "-n", "2"]).ci.Limit
        = 2 := by
    rw [parseParameters_Limit_eq _ _ _ _ _ _ (by decide)]
    have h1 : findCmdlineOption
        ["ReSampler", "-i", "in.wav", "-o", "out.wav", "-r", "48000", "-n", "2"] "-n"
          = true := by decide
    have h2 : getCmdlineParam_double (fun _ => (2 : ℚ))
        ["ReSampler", "-i", "in.wav", "-o", "out.wav", "-r", "48000", "-n", "2"] "-n"
          = 2 := by
      simp [getCmdlineParam_double, paramAfter]
    rw [if_pos h1, h2]
    norm_num
  have h1 : findCmdlineOption
      ["ReSampler", "-i", "in.wav", "-o", "out.wav", "-r", "48000", "-n", "2"] "-n"
        = true := by decide
  have h3 : getCmdlineParam_fp (fun _ => Fp.fin 2)
      ["ReSampler", "-i", "in.wav", "-o", "out.wav", "-r", "48000", "-n", "2"] "-n"
        = Fp.fin 2 := by
    simp [getCmdlineParam_fp, paramAfter]
  have h4 : Fp.le (Fp.fin 2) (Fp.fin 1) = false := by
    simp [Fp.le]
  have h5 : Fp.le (Fp.fin 2) (Fp.fin 0) = false := by
    simp [Fp.le]
  refine ⟨by decide, e, ?_, ?_, h4⟩
  · rw [e]
    norm_num
  · unfold parseLimit
    rw [if_pos h1]
    simp only [h3, h5]
    rfl

/-- C21, amended: for every command line that `parseParameters` accepts, the resulting `Limit`
is the amount that follows `-n` when `-n` is present and the comparison `amount <= 0.0` is
false, and 1.0 otherwise.  The amount is what `atof` returns, so `Limit` is a positive number,
plus infinity or a NaN.  `Limit` lies in (0, 1] exactly when `-n` is absent or the comparison
`amount <= 1.0` holds; a larger amount is kept (the program only prints a warning).  When `atof`
returns finite values only, this `Limit` is the one of the rational model of
`parseParameters`. -/
theorem parseParameters_Limit (ids : DitherProfileIDs) (atoi : String → Int)
    (atofQ : String → ℚ) (atof : String → Fp) (ci : conversionInfo) (bBadParams : Bool)
    (argv : List String)
    (h : (parseParameters ids atoi atofQ ci bBadParams argv).result = true) :
    parseLimit atof argv =
      (if findCmdlineOption argv "-n" = true ∧
          Fp.le (getCmdlineParam_fp atof argv "-n") (Fp.fin 0) = false
        then getCmdlineParam_fp atof argv "-n" else Fp.fin 1) ∧
    ((∃ q : ℚ, 0 < q ∧ parseLimit atof argv = Fp.fin q) ∨
      parseLimit atof argv = Fp.inf false ∨ parseLimit atof argv = Fp.nan) ∧
    ((Fp.lt (Fp.fin 0) (parseLimit atof argv) = true ∧
        Fp.le (parseLimit atof argv) (Fp.fin 1) = true) ↔
      (findCmdlineOption argv "-n" = false ∨
        Fp.le (getCmdlineParam_fp atof argv "-n") (Fp.fin 1) = true)) ∧
    ((∀ s, atof s = Fp.fin (atofQ s)) →
      parseLimit atof argv =
        Fp.fin (parseParameters ids atoi atofQ ci bBadParams argv).ci.Limit) := by
  refine ⟨?_, ?_, ?_, ?_⟩
  · unfold parseLimit
    cases hn : findCmdlineOption argv "-n" with
    | false => simp
    | true =>
      cases hle : Fp.le (getCmdlineParam_fp atof argv "-n") (Fp.fin 0) with
      | false => simp [hle]
      | true => simp [hle]
  · unfold parseLimit
    cases hn : findCmdlineOption argv "-n" with
    | false =>
      left
      exact ⟨1, by norm_num, by simp⟩
    | true =>
      simp only [if_true]
      cases ha : getCmdlineParam_fp atof argv "-n" with
      | fin a =>
        by_cases hle : a ≤ 0
        · left
          exact ⟨1, by norm_num, by simp [Fp.le, hle]⟩
        · left
          exact ⟨a, not_le.mp hle, by simp [Fp.le, hle]⟩
      | inf n =>
        cases n with
        | false => right; left; simp [Fp.le]
        | true => left; exact ⟨1, by norm_num, by simp [Fp.le]⟩
      | nan => right; right; simp [Fp.le]
  · unfold parseLimit
    cases hn : findCmdlineOption argv "-n" with
    | false => simp [Fp.lt, Fp.le]
    | true =>
      simp only [if_true]
      cases ha : getCmdlineParam_fp atof argv "-n" with
      | fin a =>
        by_cases hle : a ≤ 0
        · have h1 : a ≤ 1 := by linarith
          simp [Fp.le, Fp.lt, hle, h1]
        · have h0 : 0 < a := not_le.mp hle
          simp [Fp.le, Fp.lt, hle, h0]
      | inf n =>
        cases n with
        | false => simp [Fp.le, Fp.lt]
        | true => simp [Fp.le, Fp.lt]
      | nan => simp [Fp.le, Fp.lt]
  · intro hfin
    rw [parseLimit_of_finite atofQ atof argv hfin,
      parseParameters_Limit_eq ids atoi atofQ ci bBadParams argv
        (no_switch_of_accepted ids atoi atofQ ci bBadParams argv h)]

/-- C21, amended, on two accepted command lines: with `-n 0.5` the limit is the positive
number 1/2, and with `-n nan` it is a NaN. -/
theorem parseParameters_Limit_witness :
    (parseLimit (fun _ => Fp.fin (1 / 2))
        ["ReSampler", "-i", "in.wav", "-o", "out.wav", "-r", "48000", "-n", "0.5"] =
      Fp.fin (parseParameters ⟨0, 6, 2, 14⟩ (fun _ => 48000) (fun _ => 1 / 2) {} false
        ["ReSampler", "-i", "in.wav", "-o", "out.wav", "-r", "48000", "-n", "0.5"]).ci.Limit) ∧
    (parseLimit (fun _ => Fp.nan)
        ["ReSampler", "-i", "in.wav", "-o", "out.wav", "-r", "48000", "-n", "nan"] =
      (if findCmdlineOption
            ["ReSampler", "-i", "in.wav", "-o", "out.wav", "-r", "48000", "-n", "nan"] "-n"
              = true ∧
          Fp.le (getCmdlineParam_fp (fun _ => Fp.nan)
            ["ReSampler", "-i", "in.wav", "-o", "out.wav", "-r", "48000", "-n", "nan"] "-n")
            (Fp.fin 0) = false
        then getCmdlineParam_fp (fun _ => Fp.nan)
          ["ReSampler", "-i", "in.wav", "-o", "out.wav", "-r", "48000", "-n", "nan"] "-n"
        else Fp.fin 1)) ∧
    getCmdlineParam_fp (fun _ => Fp.nan)
      ["ReSampler", "-i", "in.wav", "-o", "out.wav", "-r", "48000", "-n", "nan"] "-n"
        = Fp.nan ∧
    Fp.le Fp.nan (Fp.fin 0) = false :=
  ⟨(parseParameters_Limit ⟨0, 6, 2, 14⟩ (fun _ => 48000) (fun _ => 1 / 2)
      (fun _ => Fp.fin (1 / 2)) {} false
      ["ReSampler", "-i", "in.wav", "-o", "out.wav", "-r", "48000", "-n", "0.5"]
      (by decide)).2.2.2 (fun _ => rfl),
    (parseParameters_Limit ⟨0, 6, 2, 14⟩ (fun _ => 48000) (fun _ => 0)
      (fun _ => Fp.nan) {} false
      ["ReSampler", "-i", "in.wav", "-o", "out.wav", "-r", "48000", "-n", "nan"]
      (by decide)).1,
    by simp [getCmdlineParam_fp, paramAfter],
    rfl⟩

section PeakLimit

variable {Flt Dth : Type}

end PeakLimit

/-- A value in the range of `int` is not changed by the reduction to 32 bits. -/
theorem toInt32_of_range (x : Int) (h0 : -2 ^ 31 ≤ x) (h1 : x < 2 ^ 31) : toInt32 x = x := by
  unfold toInt32
  rw [Int.emod_eq_of_lt (by omega) (by omega)]
  omega

/-- For rates below 2^31 the conversion to `int` changes nothing. -/
theorem FOriginal32_eq (InputSampleRate OutputSampleRate : Int)
    (ha : 0 < InputSampleRate) (ha2 : InputSampleRate < 2 ^ 31)
    (hb : 0 < OutputSampleRate) (hb2 : OutputSampleRate < 2 ^ 31) :
    FOriginal32 InputSampleRate OutputSampleRate =
      GetSimplifiedFraction InputSampleRate OutputSampleRate := by
  unfold FOriginal32
  rw [toInt32_of_range _ (by omega) ha2, toInt32_of_range _ (by omega) hb2]

/-- When the two products by 8 fit an `int`, the 32-bit fraction is the exact one. -/
theorem pipelineFraction32_eq (ci : conversionInfo) (FOriginal : Fraction)
    (hn : 1 ≤ FOriginal.numerator) (hd : 1 ≤ FOriginal.denominator)
    (hov : isSimpleRatio FOriginal = true → ci.bMinPhase = true →
      8 * max FOriginal.numerator FOriginal.denominator < 2 ^ 31) :
    pipelineFraction32 ci FOriginal = pipelineFraction ci FOriginal := by
  unfold pipelineFraction32 pipelineFraction
  by_cases h : (isSimpleRatio FOriginal && ci.bMinPhase) = true
  · rw [if_pos h, if_pos h]
    have h12 : isSimpleRatio FOriginal = true ∧ ci.bMinPhase = true := by
      simpa using h
    have hm := hov h12.1 h12.2
    have h1 : FOriginal.numerator ≤ max FOriginal.numerator FOriginal.denominator :=
      le_max_left _ _
    have h2 : FOriginal.denominator ≤ max FOriginal.numerator FOriginal.denominator :=
      le_max_right _ _
    have e1 : mulInt32 FOriginal.numerator 8 = FOriginal.numerator * 8 :=
      toInt32_of_range _ (by omega) (by omega)
    have e2 : mulInt32 FOriginal.denominator 8 = FOriginal.denominator * 8 :=
      toInt32_of_range _ (by omega) (by omega)
    rw [e1, e2]
  · rw [if_neg h, if_neg h]

/-- When the product of `BaseFilterSize` fits an `int`, the 32-bit value is the exact one. -/
theorem BaseFilterSize32_eq (fs : FilterSizes) (FOriginal : Fraction)
    (h0 : -2 ^ 31 ≤ BaseFilterSizeProduct fs FOriginal)
    (h1 : BaseFilterSizeProduct fs FOriginal < 2 ^ 31) :
    BaseFilterSize32 fs FOriginal = BaseFilterSize fs FOriginal := by
  unfold BaseFilterSize32 BaseFilterSize mulInt32
  unfold BaseFilterSizeProduct at h0 h1
  by_cases h : isSimpleRatio FOriginal = true
  · rw [if_pos h] at h0 h1
    rw [if_pos h, if_pos h, toInt32_of_range _ h0 h1]
  · rw [if_neg h] at h0 h1
    rw [if_neg h, if_neg h, toInt32_of_range _ h0 h1]

/-- A `double` strictly between `-2^31 - 1` and `2^31` is converted by truncation. -/
theorem castToInt32_of_range (x : ℚ) (h0 : -2 ^ 31 - 1 < x) (h1 : x < 2 ^ 31) :
    castToInt32 x = truncToInt x := by
  unfold castToInt32
  rw [if_pos ⟨h0, h1⟩]

/-- C14, counterexample: for 88200 Hz to 44100 Hz with minimum phase, `Convert` drives the
pipeline with `F = 8 : 16`, whose terms are not coprime.  For the output rate 4294967295 (the
value that `-r -1` stores in the `unsigned int`) the conversion to `int` gives -1, and the
pipeline is driven with `L = -1`. -/
theorem pipelineFraction_coprime_counterexample :
    (0 : Int) < 88200 ∧ (0 : Int) < 44100 ∧
    pipelineFraction32 { OutputSampleRate := 44100, bMinPhase := true }
      (FOriginal32 88200 44100) = ⟨8, 16⟩ ∧
    ¬ Int.gcd
      (pipelineFraction32 { OutputSampleRate := 44100, bMinPhase := true }
        (FOriginal32 88200 44100)).numerator
      (pipelineFraction32 { OutputSampleRate := 44100, bMinPhase := true }
        (FOriginal32 88200 44100)).denominator = 1 ∧
    (0 : Int) < 4294967295 ∧
    pipelineFraction32 { OutputSampleRate := 4294967295 } (FOriginal32 44100 4294967295)
      = ⟨-1, 44100⟩ ∧
    ¬ 1 ≤ (pipelineFraction32 { OutputSampleRate := 4294967295 }
      (FOriginal32 44100 4294967295)).numerator := by
  decide

/-- C14, amended: for every configuration and every pair of sample rates between 1 and
2^31 - 1 such that, when the minimum-phase oversampling of simple ratios applies, `8 * Lo` and
`8 * Mo` are below 2^31, the factors `L = F.numerator` and `M = F.denominator` that drive the
pipeline satisfy `L ≥ 1` and `M ≥ 1`, and their greatest common divisor is
`overSamplingFactor`: they are coprime when the oversampling does not apply, and have greatest
common divisor 8 when it does (minimum phase set, `Lo ≠ Mo` and `min(Lo, Mo) ≤ 4` for the
reduced ratio `Lo : Mo`).  In this range the 32-bit values are the exact ones. -/
theorem pipelineFraction_gcd (ci : conversionInfo) (InputSampleRate : Int)
    (ha : 0 < InputSampleRate) (ha2 : InputSampleRate < 2 ^ 31)
    (hb : 0 < ci.OutputSampleRate) (hb2 : ci.OutputSampleRate < 2 ^ 31)
    (hov : isSimpleRatio (FOriginal32 InputSampleRate ci.OutputSampleRate) = true →
      ci.bMinPhase = true →
      8 * max (FOriginal32 InputSampleRate ci.OutputSampleRate).numerator
        (FOriginal32 InputSampleRate ci.OutputSampleRate).denominator < 2 ^ 31) :
    1 ≤ (pipelineFraction32 ci (FOriginal32 InputSampleRate ci.OutputSampleRate)).numerator ∧
    1 ≤ (pipelineFraction32 ci (FOriginal32 InputSampleRate ci.OutputSampleRate)).denominator ∧
    ((Int.gcd
        (pipelineFraction32 ci (FOriginal32 InputSampleRate ci.OutputSampleRate)).numerator
        (pipelineFraction32 ci (FOriginal32 InputSampleRate ci.OutputSampleRate)).denominator
        : Nat) : Int) =
      overSamplingFactor ci (FOriginal32 InputSampleRate ci.OutputSampleRate) ∧
    (Int.gcd
        (pipelineFraction32 ci (FOriginal32 InputSampleRate ci.OutputSampleRate)).numerator
        (pipelineFraction32 ci (FOriginal32 InputSampleRate ci.OutputSampleRate)).denominator
      = if ci.bMinPhase = true ∧
          (FOriginal32 InputSampleRate ci.OutputSampleRate).numerator ≠
            (FOriginal32 InputSampleRate ci.OutputSampleRate).denominator ∧
          min (FOriginal32 InputSampleRate ci.OutputSampleRate).numerator
            (FOriginal32 InputSampleRate ci.OutputSampleRate).denominator ≤ 4
        then 8 else 1) ∧
    pipelineFraction32 ci (FOriginal32 InputSampleRate ci.OutputSampleRate) =
      pipelineFraction ci (GetSimplifiedFraction InputSampleRate ci.OutputSampleRate) := by
  rw [FOriginal32_eq InputSampleRate ci.OutputSampleRate ha ha2 hb hb2] at hov ⊢
  obtain ⟨hn, hd, hg⟩ :=
    GetSimplifiedFraction_pos_coprime InputSampleRate ci.OutputSampleRate ha hb
  set FO := GetSimplifiedFraction InputSampleRate ci.OutputSampleRate with hFO
  rw [pipelineFraction32_eq ci FO hn hd hov]
  have hs := isSimpleRatio_iff FO
  have h8 : Int.gcd (FO.numerator * 8) (FO.denominator * 8) = 8 := by
    rw [Int.gcd_mul_right, hg]; rfl
  by_cases h1 : isSimpleRatio FO = true
  · by_cases h2 : ci.bMinPhase = true
    · have e : pipelineFraction ci FO = ⟨FO.numerator * 8, FO.denominator * 8⟩ := by
        simp [pipelineFraction, h1, h2]
      have e2 : overSamplingFactor ci FO = 8 := by simp [overSamplingFactor, h1, h2]
      rw [e, e2, if_pos ⟨h2, hs.1 h1⟩]
      refine ⟨by show 1 ≤ FO.numerator * 8; omega, by show 1 ≤ FO.denominator * 8; omega, ?_,
        h8, rfl⟩
      show ((Int.gcd (FO.numerator * 8) (FO.denominator * 8) : Nat) : Int) = 8
      rw [h8]; rfl
    · have e : pipelineFraction ci FO = FO := by simp [pipelineFraction, h2]
      have e2 : overSamplingFactor ci FO = 1 := by simp [overSamplingFactor, h2]
      rw [e, e2, if_neg (fun h => h2 h.1), hg]
      exact ⟨hn, hd, rfl, rfl, rfl⟩
  · have e : pipelineFraction ci FO = FO := by simp [pipelineFraction, h1]
    have e2 : overSamplingFactor ci FO = 1 := by simp [overSamplingFactor, h1]
    rw [e, e2, if_neg (fun h => h1 (hs.2 h.2)), hg]
    exact ⟨hn, hd, rfl, rfl, rfl⟩

/-- C14, amended, for 44100 Hz to 48000 Hz (coprime factors 160 : 147) and for 88200 Hz to
44100 Hz with minimum phase (greatest common divisor 8). -/
theorem pipelineFraction_gcd_witness :
    (0 : Int) < 44100 ∧ (44100 : Int) < 2 ^ 31 ∧ (0 : Int) < 48000 ∧ (48000 : Int) < 2 ^ 31 ∧
    Int.gcd
      (pipelineFraction32 { OutputSampleRate := 48000 } (FOriginal32 44100 48000)).numerator
      (pipelineFraction32 { OutputSampleRate := 48000 } (FOriginal32 44100 48000)).denominator
      = 1 ∧
    Int.gcd
      (pipelineFraction32 { OutputSampleRate := 44100, bMinPhase := true }
        (FOriginal32 88200 44100)).numerator
      (pipelineFraction32 { OutputSampleRate := 44100, bMinPhase := true }
        (FOriginal32 88200 44100)).denominator = 8 :=
  ⟨by decide, by decide, by decide, by decide,
    (pipelineFraction_gcd { OutputSampleRate := 48000 } 44100 (by decide) (by decide)
      (by decide) (by decide) (fun _ _ => by decide)).2.2.2.1,
    (pipelineFraction_gcd { OutputSampleRate := 44100, bMinPhase := true } 88200
      (by decide) (by decide) (by decide) (by decide) (fun _ _ => by decide)).2.2.2.1⟩

/-- The variable `FilterSize` when no `int` computation overflows and the `double` converted
fits an `int`: the 32-bit value is computed from the exact products. -/
theorem FilterSize32_of_fits (rnd : ℚ → ℚ) (fs : FilterSizes) (ci : conversionInfo)
    (FOriginal : Fraction) (s : ℚ)
    (hbase : -2 ^ 31 ≤ BaseFilterSizeProduct fs FOriginal ∧
      BaseFilterSizeProduct fs FOriginal < 2 ^ 31)
    (hosf : -2 ^ 31 ≤ overSamplingFactor ci FOriginal * BaseFilterSize fs FOriginal ∧
      overSamplingFactor ci FOriginal * BaseFilterSize fs FOriginal < 2 ^ 31)
    (hcast : -2 ^ 31 - 1 <
        rnd (((overSamplingFactor ci FOriginal * BaseFilterSize fs FOriginal : Int) : ℚ) * s) ∧
      rnd (((overSamplingFactor ci FOriginal * BaseFilterSize fs FOriginal : Int) : ℚ) * s)
        < 2 ^ 31) :
    FilterSize32 rnd fs ci FOriginal s =
      Int.lor
        (min (truncToInt
            (rnd (((overSamplingFactor ci FOriginal * BaseFilterSize fs FOriginal : Int) : ℚ) * s)))
          fs.FILTERSIZE_LIMIT) 1 := by
  unfold FilterSize32
  rw [BaseFilterSize32_eq fs FOriginal hbase.1 hbase.2]
  have e : mulInt32 (overSamplingFactor ci FOriginal) (BaseFilterSize fs FOriginal) =
      overSamplingFactor ci FOriginal * BaseFilterSize fs FOriginal :=
    toInt32_of_range _ hosf.1 hosf.2
  rw [e, castToInt32_of_range _ hcast.1 hcast.2]

/-- The base filter size and the oversampling factor with the case split of the
specification. -/
theorem plan_case_split (fs : FilterSizes) (ci : conversionInfo) (FO : Fraction) :
    BaseFilterSize fs FO =
      (if FO.numerator ≠ FO.denominator ∧ min FO.numerator FO.denominator ≤ 4 then
        (fs.FILTERSIZE_MEDIUM * max FO.numerator FO.denominator).tdiv 2
      else (fs.FILTERSIZE_HUGE * max FO.numerator FO.denominator).tdiv 320) ∧
    overSamplingFactor ci FO =
      (if ci.bMinPhase = true ∧ (FO.numerator ≠ FO.denominator ∧
        min FO.numerator FO.denominator ≤ 4) then 8 else 1) := by
  have hs := isSimpleRatio_iff FO
  constructor
  · unfold BaseFilterSize
    by_cases h1 : isSimpleRatio FO = true
    · rw [if_pos h1, if_pos (hs.1 h1), max_comm]
    · rw [if_neg h1, if_neg (fun h => h1 (hs.2 h)), max_comm]
  · unfold overSamplingFactor
    by_cases h1 : isSimpleRatio FO = true
    · by_cases h2 : ci.bMinPhase = true
      · rw [if_pos (by simp [h1, h2]), if_pos ⟨h2, hs.1 h1⟩]
      · rw [if_neg (by simp [h2]), if_neg (fun h => h2 h.1)]
    · rw [if_neg (by simp [h1]), if_neg (fun h => h1 (hs.2 h.2))]

/-- C16, failing input: 8000 Hz to 7999 Hz in the normal mode, with the constants 3000, 300000
and 1000000.  The ratio 7999 : 8000 is not simple, the `int` product `300000 * 8000` is
2400000000, above 2^31 - 1, and is stored as -1894967296, so that `BaseFilterSize` is -5921772
and `FilterSize` is -5921771, while the formula of the claim gives
`min(7500000, 1000000)` rounded up to the odd number 1000001. -/
theorem FilterSize_overflow_counterexample :
    FOriginal32 8000 7999 = ⟨7999, 8000⟩ ∧
    BaseFilterSize32 ⟨3000, 300000, 1000000⟩ (FOriginal32 8000 7999) = -5921772 ∧
    FilterSize32 (fun x => x) ⟨3000, 300000, 1000000⟩ { OutputSampleRate := 7999 }
      (FOriginal32 8000 7999) 1 = -5921771 ∧
    specFilterSize 3000 300000 1000000 7999 8000 false 1 = 1000001 := by
  have hF : FOriginal32 8000 7999 = ⟨7999, 8000⟩ := by decide
  have hB : BaseFilterSize32 ⟨3000, 300000, 1000000⟩ (FOriginal32 8000 7999) = -5921772 := by
    decide
  have hO : overSamplingFactor { OutputSampleRate := 7999 } (FOriginal32 8000 7999) = 1 := by
    decide
  have hM : mulInt32 1 (-5921772) = -5921772 := by decide
  have hL : Int.lor (-5921772) 1 = -5921771 := by
    rw [int_lor_one]
    decide
  refine ⟨hF, hB, ?_, ?_⟩
  · unfold FilterSize32
    rw [hB, hO, hM]
    have hc : castToInt32 (((-5921772 : Int) : ℚ) * 1) = -5921772 := by
      norm_num [castToInt32, truncToInt]
    rw [hc]
    have hm : min (-5921772 : Int) (1000000 : Int) = -5921772 := by decide
    show Int.lor (min (-5921772 : Int) (1000000 : Int)) 1 = -5921771
    rw [hm, hL]
  · have hd : Int.tdiv 2400000000 320 = 7500000 := by decide
    norm_num [specFilterSize, truncToInt, hd]

/-- C16, where it holds: when the `int` products `FILTERSIZE_x * max(Lo, Mo)` and
`oversample * base` do not overflow and the `double` that is converted lies in the range of
`int`, the variable `FilterSize` of `Convert` is
`min(trunc(oversample * base * steepness), FILTERSIZE_LIMIT)` rounded up to the next odd
integer, with `base = FILTERSIZE_MEDIUM * max(Lo, Mo) / 2` when `Lo ≠ Mo` and
`min(Lo, Mo) ≤ 4`, `base = FILTERSIZE_HUGE * max(Lo, Mo) / 320` otherwise (the ratio 1 : 1
included), and `oversample = 8` in the minimum-phase simple-ratio case and 1 otherwise; the
quotients are integer quotients, and the product with `steepness` is the rounded product of
`double` arithmetic.  When that product is exact, which is so for the steepness 1 or 2 of the
modes normal, relaxed and steep, the value is the one of the formula in exact arithmetic. -/
theorem FilterSize_eq_spec (rnd : ℚ → ℚ) (fs : FilterSizes) (ci : conversionInfo)
    (FOriginal : Fraction) (s : ℚ)
    (hbase : -2 ^ 31 ≤ BaseFilterSizeProduct fs FOriginal ∧
      BaseFilterSizeProduct fs FOriginal < 2 ^ 31)
    (hosf : -2 ^ 31 ≤ overSamplingFactor ci FOriginal * BaseFilterSize fs FOriginal ∧
      overSamplingFactor ci FOriginal * BaseFilterSize fs FOriginal < 2 ^ 31)
    (hcast : -2 ^ 31 - 1 <
        rnd (((overSamplingFactor ci FOriginal * BaseFilterSize fs FOriginal : Int) : ℚ) * s) ∧
      rnd (((overSamplingFactor ci FOriginal * BaseFilterSize fs FOriginal : Int) : ℚ) * s)
        < 2 ^ 31) :
    FilterSize32 rnd fs ci FOriginal s =
      (if min (truncToInt (rnd
            ((((if ci.bMinPhase = true ∧ (FOriginal.numerator ≠ FOriginal.denominator ∧
                  min FOriginal.numerator FOriginal.denominator ≤ 4) then 8 else 1) *
              (if FOriginal.numerator ≠ FOriginal.denominator ∧
                  min FOriginal.numerator FOriginal.denominator ≤ 4 then
                (fs.FILTERSIZE_MEDIUM * max FOriginal.numerator FOriginal.denominator).tdiv 2
              else (fs.FILTERSIZE_HUGE * max FOriginal.numerator FOriginal.denominator).tdiv 320)
              : Int) : ℚ) * s))) fs.FILTERSIZE_LIMIT % 2 = 0
        then min (truncToInt (rnd
            ((((if ci.bMinPhase = true ∧ (FOriginal.numerator ≠ FOriginal.denominator ∧
                  min FOriginal.numerator FOriginal.denominator ≤ 4) then 8 else 1) *
              (if FOriginal.numerator ≠ FOriginal.denominator ∧
                  min FOriginal.numerator FOriginal.denominator ≤ 4 then
                (fs.FILTERSIZE_MEDIUM * max FOriginal.numerator FOriginal.denominator).tdiv 2
              else (fs.FILTERSIZE_HUGE * max FOriginal.numerator FOriginal.denominator).tdiv 320)
              : Int) : ℚ) * s))) fs.FILTERSIZE_LIMIT + 1
        else min (truncToInt (rnd
            ((((if ci.bMinPhase = true ∧ (FOriginal.numerator ≠ FOriginal.denominator ∧
                  min FOriginal.numerator FOriginal.denominator ≤ 4) then 8 else 1) *
              (if FOriginal.numerator ≠ FOriginal.denominator ∧
                  min FOriginal.numerator FOriginal.denominator ≤ 4 then
                (fs.FILTERSIZE_MEDIUM * max FOriginal.numerator FOriginal.denominator).tdiv 2
              else (fs.FILTERSIZE_HUGE * max FOriginal.numerator FOriginal.denominator).tdiv 320)
              : Int) : ℚ) * s))) fs.FILTERSIZE_LIMIT) ∧
    ((rnd (((overSamplingFactor ci FOriginal * BaseFilterSize fs FOriginal : Int) : ℚ) * s) =
          ((overSamplingFactor ci FOriginal * BaseFilterSize fs FOriginal : Int) : ℚ) * s ∨
        ((∀ n : Int, -2 ^ 53 ≤ n → n ≤ 2 ^ 53 → rnd (n : ℚ) = (n : ℚ)) ∧ (s = 1 ∨ s = 2))) →
      FilterSize32 rnd fs ci FOriginal s =
        specFilterSize fs.FILTERSIZE_MEDIUM fs.FILTERSIZE_HUGE fs.FILTERSIZE_LIMIT
          FOriginal.numerator FOriginal.denominator ci.bMinPhase s) ∧
    (ci.lpfMode ≠ LPFMode.custom → steepness ci = some 1 ∨ steepness ci = some 2) ∧
    FilterSize32 rnd fs ci FOriginal s % 2 = 1 ∧
    BaseFilterSize32 fs ⟨1, 1⟩ = (toInt32 fs.FILTERSIZE_HUGE).tdiv 320 := by
  have h32 := FilterSize32_of_fits rnd fs ci FOriginal s hbase hosf hcast
  obtain ⟨hb, ho⟩ := plan_case_split fs ci FOriginal
  refine ⟨?_, ?_, ?_, ?_, ?_⟩
  · rw [h32, int_lor_one, ← hb, ← ho]
  · intro hex
    have hexact : rnd (((overSamplingFactor ci FOriginal * BaseFilterSize fs FOriginal : Int) : ℚ) * s) =
        ((overSamplingFactor ci FOriginal * BaseFilterSize fs FOriginal : Int) : ℚ) * s := by
      rcases hex with h | ⟨hr, hs⟩
      · exact h
      · have hx0 := hosf.1
        have hx1 := hosf.2
        rcases hs with rfl | rfl
        · rw [mul_one]
          exact hr _ (by omega) (by omega)
        · have e : ((overSamplingFactor ci FOriginal * BaseFilterSize fs FOriginal : Int) : ℚ) * 2
              = ((overSamplingFactor ci FOriginal * BaseFilterSize fs FOriginal * 2 : Int) : ℚ) := by
            push_cast
            ring
          rw [e]
          exact hr _ (by omega) (by omega)
    rw [h32, hexact, int_lor_one, hb, ho]
    rfl
  · intro hm
    cases hl : ci.lpfMode with
    | normal => left; unfold steepness; rw [hl]
    | relaxed => left; unfold steepness; rw [hl]
    | steep => right; unfold steepness; rw [hl]
    | custom => exact absurd hl hm
  · rw [h32, int_lor_one]
    split_ifs with h <;> omega
  · simp [BaseFilterSize32, isSimpleRatio, mulInt32]

/-- C16, where it holds, for 44100 Hz to 48000 Hz in normal mode, with the constants 3000,
300000 and 1000000: the ratio 160 : 147 is not simple, so `base = 300000 * 160 / 320
= 150000`, and the filter length is 150001. -/
theorem FilterSize_eq_spec_witness :
    FilterSize32 (fun x => x) ⟨3000, 300000, 1000000⟩ { OutputSampleRate := 48000 }
        (FOriginal32 44100 48000) 1 =
      specFilterSize 3000 300000 1000000 (FOriginal32 44100 48000).numerator
        (FOriginal32 44100 48000).denominator false 1 ∧
    specFilterSize 3000 300000 1000000 160 147 false 1 = 150001 := by
  have hb : BaseFilterSize ⟨3000, 300000, 1000000⟩ (FOriginal32 44100 48000) = 150000 := by
    decide
  have ho : overSamplingFactor { OutputSampleRate := 48000 } (FOriginal32 44100 48000) = 1 := by
    decide
  have hcast : -2 ^ 31 - 1 <
        (fun x : ℚ => x) (((overSamplingFactor { OutputSampleRate := 48000 }
          (FOriginal32 44100 48000) *
          BaseFilterSize ⟨3000, 300000, 1000000⟩ (FOriginal32 44100 48000) : Int) : ℚ) * 1) ∧
      (fun x : ℚ => x) (((overSamplingFactor { OutputSampleRate := 48000 }
          (FOriginal32 44100 48000) *
          BaseFilterSize ⟨3000, 300000, 1000000⟩ (FOriginal32 44100 48000) : Int) : ℚ) * 1)
        < 2 ^ 31 := by
    simp only [hb, ho]
    norm_num
  refine ⟨(FilterSize_eq_spec (fun x => x) ⟨3000, 300000, 1000000⟩ { OutputSampleRate := 48000 }
    (FOriginal32 44100 48000) 1 (by decide) (by decide) hcast).2.1 (Or.inl rfl), ?_⟩
  have hd : Int.tdiv 48000000 320 = 150000 := by decide
  norm_num [specFilterSize, truncToInt, hd]

/-- C27, failing inputs.  For an input at 48000 Hz converted to 48001 Hz the ratio is
48001 : 48000, the product `InputSampleRate * F.numerator` is 2304048000, above 2^31 - 1,
and `OverSampFreq` becomes -1990919296; with `FILTERSIZE_HUGE = 300000` the product
`FILTERSIZE_HUGE * max(den, num)` is 14400300000, above 2^31 - 1 as well.  For an input at
96000 Hz converted to 1 Hz with minimum phase in the steep mode, with `FILTERSIZE_MEDIUM = 3000`,
`BaseFilterSize` is 144000000 and `8 * 144000000 = 1152000000` fits an `int`, but the `double`
2304000000 does not, and `FilterSize` becomes -2147483647. -/
theorem OverSampFreq_overflow_counterexample :
    pipelineFraction32 {} (FOriginal32 48000 48001) = ⟨48001, 48000⟩ ∧
    ¬ (48000 * (pipelineFraction32 {} (FOriginal32 48000 48001)).numerator
        < (2 : Int) ^ 31) ∧
    OverSampFreq 48000 (pipelineFraction32 {} (FOriginal32 48000 48001))
      = -1990919296 ∧
    BaseFilterSizeProduct ⟨3000, 300000, 1000000⟩ (FOriginal32 48000 48001)
      = 14400300000 ∧
    ¬ ((14400300000 : Int) < 2 ^ 31) ∧
    BaseFilterSize32 ⟨3000, 300000, 1000000⟩ (FOriginal32 96000 1) = 144000000 ∧
    FilterSize32 (fun x => x) ⟨3000, 300000, 1000000⟩
      { OutputSampleRate := 1, bMinPhase := true, lpfMode := LPFMode.steep }
      (FOriginal32 96000 1) 2 = -2147483647 ∧
    ¬ (1 ≤ FilterSize32 (fun x => x) ⟨3000, 300000, 1000000⟩
      { OutputSampleRate := 1, bMinPhase := true, lpfMode := LPFMode.steep }
      (FOriginal32 96000 1) 2) := by
  have hB : BaseFilterSize32 ⟨3000, 300000, 1000000⟩ (FOriginal32 96000 1) = 144000000 := by
    decide
  have hO : overSamplingFactor
      { OutputSampleRate := 1, bMinPhase := true, lpfMode := LPFMode.steep }
      (FOriginal32 96000 1) = 8 := by
    decide
  have hM : mulInt32 8 144000000 = 1152000000 := by decide
  have hL : Int.lor (-2147483648) 1 = -2147483647 := by
    rw [int_lor_one]
    decide
  have hF : FilterSize32 (fun x => x) ⟨3000, 300000, 1000000⟩
      { OutputSampleRate := 1, bMinPhase := true, lpfMode := LPFMode.steep }
      (FOriginal32 96000 1) 2 = -2147483647 := by
    unfold FilterSize32
    rw [hB, hO, hM]
    have hc : castToInt32 (((1152000000 : Int) : ℚ) * 2) = -2147483648 := by
      norm_num [castToInt32]
    rw [hc]
    have hm : min (-2147483648 : Int) (1000000 : Int) = -2147483648 := by decide
    show Int.lor (min (-2147483648 : Int) (1000000 : Int)) 1 = -2147483647
    rw [hm, hL]
  refine ⟨by decide, by decide, by decide, by decide, by decide, hB, hF, ?_⟩
  rw [hF]
  decide

/-- C27, where it holds: for every pair of sample rates between 1 and 2^31 - 1 and every
positive steepness (the one of any low-pass mode), when the constants are not negative, the
products `FILTERSIZE_x * max(den, num)`, `overSamplingFactor * BaseFilterSize` and
`InputSampleRate * F.numerator` are below 2^31, and the `double` product with the steepness,
whose rounding keeps the sign, is below 2^31, no computation overflows: `BaseFilterSize` is
the exact value and lies in the range of `int`, `OverSampFreq` is the exact product, and
`FilterSize` is between 1 and `FILTERSIZE_LIMIT + 1`. -/
theorem FilterSize_bounds (rnd : ℚ → ℚ) (fs : FilterSizes) (ci : conversionInfo)
    (InputSampleRate : Int) (s : ℚ)
    (hin : 0 < InputSampleRate ∧ InputSampleRate < 2 ^ 31)
    (hout : 0 < ci.OutputSampleRate ∧ ci.OutputSampleRate < 2 ^ 31)
    (hmedium : 0 ≤ fs.FILTERSIZE_MEDIUM) (hhuge : 0 ≤ fs.FILTERSIZE_HUGE)
    (hlimit : 0 ≤ fs.FILTERSIZE_LIMIT)
    (hs : 0 < s)
    (hrnd : ∀ y : ℚ, 0 ≤ y → 0 ≤ rnd y)
    (hbase : BaseFilterSizeProduct fs (FOriginal32 InputSampleRate ci.OutputSampleRate)
      < 2 ^ 31)
    (hosf : overSamplingFactor ci (FOriginal32 InputSampleRate ci.OutputSampleRate) *
      BaseFilterSize fs (FOriginal32 InputSampleRate ci.OutputSampleRate) < 2 ^ 31)
    (hcast : rnd (((overSamplingFactor ci (FOriginal32 InputSampleRate ci.OutputSampleRate) *
      BaseFilterSize fs (FOriginal32 InputSampleRate ci.OutputSampleRate) : Int) : ℚ) * s)
        < 2 ^ 31)
    (hover : InputSampleRate *
      (pipelineFraction ci (FOriginal32 InputSampleRate ci.OutputSampleRate)).numerator
        < 2 ^ 31) :
    (BaseFilterSize32 fs (FOriginal32 InputSampleRate ci.OutputSampleRate) =
        BaseFilterSize fs (FOriginal32 InputSampleRate ci.OutputSampleRate) ∧
      0 ≤ BaseFilterSize32 fs (FOriginal32 InputSampleRate ci.OutputSampleRate) ∧
      BaseFilterSize32 fs (FOriginal32 InputSampleRate ci.OutputSampleRate) < 2 ^ 31) ∧
    (pipelineFraction32 ci (FOriginal32 InputSampleRate ci.OutputSampleRate)).numerator =
      (pipelineFraction ci (FOriginal32 InputSampleRate ci.OutputSampleRate)).numerator ∧
    OverSampFreq InputSampleRate
        (pipelineFraction32 ci (FOriginal32 InputSampleRate ci.OutputSampleRate))
      = InputSampleRate *
        (pipelineFraction ci (FOriginal32 InputSampleRate ci.OutputSampleRate)).numerator ∧
    1 ≤ FilterSize32 rnd fs ci (FOriginal32 InputSampleRate ci.OutputSampleRate) s ∧
    FilterSize32 rnd fs ci (FOriginal32 InputSampleRate ci.OutputSampleRate) s
      ≤ fs.FILTERSIZE_LIMIT + 1 := by
  rw [FOriginal32_eq InputSampleRate ci.OutputSampleRate hin.1 hin.2 hout.1 hout.2]
    at hbase hosf hcast hover ⊢
  obtain ⟨hnum, hden, _⟩ :=
    GetSimplifiedFraction_pos_coprime InputSampleRate ci.OutputSampleRate hin.1 hout.1
  generalize GetSimplifiedFraction InputSampleRate ci.OutputSampleRate = FO at *
  have hmax : 0 ≤ max FO.denominator FO.numerator := le_trans (by omega) (le_max_left _ _)
  have hprod0 : 0 ≤ BaseFilterSizeProduct fs FO := by
    unfold BaseFilterSizeProduct
    split_ifs
    · exact mul_nonneg hmedium hmax
    · exact mul_nonneg hhuge hmax
  have hb0 : 0 ≤ BaseFilterSize fs FO := by
    rw [BaseFilterSize_eq_product]
    apply Int.tdiv_nonneg hprod0
    split_ifs <;> decide
  have hb1 : BaseFilterSize fs FO < 2 ^ 31 := by
    rw [BaseFilterSize_eq_product, Int.tdiv_eq_ediv hprod0 (by split_ifs <;> decide)]
    exact lt_of_le_of_lt (Int.ediv_le_self _ hprod0) hbase
  have hb32 : BaseFilterSize32 fs FO = BaseFilterSize fs FO :=
    BaseFilterSize32_eq fs FO (by omega) hbase
  have hFnum : 1 ≤ (pipelineFraction ci FO).numerator := by
    unfold pipelineFraction
    split_ifs
    · show 1 ≤ FO.numerator * 8
      omega
    · exact hnum
  have hF1 : (pipelineFraction ci FO).numerator < 2 ^ 31 := by
    by_contra hc
    have h2 : (2 : Int) ^ 31 ≤ (pipelineFraction ci FO).numerator := not_lt.mp hc
    have h3 : InputSampleRate * 2 ^ 31
        ≤ InputSampleRate * (pipelineFraction ci FO).numerator :=
      mul_le_mul_of_nonneg_left h2 (le_of_lt hin.1)
    have h4 : (1 : Int) * 2 ^ 31 ≤ InputSampleRate * 2 ^ 31 :=
      mul_le_mul_of_nonneg_right (by omega) (by norm_num)
    omega
  have hF32 : (pipelineFraction32 ci FO).numerator = (pipelineFraction ci FO).numerator := by
    unfold pipelineFraction32 pipelineFraction at *
    by_cases h : (isSimpleRatio FO && ci.bMinPhase) = true
    · rw [if_pos h] at hF1
      rw [if_pos h, if_pos h]
      exact toInt32_of_range _ (by show -2 ^ 31 ≤ FO.numerator * 8; omega) hF1
    · rw [if_neg h, if_neg h]
  have hosf0 : 0 ≤ overSamplingFactor ci FO := by
    unfold overSamplingFactor
    split_ifs <;> decide
  have hx0 : 0 ≤ overSamplingFactor ci FO * BaseFilterSize fs FO := mul_nonneg hosf0 hb0
  have hy0 : (0 : ℚ) ≤ ((overSamplingFactor ci FO * BaseFilterSize fs FO : Int) : ℚ) * s :=
    mul_nonneg (by exact_mod_cast hx0) (le_of_lt hs)
  have hr0 := hrnd _ hy0
  have h32 := FilterSize32_of_fits rnd fs ci FO s ⟨by omega, hbase⟩ ⟨by omega, hosf⟩
    ⟨by linarith, hcast⟩
  have ht : 0 ≤ truncToInt
      (rnd (((overSamplingFactor ci FO * BaseFilterSize fs FO : Int) : ℚ) * s)) := by
    unfold truncToInt
    rw [if_pos hr0]
    exact Int.floor_nonneg.mpr hr0
  have hbd := int_lor_one_bounds
    (min (truncToInt (rnd (((overSamplingFactor ci FO * BaseFilterSize fs FO : Int) : ℚ) * s)))
      fs.FILTERSIZE_LIMIT) fs.FILTERSIZE_LIMIT (le_min ht hlimit) (min_le_right _ _)
  refine ⟨⟨hb32, by rw [hb32]; exact hb0, by rw [hb32]; exact hb1⟩, hF32, ?_, ?_, ?_⟩
  · unfold OverSampFreq
    rw [hF32]
    have hp0 : 0 ≤ InputSampleRate * (pipelineFraction ci FO).numerator :=
      mul_nonneg (le_of_lt hin.1) (by omega)
    have e1 : InputSampleRate % 2 ^ 32 = InputSampleRate :=
      Int.emod_eq_of_lt (le_of_lt hin.1) (by omega)
    have e2 : (pipelineFraction ci FO).numerator % 2 ^ 32 = (pipelineFraction ci FO).numerator :=
      Int.emod_eq_of_lt (by omega) (by omega)
    have e3 : (InputSampleRate * (pipelineFraction ci FO).numerator) % 2 ^ 32
        = InputSampleRate * (pipelineFraction ci FO).numerator :=
      Int.emod_eq_of_lt hp0 (by omega)
    rw [e1, e2, e3]
    exact toInt32_of_fits _ hp0 hover
  · rw [h32]
    exact hbd.1
  · rw [h32]
    exact hbd.2

/-- C27, where it holds, for the rates 44100 and 48000 with the constants 3000, 300000 and
1000000 and the steepness 1 of the default low-pass mode. -/
theorem FilterSize_bounds_witness :
    OverSampFreq 44100
        (pipelineFraction32 { OutputSampleRate := 48000 } (FOriginal32 44100 48000))
      = 44100 *
        (pipelineFraction { OutputSampleRate := 48000 } (FOriginal32 44100 48000)).numerator ∧
    1 ≤ FilterSize32 (fun x => x) ⟨3000, 300000, 1000000⟩ { OutputSampleRate := 48000 }
      (FOriginal32 44100 48000) 1 ∧
    FilterSize32 (fun x => x) ⟨3000, 300000, 1000000⟩ { OutputSampleRate := 48000 }
      (FOriginal32 44100 48000) 1 ≤ 1000000 + 1 :=
  have hb : BaseFilterSize ⟨3000, 300000, 1000000⟩ (FOriginal32 44100 48000) = 150000 := by
    decide
  have ho : overSamplingFactor { OutputSampleRate := 48000 } (FOriginal32 44100 48000) = 1 := by
    decide
  have hcast : (fun x : ℚ => x) (((overSamplingFactor { OutputSampleRate := 48000 }
          (FOriginal32 44100 48000) *
          BaseFilterSize ⟨3000, 300000, 1000000⟩ (FOriginal32 44100 48000) : Int) : ℚ) * 1)
        < 2 ^ 31 := by
    simp only [hb, ho]
    norm_num
  (FilterSize_bounds (fun x => x) ⟨3000, 300000, 1000000⟩ { OutputSampleRate := 48000 } 44100 1
    (by decide) (by decide) (by decide) (by decide) (by decide) (by norm_num)
    (fun _ h => h) (by decide) (by decide) hcast (by decide)).2.2

end ReSampler
